import Mathlib

/-!
# Toolkit buffer lifecycle, redraw scheduler, input dispatch and frame

A shallow embedding of four parts of the client toolkit:

* the shared-memory surface strategy of `clients/window.c`
  (`shm_surface_prepare`, `shm_surface_swap`, `shm_surface_buffer_release`);
* the per-window redraw/resize scheduler (`window_schedule_resize`,
  `window_schedule_redraw`, `idle_redraw`, `surface_redraw`, `frame_callback`)
  and the main loop that runs its tasks (`display_defer`, `display_run`);
* the pointer dispatch (`input_set_focus_widget`, `input_grab`, `input_ungrab`,
  `pointer_handle_motion`, `pointer_handle_button`);
* the decoration frame of `shared/frame.c` (geometry cache, buttons, pointer
  and touch events).

Conventions of the embedding:

* Pointers to protocol and cairo objects are natural-number handles drawn from
  a counter kept in the state; a `NULL` pointer is `none`.
* Calls that leave the toolkit (cairo, the protocol connection, user handlers)
  are appended to a log carried by the state, so that "nothing was destroyed"
  or "no handler ran" are statements about that log. A user handler is recorded
  as a call; what its body does is user code and has no effect in the embedding.
  The button handler of a widget is the exception: the toolkit's own button
  handlers end and take grabs (`frame_button_handler`, `window_show_menu`), so
  `pointer_handle_button` is handed the bodies of the button handlers and runs
  them on the input.
* `exit(1)`, a failed `assert` and a dereference of `NULL` end the run: the
  embedded function returns `none`.
* The allocator is an external collaborator: `malloc`, `mmap` and pool creation
  succeed, and a cairo surface reports the size it was created with.
* C `int` values are `Int` with exact arithmetic (signed overflow is undefined
  in C and is not given a meaning here).
* Intrusive `wl_list`s are Lean lists, head first.
-/

set_option linter.dupNamespace false

namespace Weston

/-! ## Shared-memory surface -/

/-- The eight values of `enum wl_output_transform`. -/
inductive wl_output_transform where
  | NORMAL | T90 | T180 | T270 | FLIPPED | FLIPPED_90 | FLIPPED_180 | FLIPPED_270
deriving DecidableEq, Repr

/-- The compile-time inputs of `window.c` that its text does not fix: whether
`USE_RESIZE_POOL` is defined, and the bit `SURFACE_HINT_RESIZE` of `window.h`. -/
structure build_config where
  USE_RESIZE_POOL : Bool
  SURFACE_HINT_RESIZE : Nat
deriving DecidableEq, Repr

/-- A cairo image surface: its identity and the size it was created with
(`cairo_image_surface_get_width` / `_get_height`). -/
structure cairo_surface_t where
  handle : Nat
  width : Int
  height : Int
deriving DecidableEq, Repr

/-- The part of `struct shm_surface_data` the surface strategy reads: the
`wl_buffer` handle. -/
structure shm_surface_data where
  buffer : Nat
deriving DecidableEq, Repr

/-- Calls that leave the surface strategy, in the order they are made. -/
inductive shm_call where
  | cairo_surface_destroy (surface : Nat)
  | shm_pool_destroy (pool : Nat)
  | shm_pool_create (pool : Nat)
  | display_create_shm_surface (surface buffer : Nat) (width height : Int)
  | wl_surface_attach (buffer : Nat) (dx dy : Int)
  | wl_surface_damage (width height : Int)
  | wl_surface_commit
deriving DecidableEq, Repr

/-- One slot of the leaf array (`struct shm_surface_leaf`). -/
structure shm_surface_leaf where
  cairo_surface : Option cairo_surface_t
  data : Option shm_surface_data
  resize_pool : Option Nat
  busy : Bool
deriving DecidableEq, Repr

/-- The leaf after `memset(leaf, 0, sizeof *leaf)`. -/
def shm_surface_leaf.zero : shm_surface_leaf :=
  { cairo_surface := none, data := none, resize_pool := none, busy := false }

/-- The surface strategy state (`struct shm_surface`, `MAX_LEAVES` = 3), with
the handle counter of the allocator and the log of outgoing calls. -/
structure shm_surface where
  flags : Nat
  dx : Int
  dy : Int
  leaf0 : shm_surface_leaf
  leaf1 : shm_surface_leaf
  leaf2 : shm_surface_leaf
  current : Option (Fin 3)
  next_handle : Nat
  log : List shm_call
deriving DecidableEq, Repr

/-- Read `surface->leaf[i]`. -/
def shm_surface.leaf (s : shm_surface) (i : Fin 3) : shm_surface_leaf :=
  match i with
  | 0 => s.leaf0
  | 1 => s.leaf1
  | 2 => s.leaf2

/-- Write `surface->leaf[i]`. -/
def shm_surface.setLeaf (s : shm_surface) (i : Fin 3) (l : shm_surface_leaf) : shm_surface :=
  match i with
  | 0 => { s with leaf0 := l }
  | 1 => { s with leaf1 := l }
  | 2 => { s with leaf2 := l }

/-- The indices `0 .. MAX_LEAVES - 1` in loop order. -/
def leaf_indices : List (Fin 3) := [0, 1, 2]

/-- The size swap and scaling of `surface_to_buffer_size`. -/
def surface_to_buffer_size (bt : wl_output_transform) (buffer_scale width height : Int) :
    Int × Int :=
  let wh : Int × Int :=
    match bt with
    | .T90 | .T270 | .FLIPPED_90 | .FLIPPED_270 => (height, width)
    | _ => (width, height)
  (wh.1 * buffer_scale, wh.2 * buffer_scale)

/-- The size swap and (truncating) division of `buffer_to_surface_size`. -/
def buffer_to_surface_size (bt : wl_output_transform) (buffer_scale width height : Int) :
    Int × Int :=
  let wh : Int × Int :=
    match bt with
    | .T90 | .T270 | .FLIPPED_90 | .FLIPPED_270 => (height, width)
    | _ => (width, height)
  (Int.tdiv wh.1 buffer_scale, Int.tdiv wh.2 buffer_scale)

/-- The effect of `shm_surface_leaf_release` on one leaf: destroy the cairo
surface and the resize pool when present, then zero the leaf. -/
def shm_surface_leaf_release (s : shm_surface) (i : Fin 3) : shm_surface :=
  let leaf := s.leaf i
  let log1 :=
    match leaf.cairo_surface with
    | some cs => s.log ++ [shm_call.cairo_surface_destroy cs.handle]
    | none => s.log
  let log2 :=
    match leaf.resize_pool with
    | some p => log1 ++ [shm_call.shm_pool_destroy p]
    | none => log1
  { s.setLeaf i shm_surface_leaf.zero with log := log2 }

/-- The state when `shm_surface_create` returns: everything zeroed but `flags`. -/
def shm_surface_create (flags : Nat) : shm_surface :=
  { flags := flags, dx := 0, dy := 0,
    leaf0 := shm_surface_leaf.zero, leaf1 := shm_surface_leaf.zero,
    leaf2 := shm_surface_leaf.zero,
    current := none, next_handle := 1, log := [] }

/-- The first loop of `shm_surface_buffer_release`: the index of the first leaf
whose `data` is set and whose `data->buffer` is the released buffer. -/
def find_released_leaf (s : shm_surface) (buffer : Nat) : Option (Fin 3) :=
  leaf_indices.find? (fun i =>
    match (s.leaf i).data with
    | some d => d.buffer == buffer
    | none => false)

/-- One iteration of the second loop of `shm_surface_buffer_release`; the
state carries `free_found`. -/
def release_extra_step (acc : shm_surface × Bool) (i : Fin 3) : shm_surface × Bool :=
  let leaf := acc.1.leaf i
  if leaf.cairo_surface.isNone || leaf.busy then acc
  else if !acc.2 then (acc.1, true)
  else (shm_surface_leaf_release acc.1 i, acc.2)

/-- The handler `shm_surface_buffer_release`: clear `busy` on the leaf that
owns the buffer (the assertion fails when there is none), then leave one free
leaf with storage and release the others. -/
def shm_surface_buffer_release (s : shm_surface) (buffer : Nat) : Option shm_surface :=
  match find_released_leaf s buffer with
  | none => none
  | some i =>
    let s1 := s.setLeaf i { s.leaf i with busy := false }
    some (leaf_indices.foldl release_extra_step (s1, false)).1

/-- One iteration of the leaf-picking loop of `shm_surface_prepare`. -/
def pick_leaf_step (s : shm_surface) (leaf : Option (Fin 3)) (i : Fin 3) : Option (Fin 3) :=
  if (s.leaf i).busy then leaf
  else if leaf.isNone || (s.leaf i).cairo_surface.isSome then some i
  else leaf

/-- The leaf-picking loop of `shm_surface_prepare`. -/
def pick_leaf (s : shm_surface) : Option (Fin 3) :=
  leaf_indices.foldl (pick_leaf_step s) none

/-- What the body of `shm_surface_prepare` after the leaf is picked leaves
behind: the leaf, the allocator counter, the log and the returned surface. -/
structure prepared_leaf where
  leaf : shm_surface_leaf
  next_handle : Nat
  log : List shm_call
  result : cairo_surface_t
deriving DecidableEq, Repr

/-- The step `if (!resize_hint && leaf->resize_pool)` of `shm_surface_prepare`:
drop the storage and the resize pool of the picked leaf. -/
def prepare_drop_pool (resize_hint : Bool) (leaf : shm_surface_leaf) (log : List shm_call) :
    shm_surface_leaf × List shm_call :=
  match leaf.resize_pool with
  | some p =>
    if !resize_hint then
      let log1 :=
        match leaf.cairo_surface with
        | some cs => log ++ [shm_call.cairo_surface_destroy cs.handle]
        | none => log
      ({ leaf with cairo_surface := none, resize_pool := none },
        log1 ++ [shm_call.shm_pool_destroy p])
    else (leaf, log)
  | none => (leaf, log)

/-- The allocation path of `shm_surface_prepare` (from the second
`if (leaf->cairo_surface)` down to `wl_buffer_add_listener`). -/
def prepare_allocate (cfg : build_config) (resize_hint : Bool) (wh : Int × Int)
    (leaf : shm_surface_leaf) (next_handle : Nat) (log : List shm_call) : prepared_leaf :=
  let log1 :=
    match leaf.cairo_surface with
    | some cs => log ++ [shm_call.cairo_surface_destroy cs.handle]
    | none => log
  let pooled : shm_surface_leaf × Nat × List shm_call :=
    if cfg.USE_RESIZE_POOL && resize_hint && leaf.resize_pool.isNone then
      ({ leaf with resize_pool := some next_handle }, next_handle + 1,
        log1 ++ [shm_call.shm_pool_create next_handle])
    else (leaf, next_handle, log1)
  let cs : cairo_surface_t := { handle := pooled.2.1, width := wh.1, height := wh.2 }
  let buffer := pooled.2.1 + 1
  { leaf := { pooled.1 with cairo_surface := some cs, data := some { buffer := buffer } },
    next_handle := pooled.2.1 + 2,
    log := pooled.2.2 ++ [shm_call.display_create_shm_surface cs.handle buffer wh.1 wh.2],
    result := cs }

/-- The body of `shm_surface_prepare` on the picked leaf: reuse the storage
when its size is the requested buffer size, else allocate. -/
def prepare_leaf (cfg : build_config) (resize_hint : Bool) (wh : Int × Int)
    (leaf : shm_surface_leaf) (next_handle : Nat) (log : List shm_call) : prepared_leaf :=
  let dropped := prepare_drop_pool resize_hint leaf log
  match dropped.1.cairo_surface with
  | some cs =>
    if cs.width = wh.1 ∧ cs.height = wh.2 then
      { leaf := dropped.1, next_handle := next_handle, log := dropped.2, result := cs }
    else prepare_allocate cfg resize_hint wh dropped.1 next_handle dropped.2
  | none => prepare_allocate cfg resize_hint wh dropped.1 next_handle dropped.2

/-- The function `shm_surface_prepare`: `none` when it calls `exit(1)`, else
the new state and the cairo surface it returns. -/
def shm_surface_prepare (cfg : build_config) (s : shm_surface) (dx dy width height : Int)
    (flags : Nat) (buffer_transform : wl_output_transform) (buffer_scale : Int) :
    Option (shm_surface × cairo_surface_t) :=
  let resize_hint : Bool := (flags &&& cfg.SURFACE_HINT_RESIZE) != 0
  let s := { s with dx := dx, dy := dy }
  match pick_leaf s with
  | none => none
  | some i =>
    let wh := surface_to_buffer_size buffer_transform buffer_scale width height
    let r := prepare_leaf cfg resize_hint wh (s.leaf i) s.next_handle s.log
    some ({ s.setLeaf i r.leaf with
            current := some i, next_handle := r.next_handle, log := r.log }, r.result)

/-- The function `shm_surface_swap`: `none` when `current`, the leaf's cairo
surface or the leaf's `data` is `NULL` (each is dereferenced), else the new
state and the server allocation written through the out-parameter. -/
def shm_surface_swap (s : shm_surface) (buffer_transform : wl_output_transform)
    (buffer_scale : Int) : Option (shm_surface × (Int × Int)) :=
  match s.current with
  | none => none
  | some i =>
    match (s.leaf i).cairo_surface, (s.leaf i).data with
    | some cs, some d =>
      let alloc := buffer_to_surface_size buffer_transform buffer_scale cs.width cs.height
      let s1 :=
        { s with log := s.log ++ [shm_call.wl_surface_attach d.buffer s.dx s.dy,
                                  shm_call.wl_surface_damage alloc.1 alloc.2,
                                  shm_call.wl_surface_commit] }
      some ({ s1.setLeaf i { s1.leaf i with busy := true } with current := none }, alloc)
    | _, _ => none

/-- What can happen to a surface strategy between its creation and its
destruction. -/
inductive shm_event where
  | prepare (dx dy width height : Int) (flags : Nat) (bt : wl_output_transform) (scale : Int)
  | swap (bt : wl_output_transform) (scale : Int)
  | release (buffer : Nat)
deriving DecidableEq, Repr

/-- Apply one event. -/
def shm_step (cfg : build_config) (s : shm_surface) : shm_event → Option shm_surface
  | .prepare dx dy w h f bt sc => (shm_surface_prepare cfg s dx dy w h f bt sc).map Prod.fst
  | .swap bt sc => (shm_surface_swap s bt sc).map Prod.fst
  | .release b => shm_surface_buffer_release s b

/-- Apply a sequence of events, stopping at the first that ends the process. -/
def shm_run (cfg : build_config) (s : shm_surface) : List shm_event → Option shm_surface
  | [] => some s
  | e :: es =>
    match shm_step cfg s e with
    | none => none
    | some s1 => shm_run cfg s1 es

/-- The configuration used in the concrete runs below. -/
def cfg0 : build_config := { USE_RESIZE_POOL := true, SURFACE_HINT_RESIZE := 16 }

/-- The second loop of `shm_surface_buffer_release` on its own. -/
def release_extra_leaves (s : shm_surface) : shm_surface :=
  (leaf_indices.foldl release_extra_step (s, false)).1

/-- A leaf that is free (not busy) and has storage. -/
def shm_surface_leaf.free_with_storage (l : shm_surface_leaf) : Bool :=
  !l.busy && l.cairo_surface.isSome

/-- A leaf whose `data` is set only together with its cairo surface: `data`
lives in the private storage of the cairo surface. -/
def shm_surface_leaf.wf (l : shm_surface_leaf) : Prop :=
  l.data.isSome = true → l.cairo_surface.isSome = true

/-- A prepare request for a `width` x `height` surface, no hints, no transform. -/
def prepare_plain (width height : Int) : shm_event :=
  shm_event.prepare 0 0 width height 0 wl_output_transform.NORMAL 1

/-- A swap with no transform and scale 1. -/
def swap_plain : shm_event := shm_event.swap wl_output_transform.NORMAL 1

/-- Two frames drawn and posted, then the first buffer released. -/
def events_two_posted_one_released : List shm_event :=
  [prepare_plain 100 100, swap_plain, prepare_plain 100 100, swap_plain, shm_event.release 2]

/-- The state after `events_two_posted_one_released`. -/
def state_two_posted_one_released : shm_surface :=
  (shm_run cfg0 (shm_surface_create 0) events_two_posted_one_released).getD (shm_surface_create 0)

/-- Two frames drawn and posted, a third prepared and not yet posted. -/
def events_third_prepared : List shm_event :=
  [prepare_plain 100 100, swap_plain, prepare_plain 100 100, swap_plain, prepare_plain 100 100]

/-- The state after `events_third_prepared`: leaves 0 and 1 busy, leaf 2 current. -/
def state_third_prepared : shm_surface :=
  (shm_run cfg0 (shm_surface_create 0) events_third_prepared).getD (shm_surface_create 0)

/-! ## Window, surfaces and the redraw scheduler -/

/-- A rectangle (`struct rectangle`). -/
structure rectangle where
  x : Int
  y : Int
  width : Int
  height : Int
deriving DecidableEq, Repr

/-- The zeroed rectangle. -/
def rectangle.zero : rectangle := { x := 0, y := 0, width := 0, height := 0 }

/-- A widget and its children in `child_list` order. Of the handler bindings
only their presence is kept: the handlers themselves are user code. -/
inductive widget where
  | mk (id : Nat) (allocation : rectangle) (resize_handler redraw_handler opaque_flag : Bool)
      (child_list : List widget)
deriving Repr

/-- The identity of a widget. -/
def widget.id : widget → Nat
  | .mk id _ _ _ _ _ => id

/-- The field `widget->allocation`. -/
def widget.allocation : widget → rectangle
  | .mk _ a _ _ _ _ => a

/-- Whether `widget->resize_handler` is set. -/
def widget.resize_handler : widget → Bool
  | .mk _ _ r _ _ _ => r

/-- Whether `widget->redraw_handler` is set. -/
def widget.redraw_handler : widget → Bool
  | .mk _ _ _ r _ _ => r

/-- The field `widget->opaque`. -/
def widget.opaque_flag : widget → Bool
  | .mk _ _ _ _ o _ => o

/-- The children of a widget. -/
def widget.child_list : widget → List widget
  | .mk _ _ _ _ _ cs => cs

/-- The function `widget_set_allocation` (with `widget_set_size`). -/
def widget_set_allocation (w : widget) (x y width height : Int) : widget :=
  match w with
  | .mk id _ rs rd o cs => .mk id { x := x, y := y, width := width, height := height } rs rd o cs

/-- Requests sent over the connection and user handlers invoked, in order. -/
inductive window_call where
  | wl_surface_frame (surface callback : Nat)
  | wl_callback_destroy (callback : Nat)
  | resize_handler (widget : Nat) (width height : Int)
  | redraw_handler (widget : Nat)
  | wl_surface_commit (surface : Nat)
  | wl_subsurface_set_sync (subsurface : Nat)
  | wl_subsurface_set_desync (subsurface : Nat)
  | wl_subsurface_set_position (subsurface : Nat) (x y : Int)
  | wl_region_destroy (region : Nat)
  | wl_compositor_create_region (region : Nat)
  | wl_region_add (region : Nat) (x y width height : Int)
  | wl_surface_set_opaque_region (surface region : Nat)
  | wl_surface_set_input_region (surface region : Nat)
  | wl_shell_surface_set_toplevel (shell_surface : Nat)
  | cairo_surface_destroy (surface : Nat)
  | wl_display_sync (callback : Nat)
  | wl_shell_surface_set_maximized (shell_surface : Nat)
deriving DecidableEq, Repr

mutual
/-- The traversal `widget_redraw`: the widget's own redraw handler, then the
children in list order. The result is the list of handler calls made. -/
def widget_redraw : widget → List window_call
  | .mk id _ _ rd _ cs =>
    (if rd then [window_call.redraw_handler id] else []) ++ widget_redraw_children cs
/-- The loop of `widget_redraw` over `child_list`. -/
def widget_redraw_children : List widget → List window_call
  | [] => []
  | c :: cs => widget_redraw c ++ widget_redraw_children cs
end

/-- The window type tags. -/
inductive window_type where
  | TYPE_NONE | TYPE_TOPLEVEL | TYPE_FULLSCREEN | TYPE_MAXIMIZED | TYPE_TRANSIENT | TYPE_MENU
  | TYPE_CUSTOM
deriving DecidableEq, Repr

/-- An entry of the deferred list: the redraw task of the window under study,
or some other task. -/
inductive task where
  | redraw_task
  | other (id : Nat)
deriving DecidableEq, Repr

/-- The part of `struct display` the scheduler touches: the deferred list
(head first), the counter new protocol objects are numbered from, and the log
of requests and handler calls. -/
structure display where
  deferred_list : List task
  next_id : Nat
  log : List window_call
deriving DecidableEq, Repr

/-- One drawable (`struct surface`). -/
structure surface where
  surface : Nat
  subsurface : Option Nat
  synchronized : Bool
  synchronized_default : Bool
  toysurface : Option shm_surface
  widget : widget
  redraw_needed : Bool
  frame_cb : Option Nat
  last_time : Nat
  allocation : rectangle
  server_allocation : rectangle
  input_region : Option Nat
  opaque_region : Option Nat
  buffer_transform : wl_output_transform
  buffer_scale : Int
  cairo_surface : Option cairo_surface_t
deriving Repr

/-- The scheduler state of a window (`struct window`). The list
`window->subsurface_list` is `subsurfaces` (newest first, as `surface_create`
inserts at the head) followed by `main_surface`, the first surface created;
`frame` tells whether `window->frame` is set. -/
structure window where
  display : display
  saved_allocation : rectangle
  min_allocation : rectangle
  pending_allocation : rectangle
  resize_edges : Nat
  redraw_needed : Bool
  redraw_task_scheduled : Bool
  resize_needed : Bool
  type : window_type
  configure_requests : Int
  main_surface : surface
  subsurfaces : List surface
  shell_surface : Option Nat
  frame : Bool
deriving Repr

/-- A pointer to one surface of the window. -/
inductive surface_ref where
  | main
  | sub (i : Nat)
deriving DecidableEq, Repr

/-- Dereference a surface pointer. -/
def window.get_surface (w : window) : surface_ref → Option surface
  | .main => some w.main_surface
  | .sub i => w.subsurfaces[i]?

/-- Store through a surface pointer. -/
def window.set_surface (w : window) (r : surface_ref) (s : surface) : window :=
  match r with
  | .main => { w with main_surface := s }
  | .sub i => { w with subsurfaces := w.subsurfaces.set i s }

/-- The members of `window->subsurface_list` in iteration order. -/
def window.subsurface_list (w : window) : List surface_ref :=
  (List.range w.subsurfaces.length).map surface_ref.sub ++ [surface_ref.main]

/-- Append calls to the log. -/
def window.emit (w : window) (calls : List window_call) : window :=
  { w with display := { w.display with log := w.display.log ++ calls } }

/-- The function `display_defer`: `wl_list_insert` at the head of the list. -/
def display_defer (d : display) (t : task) : display :=
  { d with deferred_list := t :: d.deferred_list }

/-- The function `window_schedule_redraw_task`. -/
def window_schedule_redraw_task (w : window) : window :=
  if w.configure_requests ≠ 0 then w
  else if !w.redraw_task_scheduled then
    { w with display := display_defer w.display task.redraw_task, redraw_task_scheduled := true }
  else w

/-- The function `widget_schedule_redraw` for a widget drawn on surface `r`. -/
def widget_schedule_redraw (w : window) (r : surface_ref) : window :=
  window_schedule_redraw_task
    (match w.get_surface r with
      | none => w
      | some s => w.set_surface r { s with redraw_needed := true })

/-- The function `window_schedule_redraw`. -/
def window_schedule_redraw (w : window) : window :=
  window_schedule_redraw_task
    { w with
      main_surface := { w.main_surface with redraw_needed := true },
      subsurfaces := w.subsurfaces.map (fun s => { s with redraw_needed := true }) }

/-- The assignments of `window_schedule_resize`, up to its closing call of
`window_schedule_redraw`. -/
def window_schedule_resize_record (w : window) (width height : Int) : window :=
  let min_width : Int := 200
  let min_height : Int := 200
  let w := { w with pending_allocation := { x := 0, y := 0, width := width, height := height } }
  let w :=
    if w.min_allocation.width = 0 then
      { w with min_allocation :=
          { w.min_allocation with
            width := if width < min_width ∧ w.frame then min_width else width,
            height := if height < min_height ∧ w.frame then min_height else height } }
    else w
  let w :=
    if w.pending_allocation.width < w.min_allocation.width then
      { w with pending_allocation := { w.pending_allocation with width := w.min_allocation.width } }
    else w
  let w :=
    if w.pending_allocation.height < w.min_allocation.height then
      { w with pending_allocation :=
          { w.pending_allocation with height := w.min_allocation.height } }
    else w
  { w with resize_needed := true }

/-- The function `window_schedule_resize`. -/
def window_schedule_resize (w : window) (width height : Int) : window :=
  window_schedule_redraw (window_schedule_resize_record w width height)

/-- The function `surface_set_synchronized`. -/
def surface_set_synchronized (w : window) (r : surface_ref) : window :=
  match w.get_surface r with
  | none => w
  | some s =>
    match s.subsurface with
    | none => w
    | some sub =>
      if s.synchronized then w
      else (w.set_surface r { s with synchronized := true }).emit
             [window_call.wl_subsurface_set_sync sub]

/-- The function `surface_set_synchronized_default`. -/
def surface_set_synchronized_default (w : window) (r : surface_ref) : window :=
  match w.get_surface r with
  | none => w
  | some s =>
    match s.subsurface with
    | none => w
    | some sub =>
      if s.synchronized = s.synchronized_default then w
      else (w.set_surface r { s with synchronized := s.synchronized_default }).emit
             [if s.synchronized_default then window_call.wl_subsurface_set_sync sub
              else window_call.wl_subsurface_set_desync sub]

/-- The calls `surface_resize` makes before it compares sizes: the old regions
are destroyed, the opaque region is created anew as `region`, the resize
handler runs, and a sub-surface that moved is repositioned. -/
def surface_resize_calls (s : surface) (region : Nat) : List window_call :=
  (match s.input_region with
    | some reg => [window_call.wl_region_destroy reg]
    | none => []) ++
  (match s.opaque_region with
    | some reg => [window_call.wl_region_destroy reg]
    | none => []) ++
  [window_call.wl_compositor_create_region region] ++
  (if s.widget.resize_handler then
     [window_call.resize_handler s.widget.id s.widget.allocation.width
       s.widget.allocation.height]
   else []) ++
  (match s.subsurface with
    | some sub =>
      if s.allocation.x ≠ s.widget.allocation.x ∨ s.allocation.y ≠ s.widget.allocation.y then
        [window_call.wl_subsurface_set_position sub s.widget.allocation.x s.widget.allocation.y]
      else []
    | none => [])

/-- The rest of `surface_resize` after the resize handler and the
repositioning: schedule a redraw when the size changed, record the new
allocation, and fill the opaque region `region` for an opaque widget. `s` is the
surface as it was on entry. -/
def surface_resize_finish (w : window) (r : surface_ref) (s : surface) (region : Nat) : window :=
  let a := s.widget.allocation
  let w := { w with display := { w.display with next_id := region + 1 } }
  let w :=
    if s.allocation.width ≠ a.width ∨ s.allocation.height ≠ a.height then
      window_schedule_redraw w
    else w
  match w.get_surface r with
  | none => w
  | some s1 =>
    let w := w.set_surface r { s1 with allocation := a }
    if s.widget.opaque_flag then
      w.emit [window_call.wl_region_add region 0 0 a.width a.height]
    else w

/-- The function `surface_resize`. -/
def surface_resize (w : window) (r : surface_ref) : window :=
  match w.get_surface r with
  | none => w
  | some s =>
    let region := w.display.next_id
    surface_resize_finish
      ((w.set_surface r { s with input_region := none, opaque_region := some region }).emit
        (surface_resize_calls s region))
      r s region

/-- The function `hack_prevent_EGL_sub_surface_deadlock`: commit the main
surface when the list holds anything besides it. -/
def hack_prevent_EGL_sub_surface_deadlock (w : window) : window :=
  if !w.subsurfaces.isEmpty then w.emit [window_call.wl_surface_commit w.main_surface.surface]
  else w

/-- The function `idle_resize`. -/
def idle_resize (w : window) : window :=
  let w := { w with resize_needed := false, redraw_needed := true }
  let w := hack_prevent_EGL_sub_surface_deadlock w
  let p := w.pending_allocation
  let w :=
    { w with main_surface :=
        { w.main_surface with
          widget := widget_set_allocation w.main_surface.widget p.x p.y p.width p.height } }
  let w := surface_resize w surface_ref.main
  (w.subsurface_list.filter (fun r => r != surface_ref.main)).foldl
    (fun w r => surface_resize (surface_set_synchronized w r) r) w

/-- The calls of `surface_redraw` once it goes ahead: the stale callback, when
there is one, is destroyed, a new callback `cb` is requested, and the widget
tree is redrawn. -/
def surface_redraw_calls (s : surface) (cb : Nat) : List window_call :=
  (match s.frame_cb with
    | some old => [window_call.wl_callback_destroy old]
    | none => []) ++
  [window_call.wl_surface_frame s.surface cb] ++ widget_redraw s.widget

/-- The tail of `surface_redraw`, after its two early returns. -/
def surface_redraw_request (w : window) (r : surface_ref) (s : surface) : window :=
  let cb := w.display.next_id
  let w := { w with display := { w.display with next_id := cb + 1 } }
  (w.set_surface r { s with frame_cb := some cb, redraw_needed := false }).emit
    (surface_redraw_calls s cb)

/-- The function `surface_redraw`. -/
def surface_redraw (w : window) (r : surface_ref) : window :=
  match w.get_surface r with
  | none => w
  | some s =>
    if !w.redraw_needed && !s.redraw_needed then w
    else if s.frame_cb.isSome && !w.redraw_needed then w
    else surface_redraw_request w r s

/-- The region requests `surface_flush` makes before the swap. -/
def surface_flush_calls (s : surface) : List window_call :=
  (match s.opaque_region with
    | some reg => [window_call.wl_surface_set_opaque_region s.surface reg,
                   window_call.wl_region_destroy reg]
    | none => []) ++
  (match s.input_region with
    | some reg => [window_call.wl_surface_set_input_region s.surface reg,
                   window_call.wl_region_destroy reg]
    | none => [])

/-- The function `surface_flush`: `none` when the strategy pointer is `NULL`
or the strategy's `swap` ends the process. -/
def surface_flush (w : window) (r : surface_ref) : Option window :=
  match w.get_surface r with
  | none => some w
  | some s =>
    match s.cairo_surface with
    | none => some w
    | some cs =>
      match s.toysurface with
      | none => none
      | some t =>
        match shm_surface_swap t s.buffer_transform s.buffer_scale with
        | none => none
        | some (t1, alloc) =>
          some ((w.set_surface r
            { s with
              opaque_region := none, input_region := none, toysurface := some t1,
              server_allocation :=
                { s.server_allocation with width := alloc.1, height := alloc.2 },
              cairo_surface := none }).emit
            (surface_flush_calls s ++ [window_call.cairo_surface_destroy cs.handle]))

/-- The function `window_flush`. -/
def window_flush (w : window) : Option window :=
  let w :=
    if w.type = window_type.TYPE_NONE then
      let w1 := { w with type := window_type.TYPE_TOPLEVEL }
      match w.shell_surface with
      | some sh => w1.emit [window_call.wl_shell_surface_set_toplevel sh]
      | none => w1
    else w
  ((w.subsurface_list.filter (fun r => r != surface_ref.main)).foldlM surface_flush w).bind
    (fun w => surface_flush w surface_ref.main)

/-- The tail of `idle_redraw`, from the loop over `surface_redraw` on. -/
def idle_redraw_paint (w : window) : Option window :=
  let w := w.subsurface_list.foldl surface_redraw w
  let w := { w with redraw_needed := false }
  (window_flush w).map (fun w => w.subsurface_list.foldl surface_set_synchronized_default w)

/-- The task body `idle_redraw`. -/
def idle_redraw (w : window) : Option window :=
  let w := { w with redraw_task_scheduled := false }
  if w.resize_needed then
    if w.main_surface.frame_cb.isSome then some w
    else idle_redraw_paint (idle_resize w)
  else idle_redraw_paint w

/-- The handler `frame_callback` for the surface `r`: the assertion demands
that `callback` is the surface's `frame_cb`. -/
def frame_callback (w : window) (r : surface_ref) (callback time : Nat) : Option window :=
  match w.get_surface r with
  | none => none
  | some s =>
    if s.frame_cb ≠ some callback then none
    else
      let w := (w.set_surface r { s with frame_cb := none, last_time := time }).emit
        [window_call.wl_callback_destroy callback]
      if s.redraw_needed || w.redraw_needed then some (window_schedule_redraw_task w)
      else some w

/-- One turn of the inner loop of `display_run`: unlink the task at the tail
of the deferred list and run it. Tasks of other owners leave the window as it is. -/
def display_run_task (w : window) : Option window :=
  match w.display.deferred_list.getLast? with
  | none => some w
  | some t =>
    let w := { w with display := { w.display with deferred_list := w.display.deferred_list.dropLast } }
    match t with
    | .redraw_task => idle_redraw w
    | .other _ => some w

/-- The window as `window_create_internal` leaves it (all fields zeroed but
those it sets), with `surface_create` done for the main surface; `root` is the
widget later installed on the main surface and `frame` whether the window got
a decoration frame. -/
def window_create (type : window_type) (shell_surface : Option Nat) (root : widget)
    (frame : Bool) : window :=
  { display := { deferred_list := [], next_id := 2, log := [] },
    saved_allocation := rectangle.zero, min_allocation := rectangle.zero,
    pending_allocation := rectangle.zero, resize_edges := 0,
    redraw_needed := false, redraw_task_scheduled := false, resize_needed := false,
    type := type, configure_requests := 0,
    main_surface :=
      { surface := 1, subsurface := none, synchronized := false, synchronized_default := false,
        toysurface := none, widget := root, redraw_needed := false, frame_cb := none,
        last_time := 0, allocation := rectangle.zero, server_allocation := rectangle.zero,
        input_region := none, opaque_region := none,
        buffer_transform := wl_output_transform.NORMAL, buffer_scale := 1,
        cairo_surface := none },
    subsurfaces := [], shell_surface := shell_surface, frame := frame }

/-- The function `window_defer_redraw_until_configure`: take the redraw task
off the deferred list, send a sync request and count it. -/
def window_defer_redraw_until_configure (w : window) : window :=
  let w :=
    if w.redraw_task_scheduled then
      { w with
        display := { w.display with
                     deferred_list := w.display.deferred_list.erase task.redraw_task },
        redraw_task_scheduled := false }
    else w
  let callback := w.display.next_id
  { (w.emit [window_call.wl_display_sync callback]) with
    display := { (w.emit [window_call.wl_display_sync callback]).display with
                 next_id := callback + 1 },
    configure_requests := w.configure_requests + 1 }

/-- The handler `configure_request_completed`. -/
def configure_request_completed (w : window) (callback : Nat) : window :=
  let w := w.emit [window_call.wl_callback_destroy callback]
  let w := { w with configure_requests := w.configure_requests - 1 }
  if w.configure_requests = 0 then window_schedule_redraw w else w

/-- A call to one of the two redraw-scheduling entry points. -/
inductive redraw_request where
  | widget (r : surface_ref)
  | window
deriving DecidableEq, Repr

/-- Make the calls of a list, in order. -/
def schedule_redraws (w : window) : List redraw_request → window
  | [] => w
  | .widget r :: rest => schedule_redraws (widget_schedule_redraw w r) rest
  | .window :: rest => schedule_redraws (window_schedule_redraw w) rest

/-- The function `window_add_subsurface` (with `surface_create`): a zeroed
surface with a new protocol object and `buffer_scale` 1 goes to the head of the
list; it gets the widget `root`, a sub-surface object, and starts synchronized. -/
def window_add_subsurface (w : window) (root : widget) (synchronized_default : Bool) : window :=
  let id := w.display.next_id
  { w with
    display := { w.display with next_id := id + 2 },
    subsurfaces :=
      { surface := id, subsurface := some (id + 1), synchronized := true,
        synchronized_default := synchronized_default,
        toysurface := none, widget := root, redraw_needed := false, frame_cb := none,
        last_time := 0, allocation := rectangle.zero, server_allocation := rectangle.zero,
        input_region := none, opaque_region := none,
        buffer_transform := wl_output_transform.NORMAL, buffer_scale := 1,
        cairo_surface := none } :: w.subsurfaces }

/-- What can happen to a window between two looks at it. -/
inductive window_event where
  | widget_schedule_redraw (r : surface_ref)
  | window_schedule_redraw
  | window_schedule_resize (width height : Int)
  | idle_redraw
  | display_run_task
  | frame_callback (r : surface_ref) (callback time : Nat)
  | window_add_subsurface (root : widget) (synchronized_default : Bool)
deriving Repr

/-- Apply one event. -/
def window_step (w : window) : window_event → Option window
  | .widget_schedule_redraw r => some (widget_schedule_redraw w r)
  | .window_schedule_redraw => some (window_schedule_redraw w)
  | .window_schedule_resize width height => some (window_schedule_resize w width height)
  | .idle_redraw => idle_redraw w
  | .display_run_task => display_run_task w
  | .frame_callback r cb t => frame_callback w r cb t
  | .window_add_subsurface root sync => some (window_add_subsurface w root sync)

/-- Apply a sequence of events, stopping at the first that ends the process. -/
def window_run (w : window) : List window_event → Option window
  | [] => some w
  | e :: es =>
    match window_step w e with
    | none => none
    | some w1 => window_run w1 es

/-- The effect of one call on the list of frame callbacks of `surface` that
are alive: a request adds its callback, a destroy removes it. -/
def outstanding_step (surface : Nat) (live : List Nat) : window_call → List Nat
  | .wl_surface_frame s cb => if s = surface then live ++ [cb] else live
  | .wl_callback_destroy cb => live.filter (fun x => x != cb)
  | _ => live

/-- The callbacks requested on `surface` and not destroyed since, read off a
log of calls (oldest first). -/
def outstanding_callbacks (surface : Nat) (log : List window_call) : List Nat :=
  log.foldl (outstanding_step surface) []

/-- A call that neither requests nor destroys a frame callback. -/
def window_call.quiet : window_call → Bool
  | .wl_surface_frame _ _ => false
  | .wl_callback_destroy _ => false
  | _ => true

/-- The bookkeeping of frame callbacks agrees with the connection: surfaces
have different protocol objects, the callbacks alive on each surface are
exactly its `frame_cb`, no two surfaces hold the same callback, every callback
held and every surface object was numbered before `next_id`, and no callback is
alive on an object not yet numbered. -/
structure callbacks_inv (w : window) : Prop where
  surfaces_distinct : ∀ r r1 s s1, w.get_surface r = some s → w.get_surface r1 = some s1 →
    s.surface = s1.surface → r = r1
  tracked : ∀ r s, w.get_surface r = some s →
    outstanding_callbacks s.surface w.display.log = s.frame_cb.toList
  callbacks_distinct : ∀ r r1 s s1 cb, w.get_surface r = some s → w.get_surface r1 = some s1 →
    s.frame_cb = some cb → s1.frame_cb = some cb → r = r1
  numbered : ∀ r s cb, w.get_surface r = some s → s.frame_cb = some cb → cb < w.display.next_id
  surfaces_numbered : ∀ r s, w.get_surface r = some s → s.surface < w.display.next_id
  unused : ∀ sid, w.display.next_id ≤ sid → outstanding_callbacks sid w.display.log = []

/-- The widgets and the pending resize of `w1` are those of `w`, and the log
of `w1` is the log of `w` with calls added at its end. -/
structure widgets_kept (w w1 : window) : Prop where
  widgets : ∀ r, (w1.get_surface r).map (fun s => s.widget) =
    (w.get_surface r).map (fun s => s.widget)
  resize_needed : w1.resize_needed = w.resize_needed
  pending : w1.pending_allocation = w.pending_allocation
  log_grows : ∃ extra, w1.display.log = w.display.log ++ extra

/-- The callback bookkeeping of `w1` is that of `w`: same surfaces with the same
`frame_cb`, the same callbacks alive, and a counter that did not go back. -/
structure callbacks_untouched (w w1 : window) : Prop where
  surfaces : ∀ r, (w1.get_surface r).map (fun s => (s.surface, s.frame_cb)) =
    (w.get_surface r).map (fun s => (s.surface, s.frame_cb))
  alive : ∀ sid, outstanding_callbacks sid w1.display.log = outstanding_callbacks sid w.display.log
  counter : w.display.next_id ≤ w1.display.next_id

/-- A root widget with both handlers and one child with a redraw handler. -/
def root_widget : widget :=
  .mk 10 rectangle.zero true true false [.mk 11 rectangle.zero false true false []]

/-- The root widget of a sub-surface. -/
def sub_widget : widget := .mk 20 rectangle.zero false true false []

/-- A decorated toplevel window, just created. -/
def window_fresh : window := window_create window_type.TYPE_NONE (some 7) root_widget true

/-- A sub-surface is added, a redraw is scheduled and the task runs: both
surfaces now wait for a frame callback. -/
def events_both_drawn : List window_event :=
  [window_event.window_add_subsurface sub_widget false, window_event.window_schedule_redraw,
   window_event.display_run_task]

/-- Then the main surface gets its callback and a resize is scheduled and run:
the sub-surface is redrawn while its callback is still outstanding. -/
def events_forced_redraw : List window_event :=
  events_both_drawn ++
    [window_event.frame_callback surface_ref.main 5 0,
     window_event.window_schedule_resize 400 300, window_event.display_run_task]

/-- The state after `events_forced_redraw`. -/
def window_forced_redraw : window := (window_run window_fresh events_forced_redraw).getD window_fresh

/-- The state after `events_both_drawn` and a resize request for 400 x 300. -/
def window_resize_pending : window :=
  (window_run window_fresh
    (events_both_drawn ++ [window_event.window_schedule_resize 400 300])).getD window_fresh

/-- The state `window_resize_pending` once the frame callback of the main
surface has arrived. -/
def window_resize_ready : window :=
  (frame_callback window_resize_pending surface_ref.main 5 0).getD window_fresh

/-- A fresh window waiting for a configure acknowledgement. -/
def window_configuring : window := window_defer_redraw_until_configure window_fresh

/-! ## Decoration frame (shared/frame.c) -/

/-- The values of `enum theme_location` (declared in `cairo-util.h`). -/
inductive theme_location where
  | INTERIOR | RESIZING_TOP | RESIZING_BOTTOM | RESIZING_LEFT | RESIZING_TOP_LEFT
  | RESIZING_BOTTOM_LEFT | RESIZING_RIGHT | RESIZING_TOP_RIGHT | RESIZING_BOTTOM_RIGHT
  | EXTERIOR | TITLEBAR | CLIENT_AREA
deriving DecidableEq, Repr

/-- What `frame.c` uses of `struct theme` and of `theme_get_location`, both
declared outside the sources at hand: the four sizes it reads, and the
classification of a point `(x, y)` of a `width` x `height` frame, maximized or
not, as a function the frame is handed. -/
structure theme where
  width : Int
  margin : Int
  titlebar_height : Int
  frame_radius : Int
  get_location : Int → Int → Int → Int → Bool → theme_location

/-- A word of `enum frame_status` bits, one field per enumerator. Or-ing two
words is `union`. -/
structure frame_status where
  repaint : Bool
  minimize : Bool
  maximize : Bool
  close : Bool
  menu : Bool
  resize : Bool
  move : Bool
deriving DecidableEq, Repr

/-- The bitwise or of two status words. -/
def frame_status.union (a b : frame_status) : frame_status :=
  { repaint := a.repaint || b.repaint, minimize := a.minimize || b.minimize,
    maximize := a.maximize || b.maximize, close := a.close || b.close,
    menu := a.menu || b.menu, resize := a.resize || b.resize, move := a.move || b.move }

/-- The word `a & ~b`. -/
def frame_status.clear (a b : frame_status) : frame_status :=
  { repaint := a.repaint && !b.repaint, minimize := a.minimize && !b.minimize,
    maximize := a.maximize && !b.maximize, close := a.close && !b.close,
    menu := a.menu && !b.menu, resize := a.resize && !b.resize, move := a.move && !b.move }

/-- The word with no bit set. -/
def FRAME_STATUS_NONE : frame_status :=
  { repaint := false, minimize := false, maximize := false, close := false, menu := false,
    resize := false, move := false }

/-- The bit `FRAME_STATUS_REPAINT`. -/
def FRAME_STATUS_REPAINT : frame_status := { FRAME_STATUS_NONE with repaint := true }

/-- The bit `FRAME_STATUS_MINIMIZE`. -/
def FRAME_STATUS_MINIMIZE : frame_status := { FRAME_STATUS_NONE with minimize := true }

/-- The bit `FRAME_STATUS_MAXIMIZE`. -/
def FRAME_STATUS_MAXIMIZE : frame_status := { FRAME_STATUS_NONE with maximize := true }

/-- The bit `FRAME_STATUS_CLOSE`. -/
def FRAME_STATUS_CLOSE : frame_status := { FRAME_STATUS_NONE with close := true }

/-- The bit `FRAME_STATUS_MENU`. -/
def FRAME_STATUS_MENU : frame_status := { FRAME_STATUS_NONE with menu := true }

/-- The bit `FRAME_STATUS_RESIZE`. -/
def FRAME_STATUS_RESIZE : frame_status := { FRAME_STATUS_NONE with resize := true }

/-- The bit `FRAME_STATUS_MOVE`. -/
def FRAME_STATUS_MOVE : frame_status := { FRAME_STATUS_NONE with move := true }

/-- A word of `enum frame_flag` bits. -/
structure frame_flag where
  active : Bool
  maximized : Bool
deriving DecidableEq, Repr

/-- The bit `FRAME_FLAG_MAXIMIZED`. -/
def FRAME_FLAG_MAXIMIZED : frame_flag := { active := false, maximized := true }

/-- The bit `FRAME_FLAG_ACTIVE`. -/
def FRAME_FLAG_ACTIVE : frame_flag := { active := true, maximized := false }

/-- A word of `enum frame_button_flags` bits. -/
structure frame_button_flags where
  align_right : Bool
  decorated : Bool
  click_down : Bool
deriving DecidableEq, Repr

/-- The values of `enum frame_button_state`. -/
inductive frame_button_state where
  | FRAME_BUTTON_RELEASED
  | FRAME_BUTTON_PRESSED
deriving DecidableEq, Repr

/-- The key code `BTN_LEFT` of `linux/input.h`. -/
def BTN_LEFT : Nat := 0x110

/-- The key code `BTN_RIGHT` of `linux/input.h`. -/
def BTN_RIGHT : Nat := 0x111

/-- One button of the frame (`struct frame_button`); of the icon only its size
is kept. -/
structure frame_button where
  icon_width : Int
  icon_height : Int
  flags : frame_button_flags
  hover_count : Int
  press_count : Int
  allocation : rectangle
  status_effect : frame_status
deriving DecidableEq, Repr

/-- The record of one pointer on the frame (`struct frame_pointer`);
`hover_button` is the place of the button in the list of buttons. -/
structure frame_pointer where
  data : Nat
  x : Int
  y : Int
  hover_button : Option Nat
  active : Bool
deriving DecidableEq, Repr

/-- The record of one touch source on the frame (`struct frame_touch`). -/
structure frame_touch where
  data : Nat
  x : Int
  y : Int
  button : Option Nat
deriving DecidableEq, Repr

/-- The frame (`struct frame`), without its theme pointer: the theme is handed
to the functions that read it. The lists are head first. -/
structure frame where
  width : Int
  height : Int
  title : Option String
  flags : frame_flag
  interior : rectangle
  shadow_margin : Int
  opaque_margin : Int
  geometry_dirty : Bool
  status : frame_status
  buttons : List frame_button
  pointers : List frame_pointer
  touches : List frame_touch
deriving DecidableEq, Repr

/-- The function `frame_button_create`: a zeroed button with its icon, flags
and status effect, appended to the list of buttons. -/
def frame_button_create (f : frame) (icon : Int × Int) (status_effect : frame_status)
    (flags : frame_button_flags) : frame :=
  { f with buttons := f.buttons ++
      [{ icon_width := icon.1, icon_height := icon.2, flags := flags, hover_count := 0,
         press_count := 0, allocation := rectangle.zero, status_effect := status_effect }] }

/-- The sizes of the four icon files `frame_create` loads. -/
structure frame_icons where
  icon_window : Int × Int
  sign_close : Int × Int
  sign_maximize : Int × Int
  sign_minimize : Int × Int
deriving DecidableEq, Repr

/-- The argument `buttons` of `frame_create`, a word of `FRAME_BUTTON_CLOSE`,
`FRAME_BUTTON_MAXIMIZE` and `FRAME_BUTTON_MINIMIZE` bits. -/
structure frame_button_mask where
  close : Bool
  maximize : Bool
  minimize : Bool
deriving DecidableEq, Repr

/-- The function `frame_create`, with every allocation and icon load
succeeding. -/
def frame_create (icons : frame_icons) (width height : Int) (buttons : frame_button_mask)
    (title : Option String) : frame :=
  let f : frame :=
    { width := width, height := height, title := title,
      flags := { active := false, maximized := false },
      interior := rectangle.zero, shadow_margin := 0, opaque_margin := 0,
      geometry_dirty := true, status := FRAME_STATUS_REPAINT,
      buttons := [], pointers := [], touches := [] }
  let f :=
    if title.isSome then
      frame_button_create f icons.icon_window FRAME_STATUS_MENU
        { align_right := false, decorated := false, click_down := true }
    else f
  let f :=
    if buttons.close then
      frame_button_create f icons.sign_close FRAME_STATUS_CLOSE
        { align_right := true, decorated := true, click_down := false }
    else f
  let f :=
    if buttons.maximize then
      frame_button_create f icons.sign_maximize FRAME_STATUS_MAXIMIZE
        { align_right := true, decorated := true, click_down := false }
    else f
  if buttons.minimize then
    frame_button_create f icons.sign_minimize FRAME_STATUS_MINIMIZE
      { align_right := true, decorated := true, click_down := false }
  else f

/-- The function `frame_set_title` (with `strdup` succeeding). -/
def frame_set_title (f : frame) (title : Option String) : frame :=
  { f with title := title, status := f.status.union FRAME_STATUS_REPAINT }

/-- The function `frame_set_flag`. -/
def frame_set_flag (f : frame) (flag : frame_flag) : frame :=
  let f := if flag.maximized && !f.flags.maximized then { f with geometry_dirty := true } else f
  { f with
    flags := { active := f.flags.active || flag.active,
               maximized := f.flags.maximized || flag.maximized },
    status := f.status.union FRAME_STATUS_REPAINT }

/-- The function `frame_unset_flag`. -/
def frame_unset_flag (f : frame) (flag : frame_flag) : frame :=
  let f := if flag.maximized && f.flags.maximized then { f with geometry_dirty := true } else f
  { f with
    flags := { active := f.flags.active && !flag.active,
               maximized := f.flags.maximized && !flag.maximized },
    status := f.status.union FRAME_STATUS_REPAINT }

/-- The function `frame_resize`. -/
def frame_resize (f : frame) (width height : Int) : frame :=
  { f with width := width, height := height, geometry_dirty := true,
           status := f.status.union FRAME_STATUS_REPAINT }

/-- The local `titlebar_height` of `frame_resize_inside` and
`frame_refresh_geometry`. -/
def frame_titlebar_height (t : theme) (f : frame) : Int :=
  if f.title.isSome then t.titlebar_height else t.width

/-- The function `frame_resize_inside`. -/
def frame_resize_inside (t : theme) (f : frame) (width height : Int) : frame :=
  let titlebar_height := frame_titlebar_height t f
  let decoration : Int × Int :=
    if f.flags.maximized then (t.width * 2, t.width + titlebar_height)
    else ((t.width + t.margin) * 2, t.width + titlebar_height + t.margin * 2)
  frame_resize f (width + decoration.1) (height + decoration.2)

/-- One turn of the loop of `frame_refresh_geometry` over the buttons; the
state is `(x_l, x_r)` and the buttons done so far. -/
def refresh_button_step (y : Int) (acc : (Int × Int) × List frame_button) (b : frame_button) :
    (Int × Int) × List frame_button :=
  let button_padding : Int := 4
  let w0 := b.icon_width
  let h := b.icon_height
  let w := if b.flags.decorated then w0 + 10 else w0
  let x_l := acc.1.1
  let x_r := acc.1.2
  if b.flags.align_right then
    let x_r := x_r - w
    ((x_l, x_r - button_padding),
      acc.2 ++ [{ b with allocation := { x := x_r, y := y, width := w + 1, height := h + 1 } }])
  else
    ((x_l + w + button_padding, x_r),
      acc.2 ++ [{ b with allocation := { x := x_l, y := y, width := w + 1, height := h + 1 } }])

/-- The function `frame_refresh_geometry`. -/
def frame_refresh_geometry (t : theme) (f : frame) : frame :=
  if !f.geometry_dirty then f
  else
    let titlebar_height := frame_titlebar_height t f
    let f :=
      if f.flags.maximized then
        { f with
          interior := { x := t.width, y := titlebar_height,
                        width := f.width - t.width * 2,
                        height := f.height - (t.width + titlebar_height) },
          opaque_margin := 0, shadow_margin := 0 }
      else
        { f with
          interior := { x := t.width + t.margin, y := titlebar_height + t.margin,
                        width := f.width - (t.width + t.margin) * 2,
                        height := f.height - (t.width + titlebar_height + t.margin * 2) },
          opaque_margin := t.margin + t.frame_radius, shadow_margin := t.margin }
    let x_r := f.width - t.width - f.shadow_margin
    let x_l := t.width + f.shadow_margin
    let y := t.width + f.shadow_margin
    { f with
      buttons := (f.buttons.foldl (refresh_button_step y) ((x_l, x_r), [])).2,
      geometry_dirty := false }

/-- The function `frame_interior`: the frame after the call and the four
values it stores through its out-parameters. -/
def frame_interior (t : theme) (f : frame) : frame × rectangle :=
  let f := frame_refresh_geometry t f
  (f, f.interior)

/-- The function `frame_input_rect`. -/
def frame_input_rect (t : theme) (f : frame) : frame × rectangle :=
  let f := frame_refresh_geometry t f
  (f, { x := f.shadow_margin, y := f.shadow_margin,
        width := f.width - f.shadow_margin * 2, height := f.height - f.shadow_margin * 2 })

/-- The function `frame_opaque_rect`. -/
def frame_opaque_rect (t : theme) (f : frame) : frame × rectangle :=
  let f := frame_refresh_geometry t f
  (f, { x := f.opaque_margin, y := f.opaque_margin,
        width := f.width - f.opaque_margin * 2, height := f.height - f.opaque_margin * 2 })

/-- The function `frame_status_clear`. -/
def frame_status_clear (f : frame) (status : frame_status) : frame :=
  { f with status := f.status.clear status }

/-- The function `frame_button_enter` on the button at place `i`. -/
def frame_button_enter (f : frame) (i : Nat) : frame :=
  match f.buttons[i]? with
  | none => f
  | some b =>
    { f with
      status := if b.hover_count = 0 then f.status.union FRAME_STATUS_REPAINT else f.status,
      buttons := f.buttons.set i { b with hover_count := b.hover_count + 1 } }

/-- The function `frame_button_leave` on the button at place `i`, for a pointer
whose `active` field is `active`. -/
def frame_button_leave (f : frame) (i : Nat) (active : Bool) : frame :=
  match f.buttons[i]? with
  | none => f
  | some b =>
    { f with
      status := if b.hover_count - 1 = 0 then f.status.union FRAME_STATUS_REPAINT else f.status,
      buttons := f.buttons.set i
        { b with hover_count := b.hover_count - 1,
                 press_count := if active then b.press_count - 1 else b.press_count } }

/-- The function `frame_button_press` on the button at place `i`. -/
def frame_button_press (f : frame) (i : Nat) : frame :=
  match f.buttons[i]? with
  | none => f
  | some b =>
    let status := if b.press_count = 0 then f.status.union FRAME_STATUS_REPAINT else f.status
    { f with
      status := if b.flags.click_down then status.union b.status_effect else status,
      buttons := f.buttons.set i { b with press_count := b.press_count + 1 } }

/-- The function `frame_button_release` on the button at place `i`. -/
def frame_button_release (f : frame) (i : Nat) : frame :=
  match f.buttons[i]? with
  | none => f
  | some b =>
    let status := if b.press_count - 1 = 0 then f.status.union FRAME_STATUS_REPAINT else f.status
    { f with
      status := if !b.flags.click_down then status.union b.status_effect else status,
      buttons := f.buttons.set i { b with press_count := b.press_count - 1 } }

/-- Put `p` in the place of the first record with its `data`. -/
def replace_pointer : List frame_pointer → frame_pointer → List frame_pointer
  | [], _ => []
  | q :: qs, p => if q.data = p.data then p :: qs else q :: replace_pointer qs p

/-- Take the first record with this `data` out of the list. -/
def remove_pointer : List frame_pointer → Nat → List frame_pointer
  | [], _ => []
  | q :: qs, data => if q.data = data then qs else q :: remove_pointer qs data

/-- Put `p` in the place of the first record with its `data`. -/
def replace_touch : List frame_touch → frame_touch → List frame_touch
  | [], _ => []
  | q :: qs, p => if q.data = p.data then p :: qs else q :: replace_touch qs p

/-- Take the first record with this `data` out of the list. -/
def remove_touch : List frame_touch → Nat → List frame_touch
  | [], _ => []
  | q :: qs, data => if q.data = data then qs else q :: remove_touch qs data

/-- The function `frame_pointer_get`: the record of `data`, made and put at the
head of the list when there is none. -/
def frame_pointer_get (f : frame) (data : Nat) : frame × frame_pointer :=
  match f.pointers.find? (fun p => p.data == data) with
  | some p => (f, p)
  | none =>
    let p : frame_pointer := { data := data, x := 0, y := 0, hover_button := none, active := false }
    ({ f with pointers := p :: f.pointers }, p)

/-- The function `frame_touch_get`. -/
def frame_touch_get (f : frame) (data : Nat) : frame × frame_touch :=
  match f.touches.find? (fun p => p.data == data) with
  | some p => (f, p)
  | none =>
    let p : frame_touch := { data := data, x := 0, y := 0, button := none }
    ({ f with touches := p :: f.touches }, p)

/-- The loop of `frame_find_button` from place `i` on. -/
def find_button_from (x y : Int) : List frame_button → Nat → Option Nat
  | [], _ => none
  | b :: bs, i =>
    let rel_x := x - b.allocation.x
    let rel_y := y - b.allocation.y
    if 0 ≤ rel_x ∧ rel_x < b.allocation.width ∧ 0 ≤ rel_y ∧ rel_y < b.allocation.height then
      some i
    else find_button_from x y bs (i + 1)

/-- The function `frame_find_button`: the place of the first button whose
allocation holds the point. -/
def frame_find_button (f : frame) (x y : Int) : Option Nat :=
  find_button_from x y f.buttons 0

/-- The function `frame_pointer_motion`. -/
def frame_pointer_motion (t : theme) (f : frame) (data : Nat) (x y : Int) :
    frame × theme_location :=
  let got := frame_pointer_get f data
  let f := got.1
  let button := frame_find_button f x y
  let location := t.get_location x y f.width f.height f.flags.maximized
  let pointer := { got.2 with x := x, y := y }
  if pointer.hover_button = button then
    ({ f with pointers := replace_pointer f.pointers pointer }, location)
  else
    let f :=
      match pointer.hover_button with
      | some b => frame_button_leave f b pointer.active
      | none => f
    let pointer := { pointer with active := false, hover_button := button }
    let f :=
      match button with
      | some b => frame_button_enter f b
      | none => f
    ({ f with pointers := replace_pointer f.pointers pointer }, location)

/-- The function `frame_pointer_enter`. -/
def frame_pointer_enter (t : theme) (f : frame) (data : Nat) (x y : Int) :
    frame × theme_location :=
  frame_pointer_motion t f data x y

/-- The function `frame_pointer_leave`. -/
def frame_pointer_leave (f : frame) (data : Nat) : frame :=
  let got := frame_pointer_get f data
  let f := got.1
  let f :=
    match got.2.hover_button with
    | some b => frame_button_leave f b got.2.active
    | none => f
  { f with pointers := remove_pointer f.pointers data }

/-- Whether a location is one of the eight resize edges and corners. -/
def theme_location.resizing : theme_location → Bool
  | .RESIZING_TOP | .RESIZING_BOTTOM | .RESIZING_LEFT | .RESIZING_RIGHT | .RESIZING_TOP_LEFT
  | .RESIZING_TOP_RIGHT | .RESIZING_BOTTOM_LEFT | .RESIZING_BOTTOM_RIGHT => true
  | _ => false

/-- The `switch (location)` shared by `frame_pointer_button` and
`frame_touch_down`: the title bar asks for a move, an edge for a resize. -/
def frame_location_status (f : frame) (location : theme_location) : frame :=
  if location = theme_location.TITLEBAR then
    { f with status := f.status.union FRAME_STATUS_MOVE }
  else if location.resizing then
    { f with status := f.status.union FRAME_STATUS_RESIZE }
  else f

/-- The function `frame_pointer_button`. -/
def frame_pointer_button (t : theme) (f : frame) (data : Nat) (button : Nat)
    (state : frame_button_state) : frame × theme_location :=
  let got := frame_pointer_get f data
  let f := got.1
  let pointer := got.2
  let location := t.get_location pointer.x pointer.y f.width f.height f.flags.maximized
  if button = BTN_RIGHT then
    if state = frame_button_state.FRAME_BUTTON_PRESSED ∧ location = theme_location.TITLEBAR then
      ({ f with status := f.status.union FRAME_STATUS_MENU }, location)
    else (f, location)
  else if button = BTN_LEFT ∧ state = frame_button_state.FRAME_BUTTON_PRESSED then
    match pointer.hover_button with
    | some b =>
      let f := frame_button_press f b
      ({ f with pointers := replace_pointer f.pointers { pointer with active := true } },
        location)
    | none => (frame_location_status f location, location)
  else if button = BTN_LEFT ∧ state = frame_button_state.FRAME_BUTTON_RELEASED then
    let f :=
      match pointer.hover_button with
      | some b => if pointer.active then frame_button_release f b else f
      | none => f
    ({ f with pointers := replace_pointer f.pointers { pointer with active := false } },
      location)
  else (f, location)

/-- The function `frame_touch_down`. -/
def frame_touch_down (t : theme) (f : frame) (data : Nat) (id : Int) (x y : Int) : frame :=
  let got := frame_touch_get f data
  let f := got.1
  let button := frame_find_button f x y
  if id > 0 then f
  else
    match button with
    | some b =>
      let f := { f with touches := replace_touch f.touches { got.2 with button := some b } }
      frame_button_press f b
    | none =>
      frame_location_status f (t.get_location x y f.width f.height f.flags.maximized)

/-- The function `frame_touch_up`. -/
def frame_touch_up (f : frame) (data : Nat) (id : Int) : frame :=
  let got := frame_touch_get f data
  let f := got.1
  if id > 0 then f
  else
    match got.2.button with
    | some b =>
      let f := frame_button_release f b
      { f with touches := remove_touch f.touches data }
    | none => f

/-- One event of the frame interface, named after the function called. -/
inductive frame_event where
  | frame_pointer_enter (data : Nat) (x y : Int)
  | frame_pointer_motion (data : Nat) (x y : Int)
  | frame_pointer_button (data : Nat) (button : Nat) (state : frame_button_state)
  | frame_pointer_leave (data : Nat)
  | frame_touch_down (data : Nat) (id : Int) (x y : Int)
  | frame_touch_up (data : Nat) (id : Int)
deriving DecidableEq, Repr

/-- The frame after one event. -/
def frame_step (t : theme) (f : frame) : frame_event → frame
  | .frame_pointer_enter data x y => (frame_pointer_enter t f data x y).1
  | .frame_pointer_motion data x y => (frame_pointer_motion t f data x y).1
  | .frame_pointer_button data button state => (frame_pointer_button t f data button state).1
  | .frame_pointer_leave data => frame_pointer_leave f data
  | .frame_touch_down data id x y => frame_touch_down t f data id x y
  | .frame_touch_up data id => frame_touch_up f data id

/-- The frame after a sequence of events. -/
def frame_run (t : theme) (f : frame) (es : List frame_event) : frame :=
  es.foldl (frame_step t) f

/-- The number of pointers whose `hover_button` is the button at place `i`. -/
def hovering (ps : List frame_pointer) (i : Nat) : Int :=
  (ps.countP (fun p => p.hover_button == some i) : Nat)

/-- The number of contacts that press the button at place `i`: the pointers
that hover it with `active` set, and the touches whose `button` it is. -/
def pressing (ps : List frame_pointer) (ts : List frame_touch) (i : Nat) : Int :=
  (ps.countP (fun p => p.hover_button == some i && p.active) : Nat) +
    (ts.countP (fun c => c.button == some i) : Nat)

/-- Every button's `hover_count` is the number of pointers that hover it. -/
def hover_counts_ok (f : frame) : Prop :=
  ∀ i b, f.buttons[i]? = some b → b.hover_count = hovering f.pointers i

/-- Every button's `press_count` is the number of contacts that press it. -/
def press_counts_ok (f : frame) : Prop :=
  ∀ i b, f.buttons[i]? = some b → b.press_count = pressing f.pointers f.touches i

/-- Whether an event comes in the order an input device produces them: a left
button press comes from a pointer that has no press in progress, and a first
touch point goes down on a touch source that holds no button. -/
def frame_event.in_order (f : frame) : frame_event → Bool
  | .frame_pointer_button data button state =>
    if button = BTN_LEFT ∧ state = frame_button_state.FRAME_BUTTON_PRESSED then
      match f.pointers.find? (fun p => p.data == data) with
      | some p => !p.active
      | none => true
    else true
  | .frame_touch_down data id _ _ =>
    if id > 0 then true
    else
      match f.touches.find? (fun c => c.data == data) with
      | some c => c.button.isNone
      | none => true
  | _ => true

/-- Whether every event of the sequence is in order in the state it arrives
in. -/
def frame_run_in_order (t : theme) : frame → List frame_event → Bool
  | _, [] => true
  | f, e :: es => e.in_order f && frame_run_in_order t (frame_step t f e) es

/-- The interior rectangle as the description of the geometry gives it, from
the frame size, the maximized flag and the presence of a title. -/
def described_interior (t : theme) (w h : Int) (maximized has_title : Bool) : rectangle :=
  let titlebar := if has_title then t.titlebar_height else t.width
  if maximized then
    { x := t.width, y := titlebar, width := w - 2 * t.width, height := h - (t.width + titlebar) }
  else
    { x := t.width + t.margin, y := titlebar + t.margin,
      width := w - 2 * (t.width + t.margin),
      height := h - (t.width + titlebar + 2 * t.margin) }

/-- A classification of points for the concrete runs: the band above
`margin + titlebar_height` is the title bar, the rest the client area. -/
def location_by_band (x y width height : Int) ( maximized : Bool) : theme_location :=
  if x < 0 ∨ y < 0 ∨ width ≤ x ∨ height ≤ y then theme_location.EXTERIOR
  else if y < (if maximized then 27 else 59) then theme_location.TITLEBAR
  else theme_location.CLIENT_AREA

/-- The theme of the concrete runs. -/
def theme0 : theme :=
  { width := 6, margin := 32, titlebar_height := 27, frame_radius := 3,
    get_location := location_by_band }

/-- Icons of 16 x 16 pixels. -/
def icons0 : frame_icons :=
  { icon_window := (16, 16), sign_close := (16, 16), sign_maximize := (16, 16),
    sign_minimize := (16, 16) }

/-- A 400 x 300 frame with a close button and no title, just created. -/
def frame_untitled : frame :=
  frame_create icons0 400 300 { close := true, maximize := false, minimize := false } none

/-- A 400 x 300 frame with a title and the three buttons, with its geometry
computed. -/
def frame_titled : frame :=
  frame_refresh_geometry theme0
    (frame_create icons0 400 300 { close := true, maximize := true, minimize := true }
      (some "terminal"))

/-- The titled frame with pointer 1 over its close button, the button at
place 1. -/
def frame_close_hovered : frame := (frame_pointer_motion theme0 frame_titled 1 345 40).1

/-- The close button of `frame_close_hovered`. -/
def close_button_hovered : frame_button :=
  { icon_width := 16, icon_height := 16,
    flags := { align_right := true, decorated := true, click_down := false },
    hover_count := 1, press_count := 0,
    allocation := { x := 336, y := 38, width := 27, height := 17 },
    status_effect := FRAME_STATUS_CLOSE }

/-- Pointer 1 moves onto the close button, its left button is reported
pressed twice and released once, and the pointer leaves. -/
def events_pressed_twice : List frame_event :=
  [frame_event.frame_pointer_motion 1 345 40,
   frame_event.frame_pointer_button 1 BTN_LEFT frame_button_state.FRAME_BUTTON_PRESSED,
   frame_event.frame_pointer_button 1 BTN_LEFT frame_button_state.FRAME_BUTTON_PRESSED,
   frame_event.frame_pointer_button 1 BTN_LEFT frame_button_state.FRAME_BUTTON_RELEASED,
   frame_event.frame_pointer_leave 1]

/-- Touch source 2 reports its first point down on the close button twice and
up once. -/
def events_touched_twice : List frame_event :=
  [frame_event.frame_touch_down 2 0 345 40, frame_event.frame_touch_down 2 0 345 40,
   frame_event.frame_touch_up 2 0]

/-- Pointer 1 presses the close button and is dragged off it, while touch
source 2 taps the same button; then the pointer leaves. -/
def events_click_and_tap : List frame_event :=
  [frame_event.frame_pointer_enter 1 345 40,
   frame_event.frame_pointer_button 1 BTN_LEFT frame_button_state.FRAME_BUTTON_PRESSED,
   frame_event.frame_touch_down 2 0 345 40,
   frame_event.frame_pointer_motion 1 100 100,
   frame_event.frame_touch_up 2 0,
   frame_event.frame_pointer_button 1 BTN_LEFT frame_button_state.FRAME_BUTTON_RELEASED,
   frame_event.frame_pointer_leave 1]

/-! ## The main loop (`display_run`) -/

/-- What one pass of the loop of `display_run` does that can be seen from
outside: a task is run with an event mask, or a library or system call is
made. -/
inductive loop_call where
  | task_run (t : task) (events : Nat)
  | wl_display_dispatch_pending
  | wl_display_flush
  | epoll_ctl_mod
  | epoll_wait
deriving DecidableEq, Repr

/-- The state of the loop: the display, `display->running`, and the calls made
so far. -/
structure loop_state where
  display : display
  running : Bool
  calls : List loop_call
deriving DecidableEq, Repr

/-- The three outcomes of `wl_display_flush` the loop tells apart. -/
inductive flush_result where
  | done
  | again
  | failed
deriving DecidableEq, Repr

/-- What the world outside the loop does during one pass: the effect of
`task->run(task, events)` and of the handlers `wl_display_dispatch_pending`
calls, both on the display and on `running` (a task may defer tasks and may
call `display_exit`), the outcome of the flush, and the tasks `epoll_wait`
reports ready with their event masks. -/
structure loop_env where
  run : task → Nat → display × Bool → display × Bool
  dispatch_pending : display × Bool → display × Bool
  flush : flush_result
  ready : List (task × Nat)

/-- Run one task: `task->run(task, events)`. -/
def loop_run_task (env : loop_env) (s : loop_state) (t : task) (events : Nat) : loop_state :=
  let r := env.run t events (s.display, s.running)
  { display := r.1, running := r.2, calls := s.calls ++ [loop_call.task_run t events] }

/-- The inner loop of `display_run`: while the deferred list is not empty,
unlink the task at its tail (`deferred_list.prev`) and run it with mask 0. The
loop is cut after `fuel` turns, and gives `none` when the list is not empty
by then. -/
def display_run_deferred (env : loop_env) : Nat → loop_state → Option loop_state
  | fuel, s =>
    match s.display.deferred_list.getLast? with
    | none => some s
    | some t =>
      match fuel with
      | 0 => none
      | fuel + 1 =>
        display_run_deferred env fuel
          (loop_run_task env
            { s with display :=
                { s.display with deferred_list := s.display.deferred_list.dropLast } } t 0)

/-- The first `k` turns of the inner loop of `display_run`, fewer when the
deferred list is empty before: the state the loop is in by then, whether or
not it has ended. -/
def display_run_deferred_turns (env : loop_env) : Nat → loop_state → loop_state
  | 0, s => s
  | k + 1, s =>
    match s.display.deferred_list.getLast? with
    | none => s
    | some t =>
      display_run_deferred_turns env k
        (loop_run_task env
          { s with display :=
              { s.display with deferred_list := s.display.deferred_list.dropLast } } t 0)

/-- The rest of one pass of the outer loop of `display_run`, after the inner
loop: the state after the pass, and whether the loop goes on (`false` for
`break`). -/
def display_run_after_deferred (env : loop_env) (s : loop_state) : loop_state × Bool :=
  let r := env.dispatch_pending (s.display, s.running)
  let s : loop_state :=
    { display := r.1, running := r.2,
      calls := s.calls ++ [loop_call.wl_display_dispatch_pending] }
  if !s.running then (s, false)
  else
    let s := { s with calls := s.calls ++ [loop_call.wl_display_flush] }
    match env.flush with
    | .failed => (s, false)
    | outcome =>
      let s :=
        if outcome = flush_result.again then
          { s with calls := s.calls ++ [loop_call.epoll_ctl_mod] }
        else s
      let s := { s with calls := s.calls ++ [loop_call.epoll_wait] }
      (env.ready.foldl (fun s te => loop_run_task env s te.1 te.2) s, true)

/-- One pass of the outer loop of `display_run`. -/
def display_run_pass (env : loop_env) (fuel : Nat) (s : loop_state) :
    Option (loop_state × Bool) :=
  match display_run_deferred env fuel s with
  | none => none
  | some s => some (display_run_after_deferred env s)

/-- The passes of the outer loop, one per entry of `envs`, until a `break`;
`none` when the passes given do not reach a `break`. -/
def display_run_passes (fuel : Nat) : List loop_env → loop_state → Option loop_state
  | [], _ => none
  | env :: envs, s =>
    match display_run_pass env fuel s with
    | none => none
    | some (s, true) => display_run_passes fuel envs s
    | some (s, false) => some s

/-- The function `display_run`. -/
def display_run (fuel : Nat) (envs : List loop_env) (s : loop_state) : Option loop_state :=
  display_run_passes fuel envs { s with running := true }

/-- A world in which tasks and handlers do nothing, the flush succeeds and no
task is ever ready. -/
def env_idle : loop_env :=
  { run := fun _ _ s => s, dispatch_pending := fun s => s, flush := flush_result.done,
    ready := [] }

/-- A world in which the handlers of the pending events call `display_exit`. -/
def env_exit : loop_env :=
  { env_idle with dispatch_pending := fun s => (s.1, false) }

/-- A world in which task `n + 1` defers task `n` when it runs, as the redraw
task of a window defers itself when it has resized the window, and task 0 and
the redraw task defer nothing. -/
def env_chain : loop_env :=
  { env_idle with
    run := fun t _ st =>
      match t with
      | task.other (n + 1) => (display_defer st.1 (task.other n), st.2)
      | _ => st }

/-- A world in which task 1, when it runs, unlinks the redraw task from the
deferred list, as a task does that calls `window_set_fullscreen` on a window
whose redraw task is scheduled (`window_defer_redraw_until_configure`). -/
def env_unlink : loop_env :=
  { env_idle with
    run := fun t _ st =>
      match t with
      | task.other 1 =>
        ({ st.1 with deferred_list := st.1.deferred_list.erase task.redraw_task }, st.2)
      | _ => st }

/-- A display with nothing deferred. -/
def display_empty : display := { deferred_list := [], next_id := 0, log := [] }

/-- Task 1 is deferred, then the redraw task, then task 2. -/
def loop_three_deferred : loop_state :=
  { display :=
      display_defer (display_defer (display_defer display_empty (task.other 1)) task.redraw_task)
        (task.other 2),
    running := false, calls := [] }

/-- Task 1 is deferred, then task 2. -/
def loop_two_deferred : loop_state :=
  { display := display_defer (display_defer display_empty (task.other 1)) (task.other 2),
    running := false, calls := [] }

/-! ## Pointer input dispatch (window.c)

A pointer to a widget is the `id` of the widget, and two pointers are equal
when the ids are. The handler fields of `struct widget` are read through
`hs`, from the id of a widget to its fields; a handler that is bound is a
`true` field, and calling it is an entry of the list of calls. What the body
of a button handler does to the input is read through `bh`: `bh widget time
button state` is the body of the button handler of `widget` called with these
arguments, as a function of the input. The float coordinates `sx`, `sy` are
kept as the `wl_fixed_t` they come from, in units of 1/256: the conversion to
`float` is taken to be exact. -/

/-- The fields of `struct widget` that the pointer code reads. -/
structure widget_handlers where
  enter_handler : Bool
  leave_handler : Bool
  motion_handler : Bool
  button_handler : Bool
  default_cursor : Int
deriving DecidableEq, Repr

/-- The values of `enum wl_pointer_button_state`. -/
inductive wl_pointer_button_state where
  | WL_POINTER_BUTTON_STATE_RELEASED
  | WL_POINTER_BUTTON_STATE_PRESSED
deriving DecidableEq, Repr

/-- The cursor handed to `input_set_pointer_image`: what the handler just
called returned, the `default_cursor` of a widget, or `CURSOR_LEFT_PTR`. -/
inductive cursor_value where
  | returned
  | default_cursor (c : Int)
  | CURSOR_LEFT_PTR
deriving DecidableEq, Repr

/-- The calls the pointer code makes. A handler call names the widget whose
handler field is called (`owner`) and the widget passed as first argument. -/
inductive input_call where
  | leave_handler (owner widget : Nat)
  | enter_handler (owner widget : Nat) (x y : Int)
  | motion_handler (owner : Nat) (widget : Option Nat) (time : Nat) (x y : Int)
  | button_handler (owner : Nat) (time button : Nat) (state : wl_pointer_button_state)
  | input_set_pointer_image (cursor : cursor_value)
deriving DecidableEq, Repr

/-- Whether the call hands a motion or a button event to a widget. -/
def input_call.is_event : input_call → Bool
  | .motion_handler .. => true
  | .button_handler .. => true
  | _ => false

/-- The widget whose handler the call runs, if it is a handler call. -/
def input_call.owner : input_call → Option Nat
  | .leave_handler owner _ => some owner
  | .enter_handler owner _ _ _ => some owner
  | .motion_handler owner _ _ _ _ => some owner
  | .button_handler owner _ _ _ => some owner
  | .input_set_pointer_image _ => none

/-- The pointer part of `struct input`. The window `input->pointer_focus`
points to is handed to the functions that read it; `pointer_focus` tells
whether the pointer is set. `display_serial` is `input->display->serial`. -/
structure input where
  pointer_focus : Bool
  focus_widget : Option Nat
  grab : Option Nat
  grab_button : Nat
  sx : Int
  sy : Int
  display_serial : Nat
  calls : List input_call
deriving DecidableEq, Repr

/-- Append calls to the list of calls. -/
def input.emit (i : input) (calls : List input_call) : input :=
  { i with calls := i.calls ++ calls }

mutual
/-- The function `widget_find_widget`: the first hit among the children in
list order, else the widget itself when the point is in its allocation. -/
def widget_find_widget : widget → Int → Int → Option widget
  | .mk id a rs rd o cs, x, y =>
    match widget_find_widget_children cs x y with
    | some target => some target
    | none =>
      if a.x ≤ x ∧ x < a.x + a.width ∧ a.y ≤ y ∧ y < a.y + a.height then
        some (.mk id a rs rd o cs)
      else none
/-- The loop of `widget_find_widget` over the children. -/
def widget_find_widget_children : List widget → Int → Int → Option widget
  | [], _, _ => none
  | c :: cs, x, y =>
    match widget_find_widget c x y with
    | some target => some target
    | none => widget_find_widget_children cs x y
end

/-- The loop of `window_find_widget` over the surfaces. -/
def window_find_widget_in (w : window) : List surface_ref → Int → Int → Option widget
  | [], _, _ => none
  | r :: rs, x, y =>
    match w.get_surface r with
    | none => window_find_widget_in w rs x y
    | some s =>
      match widget_find_widget s.widget x y with
      | some widget => some widget
      | none => window_find_widget_in w rs x y

/-- The function `window_find_widget`. -/
def window_find_widget (w : window) (x y : Int) : Option widget :=
  window_find_widget_in w w.subsurface_list x y

/-- The conversion of a float coordinate to `int32_t`: the fraction is cut
off, towards zero. -/
def float_to_int (v : Int) : Int := Int.tdiv v 256

/-- The function `input_set_focus_widget`. -/
def input_set_focus_widget (hs : Nat → widget_handlers) (i : input) (focus : Option Nat)
    (x y : Int) : input :=
  if focus = i.focus_widget then i
  else
    let i :=
      match i.focus_widget with
      | some old =>
        let widget := match i.grab with
          | some grab => grab
          | none => old
        let i :=
          if (hs widget).leave_handler then i.emit [input_call.leave_handler widget old] else i
        { i with focus_widget := none }
      | none => i
    match focus with
    | some new =>
      let widget := match i.grab with
        | some grab => grab
        | none => new
      let i := { i with focus_widget := some new }
      if (hs widget).enter_handler then
        i.emit [input_call.enter_handler widget new x y,
          input_call.input_set_pointer_image cursor_value.returned]
      else
        i.emit [input_call.input_set_pointer_image
          (cursor_value.default_cursor (hs widget).default_cursor)]
    | none => i

/-- The function `input_grab`. -/
def input_grab (i : input) (widget : Nat) (button : Nat) : input :=
  { i with grab := some widget, grab_button := button }

/-- The function `input_ungrab`; `w` is the window `input->pointer_focus`
points to when it is set. -/
def input_ungrab (hs : Nat → widget_handlers) (w : window) (i : input) : input :=
  let i := { i with grab := none }
  if i.pointer_focus then
    input_set_focus_widget hs i
      ((window_find_widget w (float_to_int i.sx) (float_to_int i.sy)).map widget.id) i.sx i.sy
  else i

/-- The hit test of `pointer_handle_motion`, skipped under a grab with a grab
button: the widget under the point becomes the focus widget. -/
def pointer_motion_retarget (hs : Nat → widget_handlers) (w : window) (i : input)
    (sx_w sy_w : Int) : input :=
  if !(i.grab.isSome && i.grab_button != 0) then
    input_set_focus_widget hs i
      ((window_find_widget w (float_to_int sx_w) (float_to_int sy_w)).map widget.id) sx_w sy_w
  else i

/-- The end of `pointer_handle_motion`: the motion handler of the grab, or of
the focus widget when there is no grab, is called with the focus widget, and
the cursor is set. -/
def pointer_motion_deliver (hs : Nat → widget_handlers) (i : input) (time : Nat)
    (sx_w sy_w : Int) : input :=
  let widget := match i.grab with
    | some grab => some grab
    | none => i.focus_widget
  match widget with
  | some widget =>
    if (hs widget).motion_handler then
      i.emit [input_call.motion_handler widget i.focus_widget time sx_w sy_w,
        input_call.input_set_pointer_image cursor_value.returned]
    else
      i.emit [input_call.input_set_pointer_image
        (cursor_value.default_cursor (hs widget).default_cursor)]
  | none => i.emit [input_call.input_set_pointer_image cursor_value.CURSOR_LEFT_PTR]

/-- The function `pointer_handle_motion`. -/
def pointer_handle_motion (hs : Nat → widget_handlers) (w : window) (i : input) (time : Nat)
    (sx_w sy_w : Int) : input :=
  let i := { i with sx := sx_w, sy := sy_w }
  if !i.pointer_focus then i
  else if sx_w > 256 * w.main_surface.allocation.width ∨
      sy_w > 256 * w.main_surface.allocation.height then i
  else pointer_motion_deliver hs (pointer_motion_retarget hs w i sx_w sy_w) time sx_w sy_w

/-- The head of `pointer_handle_button`: a press while there is a focus
widget and no grab grabs the focus widget with the button pressed. -/
def pointer_button_grab (i : input) (button : Nat) (state : wl_pointer_button_state) : input :=
  match i.focus_widget with
  | some focus =>
    if i.grab.isNone ∧ state = wl_pointer_button_state.WL_POINTER_BUTTON_STATE_PRESSED then
      input_grab i focus button
    else i
  | none => i

/-- The call of the button handler in `pointer_handle_button`: when there is
a grab and the grab widget has a button handler, the call is recorded and the
body of the handler runs on the input. -/
def pointer_button_deliver (hs : Nat → widget_handlers)
    (bh : Nat → Nat → Nat → wl_pointer_button_state → input → input) (i : input)
    (time button : Nat) (state : wl_pointer_button_state) : input :=
  match i.grab with
  | some widget =>
    if (hs widget).button_handler then
      bh widget time button state (i.emit [input_call.button_handler widget time button state])
    else i
  | none => i

/-- The function `pointer_handle_button`. -/
def pointer_handle_button (hs : Nat → widget_handlers)
    (bh : Nat → Nat → Nat → wl_pointer_button_state → input → input) (w : window) (i : input)
    (serial time button : Nat) (state : wl_pointer_button_state) : input :=
  let i := { i with display_serial := serial }
  let i := pointer_button_grab i button state
  let i := pointer_button_deliver hs bh i time button state
  if i.grab.isSome ∧ i.grab_button = button ∧
      state = wl_pointer_button_state.WL_POINTER_BUTTON_STATE_RELEASED then
    input_ungrab hs w i
  else i

/-- The button state as `frame_pointer_button` reads it: `frame_button_handler`
passes its `enum wl_pointer_button_state` on as `enum frame_button_state`. -/
def wl_pointer_button_state.to_frame_button_state :
    wl_pointer_button_state → frame_button_state
  | .WL_POINTER_BUTTON_STATE_RELEASED => frame_button_state.FRAME_BUTTON_RELEASED
  | .WL_POINTER_BUTTON_STATE_PRESSED => frame_button_state.FRAME_BUTTON_PRESSED

/-- What `window_show_menu` does to the input, the menu and its window being
allocated: `input_ungrab`, then `input_grab` of the widget of the menu with
button 0. `parent` is the window the pointer is on. -/
def window_show_menu_input (hs : Nat → widget_handlers) (parent : window) (menu_widget : Nat)
    (i : input) : input :=
  input_grab (input_ungrab hs parent i) menu_widget 0

/-- What `frame_handle_status` does to the input for the status word it reads:
the menu is shown on `FRAME_STATUS_MENU`, the function returns on
`FRAME_STATUS_CLOSE`, and on `FRAME_STATUS_MOVE` and on `FRAME_STATUS_RESIZE`
the grab is ended when the window has a shell surface. -/
def frame_handle_status_input (hs : Nat → widget_handlers) (w : window) (menu_widget : Nat)
    (status : frame_status) (i : input) : input :=
  let i := if status.menu then window_show_menu_input hs w menu_widget i else i
  if status.close then i
  else
    let i := if status.move ∧ w.shell_surface.isSome then input_ungrab hs w i else i
    if status.resize ∧ w.shell_surface.isSome then input_ungrab hs w i else i

/-- The body of `frame_button_handler` as a function of the input: the event
goes to `frame_pointer_button` with the input as the pointer's identity
`data`, and `frame_handle_status` acts on the status the frame has then. -/
def frame_button_handler_input (hs : Nat → widget_handlers) (w : window) (t : theme) (f : frame)
    (data menu_widget : Nat) (button : Nat) (state : wl_pointer_button_state) (i : input) :
    input :=
  frame_handle_status_input hs w menu_widget
    (frame_pointer_button t f data button state.to_frame_button_state).1.status i

/-- Button handlers whose bodies leave the input as it is. -/
def button_bodies_idle (_ _ _ : Nat) (_ : wl_pointer_button_state) (i : input) : input := i

/-- Handlers of the concrete runs: widget 10 has all four, widget 11 a motion
handler only, any other widget none. -/
def handlers0 (id : Nat) : widget_handlers :=
  if id = 10 then
    { enter_handler := true, leave_handler := true, motion_handler := true,
      button_handler := true, default_cursor := 4 }
  else if id = 11 then
    { enter_handler := false, leave_handler := false, motion_handler := true,
      button_handler := false, default_cursor := 4 }
  else
    { enter_handler := false, leave_handler := false, motion_handler := false,
      button_handler := false, default_cursor := 4 }

/-- A 400 x 300 window whose root widget 10 fills the main surface and has one
child, widget 11, at (100, 100) of size 50 x 50. -/
def window_pointed : window :=
  { window_fresh with
    main_surface :=
      { window_fresh.main_surface with
        allocation := { x := 0, y := 0, width := 400, height := 300 },
        widget :=
          .mk 10 { x := 0, y := 0, width := 400, height := 300 } true true false
            [.mk 11 { x := 100, y := 100, width := 50, height := 50 } false true false []] } }

/-- An input whose pointer is over `window_pointed` at (120, 120), with
widget 11 in focus and no grab. -/
def input_over_child : input :=
  { pointer_focus := true, focus_widget := some 11, grab := none, grab_button := 0,
    sx := 120 * 256, sy := 120 * 256, display_serial := 0, calls := [] }

/-- The input after a press of the left button (code 272) over widget 11. -/
def input_grabbed : input :=
  pointer_handle_button handlers0 button_bodies_idle window_pointed input_over_child 1 0 272
    wl_pointer_button_state.WL_POINTER_BUTTON_STATE_PRESSED

/-- The key code `BTN_MIDDLE` of `linux/input.h`. -/
def BTN_MIDDLE : Nat := 0x112

/-- The titled 400 x 300 frame with pointer 1 on its title bar at (200, 40),
off the buttons. -/
def frame_on_titlebar : frame := (frame_pointer_motion theme0 frame_titled 1 200 40).1

/-- The button handlers of a decorated `window_pointed`: widget 10 is the
widget of the frame, with `frame_button_handler` as its button handler, acting
for input 1 on `frame_on_titlebar`; a menu would get widget 20. The bodies of
the other handlers leave the input alone. -/
def button_bodies_frame (widget _ button : Nat) (state : wl_pointer_button_state)
    (i : input) : input :=
  if widget = 10 then
    frame_button_handler_input handlers0 window_pointed theme0 frame_on_titlebar 1 20 button
      state i
  else i

/-- An input whose pointer is on the title bar of `window_pointed` at
(200, 40), with the frame widget 10 in focus and no grab. -/
def input_on_titlebar : input :=
  { pointer_focus := true, focus_widget := some 10, grab := none, grab_button := 0,
    sx := 200 * 256, sy := 40 * 256, display_serial := 0, calls := [] }

/-- The input after a press of the middle button on the title bar. -/
def input_frame_grabbed : input :=
  pointer_handle_button handlers0 button_bodies_frame window_pointed input_on_titlebar 1 0
    BTN_MIDDLE wl_pointer_button_state.WL_POINTER_BUTTON_STATE_PRESSED

/-! ## Hit testing: the widgets of a subtree -/

/-- Whether the allocation of the widget holds the point: the test of
`widget_find_widget`. -/
def widget.contains (wd : widget) (x y : Int) : Prop :=
  wd.allocation.x ≤ x ∧ x < wd.allocation.x + wd.allocation.width ∧
    wd.allocation.y ≤ y ∧ y < wd.allocation.y + wd.allocation.height

instance (wd : widget) (x y : Int) : Decidable (wd.contains x y) := by
  unfold widget.contains
  exact inferInstance

mutual
/-- The widget and all widgets below it. -/
def widget_subtree : widget → List widget
  | .mk id a rs rd o cs => .mk id a rs rd o cs :: widget_subtree_children cs
/-- The widgets of the subtrees of a list of children. -/
def widget_subtree_children : List widget → List widget
  | [] => []
  | c :: cs => widget_subtree c ++ widget_subtree_children cs
end

/-- The function `widget_add_widget` with `widget_create`: the new widget,
with identity `id`, takes the allocation of the surface, has no handler and no
child, and is linked at the tail of the parent's child list. -/
def widget_add_widget (parent : widget) (id : Nat) (surface_allocation : rectangle) : widget :=
  match parent with
  | .mk pid a rs rd o cs =>
    .mk pid a rs rd o (cs ++ [.mk id surface_allocation false false false []])

/-- A root widget with two overlapping children, 11 before 12; 11 has a child
13 of its own. -/
def widget_overlapping : widget :=
  .mk 10 { x := 0, y := 0, width := 400, height := 300 } false false false
    [.mk 11 { x := 100, y := 100, width := 50, height := 50 } false false false
        [.mk 13 { x := 110, y := 110, width := 10, height := 10 } false false false []],
      .mk 12 { x := 120, y := 120, width := 50, height := 50 } false false false []]

/-! ## Maximizing, and the redraw task while a configure is awaited -/

/-- The function `window_is_maximized`. -/
def window_is_maximized (w : window) : Bool := w.type = window_type.TYPE_MAXIMIZED

/-- The function `window_set_maximized`; `shell` tells whether
`window->display->shell` is set. A request on a `NULL` shell surface ends the
run. -/
def window_set_maximized (shell : Bool) (w : window) (maximized : Int) : Option window :=
  if !shell then some w
  else if (if w.type = window_type.TYPE_MAXIMIZED then (1 : Int) else 0) = maximized then some w
  else
    match w.shell_surface with
    | none => none
    | some sh =>
      if w.type = window_type.TYPE_TOPLEVEL then
        some (window_defer_redraw_until_configure
          { (w.emit [window_call.wl_shell_surface_set_maximized sh]) with
            saved_allocation := w.main_surface.allocation,
            type := window_type.TYPE_MAXIMIZED })
      else if w.type = window_type.TYPE_FULLSCREEN then
        some (window_defer_redraw_until_configure
          { (w.emit [window_call.wl_shell_surface_set_maximized sh]) with
            type := window_type.TYPE_MAXIMIZED })
      else
        some (window_schedule_resize
          { (w.emit [window_call.wl_shell_surface_set_toplevel sh]) with
            type := window_type.TYPE_TOPLEVEL }
          w.saved_allocation.width w.saved_allocation.height)

/-- What can happen to a window of a display with a shell, the redraw task
being run by the main loop only. -/
inductive toolkit_event where
  | widget_schedule_redraw (r : surface_ref)
  | window_schedule_redraw
  | window_schedule_resize (width height : Int)
  | display_run_task
  | frame_callback (r : surface_ref) (callback time : Nat)
  | window_add_subsurface (root : widget) (synchronized_default : Bool)
  | window_defer_redraw_until_configure
  | configure_request_completed (callback : Nat)
  | window_set_maximized (maximized : Int)
deriving Repr

/-- Apply one event. -/
def toolkit_step (w : window) : toolkit_event → Option window
  | .widget_schedule_redraw r => some (widget_schedule_redraw w r)
  | .window_schedule_redraw => some (window_schedule_redraw w)
  | .window_schedule_resize width height => some (window_schedule_resize w width height)
  | .display_run_task => display_run_task w
  | .frame_callback r cb t => frame_callback w r cb t
  | .window_add_subsurface root sync => some (window_add_subsurface w root sync)
  | .window_defer_redraw_until_configure => some (window_defer_redraw_until_configure w)
  | .configure_request_completed cb => some (configure_request_completed w cb)
  | .window_set_maximized maximized => window_set_maximized true w maximized

/-- Apply a sequence of events, stopping at the first that ends the process. -/
def toolkit_run (w : window) : List toolkit_event → Option window
  | [] => some w
  | e :: es =>
    match toolkit_step w e with
    | none => none
    | some w1 => toolkit_run w1 es

/-- The queue side of a window: the deferred list, whether the redraw task
counts as scheduled, and the number of configure acknowledgements awaited. -/
def window.queue (w : window) : List task × Bool × Int :=
  (w.display.deferred_list, w.redraw_task_scheduled, w.configure_requests)

/-- The redraw task is on the deferred list exactly when the window counts it
as scheduled, at most once, and not at all while a configure acknowledgement is
awaited. -/
structure redraw_queue_ok (w : window) : Prop where
  scheduled_iff : w.redraw_task_scheduled = true ↔ task.redraw_task ∈ w.display.deferred_list
  once : w.display.deferred_list.count task.redraw_task ≤ 1
  suppressed : 0 < w.configure_requests → w.redraw_task_scheduled = false

/-- A window drawn once: the main surface waits for its frame callback. -/
def window_drawn : window :=
  (window_run window_fresh
    [window_event.window_schedule_redraw, window_event.display_run_task]).getD window_fresh

/-- The window `window_drawn` after a widget asked for a redraw and the window
was then maximized: the redraw is wanted, a configure acknowledgement is
awaited, and the frame callback has not arrived yet. -/
def window_redraw_wanted_configuring : window :=
  (toolkit_run window_drawn
    [toolkit_event.widget_schedule_redraw surface_ref.main,
     toolkit_event.window_set_maximized 1]).getD window_fresh

/-- A window is drawn, a widget asks for a redraw, and the window is
maximized. -/
def events_maximize_after_redraw_request : List toolkit_event :=
  [toolkit_event.window_schedule_redraw, toolkit_event.display_run_task,
   toolkit_event.widget_schedule_redraw surface_ref.main,
   toolkit_event.window_set_maximized 1]

/-! ## Destroying a window

Windows and widgets are named by numbers here; `widget_window` gives the
field `widget->window`. -/

/-- The pointers to windows and widgets that `struct input` holds. -/
structure input_links where
  touch_focus : Option Nat
  pointer_focus : Option Nat
  keyboard_focus : Option Nat
  focus_widget : Option Nat
  grab : Option Nat
deriving DecidableEq, Repr

/-- The lists of the display that `window_destroy` walks or unlinks from, and
the window of every widget. -/
structure display_links where
  input_list : List input_links
  window_list : List Nat
  widget_window : Nat → Nat

/-- The body of the loop of `window_destroy` over the inputs. -/
def window_destroy_input (widget_window : Nat → Nat) (window : Nat) (input : input_links) :
    input_links :=
  let input := if input.touch_focus = some window then { input with touch_focus := none } else input
  let input :=
    if input.pointer_focus = some window then { input with pointer_focus := none } else input
  let input :=
    if input.keyboard_focus = some window then { input with keyboard_focus := none } else input
  match input.focus_widget with
  | some widget =>
    if widget_window widget = window then { input with focus_widget := none } else input
  | none => input

/-- The function `window_destroy`, as far as it changes what other objects
point to: the loop over the inputs, and the window leaves the window list. -/
def window_destroy (d : display_links) (window : Nat) : display_links :=
  { d with
    input_list := d.input_list.map (window_destroy_input d.widget_window window),
    window_list := d.window_list.erase window }

/-- A display with windows 1 and 2; widget 10 belongs to window 1 and every
other widget to window 2. Its one input has the pointer on window 1, with
widget 10 in focus and grabbed. -/
def display_grabbed : display_links :=
  { input_list :=
      [{ touch_focus := none, pointer_focus := some 1, keyboard_focus := some 1,
         focus_widget := some 10, grab := some 10 }],
    window_list := [2, 1],
    widget_window := fun wd => if wd = 10 then 1 else 2 }

/-! ## Touch dispatch (window.c) -/

/-- The touch handler fields of `struct widget`. -/
structure touch_handlers where
  touch_down_handler : Bool
  touch_up_handler : Bool
  touch_motion_handler : Bool
  touch_frame_handler : Bool
  touch_cancel_handler : Bool
deriving DecidableEq, Repr

/-- One tracked touch point (`struct touch_point`). -/
structure touch_point where
  id : Int
  widget : Nat
deriving DecidableEq, Repr

/-- The calls of widget touch handlers, with the widget whose handler runs. -/
inductive touch_call where
  | touch_down_handler (widget : Nat) (serial time : Nat) (id : Int) (x y : Int)
  | touch_up_handler (widget : Nat) (serial time : Nat) (id : Int)
  | touch_motion_handler (widget : Nat) (time : Nat) (id : Int) (x y : Int)
  | touch_frame_handler (widget : Nat)
  | touch_cancel_handler (widget : Nat)
deriving DecidableEq, Repr

/-- The touch part of `struct input`: whether `touch_focus` is set, the list
of touch points (head first), `input->display->serial`, and the handler calls
made. -/
structure touch_input where
  touch_focus : Bool
  touch_point_list : List touch_point
  display_serial : Nat
  calls : List touch_call
deriving DecidableEq, Repr

/-- The function `touch_handle_down`; `focus` is the window
`wl_surface_get_user_data` finds for the surface. The allocation of the touch
point succeeds. -/
def touch_handle_down (ths : Nat → touch_handlers) (i : touch_input) (focus : Option window)
    (serial time : Nat) (id : Int) (x_w y_w : Int) : touch_input :=
  let i := { i with display_serial := serial, touch_focus := focus.isSome }
  match focus with
  | none => i
  | some w =>
    match window_find_widget w (float_to_int x_w) (float_to_int y_w) with
    | some widget =>
      let i :=
        { i with touch_point_list := { id := id, widget := widget.id } :: i.touch_point_list }
      if (ths widget.id).touch_down_handler then
        { i with calls :=
            i.calls ++ [touch_call.touch_down_handler widget.id serial time id x_w y_w] }
      else i
    | none => i

/-- The first touch point with this id. -/
def find_touch_point (id : Int) : List touch_point → Option touch_point
  | [] => none
  | tp :: tps => if tp.id ≠ id then find_touch_point id tps else some tp

/-- The function `touch_handle_up`. -/
def touch_handle_up (ths : Nat → touch_handlers) (i : touch_input) (serial time : Nat)
    (id : Int) : touch_input :=
  if !i.touch_focus then i
  else
    match find_touch_point id i.touch_point_list with
    | none => i
    | some tp =>
      let i :=
        if (ths tp.widget).touch_up_handler then
          { i with calls := i.calls ++ [touch_call.touch_up_handler tp.widget serial time id] }
        else i
      { i with touch_point_list := i.touch_point_list.erase tp }

/-- The function `touch_handle_motion`. -/
def touch_handle_motion (ths : Nat → touch_handlers) (i : touch_input) (time : Nat) (id : Int)
    (x_w y_w : Int) : touch_input :=
  if !i.touch_focus then i
  else
    match find_touch_point id i.touch_point_list with
    | none => i
    | some tp =>
      if (ths tp.widget).touch_motion_handler then
        { i with calls :=
            i.calls ++ [touch_call.touch_motion_handler tp.widget time id x_w y_w] }
      else i

/-- The function `touch_handle_frame`: every touch point gets the frame
handler of its widget and is then unlinked and freed. -/
def touch_handle_frame (ths : Nat → touch_handlers) (i : touch_input) : touch_input :=
  if !i.touch_focus then i
  else
    { i with
      calls := i.calls ++
        (i.touch_point_list.filter (fun tp => (ths tp.widget).touch_frame_handler)).map
          (fun tp => touch_call.touch_frame_handler tp.widget),
      touch_point_list := [] }

/-- The function `touch_handle_cancel`. -/
def touch_handle_cancel (ths : Nat → touch_handlers) (i : touch_input) : touch_input :=
  if !i.touch_focus then i
  else
    { i with
      calls := i.calls ++
        (i.touch_point_list.filter (fun tp => (ths tp.widget).touch_cancel_handler)).map
          (fun tp => touch_call.touch_cancel_handler tp.widget),
      touch_point_list := [] }

/-- Touch handlers of the concrete runs: every widget has all five. -/
def touch_handlers0 (_ : Nat) : touch_handlers :=
  { touch_down_handler := true, touch_up_handler := true, touch_motion_handler := true,
    touch_frame_handler := true, touch_cancel_handler := true }

/-- An input with no touch focus and no touch point. -/
def touch_idle : touch_input :=
  { touch_focus := false, touch_point_list := [], display_serial := 0, calls := [] }

/-- The input after touch point 0 went down on widget 11 of `window_pointed`. -/
def touch_down_on_child : touch_input :=
  touch_handle_down touch_handlers0 touch_idle (some window_pointed) 1 0 0 (120 * 256) (120 * 256)

/-! ## Receiving selection and drag data (`offer_io_func`) -/

/-- The fields of `struct data_offer` that `offer_io_func` changes: the
reference count, whether the read end of the pipe is open, and whether the
offer was destroyed and freed. -/
structure data_offer where
  refcount : Int
  fd_open : Bool
  destroyed : Bool
deriving DecidableEq, Repr

/-- The function `data_offer_destroy`: drop one reference, and destroy the
offer when it was the last. -/
def data_offer_destroy (offer : data_offer) : data_offer :=
  let offer := { offer with refcount := offer.refcount - 1 }
  if offer.refcount = 0 then { offer with destroyed := true } else offer

/-- The function `offer_io_func`; `result` is what `read` returned: the number
of bytes read, 0 at the end of the data, -1 on failure. It is stored in an
`unsigned int`. The result is the offer afterwards and the length handed to the
consumer callback `offer->func`. -/
def offer_io_func (offer : data_offer) (result : Int) : data_offer × Nat :=
  let len : Nat := (result % 2 ^ 32).toNat
  if len = 0 then (data_offer_destroy { offer with fd_open := false }, len)
  else (offer, len)

/-- An offer being read: one reference for the input that holds it and one
taken by `data_offer_receive_data`. -/
def offer_reading : data_offer := { refcount := 2, fd_open := true, destroyed := false }

/-! ## The launcher's open request (`weston-launch.c`) -/

/-- What `handle_open` reads of `struct stat`: whether `st_mode` says
character device, and `major(st_rdev)`. -/
structure file_stat where
  char_device : Bool
  rdev_major : Nat
deriving DecidableEq, Repr

/-- The fields of `struct weston_launch` that `handle_open` writes. -/
structure weston_launch where
  drm_fd : Int
  last_input_fd : Int
deriving DecidableEq, Repr

/-- The reply `handle_open` sends: the integer `ret`, and the descriptor
attached as ancillary data, if any. -/
structure open_reply where
  ret : Int
  fd : Option Nat
deriving DecidableEq, Repr

/-- What a call of `handle_open` leaves: the launcher state, the reply handed
to `sendmsg`, the descriptors closed, and the value returned. -/
structure handle_open_result where
  launch : weston_launch
  reply : open_reply
  closed : List Nat
  returned : Int
deriving DecidableEq, Repr

/-- The constant `DRM_MAJOR` of `weston-launch.c`. -/
def DRM_MAJOR : Nat := 226

/-- The checks of `handle_open` up to the label `err0`: the descriptor that is
kept, and the descriptors closed on the way. -/
def handle_open_checks (INPUT_MAJOR header_size len : Nat) (opened : Option Nat)
    (st : Option file_stat) : Option Nat × List Nat :=
  if len < header_size then (none, [])
  else
    match opened with
    | none => (none, [])
    | some fd =>
      match st with
      | none => (none, [fd])
      | some s =>
        if s.rdev_major ≠ INPUT_MAJOR ∧ s.rdev_major ≠ DRM_MAJOR then (none, [fd])
        else (some fd, [])

/-- The function `handle_open`. `INPUT_MAJOR` is the constant of
`linux/major.h` and `header_size` is `sizeof(struct weston_launcher_open)`;
`len` is the length of the request, `opened` the descriptor `open` returned
for the path (none when it failed), `st` what `fstat` stored (none when it
failed), and `sent` whether `sendmsg` went through. -/
def handle_open (INPUT_MAJOR header_size : Nat) (wl : weston_launch) (len : Nat)
    (opened : Option Nat) (st : Option file_stat) (sent : Bool) : handle_open_result :=
  let checked := handle_open_checks INPUT_MAJOR header_size len opened st
  let reply : open_reply :=
    { ret := if checked.1.isSome then 0 else -1, fd := checked.1 }
  if !sent then { launch := wl, reply := reply, closed := checked.2, returned := -1 }
  else
    let wl :=
      match checked.1, st with
      | some fd, some s =>
        let wl := if s.rdev_major = DRM_MAJOR then { wl with drm_fd := fd } else wl
        if s.rdev_major = INPUT_MAJOR ∧ wl.last_input_fd < fd then
          { wl with last_input_fd := fd }
        else wl
      | _, _ => wl
    { launch := wl, reply := reply, closed := checked.2, returned := 0 }

/-- A launcher that has opened nothing yet. -/
def launch0 : weston_launch := { drm_fd := -1, last_input_fd := -1 }

/-! ## The drag-and-drop demo (`dnd.c`): the flower message

A C `int` takes four bytes, least significant first, and
`struct dnd_flower_message` is three of them with no padding. -/

/-- The four bytes of an `int`. -/
def int_to_bytes (v : Int) : List Nat :=
  let u := (v % 2 ^ 32).toNat
  [u % 256, u / 256 % 256, u / 65536 % 256, u / 16777216 % 256]

/-- The `int` stored in the first four bytes of a buffer. -/
def bytes_to_int (bs : List Nat) : Int :=
  let u := bs.getD 0 0 + 256 * bs.getD 1 0 + 65536 * bs.getD 2 0 + 16777216 * bs.getD 3 0
  if u ≥ 2 ^ 31 then (u : Int) - 2 ^ 32 else (u : Int)

/-- The size `sizeof(struct dnd_flower_message)`. -/
def sizeof_dnd_flower_message : Nat := 12

/-- The string `flower_mime_type`. -/
def flower_mime_type : String := "application/x-wayland-dnd-flower"

/-- The string `text_mime_type`. -/
def text_mime_type : String := "text/plain;charset=utf-8"

/-- The function `data_source_send`, with `write` succeeding: the bytes
written to the descriptor before it is closed, for an item with this seed
dragged at these offsets. -/
def data_source_send (mime_type : String) (seed x_offset y_offset : Int) : List Nat :=
  if mime_type = flower_mime_type then
    int_to_bytes seed ++ int_to_bytes x_offset ++ int_to_bytes y_offset
  else if mime_type = text_mime_type then
    (s!"seed={seed} x={x_offset} y={y_offset}\n").toUTF8.toList.map (fun b => b.toNat)
  else []

/-- An item of the demo (`struct item`), without its picture. -/
structure item where
  seed : Int
  x : Int
  y : Int
deriving DecidableEq, Repr

/-- The part of `struct dnd` the receiver touches: the origin of the widget,
the sixteen item slots, and whether a redraw of the window was asked for. -/
structure dnd where
  allocation : rectangle
  items : List (Option item)
  redraw_scheduled : Bool
deriving DecidableEq, Repr

/-- The function `item_create`, with the allocation succeeding; `tv_usec` is
the microsecond field `gettimeofday` returns. -/
def item_create (x y seed tv_usec : Int) : item :=
  { seed := if seed ≠ 0 then seed else tv_usec, x := x, y := y }

/-- The loop of `dnd_add_item`: the item goes to the first free slot. -/
def add_item_slots (it : item) : List (Option item) → List (Option item)
  | [] => []
  | none :: slots => some it :: slots
  | some other :: slots => some other :: add_item_slots it slots

/-- The function `dnd_add_item`. -/
def dnd_add_item (d : dnd) (it : item) : dnd :=
  { d with items := add_item_slots it d.items }

/-- The function `dnd_receive_func`: `data` is the buffer handed over, `len`
the length that comes with it, `(x, y)` the drop point. -/
def dnd_receive_func (d : dnd) (data : List Nat) (len : Nat) (x y tv_usec : Int) : dnd :=
  if len = 0 then d
  else if len ≠ sizeof_dnd_flower_message then d
  else
    let seed := bytes_to_int data
    let x_offset := bytes_to_int (data.drop 4)
    let y_offset := bytes_to_int (data.drop 8)
    let it :=
      item_create (x - x_offset - d.allocation.x) (y - y_offset - d.allocation.y) seed tv_usec
    { (dnd_add_item d it) with redraw_scheduled := true }

/-- A demo window whose widget starts at (32, 59), with the first slot taken
and the other fifteen free. -/
def dnd0 : dnd :=
  { allocation := { x := 32, y := 59, width := 400, height := 300 },
    items := some { seed := 7, x := 16, y := 16 } :: List.replicate 15 none,
    redraw_scheduled := false }

/-! ## Shared-memory surface: lemmas -/

theorem pick_leaf_set_dxdy (s : shm_surface) (dx dy : Int) :
    pick_leaf { s with dx := dx, dy := dy } = pick_leaf s := rfl

theorem pick_leaf_not_busy (s : shm_surface) (i : Fin 3) (h : pick_leaf s = some i) :
    (s.leaf i).busy = false := by
  unfold pick_leaf at h
  simp only [leaf_indices, List.foldl, pick_leaf_step] at h
  cases h0 : (s.leaf 0).busy <;> cases h1 : (s.leaf 1).busy <;> cases h2 : (s.leaf 2).busy <;>
    simp [h0, h1, h2] at h <;>
    (try (split_ifs at h)) <;> (try subst h) <;> (try assumption) <;> simp_all

theorem pick_leaf_eq_none_iff (s : shm_surface) :
    pick_leaf s = none ↔ ∀ i : Fin 3, (s.leaf i).busy = true := by
  unfold pick_leaf
  simp only [leaf_indices, List.foldl, pick_leaf_step, Fin.forall_fin_succ]
  cases h0 : (s.leaf 0).busy <;> cases h1 : (s.leaf 1).busy <;> cases h2 : (s.leaf 2).busy <;>
    simp [h0, h1, h2] <;> (try split_ifs) <;> simp_all


@[simp] theorem leaf_setLeaf_same (s : shm_surface) (i : Fin 3) (l : shm_surface_leaf) :
    (s.setLeaf i l).leaf i = l := by
  fin_cases i <;> rfl

theorem leaf_setLeaf_ne (s : shm_surface) (i j : Fin 3) (l : shm_surface_leaf) (h : j ≠ i) :
    (s.setLeaf i l).leaf j = s.leaf j := by
  fin_cases i <;> fin_cases j <;> first | rfl | exact absurd rfl h

theorem pick_leaf_storage (s : shm_surface) (i j : Fin 3) (h : pick_leaf s = some i)
    (hb : (s.leaf j).busy = false) (hs : (s.leaf j).cairo_surface.isSome = true) :
    (s.leaf i).cairo_surface.isSome = true := by
  unfold pick_leaf at h
  simp only [leaf_indices, List.foldl, pick_leaf_step] at h
  fin_cases j <;> simp only [Fin.zero_eta, Fin.mk_one, Fin.reduceFinMk] at hb hs <;>
  cases h0 : (s.leaf 0).busy <;> cases h1 : (s.leaf 1).busy <;> cases h2 : (s.leaf 2).busy <;>
    simp [h0, h1, h2] at h hb <;>
    (try (split_ifs at h)) <;> (try subst h) <;> (try assumption) <;> simp_all

theorem prepare_drop_pool_busy (rh : Bool) (leaf : shm_surface_leaf) (log : List shm_call) :
    (prepare_drop_pool rh leaf log).1.busy = leaf.busy := by
  unfold prepare_drop_pool
  split
  · split <;> rfl
  · rfl

theorem prepare_allocate_busy (cfg : build_config) (rh : Bool) (wh : Int × Int)
    (leaf : shm_surface_leaf) (n : Nat) (log : List shm_call) :
    (prepare_allocate cfg rh wh leaf n log).leaf.busy = leaf.busy := by
  unfold prepare_allocate
  dsimp only
  split <;> rfl

theorem prepare_leaf_busy (cfg : build_config) (rh : Bool) (wh : Int × Int)
    (leaf : shm_surface_leaf) (n : Nat) (log : List shm_call) :
    (prepare_leaf cfg rh wh leaf n log).leaf.busy = leaf.busy := by
  unfold prepare_leaf
  dsimp only
  split
  · split
    · exact prepare_drop_pool_busy rh leaf log
    · rw [prepare_allocate_busy, prepare_drop_pool_busy]
  · rw [prepare_allocate_busy, prepare_drop_pool_busy]

theorem prepare_leaf_storage (cfg : build_config) (rh : Bool) (wh : Int × Int)
    (leaf : shm_surface_leaf) (n : Nat) (log : List shm_call) :
    (prepare_leaf cfg rh wh leaf n log).leaf.cairo_surface =
      some (prepare_leaf cfg rh wh leaf n log).result := by
  unfold prepare_leaf
  dsimp only
  split
  · rename_i cs hcs
    split
    · exact hcs
    · rfl
  · rfl

theorem prepare_leaf_size (cfg : build_config) (rh : Bool) (wh : Int × Int)
    (leaf : shm_surface_leaf) (n : Nat) (log : List shm_call) :
    (prepare_leaf cfg rh wh leaf n log).result.width = wh.1 ∧
      (prepare_leaf cfg rh wh leaf n log).result.height = wh.2 := by
  unfold prepare_leaf
  dsimp only
  split
  · split
    · assumption
    · exact ⟨rfl, rfl⟩
  · exact ⟨rfl, rfl⟩

/-- The function `shm_surface_prepare` as a map over the picked leaf. -/
theorem prepare_unfold (cfg : build_config) (s : shm_surface) (dx dy width height : Int)
    (flags : Nat) (bt : wl_output_transform) (scale : Int) :
    shm_surface_prepare cfg s dx dy width height flags bt scale =
      (pick_leaf s).map (fun i =>
        ({ ({ s with dx := dx, dy := dy } : shm_surface).setLeaf i
              (prepare_leaf cfg ((flags &&& cfg.SURFACE_HINT_RESIZE) != 0)
                (surface_to_buffer_size bt scale width height) (s.leaf i) s.next_handle s.log).leaf
            with
            current := some i,
            next_handle := (prepare_leaf cfg ((flags &&& cfg.SURFACE_HINT_RESIZE) != 0)
                (surface_to_buffer_size bt scale width height) (s.leaf i) s.next_handle
                s.log).next_handle,
            log := (prepare_leaf cfg ((flags &&& cfg.SURFACE_HINT_RESIZE) != 0)
                (surface_to_buffer_size bt scale width height) (s.leaf i) s.next_handle
                s.log).log },
         (prepare_leaf cfg ((flags &&& cfg.SURFACE_HINT_RESIZE) != 0)
                (surface_to_buffer_size bt scale width height) (s.leaf i) s.next_handle
                s.log).result)) := by
  unfold shm_surface_prepare
  show (match pick_leaf s with | none => none | some i => _) = _
  cases pick_leaf s <;> rfl

/-- What a successful `shm_surface_prepare` leaves behind, in terms of the
picked leaf. -/
theorem prepare_spec (cfg : build_config) (s s1 : shm_surface) (dx dy width height : Int)
    (flags : Nat) (bt : wl_output_transform) (scale : Int) (cs : cairo_surface_t)
    (h : shm_surface_prepare cfg s dx dy width height flags bt scale = some (s1, cs)) :
    ∃ i, pick_leaf s = some i ∧ s1.current = some i ∧
      s1.leaf i = (prepare_leaf cfg ((flags &&& cfg.SURFACE_HINT_RESIZE) != 0)
        (surface_to_buffer_size bt scale width height) (s.leaf i) s.next_handle s.log).leaf ∧
      cs = (prepare_leaf cfg ((flags &&& cfg.SURFACE_HINT_RESIZE) != 0)
        (surface_to_buffer_size bt scale width height) (s.leaf i) s.next_handle s.log).result ∧
      ∀ j, j ≠ i → s1.leaf j = s.leaf j := by
  rw [prepare_unfold] at h
  cases hp : pick_leaf s with
  | none => simp [hp] at h
  | some i =>
    simp only [hp, Option.map_some', Option.some.injEq, Prod.mk.injEq] at h
    obtain ⟨h1, h2⟩ := h
    refine ⟨i, rfl, ?_, ?_, ?_, ?_⟩
    · rw [← h1]
    · rw [← h1]
      fin_cases i <;> rfl
    · rw [← h2]
    · intro j hj
      rw [← h1]
      fin_cases i <;> fin_cases j <;> first | rfl | exact absurd rfl hj

theorem prepare_eq_none_iff (cfg : build_config) (s : shm_surface) (dx dy width height : Int)
    (flags : Nat) (bt : wl_output_transform) (scale : Int) :
    shm_surface_prepare cfg s dx dy width height flags bt scale = none ↔ pick_leaf s = none := by
  rw [prepare_unfold]
  cases hp : pick_leaf s <;> simp


theorem release_extra_step_eq (t : shm_surface) (ff : Bool) (i : Fin 3) :
    release_extra_step (t, ff) i =
      if (t.leaf i).free_with_storage then
        (if ff then (shm_surface_leaf_release t i, true) else (t, true))
      else (t, ff) := by
  unfold release_extra_step shm_surface_leaf.free_with_storage
  cases hb : (t.leaf i).busy <;> cases hc : (t.leaf i).cairo_surface <;> cases ff <;> simp [hb, hc]

theorem leaf_release_same (t : shm_surface) (i : Fin 3) :
    (shm_surface_leaf_release t i).leaf i = shm_surface_leaf.zero := by
  fin_cases i <;> rfl

theorem leaf_release_ne (t : shm_surface) (i j : Fin 3) (h : j ≠ i) :
    (shm_surface_leaf_release t i).leaf j = t.leaf j := by
  fin_cases i <;> fin_cases j <;> first | rfl | exact absurd rfl h

/-- The second loop leaves leaf 0 alone, zeroes leaf 1 when leaves 0 and 1 are
both free with storage, and zeroes leaf 2 when it is free with storage and so
is leaf 0 or leaf 1. -/
theorem release_extra_leaves_eq (s : shm_surface) :
    (release_extra_leaves s).leaf 0 = s.leaf 0 ∧
    (release_extra_leaves s).leaf 1 =
      (if (s.leaf 0).free_with_storage && (s.leaf 1).free_with_storage
        then shm_surface_leaf.zero else s.leaf 1) ∧
    (release_extra_leaves s).leaf 2 =
      (if ((s.leaf 0).free_with_storage || (s.leaf 1).free_with_storage) &&
          (s.leaf 2).free_with_storage
        then shm_surface_leaf.zero else s.leaf 2) := by
  cases h0 : (s.leaf 0).free_with_storage <;> cases h1 : (s.leaf 1).free_with_storage <;>
    cases h2 : (s.leaf 2).free_with_storage <;>
    simp [release_extra_leaves, leaf_indices, List.foldl, release_extra_step_eq, h0, h1, h2,
      leaf_release_same, leaf_release_ne _ 1 0 (by decide), leaf_release_ne _ 2 0 (by decide),
      leaf_release_ne _ 2 1 (by decide), leaf_release_ne _ 1 2 (by decide)]


theorem zero_not_free_with_storage : shm_surface_leaf.zero.free_with_storage = false := rfl

theorem release_extra_leaves_cases (s : shm_surface) (j : Fin 3) :
    (release_extra_leaves s).leaf j = s.leaf j ∨
      ((release_extra_leaves s).leaf j = shm_surface_leaf.zero ∧
        (s.leaf j).free_with_storage = true) := by
  obtain ⟨e0, e1, e2⟩ := release_extra_leaves_eq s
  cases h0 : (s.leaf 0).free_with_storage <;> cases h1 : (s.leaf 1).free_with_storage <;>
    cases h2 : (s.leaf 2).free_with_storage <;>
    simp only [h0, h1, h2, Bool.and_self, Bool.or_self, Bool.and_true, Bool.and_false,
      Bool.or_true, Bool.or_false, if_true, if_false, Bool.false_eq_true] at e1 e2 <;>
    fin_cases j <;> simp_all

theorem release_extra_leaves_unique (s : shm_surface) (j k : Fin 3)
    (hj : ((release_extra_leaves s).leaf j).free_with_storage = true)
    (hk : ((release_extra_leaves s).leaf k).free_with_storage = true) : j = k := by
  obtain ⟨e0, e1, e2⟩ := release_extra_leaves_eq s
  cases h0 : (s.leaf 0).free_with_storage <;> cases h1 : (s.leaf 1).free_with_storage <;>
    cases h2 : (s.leaf 2).free_with_storage <;>
    simp only [h0, h1, h2, Bool.and_self, Bool.or_self, Bool.and_true, Bool.and_false,
      Bool.or_true, Bool.or_false, if_true, if_false, Bool.false_eq_true] at e1 e2 <;>
    fin_cases j <;> fin_cases k <;>
    simp_all [zero_not_free_with_storage]

theorem release_extra_leaves_exists (s : shm_surface) (j : Fin 3)
    (hj : (s.leaf j).free_with_storage = true) :
    ∃ k, ((release_extra_leaves s).leaf k).free_with_storage = true := by
  obtain ⟨e0, e1, e2⟩ := release_extra_leaves_eq s
  cases h0 : (s.leaf 0).free_with_storage
  · cases h1 : (s.leaf 1).free_with_storage
    · cases h2 : (s.leaf 2).free_with_storage
      · fin_cases j <;> simp_all
      · refine ⟨2, ?_⟩
        rw [e2]
        simp [h0, h1, h2]
    · refine ⟨1, ?_⟩
      rw [e1]
      simp [h0, h1]
  · exact ⟨0, by rw [e0]; exact h0⟩

theorem find_released_leaf_some (s : shm_surface) (buffer : Nat) (i : Fin 3)
    (h : find_released_leaf s buffer = some i) : (s.leaf i).data = some { buffer := buffer } := by
  unfold find_released_leaf at h
  have h1 := List.find?_some h
  cases hd : (s.leaf i).data with
  | none => simp [hd] at h1
  | some d =>
    simp only [hd, beq_iff_eq] at h1
    cases d
    simp_all

theorem find_released_leaf_isSome (s : shm_surface) (buffer : Nat) (i : Fin 3)
    (h : (s.leaf i).data = some { buffer := buffer }) :
    ∃ k, find_released_leaf s buffer = some k := by
  cases hf : find_released_leaf s buffer with
  | some k => exact ⟨k, rfl⟩
  | none =>
    unfold find_released_leaf at hf
    rw [List.find?_eq_none] at hf
    have := hf i (by fin_cases i <;> simp [leaf_indices])
    simp [h] at this


theorem pick_leaf_stable (s s1 : shm_surface) (i : Fin 3) (hp : pick_leaf s = some i)
    (hb : (s1.leaf i).busy = false) (hs : (s1.leaf i).cairo_surface.isSome = true)
    (hother : ∀ j, j ≠ i → s1.leaf j = s.leaf j) : pick_leaf s1 = some i := by
  have hbi := pick_leaf_not_busy s i hp
  unfold pick_leaf at hp ⊢
  simp only [leaf_indices, List.foldl, pick_leaf_step] at hp ⊢
  fin_cases i
  · have e1 := hother 1 (by decide)
    have e2 := hother 2 (by decide)
    simp only [Fin.zero_eta] at hb hs hbi hp
    rw [e1, e2, hb, hs]
    cases h1 : (s.leaf 1).busy <;> cases h2 : (s.leaf 2).busy <;>
      cases c1 : (s.leaf 1).cairo_surface <;> cases c2 : (s.leaf 2).cairo_surface <;>
      simp_all
  · have e0 := hother 0 (by decide)
    have e2 := hother 2 (by decide)
    simp only [Fin.mk_one] at hb hs hbi hp
    rw [e0, e2, hb, hs]
    cases h0 : (s.leaf 0).busy <;> cases h2 : (s.leaf 2).busy <;>
      cases c0 : (s.leaf 0).cairo_surface <;> cases c2 : (s.leaf 2).cairo_surface <;>
      simp_all
  · have e0 := hother 0 (by decide)
    have e1 := hother 1 (by decide)
    simp only [Fin.reduceFinMk] at hb hs hbi hp
    rw [e0, e1, hb, hs]
    cases h0 : (s.leaf 0).busy <;> cases h1 : (s.leaf 1).busy <;>
      cases c0 : (s.leaf 0).cairo_surface <;> cases c1 : (s.leaf 1).cairo_surface <;>
      simp_all

theorem prepare_drop_pool_pool (leaf : shm_surface_leaf) (log : List shm_call) :
    (prepare_drop_pool false leaf log).1.resize_pool = none := by
  unfold prepare_drop_pool
  split
  · rfl
  · assumption

theorem prepare_leaf_pool (cfg : build_config) (wh : Int × Int)
    (leaf : shm_surface_leaf) (n : Nat) (log : List shm_call) :
    (prepare_leaf cfg false wh leaf n log).leaf.resize_pool = none := by
  have hd := prepare_drop_pool_pool leaf log
  unfold prepare_leaf
  dsimp only
  split
  · split
    · exact hd
    · simp [prepare_allocate, hd]
  · simp [prepare_allocate, hd]

theorem prepare_drop_pool_noop (rh : Bool) (leaf : shm_surface_leaf) (log : List shm_call)
    (h : rh = false → leaf.resize_pool = none) : prepare_drop_pool rh leaf log = (leaf, log) := by
  unfold prepare_drop_pool
  cases rh
  · rw [h rfl]
  · split <;> rfl

/-- Preparing again the leaf that `prepare_leaf` left behind, for the same
size and hint, changes nothing and returns the same surface. -/
theorem prepare_leaf_again (cfg : build_config) (rh : Bool) (wh : Int × Int)
    (leaf : shm_surface_leaf) (n n1 : Nat) (log log1 : List shm_call) :
    prepare_leaf cfg rh wh (prepare_leaf cfg rh wh leaf n log).leaf n1 log1 =
      { leaf := (prepare_leaf cfg rh wh leaf n log).leaf, next_handle := n1, log := log1,
        result := (prepare_leaf cfg rh wh leaf n log).result } := by
  have hpool : rh = false → (prepare_leaf cfg rh wh leaf n log).leaf.resize_pool = none := by
    intro h
    subst h
    exact prepare_leaf_pool cfg wh leaf n log
  have hst := prepare_leaf_storage cfg rh wh leaf n log
  have hsz := prepare_leaf_size cfg rh wh leaf n log
  generalize prepare_leaf cfg rh wh leaf n log = r at hpool hst hsz
  unfold prepare_leaf
  rw [prepare_drop_pool_noop rh r.leaf log1 hpool]
  simp [hst, hsz]


/-! ## Shared-memory surface: the buffer lifecycle claims -/

/-- What a successful `shm_surface_swap` leaves behind. -/
theorem swap_spec (s s1 : shm_surface) (bt : wl_output_transform) (scale : Int)
    (alloc : Int × Int) (h : shm_surface_swap s bt scale = some (s1, alloc)) :
    ∃ i, s.current = some i ∧ s1.leaf i = { s.leaf i with busy := true } ∧
      (∀ j, j ≠ i → s1.leaf j = s.leaf j) ∧ s1.current = none := by
  unfold shm_surface_swap at h
  split at h
  · simp at h
  · rename_i i hi
    split at h
    · simp only [Option.some.injEq, Prod.mk.injEq] at h
      obtain ⟨h1, _⟩ := h
      subst h1
      refine ⟨i, hi, ?_, ?_, rfl⟩
      · fin_cases i <;> rfl
      · intro j hj
        fin_cases i <;> fin_cases j <;> first | rfl | exact absurd rfl hj
    · simp at h

/-- Every event of the surface strategy keeps `data` set only on leaves that
have a cairo surface. -/
theorem shm_step_wf (cfg : build_config) (s s1 : shm_surface) (e : shm_event)
    (hwf : ∀ i, (s.leaf i).wf) (h : shm_step cfg s e = some s1) : ∀ i, (s1.leaf i).wf := by
  cases e with
  | prepare dx dy w hh f bt sc =>
    simp only [shm_step, Option.map_eq_some', Prod.exists, exists_and_right, exists_eq_right] at h
    obtain ⟨cs, h⟩ := h
    obtain ⟨i, _, _, hl, _, hother⟩ := prepare_spec cfg s s1 dx dy w hh f bt sc cs h
    intro j _
    by_cases hj : j = i
    · subst hj
      rw [hl, prepare_leaf_storage]
      rfl
    · rw [hother j hj]
      rename_i hd
      rw [hother j hj] at hd
      exact hwf j hd
  | swap bt sc =>
    cases hsw : shm_surface_swap s bt sc with
    | none => simp [shm_step, hsw] at h
    | some r =>
      simp only [shm_step, hsw, Option.map_some', Option.some.injEq] at h
      obtain ⟨i, _, hl, hother, _⟩ := swap_spec s r.1 bt sc r.2 hsw
      subst h
      intro j
      by_cases hj : j = i
      · subst hj
        rw [hl]
        exact hwf j
      · rw [hother j hj]
        exact hwf j
  | release b =>
    simp only [shm_step] at h
    unfold shm_surface_buffer_release at h
    split at h
    · simp at h
    · rename_i i _
      simp only [Option.some.injEq] at h
      subst h
      intro j
      rcases release_extra_leaves_cases (s.setLeaf i { s.leaf i with busy := false }) j with hc | hc
      · show (((release_extra_leaves _).leaf j)).wf
        rw [hc]
        have hj := hwf j
        by_cases hji : j = i
        · subst hji
          rw [leaf_setLeaf_same]
          exact hj
        · rw [leaf_setLeaf_ne s i j _ hji]
          exact hj
      · show (((release_extra_leaves _).leaf j)).wf
        rw [hc.1]
        intro hd
        exact absurd hd (by decide)

/-- Every state reached from a freshly created surface keeps `data` set only
on leaves that have a cairo surface. -/
theorem shm_run_wf (cfg : build_config) (evs : List shm_event) (s s1 : shm_surface)
    (hwf : ∀ i, (s.leaf i).wf) (h : shm_run cfg s evs = some s1) : ∀ i, (s1.leaf i).wf := by
  induction evs generalizing s with
  | nil =>
    simp only [shm_run, Option.some.injEq] at h
    subst h
    exact hwf
  | cons e es ih =>
    simp only [shm_run] at h
    cases hs : shm_step cfg s e with
    | none => simp [hs] at h
    | some s2 =>
      simp only [hs] at h
      exact ih s2 (shm_step_wf cfg s s2 e hwf hs) h

theorem shm_surface_create_wf (flags : Nat) (i : Fin 3) : ((shm_surface_create flags).leaf i).wf := by
  fin_cases i <;> exact fun h => Bool.noConfusion h

/-- C1: in every state reached from a freshly created surface by prepare, swap
and release events, a prepare that returns has set `current` to a leaf whose
busy flag was clear before the call and is clear after it. -/
theorem prepare_never_selects_busy_leaf (cfg : build_config) (flags : Nat)
    (evs : List shm_event) (s s1 : shm_surface) (dx dy width height : Int) (f : Nat)
    (bt : wl_output_transform) (scale : Int) (cs : cairo_surface_t)
    (_hreach : shm_run cfg (shm_surface_create flags) evs = some s)
    (hprep : shm_surface_prepare cfg s dx dy width height f bt scale = some (s1, cs)) :
    ∃ i, s1.current = some i ∧ (s.leaf i).busy = false ∧ (s1.leaf i).busy = false := by
  obtain ⟨i, hp, hc, hl, _, _⟩ := prepare_spec cfg s s1 dx dy width height f bt scale cs hprep
  have hb := pick_leaf_not_busy s i hp
  refine ⟨i, hc, hb, ?_⟩
  rw [hl, prepare_leaf_busy]
  exact hb

/-- C1 at a concrete run: after two posted frames and one release, prepare
selects a leaf that is not busy. -/
theorem prepare_never_selects_busy_leaf_witness :
    ∃ i, (shm_surface_prepare cfg0 state_two_posted_one_released 0 0 100 100 0
              wl_output_transform.NORMAL 1).map (fun r => r.1.current) = some (some i) ∧
      (state_two_posted_one_released.leaf i).busy = false ∧
      (state_two_posted_one_released.leaf 1).busy = true := by
  obtain ⟨i, h1, h2, _⟩ := prepare_never_selects_busy_leaf cfg0 0 events_two_posted_one_released
    state_two_posted_one_released
    ((shm_surface_prepare cfg0 state_two_posted_one_released 0 0 100 100 0
        wl_output_transform.NORMAL 1).getD (shm_surface_create 0, ⟨0, 0, 0⟩)).1
    0 0 100 100 0 wl_output_transform.NORMAL 1
    ((shm_surface_prepare cfg0 state_two_posted_one_released 0 0 100 100 0
        wl_output_transform.NORMAL 1).getD (shm_surface_create 0, ⟨0, 0, 0⟩)).2
    rfl rfl
  exact ⟨i, by rw [← h1]; rfl, h2, rfl⟩

/-- C2: prepare selects a free leaf that already has storage whenever there is
one; when no free leaf has storage but some leaf is free it selects a free leaf
without storage; and it ends the process exactly when all three leaves are busy. -/
theorem prepare_selection_policy (cfg : build_config) (s : shm_surface)
    (dx dy width height : Int) (f : Nat) (bt : wl_output_transform) (scale : Int) :
    ((∃ j, (s.leaf j).busy = false ∧ (s.leaf j).cairo_surface.isSome = true) →
      ∃ s1 cs i, shm_surface_prepare cfg s dx dy width height f bt scale = some (s1, cs) ∧
        s1.current = some i ∧ (s.leaf i).busy = false ∧
        (s.leaf i).cairo_surface.isSome = true) ∧
    ((∃ j, (s.leaf j).busy = false) →
      (¬ ∃ j, (s.leaf j).busy = false ∧ (s.leaf j).cairo_surface.isSome = true) →
      ∃ s1 cs i, shm_surface_prepare cfg s dx dy width height f bt scale = some (s1, cs) ∧
        s1.current = some i ∧ (s.leaf i).busy = false ∧ (s.leaf i).cairo_surface = none) ∧
    (shm_surface_prepare cfg s dx dy width height f bt scale = none ↔
      ∀ j, (s.leaf j).busy = true) := by
  have hnone := prepare_eq_none_iff cfg s dx dy width height f bt scale
  have hsome : (∃ j, (s.leaf j).busy = false) →
      ∃ s1 cs i, shm_surface_prepare cfg s dx dy width height f bt scale = some (s1, cs) ∧
        s1.current = some i ∧ pick_leaf s = some i := by
    rintro ⟨j, hj⟩
    cases hp : shm_surface_prepare cfg s dx dy width height f bt scale with
    | none =>
      have := (pick_leaf_eq_none_iff s).1 (hnone.1 hp) j
      rw [hj] at this
      exact absurd this (by decide)
    | some r =>
      obtain ⟨s1, cs⟩ := r
      obtain ⟨i, hpi, hc, _⟩ := prepare_spec cfg s s1 dx dy width height f bt scale cs hp
      exact ⟨s1, cs, i, rfl, hc, hpi⟩
  refine ⟨?_, ?_, ?_⟩
  · rintro ⟨j, hb, hs⟩
    obtain ⟨s1, cs, i, h1, h2, h3⟩ := hsome ⟨j, hb⟩
    exact ⟨s1, cs, i, h1, h2, pick_leaf_not_busy s i h3, pick_leaf_storage s i j h3 hb hs⟩
  · intro hfree hnostore
    obtain ⟨s1, cs, i, h1, h2, h3⟩ := hsome hfree
    have hb := pick_leaf_not_busy s i h3
    refine ⟨s1, cs, i, h1, h2, hb, ?_⟩
    cases hc : (s.leaf i).cairo_surface with
    | none => rfl
    | some c => exact absurd ⟨i, hb, by rw [hc]; rfl⟩ hnostore
  · rw [hnone]
    exact pick_leaf_eq_none_iff s

/-- C3: when the released buffer belongs to a leaf, the release handler
returns, and afterwards exactly one free leaf has storage, every other free
leaf has none, and each leaf that is busy is as it was before the call. -/
theorem buffer_release_keeps_one_free_leaf (s : shm_surface) (buffer : Nat)
    (hwf : ∀ i, (s.leaf i).wf)
    (hown : ∃ i, (s.leaf i).data = some { buffer := buffer }) :
    ∃ s1, shm_surface_buffer_release s buffer = some s1 ∧
      (∃ k, (s1.leaf k).busy = false ∧ (s1.leaf k).cairo_surface.isSome = true ∧
        ∀ j, j ≠ k → (s1.leaf j).busy = false → (s1.leaf j).cairo_surface = none) ∧
      (∀ j, (s1.leaf j).busy = true → s1.leaf j = s.leaf j) := by
  obtain ⟨i0, hi0⟩ := hown
  obtain ⟨i, hi⟩ := find_released_leaf_isSome s buffer i0 hi0
  have hdata := find_released_leaf_some s buffer i hi
  have hstore : (s.leaf i).cairo_surface.isSome = true := hwf i (by rw [hdata]; rfl)
  refine ⟨release_extra_leaves (s.setLeaf i { s.leaf i with busy := false }), ?_, ?_, ?_⟩
  · unfold shm_surface_buffer_release
    rw [hi]
    rfl
  · have hfree : ((s.setLeaf i { s.leaf i with busy := false }).leaf i).free_with_storage = true := by
      rw [leaf_setLeaf_same]
      simp [shm_surface_leaf.free_with_storage, hstore]
    obtain ⟨k, hk⟩ := release_extra_leaves_exists _ i hfree
    have hk1 := hk
    simp only [shm_surface_leaf.free_with_storage, Bool.and_eq_true, Bool.not_eq_true',
      Bool.not_eq_eq_eq_not, Bool.not_true] at hk1
    refine ⟨k, hk1.1, hk1.2, ?_⟩
    intro j hj hb
    cases hc : ((release_extra_leaves (s.setLeaf i { s.leaf i with busy := false })).leaf j).cairo_surface with
    | none => rfl
    | some c =>
      have hjf : ((release_extra_leaves
          (s.setLeaf i { s.leaf i with busy := false })).leaf j).free_with_storage = true := by
        simp [shm_surface_leaf.free_with_storage, hb, hc]
      exact absurd (release_extra_leaves_unique _ j k hjf hk) hj
  · intro j hb
    rcases release_extra_leaves_cases (s.setLeaf i { s.leaf i with busy := false }) j with hc | hc
    · rw [hc] at hb ⊢
      by_cases hji : j = i
      · subst hji
        rw [leaf_setLeaf_same] at hb
        exact Bool.noConfusion hb
      · exact leaf_setLeaf_ne s i j _ hji
    · rw [hc.1] at hb
      exact absurd hb (by decide)

/-- C3 at a concrete state: three leaves with storage, leaves 0 and 1 busy;
releasing the buffer of leaf 0 leaves leaf 0 as the one free leaf with storage. -/
theorem buffer_release_keeps_one_free_leaf_witness :
    ∃ s1, shm_surface_buffer_release state_third_prepared 2 = some s1 ∧
      (∃ k, (s1.leaf k).busy = false ∧ (s1.leaf k).cairo_surface.isSome = true ∧
        ∀ j, j ≠ k → (s1.leaf j).busy = false → (s1.leaf j).cairo_surface = none) ∧
      (∀ j, (s1.leaf j).busy = true → s1.leaf j = state_third_prepared.leaf j) :=
  buffer_release_keeps_one_free_leaf state_third_prepared 2
    (shm_run_wf cfg0 events_third_prepared (shm_surface_create 0) state_third_prepared
      (shm_surface_create_wf 0) rfl)
    ⟨0, rfl⟩

/-- The release handler clears the busy flag of the first leaf that owns the
released buffer and changes no other busy flag. -/
theorem buffer_release_busy_flags (s s1 : shm_surface) (buffer : Nat)
    (h : shm_surface_buffer_release s buffer = some s1) :
    ∃ i, (s.leaf i).data = some { buffer := buffer } ∧ (s1.leaf i).busy = false ∧
      ∀ j, j ≠ i → (s1.leaf j).busy = (s.leaf j).busy := by
  unfold shm_surface_buffer_release at h
  split at h
  · simp at h
  · rename_i i hi
    simp only [Option.some.injEq] at h
    subst h
    have hbusy : ∀ j, ((release_extra_leaves (s.setLeaf i { s.leaf i with busy := false })).leaf j).busy
        = ((s.setLeaf i { s.leaf i with busy := false }).leaf j).busy := by
      intro j
      rcases release_extra_leaves_cases (s.setLeaf i { s.leaf i with busy := false }) j with hc | hc
      · rw [hc]
      · rw [hc.1]
        have hf := hc.2
        simp only [shm_surface_leaf.free_with_storage, Bool.and_eq_true, Bool.not_eq_true',
          Bool.not_eq_eq_eq_not, Bool.not_true] at hf
        rw [hf.1]
        rfl
    refine ⟨i, find_released_leaf_some s buffer i hi, ?_, ?_⟩
    · show ((release_extra_leaves _).leaf i).busy = false
      rw [hbusy i, leaf_setLeaf_same]
    · intro j hj
      show ((release_extra_leaves _).leaf j).busy = _
      rw [hbusy j, leaf_setLeaf_ne s i j _ hj]

/-- C4 (the code at the failing input): with leaves 0 and 1 posted and leaf 2
prepared but not yet swapped, the release of the buffer of leaf 0 zeroes leaf 2,
the current leaf, and the swap that follows dereferences `NULL`. -/
theorem buffer_release_frees_current_leaf :
    shm_run cfg0 (shm_surface_create 0) events_third_prepared = some state_third_prepared ∧
    state_third_prepared.current = some 2 ∧
    (state_third_prepared.leaf 2).cairo_surface = some { handle := 5, width := 100, height := 100 } ∧
    (shm_surface_buffer_release state_third_prepared 2).map
        (fun s => (s.current, (s.leaf 0).busy, s.leaf 2)) =
      some (some 2, false, shm_surface_leaf.zero) ∧
    (shm_surface_buffer_release state_third_prepared 2).bind
        (fun s => shm_surface_swap s wl_output_transform.NORMAL 1) = none := by
  refine ⟨rfl, rfl, rfl, rfl, rfl⟩

/-- C5. After a call of `shm_surface_prepare` that returned the cairo surface
`cs`, the picked leaf is the current leaf, it is not busy, and `cs` is the
storage it holds, of the requested buffer size. A second call with the same
width, height, flags, buffer transform and scale, and any `dx2`, `dy2`, with
nothing in between, returns the same `cs` and leaves the state as the first
call left it but for the stored `dx`, `dy`: the same leaf is current, the three
leaves are as they were, and nothing is destroyed or allocated (the log and
the allocator counter do not move). -/
theorem prepare_twice_reuses_storage (cfg : build_config) (s s1 : shm_surface)
    (dx dy dx2 dy2 width height : Int) (flags : Nat) (bt : wl_output_transform) (scale : Int)
    (cs : cairo_surface_t)
    (h : shm_surface_prepare cfg s dx dy width height flags bt scale = some (s1, cs)) :
    ∃ i : Fin 3,
      pick_leaf s = some i ∧ s1.current = some i ∧
      (s1.leaf i).busy = false ∧ (s1.leaf i).cairo_surface = some cs ∧
      (cs.width, cs.height) = surface_to_buffer_size bt scale width height ∧
      pick_leaf s1 = some i ∧
      shm_surface_prepare cfg s1 dx2 dy2 width height flags bt scale =
        some ({ s1 with dx := dx2, dy := dy2 }, cs) := by
  obtain ⟨i, hp, hc, hl, hcs, hother⟩ := prepare_spec cfg s s1 dx dy width height flags bt scale cs h
  have hb : (s1.leaf i).busy = false := by
    rw [hl, prepare_leaf_busy]
    exact pick_leaf_not_busy s i hp
  have hst : (s1.leaf i).cairo_surface = some cs := by
    rw [hl, prepare_leaf_storage, hcs]
  have hs : (s1.leaf i).cairo_surface.isSome = true := by
    rw [hst]
    rfl
  have hsz : (cs.width, cs.height) = surface_to_buffer_size bt scale width height := by
    have h2 := prepare_leaf_size cfg ((flags &&& cfg.SURFACE_HINT_RESIZE) != 0)
      (surface_to_buffer_size bt scale width height) (s.leaf i) s.next_handle s.log
    rw [← hcs] at h2
    exact Prod.ext h2.1 h2.2
  have hp1 := pick_leaf_stable s s1 i hp hb hs hother
  refine ⟨i, hp, hc, hb, hst, hsz, hp1, ?_⟩
  rw [prepare_unfold, hp1]
  simp only [Option.map_some', Option.some.injEq, Prod.mk.injEq]
  rw [hl, prepare_leaf_again, ← hl, ← hcs]
  refine ⟨?_, rfl⟩
  obtain ⟨fl, x, y, l0, l1, l2, cur, n, lg⟩ := s1
  simp only at hc
  subst hc
  fin_cases i <;> rfl

/-- C5 at a concrete input: two prepares of a 100 x 100 surface on a fresh
surface strategy, the second with another `dx`, `dy`. The first call allocates
storage 1 with buffer 2 on leaf 0; the second returns storage 1 and logs
nothing more. -/
theorem prepare_twice_reuses_storage_witness :
    shm_surface_prepare cfg0 (shm_surface_create 0) 0 0 100 100 0 wl_output_transform.NORMAL 1 =
        some (((shm_run cfg0 (shm_surface_create 0) [prepare_plain 100 100]).getD
                (shm_surface_create 0)), { handle := 1, width := 100, height := 100 }) ∧
    ((shm_run cfg0 (shm_surface_create 0) [prepare_plain 100 100]).getD
        (shm_surface_create 0)).log =
      [shm_call.display_create_shm_surface 1 2 100 100] ∧
    ∃ i : Fin 3,
      pick_leaf (shm_surface_create 0) = some i ∧
      ((shm_run cfg0 (shm_surface_create 0) [prepare_plain 100 100]).getD
        (shm_surface_create 0)).current = some i ∧
      (((shm_run cfg0 (shm_surface_create 0) [prepare_plain 100 100]).getD
        (shm_surface_create 0)).leaf i).busy = false ∧
      (((shm_run cfg0 (shm_surface_create 0) [prepare_plain 100 100]).getD
        (shm_surface_create 0)).leaf i).cairo_surface =
        some { handle := 1, width := 100, height := 100 } ∧
      ((100 : Int), (100 : Int)) = surface_to_buffer_size wl_output_transform.NORMAL 1 100 100 ∧
      pick_leaf ((shm_run cfg0 (shm_surface_create 0) [prepare_plain 100 100]).getD
        (shm_surface_create 0)) = some i ∧
      shm_surface_prepare cfg0 ((shm_run cfg0 (shm_surface_create 0) [prepare_plain 100 100]).getD
            (shm_surface_create 0)) 5 7 100 100 0 wl_output_transform.NORMAL 1 =
          some ({ ((shm_run cfg0 (shm_surface_create 0) [prepare_plain 100 100]).getD
                  (shm_surface_create 0)) with dx := 5, dy := 7 },
                { handle := 1, width := 100, height := 100 }) :=
  ⟨rfl, rfl, prepare_twice_reuses_storage cfg0 (shm_surface_create 0) _ 0 0 5 7 100 100 0
    wl_output_transform.NORMAL 1 _ rfl⟩

/-! ## Window scheduler: lemmas -/

theorem option_eq_some_getD {α : Type} (x : Option α) (d : α) (h : x.isSome = true) :
    x = some (x.getD d) := by
  cases x with
  | none => exact Bool.noConfusion h
  | some a => rfl

theorem get_set_surface_same (w : window) (r : surface_ref) (s s1 : surface)
    (h : w.get_surface r = some s) : (w.set_surface r s1).get_surface r = some s1 := by
  cases r with
  | main => rfl
  | sub i =>
    simp only [window.get_surface, window.set_surface] at h ⊢
    have hi : i < w.subsurfaces.length := by
      by_contra hc
      rw [List.getElem?_eq_none (by omega)] at h
      exact Option.noConfusion h
    rw [List.getElem?_set_self]
    simp [hi]

theorem get_set_surface_ne (w : window) (r r1 : surface_ref) (s1 : surface) (h : r1 ≠ r) :
    (w.set_surface r s1).get_surface r1 = w.get_surface r1 := by
  cases r with
  | main =>
    cases r1 with
    | main => exact absurd rfl h
    | sub j => rfl
  | sub i =>
    cases r1 with
    | main => rfl
    | sub j =>
      simp only [window.get_surface, window.set_surface]
      have hij : i ≠ j := fun e => h (by rw [e])
      rw [List.getElem?_set_ne hij]

theorem outstanding_append (sid : Nat) (log calls : List window_call) :
    outstanding_callbacks sid (log ++ calls) =
      calls.foldl (outstanding_step sid) (outstanding_callbacks sid log) := by
  unfold outstanding_callbacks
  rw [List.foldl_append]

theorem outstanding_quiet (sid : Nat) (calls : List window_call) (live : List Nat)
    (h : ∀ c ∈ calls, c.quiet = true) : calls.foldl (outstanding_step sid) live = live := by
  induction calls generalizing live with
  | nil => rfl
  | cons c cs ih =>
    simp only [List.foldl]
    have hc := h c (List.mem_cons_self c cs)
    have : outstanding_step sid live c = live := by
      cases c <;> first | rfl | exact Bool.noConfusion hc
    rw [this]
    exact ih live (fun c1 h1 => h c1 (List.mem_cons_of_mem c h1))

theorem callbacks_untouched_refl (w : window) : callbacks_untouched w w :=
  ⟨fun _ => rfl, fun _ => rfl, Nat.le_refl _⟩

theorem callbacks_untouched_trans (w w1 w2 : window) (h1 : callbacks_untouched w w1)
    (h2 : callbacks_untouched w1 w2) : callbacks_untouched w w2 :=
  ⟨fun r => (h2.surfaces r).trans (h1.surfaces r), fun sid => (h2.alive sid).trans (h1.alive sid),
    Nat.le_trans h1.counter h2.counter⟩

theorem callbacks_untouched_foldl (f : window → surface_ref → window)
    (hf : ∀ w r, callbacks_untouched w (f w r)) (rs : List surface_ref) (w : window) :
    callbacks_untouched w (rs.foldl f w) := by
  induction rs generalizing w with
  | nil => exact callbacks_untouched_refl w
  | cons r rs ih => exact callbacks_untouched_trans _ _ _ (hf w r) (ih (f w r))

theorem callbacks_untouched_foldlM (f : window → surface_ref → Option window)
    (hf : ∀ w r w1, f w r = some w1 → callbacks_untouched w w1) (rs : List surface_ref)
    (w w1 : window) (h : rs.foldlM f w = some w1) : callbacks_untouched w w1 := by
  induction rs generalizing w with
  | nil =>
    simp only [List.foldlM, pure, Option.some.injEq] at h
    subst h
    exact callbacks_untouched_refl w
  | cons r rs ih =>
    simp only [List.foldlM, bind, Option.bind_eq_some] at h
    obtain ⟨w2, h2, h3⟩ := h
    exact callbacks_untouched_trans _ _ _ (hf w r w2 h2) (ih w2 h3)

/-- An operation that leaves the callback bookkeeping untouched keeps the
invariant. -/
theorem callbacks_inv_of_untouched (w w1 : window) (hinv : callbacks_inv w)
    (h : callbacks_untouched w w1) : callbacks_inv w1 := by
  have key : ∀ r s1, w1.get_surface r = some s1 →
      ∃ s, w.get_surface r = some s ∧ s.surface = s1.surface ∧ s.frame_cb = s1.frame_cb := by
    intro r s1 h1
    have := h.surfaces r
    rw [h1] at this
    cases hs : w.get_surface r with
    | none => simp [hs] at this
    | some s =>
      simp only [hs, Option.map_some', Option.some.injEq, Prod.mk.injEq] at this
      exact ⟨s, rfl, this.1.symm, this.2.symm⟩
  constructor
  · intro r r1 s s1 h1 h2 he
    obtain ⟨a, ha, ha1, _⟩ := key r s h1
    obtain ⟨b, hb, hb1, _⟩ := key r1 s1 h2
    exact hinv.surfaces_distinct r r1 a b ha hb (by rw [ha1, hb1, he])
  · intro r s h1
    obtain ⟨a, ha, ha1, ha2⟩ := key r s h1
    rw [h.alive, ← ha1, ← ha2]
    exact hinv.tracked r a ha
  · intro r r1 s s1 cb h1 h2 hc1 hc2
    obtain ⟨a, ha, _, ha2⟩ := key r s h1
    obtain ⟨b, hb, _, hb2⟩ := key r1 s1 h2
    exact hinv.callbacks_distinct r r1 a b cb ha hb (by rw [ha2, hc1]) (by rw [hb2, hc2])
  · intro r s cb h1 hc
    obtain ⟨a, ha, _, ha2⟩ := key r s h1
    exact Nat.lt_of_lt_of_le (hinv.numbered r a cb ha (by rw [ha2, hc])) h.counter
  · intro r s h1
    obtain ⟨a, ha, ha1, _⟩ := key r s h1
    rw [← ha1]
    exact Nat.lt_of_lt_of_le (hinv.surfaces_numbered r a ha) h.counter
  · intro sid hsid
    rw [h.alive]
    exact hinv.unused sid (Nat.le_trans h.counter hsid)

theorem untouched_emit (w : window) (calls : List window_call)
    (h : calls.all window_call.quiet = true) : callbacks_untouched w (w.emit calls) := by
  refine ⟨fun r => ?_, fun sid => ?_, Nat.le_refl _⟩
  · cases r <;> rfl
  · show outstanding_callbacks sid (w.display.log ++ calls) = _
    rw [outstanding_append, outstanding_quiet sid calls _ (List.all_eq_true.1 h)]

theorem untouched_set_surface (w : window) (r : surface_ref) (s s1 : surface)
    (hget : w.get_surface r = some s) (hs : s1.surface = s.surface)
    (hc : s1.frame_cb = s.frame_cb) : callbacks_untouched w (w.set_surface r s1) := by
  refine ⟨fun r1 => ?_, fun sid => ?_, ?_⟩
  · by_cases h : r1 = r
    · subst h
      rw [get_set_surface_same w r1 s s1 hget, hget]
      simp [hs, hc]
    · rw [get_set_surface_ne w r r1 s1 h]
  · cases r <;> rfl
  · cases r <;> exact Nat.le_refl _

theorem untouched_of_eq (w w1 : window) (h1 : w1.display = w.display)
    (h2 : w1.main_surface = w.main_surface) (h3 : w1.subsurfaces = w.subsurfaces) :
    callbacks_untouched w w1 := by
  refine ⟨fun r => ?_, fun sid => by rw [h1], by rw [h1]⟩
  cases r with
  | main => simp only [window.get_surface, h2]
  | sub i => simp only [window.get_surface, h3]

theorem untouched_schedule_redraw_task (w : window) :
    callbacks_untouched w (window_schedule_redraw_task w) := by
  unfold window_schedule_redraw_task
  split
  · exact callbacks_untouched_refl w
  · split
    · exact ⟨fun r => by cases r <;> rfl, fun _ => rfl, Nat.le_refl _⟩
    · exact callbacks_untouched_refl w

theorem untouched_widget_schedule_redraw (w : window) (r : surface_ref) :
    callbacks_untouched w (widget_schedule_redraw w r) := by
  unfold widget_schedule_redraw
  refine callbacks_untouched_trans _ _ _ ?_ (untouched_schedule_redraw_task _)
  split
  · exact callbacks_untouched_refl w
  · rename_i s hs
    exact untouched_set_surface w r s _ hs rfl rfl

theorem untouched_window_schedule_redraw (w : window) :
    callbacks_untouched w (window_schedule_redraw w) := by
  unfold window_schedule_redraw
  refine callbacks_untouched_trans _ _ _ ?_ (untouched_schedule_redraw_task _)
  refine ⟨fun r => ?_, fun _ => rfl, Nat.le_refl _⟩
  cases r with
  | main => rfl
  | sub i =>
    simp only [window.get_surface, List.getElem?_map, Option.map_map]
    rfl

theorem untouched_window_schedule_resize (w : window) (width height : Int) :
    callbacks_untouched w (window_schedule_resize w width height) := by
  unfold window_schedule_resize
  refine callbacks_untouched_trans _ _ _ ?_ (untouched_window_schedule_redraw _)
  unfold window_schedule_resize_record
  dsimp only
  apply untouched_of_eq <;> (split_ifs <;> rfl)

theorem untouched_set_synchronized (w : window) (r : surface_ref) :
    callbacks_untouched w (surface_set_synchronized w r) := by
  unfold surface_set_synchronized
  split
  · exact callbacks_untouched_refl w
  · rename_i s hs
    split
    · exact callbacks_untouched_refl w
    · split
      · exact callbacks_untouched_refl w
      · refine callbacks_untouched_trans _ _ _ ?_ (untouched_emit _ _ rfl)
        exact untouched_set_surface w r s _ hs rfl rfl

theorem untouched_set_synchronized_default (w : window) (r : surface_ref) :
    callbacks_untouched w (surface_set_synchronized_default w r) := by
  unfold surface_set_synchronized_default
  split
  · exact callbacks_untouched_refl w
  · rename_i s hs
    split
    · exact callbacks_untouched_refl w
    · split
      · exact callbacks_untouched_refl w
      · refine callbacks_untouched_trans _ _ _ ?_ (untouched_emit _ _ ?_)
        · exact untouched_set_surface w r s _ hs rfl rfl
        split <;> rfl

theorem untouched_bump (w : window) (n : Nat) (h : w.display.next_id ≤ n) :
    callbacks_untouched w { w with display := { w.display with next_id := n } } :=
  ⟨fun r => by cases r <;> rfl, fun _ => rfl, h⟩

theorem surface_resize_calls_quiet (s : surface) (region : Nat) :
    (surface_resize_calls s region).all window_call.quiet = true := by
  unfold surface_resize_calls
  simp only [List.all_append, Bool.and_eq_true]
  refine ⟨⟨⟨⟨?_, ?_⟩, rfl⟩, ?_⟩, ?_⟩
  · split <;> rfl
  · split <;> rfl
  · split <;> rfl
  · split
    · split <;> rfl
    · rfl

theorem untouched_surface_resize_finish (w : window) (r : surface_ref) (s : surface)
    (region : Nat) (hreg : w.display.next_id ≤ region + 1) :
    callbacks_untouched w (surface_resize_finish w r s region) := by
  unfold surface_resize_finish
  dsimp only
  have h2 : callbacks_untouched w
      { w with display := { w.display with next_id := region + 1 } } :=
    untouched_bump _ _ hreg
  have h3 : callbacks_untouched w
      (if s.allocation.width ≠ s.widget.allocation.width ∨
          s.allocation.height ≠ s.widget.allocation.height then
        window_schedule_redraw { w with display := { w.display with next_id := region + 1 } }
      else { w with display := { w.display with next_id := region + 1 } }) := by
    split
    · exact callbacks_untouched_trans _ _ _ h2 (untouched_window_schedule_redraw _)
    · exact h2
  revert h3
  generalize (if s.allocation.width ≠ s.widget.allocation.width ∨
          s.allocation.height ≠ s.widget.allocation.height then _ else _ : window) = w3
  intro h3
  split
  · exact h3
  · rename_i s1 hs1
    have h4 : callbacks_untouched w3
        (w3.set_surface r { s1 with allocation := s.widget.allocation }) :=
      untouched_set_surface w3 r s1 _ hs1 rfl rfl
    split
    · exact callbacks_untouched_trans _ _ _ h3
        (callbacks_untouched_trans _ _ _ h4 (untouched_emit _ _ rfl))
    · exact callbacks_untouched_trans _ _ _ h3 h4

theorem untouched_surface_resize (w : window) (r : surface_ref) :
    callbacks_untouched w (surface_resize w r) := by
  unfold surface_resize
  split
  · exact callbacks_untouched_refl w
  · rename_i s hs
    dsimp only
    have h1 : callbacks_untouched w
        ((w.set_surface r { s with input_region := none, opaque_region := some w.display.next_id }).emit
          (surface_resize_calls s w.display.next_id)) := by
      refine callbacks_untouched_trans _ _ _ ?_
        (untouched_emit _ _ (surface_resize_calls_quiet s _))
      exact untouched_set_surface w r s _ hs rfl rfl
    refine callbacks_untouched_trans _ _ _ h1 (untouched_surface_resize_finish _ r s _ ?_)
    cases r <;> exact Nat.le_succ _

theorem untouched_hack (w : window) :
    callbacks_untouched w (hack_prevent_EGL_sub_surface_deadlock w) := by
  unfold hack_prevent_EGL_sub_surface_deadlock
  split
  · exact untouched_emit _ _ rfl
  · exact callbacks_untouched_refl w

theorem untouched_idle_resize (w : window) : callbacks_untouched w (idle_resize w) := by
  unfold idle_resize
  dsimp only
  refine callbacks_untouched_trans _ _ _ ?_ (callbacks_untouched_foldl _ ?_ _ _)
  · refine callbacks_untouched_trans _ _ _ ?_ (untouched_surface_resize _ _)
    refine callbacks_untouched_trans _
      (hack_prevent_EGL_sub_surface_deadlock { w with resize_needed := false, redraw_needed := true })
      _ ?_ ?_
    · refine callbacks_untouched_trans _ _ _ ?_ (untouched_hack _)
      exact untouched_of_eq w _ rfl rfl rfl
    · refine ⟨fun r => ?_, fun _ => rfl, Nat.le_refl _⟩
      cases r <;> rfl
  · intro w1 r
    exact callbacks_untouched_trans _ _ _ (untouched_set_synchronized w1 r)
      (untouched_surface_resize _ r)

theorem surface_flush_calls_quiet (s : surface) :
    (surface_flush_calls s).all window_call.quiet = true := by
  unfold surface_flush_calls
  simp only [List.all_append, Bool.and_eq_true]
  refine ⟨?_, ?_⟩
  · split <;> rfl
  · split <;> rfl

theorem untouched_surface_flush (w w1 : window) (r : surface_ref)
    (h : surface_flush w r = some w1) : callbacks_untouched w w1 := by
  unfold surface_flush at h
  split at h
  · simp only [Option.some.injEq] at h
    subst h
    exact callbacks_untouched_refl w
  · rename_i s hs
    split at h
    · simp only [Option.some.injEq] at h
      subst h
      exact callbacks_untouched_refl w
    · split at h
      · exact Option.noConfusion h
      · split at h
        · exact Option.noConfusion h
        · simp only [Option.some.injEq] at h
          subst h
          refine callbacks_untouched_trans _ _ _ ?_ (untouched_emit _ _ ?_)
          · exact untouched_set_surface w r s _ hs rfl rfl
          · simp only [List.all_append, Bool.and_eq_true]
            exact ⟨surface_flush_calls_quiet s, rfl⟩

theorem untouched_window_flush (w w1 : window) (h : window_flush w = some w1) :
    callbacks_untouched w w1 := by
  unfold window_flush at h
  simp only [Option.bind_eq_some] at h
  obtain ⟨w2, h2, h3⟩ := h
  have h0 : callbacks_untouched w
      (if w.type = window_type.TYPE_NONE then
        match w.shell_surface with
        | some sh => ({ w with type := window_type.TYPE_TOPLEVEL }).emit
            [window_call.wl_shell_surface_set_toplevel sh]
        | none => { w with type := window_type.TYPE_TOPLEVEL }
      else w) := by
    split
    · split
      · refine callbacks_untouched_trans _ _ _ ?_ (untouched_emit _ _ rfl)
        exact untouched_of_eq w _ rfl rfl rfl
      · exact untouched_of_eq w _ rfl rfl rfl
    · exact callbacks_untouched_refl w
  exact callbacks_untouched_trans _ _ _ h0
    (callbacks_untouched_trans _ _ _
      (callbacks_untouched_foldlM _ (fun a b c => untouched_surface_flush a c b) _ _ _ h2)
      (untouched_surface_flush _ _ _ h3))

mutual
/-- The redraw traversal only calls redraw handlers. -/
theorem widget_redraw_quiet : (wd : widget) → (widget_redraw wd).all window_call.quiet = true
  | .mk id a rs rd o cs => by
    unfold widget_redraw
    rw [List.all_append, widget_redraw_children_quiet cs]
    cases rd <;> rfl
/-- The loop over the children only calls redraw handlers. -/
theorem widget_redraw_children_quiet :
    (cs : List widget) → (widget_redraw_children cs).all window_call.quiet = true
  | [] => rfl
  | c :: cs => by
    unfold widget_redraw_children
    rw [List.all_append, widget_redraw_quiet c, widget_redraw_children_quiet cs]
    rfl
end

theorem get_surface_emit (w : window) (calls : List window_call) (r : surface_ref) :
    (w.emit calls).get_surface r = w.get_surface r := by
  cases r <;> rfl

theorem toList_filter_ne (o : Option Nat) (old : Nat) (h : o ≠ some old) :
    o.toList.filter (fun x => x != old) = o.toList := by
  cases o with
  | none => rfl
  | some c =>
    have hc : c ≠ old := fun e => h (by rw [e])
    simp [Option.toList, hc]

theorem toList_filter_self (old : Nat) :
    (some old : Option Nat).toList.filter (fun x => x != old) = [] := by
  simp [Option.toList]

/-- The callbacks alive on `sid` after the calls of a redraw that goes ahead. -/
theorem outstanding_redraw_calls (sid : Nat) (s : surface) (cb : Nat) (live : List Nat) :
    (surface_redraw_calls s cb).foldl (outstanding_step sid) live =
      if s.surface = sid then
        (match s.frame_cb with
          | some old => live.filter (fun x => x != old)
          | none => live) ++ [cb]
      else
        (match s.frame_cb with
          | some old => live.filter (fun x => x != old)
          | none => live) := by
  unfold surface_redraw_calls
  rw [List.foldl_append, List.foldl_append,
    outstanding_quiet sid (widget_redraw s.widget) _ (List.all_eq_true.1 (widget_redraw_quiet _))]
  cases s.frame_cb <;> rfl

theorem get_surface_redraw_request (w : window) (r r1 : surface_ref) (s : surface)
    (hget : w.get_surface r = some s) :
    (surface_redraw_request w r s).get_surface r1 =
      if r1 = r then some { s with frame_cb := some w.display.next_id, redraw_needed := false }
      else w.get_surface r1 := by
  unfold surface_redraw_request
  dsimp only
  rw [get_surface_emit]
  have hget1 : ({ w with display := { w.display with next_id := w.display.next_id + 1 } } :
      window).get_surface r = some s := by
    rw [← hget]
    cases r <;> rfl
  by_cases h : r1 = r
  · subst h
    rw [get_set_surface_same _ r1 s _ hget1]
    simp
  · rw [get_set_surface_ne _ r r1 _ h]
    simp only [h, if_false]
    cases r1 <;> rfl

theorem log_surface_redraw_request (w : window) (r : surface_ref) (s : surface) :
    (surface_redraw_request w r s).display.log =
      w.display.log ++ surface_redraw_calls s w.display.next_id := by
  cases r <;> rfl

theorem next_id_surface_redraw_request (w : window) (r : surface_ref) (s : surface) :
    (surface_redraw_request w r s).display.next_id = w.display.next_id + 1 := by
  cases r <;> rfl

/-- A redraw that goes ahead keeps the callback bookkeeping right. -/
theorem inv_surface_redraw_request (w : window) (r : surface_ref) (s : surface)
    (hinv : callbacks_inv w) (hget : w.get_surface r = some s) :
    callbacks_inv (surface_redraw_request w r s) := by
  have G := fun r1 => get_surface_redraw_request w r r1 s hget
  constructor
  · intro a b sa sb ha hb he
    rw [G] at ha hb
    by_cases h1 : a = r
    · by_cases h2 : b = r
      · rw [h1, h2]
      · simp only [h1, h2, if_true, if_false, Option.some.injEq] at ha hb
        subst ha
        rw [h1]
        exact hinv.surfaces_distinct r b s sb hget hb he
    · by_cases h2 : b = r
      · simp only [h1, h2, if_true, if_false, Option.some.injEq] at ha hb
        subst hb
        rw [h2]
        exact hinv.surfaces_distinct a r sa s ha hget he
      · simp only [h1, h2, if_false] at ha hb
        exact hinv.surfaces_distinct a b sa sb ha hb he
  · intro a sa ha
    rw [G] at ha
    rw [log_surface_redraw_request, outstanding_append, outstanding_redraw_calls]
    by_cases h1 : a = r
    · simp only [h1, if_true, Option.some.injEq] at ha
      subst ha
      simp only [if_true]
      rw [hinv.tracked r s hget]
      cases hc : s.frame_cb with
      | none => rfl
      | some old =>
        simp only
        rw [toList_filter_self]
        rfl
    · simp only [h1, if_false] at ha
      have hne : s.surface ≠ sa.surface := fun e =>
        h1 (hinv.surfaces_distinct a r sa s ha hget e.symm)
      simp only [hne, if_false]
      rw [hinv.tracked a sa ha]
      cases hc : s.frame_cb with
      | none => rfl
      | some old =>
        simp only
        apply toList_filter_ne
        intro hsa
        exact h1 (hinv.callbacks_distinct a r sa s old ha hget hsa hc)
  · intro a b sa sb cb ha hb hca hcb
    rw [G] at ha hb
    by_cases h1 : a = r
    · by_cases h2 : b = r
      · rw [h1, h2]
      · simp only [h1, h2, if_true, if_false, Option.some.injEq] at ha hb
        subst ha
        simp only [Option.some.injEq] at hca
        have := hinv.numbered b sb cb hb hcb
        omega
    · by_cases h2 : b = r
      · simp only [h1, h2, if_true, if_false, Option.some.injEq] at ha hb
        subst hb
        simp only [Option.some.injEq] at hcb
        have := hinv.numbered a sa cb ha hca
        omega
      · simp only [h1, h2, if_false] at ha hb
        exact hinv.callbacks_distinct a b sa sb cb ha hb hca hcb
  · intro a sa cb ha hca
    rw [G] at ha
    rw [next_id_surface_redraw_request]
    by_cases h1 : a = r
    · simp only [h1, if_true, Option.some.injEq] at ha
      subst ha
      simp only [Option.some.injEq] at hca
      omega
    · simp only [h1, if_false] at ha
      have := hinv.numbered a sa cb ha hca
      omega
  · intro a sa ha
    rw [G] at ha
    rw [next_id_surface_redraw_request]
    by_cases h1 : a = r
    · simp only [h1, if_true, Option.some.injEq] at ha
      subst ha
      have := hinv.surfaces_numbered r s hget
      exact Nat.lt_succ_of_lt this
    · simp only [h1, if_false] at ha
      exact Nat.lt_succ_of_lt (hinv.surfaces_numbered a sa ha)
  · intro sid hsid
    rw [next_id_surface_redraw_request] at hsid
    rw [log_surface_redraw_request, outstanding_append, outstanding_redraw_calls,
      hinv.unused sid (by omega)]
    have hne : s.surface ≠ sid := by
      have := hinv.surfaces_numbered r s hget
      omega
    simp only [hne, if_false]
    cases s.frame_cb <;> rfl

theorem inv_surface_redraw (w : window) (r : surface_ref) (hinv : callbacks_inv w) :
    callbacks_inv (surface_redraw w r) := by
  unfold surface_redraw
  split
  · exact hinv
  · rename_i s hs
    split
    · exact hinv
    · split
      · exact hinv
      · exact inv_surface_redraw_request w r s hinv hs

/-- The arrival of a frame callback keeps the callback bookkeeping right. -/
theorem inv_frame_callback (w w1 : window) (r : surface_ref) (callback time : Nat)
    (hinv : callbacks_inv w) (h : frame_callback w r callback time = some w1) :
    callbacks_inv w1 := by
  unfold frame_callback at h
  split at h
  · exact Option.noConfusion h
  · rename_i s hget
    split at h
    · exact Option.noConfusion h
    · rename_i hcb
      have hcb : s.frame_cb = some callback := by
        by_contra hc
        exact hcb hc
      have hmid : callbacks_inv
          ((w.set_surface r { s with frame_cb := none, last_time := time }).emit
            [window_call.wl_callback_destroy callback]) := by
        have G : ∀ r1, ((w.set_surface r { s with frame_cb := none, last_time := time }).emit
            [window_call.wl_callback_destroy callback]).get_surface r1 =
            if r1 = r then some { s with frame_cb := none, last_time := time }
            else w.get_surface r1 := by
          intro r1
          rw [get_surface_emit]
          by_cases h1 : r1 = r
          · subst h1
            rw [get_set_surface_same _ r1 s _ hget]
            simp
          · rw [get_set_surface_ne _ r r1 _ h1]
            simp [h1]
        have L : ((w.set_surface r { s with frame_cb := none, last_time := time }).emit
            [window_call.wl_callback_destroy callback]).display.log =
            w.display.log ++ [window_call.wl_callback_destroy callback] := by
          cases r <;> rfl
        have N : ((w.set_surface r { s with frame_cb := none, last_time := time }).emit
            [window_call.wl_callback_destroy callback]).display.next_id = w.display.next_id := by
          cases r <;> rfl
        constructor
        · intro a b sa sb ha hb he
          rw [G] at ha hb
          by_cases h1 : a = r
          · by_cases h2 : b = r
            · rw [h1, h2]
            · simp only [h1, h2, if_true, if_false, Option.some.injEq] at ha hb
              subst ha
              rw [h1]
              exact hinv.surfaces_distinct r b s sb hget hb he
          · by_cases h2 : b = r
            · simp only [h1, h2, if_true, if_false, Option.some.injEq] at ha hb
              subst hb
              rw [h2]
              exact hinv.surfaces_distinct a r sa s ha hget he
            · simp only [h1, h2, if_false] at ha hb
              exact hinv.surfaces_distinct a b sa sb ha hb he
        · intro a sa ha
          rw [G] at ha
          rw [L, outstanding_append]
          simp only [List.foldl, outstanding_step]
          by_cases h1 : a = r
          · simp only [h1, if_true, Option.some.injEq] at ha
            subst ha
            show (outstanding_callbacks s.surface w.display.log).filter _ = _
            rw [hinv.tracked r s hget, hcb, toList_filter_self]
            rfl
          · simp only [h1, if_false] at ha
            rw [hinv.tracked a sa ha]
            apply toList_filter_ne
            intro hsa
            exact h1 (hinv.callbacks_distinct a r sa s callback ha hget hsa hcb)
        · intro a b sa sb cb ha hb hca hcb1
          rw [G] at ha hb
          by_cases h1 : a = r
          · simp only [h1, if_true, Option.some.injEq] at ha
            subst ha
            exact Option.noConfusion hca
          · by_cases h2 : b = r
            · simp only [h2, if_true, Option.some.injEq] at hb
              subst hb
              exact Option.noConfusion hcb1
            · simp only [h1, h2, if_false] at ha hb
              exact hinv.callbacks_distinct a b sa sb cb ha hb hca hcb1
        · intro a sa cb ha hca
          rw [G] at ha
          rw [N]
          by_cases h1 : a = r
          · simp only [h1, if_true, Option.some.injEq] at ha
            subst ha
            exact Option.noConfusion hca
          · simp only [h1, if_false] at ha
            exact hinv.numbered a sa cb ha hca
        · intro a sa ha
          rw [G] at ha
          rw [N]
          by_cases h1 : a = r
          · simp only [h1, if_true, Option.some.injEq] at ha
            subst ha
            exact hinv.surfaces_numbered r s hget
          · simp only [h1, if_false] at ha
            exact hinv.surfaces_numbered a sa ha
        · intro sid hsid
          rw [N] at hsid
          rw [L, outstanding_append, hinv.unused sid hsid]
          rfl
      dsimp only at h
      split at h
      · simp only [Option.some.injEq] at h
        subst h
        exact callbacks_inv_of_untouched _ _ hmid (untouched_schedule_redraw_task _)
      · simp only [Option.some.injEq] at h
        subst h
        exact hmid

theorem inv_foldl_surface_redraw (rs : List surface_ref) (w : window) (hinv : callbacks_inv w) :
    callbacks_inv (rs.foldl surface_redraw w) := by
  induction rs generalizing w with
  | nil => exact hinv
  | cons r rs ih => exact ih _ (inv_surface_redraw w r hinv)

/-- A redraw pass keeps the callback bookkeeping right. -/
theorem inv_idle_redraw (w w1 : window) (hinv : callbacks_inv w) (h : idle_redraw w = some w1) :
    callbacks_inv w1 := by
  have h0 : callbacks_inv { w with redraw_task_scheduled := false } :=
    callbacks_inv_of_untouched _ _ hinv (untouched_of_eq w _ rfl rfl rfl)
  have paint : ∀ a b : window, callbacks_inv a → idle_redraw_paint a = some b →
      callbacks_inv b := by
    intro a b ha hb
    unfold idle_redraw_paint at hb
    simp only [Option.map_eq_some'] at hb
    obtain ⟨c, hc, hcb⟩ := hb
    subst hcb
    have h1 := inv_foldl_surface_redraw a.subsurface_list a ha
    have h2 : callbacks_inv { (a.subsurface_list.foldl surface_redraw a) with redraw_needed := false } :=
      callbacks_inv_of_untouched _ _ h1 (untouched_of_eq _ _ rfl rfl rfl)
    have h3 := callbacks_inv_of_untouched _ _ h2 (untouched_window_flush _ _ hc)
    exact callbacks_inv_of_untouched _ _ h3
      (callbacks_untouched_foldl _ untouched_set_synchronized_default _ _)
  unfold idle_redraw at h
  dsimp only at h
  split at h
  · split at h
    · simp only [Option.some.injEq] at h
      subst h
      exact h0
    · exact paint _ _ (callbacks_inv_of_untouched _ _ h0 (untouched_idle_resize _)) h
  · exact paint _ _ h0 h

theorem inv_display_run_task (w w1 : window) (hinv : callbacks_inv w)
    (h : display_run_task w = some w1) : callbacks_inv w1 := by
  unfold display_run_task at h
  split at h
  · simp only [Option.some.injEq] at h
    subst h
    exact hinv
  · rename_i t _
    dsimp only at h
    have h0 : callbacks_inv
        { w with display := { w.display with deferred_list := w.display.deferred_list.dropLast } } :=
      callbacks_inv_of_untouched _ _ hinv
        ⟨fun r => by cases r <;> rfl, fun _ => rfl, Nat.le_refl _⟩
    cases t with
    | redraw_task => exact inv_idle_redraw _ _ h0 h
    | other n =>
      simp only [Option.some.injEq] at h
      subst h
      exact h0

/-- Adding a sub-surface keeps the callback bookkeeping right. -/
theorem inv_window_add_subsurface (w : window) (root : widget) (sync : Bool)
    (hinv : callbacks_inv w) : callbacks_inv (window_add_subsurface w root sync) := by
  have G0 : ∀ s1, (window_add_subsurface w root sync).get_surface (surface_ref.sub 0) = some s1 →
      s1.surface = w.display.next_id ∧ s1.frame_cb = none := by
    intro s1 h1
    simp only [window.get_surface, window_add_subsurface, List.getElem?_cons_zero,
      Option.some.injEq] at h1
    subst h1
    exact ⟨rfl, rfl⟩
  have GS : ∀ i, (window_add_subsurface w root sync).get_surface (surface_ref.sub (i + 1)) =
      w.get_surface (surface_ref.sub i) := by
    intro i
    simp only [window.get_surface, window_add_subsurface, List.getElem?_cons_succ]
  have GM : (window_add_subsurface w root sync).get_surface surface_ref.main =
      w.get_surface surface_ref.main := rfl
  have N : (window_add_subsurface w root sync).display.next_id = w.display.next_id + 2 := rfl
  have L : (window_add_subsurface w root sync).display.log = w.display.log := rfl
  -- the map from new pointers to old pointers
  let back : surface_ref → surface_ref := fun r =>
    match r with
    | surface_ref.main => surface_ref.main
    | surface_ref.sub i => surface_ref.sub (i - 1)
  have hback : ∀ r s1, (window_add_subsurface w root sync).get_surface r = some s1 →
      r ≠ surface_ref.sub 0 → w.get_surface (back r) = some s1 := by
    intro r s1 h1 hr
    cases r with
    | main => exact h1
    | sub i =>
      cases i with
      | zero => exact absurd rfl hr
      | succ j =>
        rw [GS] at h1
        exact h1
  have hback_inj : ∀ r r1, r ≠ surface_ref.sub 0 → r1 ≠ surface_ref.sub 0 → back r = back r1 →
      r = r1 := by
    intro r r1 hr hr1 he
    cases r with
    | main =>
      cases r1 with
      | main => rfl
      | sub j => exact surface_ref.noConfusion he
    | sub i =>
      cases r1 with
      | main => exact surface_ref.noConfusion he
      | sub j =>
        cases i with
        | zero => exact absurd rfl hr
        | succ i1 =>
          cases j with
          | zero => exact absurd rfl hr1
          | succ j1 =>
            simp only [back, Nat.add_sub_cancel, surface_ref.sub.injEq] at he
            rw [he]
  constructor
  · intro a b sa sb ha hb he
    by_cases h1 : a = surface_ref.sub 0
    · by_cases h2 : b = surface_ref.sub 0
      · rw [h1, h2]
      · subst h1
        have := hinv.surfaces_numbered _ sb (hback b sb hb h2)
        have := (G0 sa ha).1
        omega
    · by_cases h2 : b = surface_ref.sub 0
      · subst h2
        have := hinv.surfaces_numbered _ sa (hback a sa ha h1)
        have := (G0 sb hb).1
        omega
      · exact hback_inj a b h1 h2
          (hinv.surfaces_distinct _ _ sa sb (hback a sa ha h1) (hback b sb hb h2) he)
  · intro a sa ha
    rw [L]
    by_cases h1 : a = surface_ref.sub 0
    · subst h1
      obtain ⟨e1, e2⟩ := G0 sa ha
      rw [e1, e2]
      exact hinv.unused _ (Nat.le_refl _)
    · exact hinv.tracked _ sa (hback a sa ha h1)
  · intro a b sa sb cb ha hb hca hcb
    by_cases h1 : a = surface_ref.sub 0
    · subst h1
      rw [(G0 sa ha).2] at hca
      exact Option.noConfusion hca
    · by_cases h2 : b = surface_ref.sub 0
      · subst h2
        rw [(G0 sb hb).2] at hcb
        exact Option.noConfusion hcb
      · exact hback_inj a b h1 h2
          (hinv.callbacks_distinct _ _ sa sb cb (hback a sa ha h1) (hback b sb hb h2) hca hcb)
  · intro a sa cb ha hca
    rw [N]
    by_cases h1 : a = surface_ref.sub 0
    · subst h1
      rw [(G0 sa ha).2] at hca
      exact Option.noConfusion hca
    · have := hinv.numbered _ sa cb (hback a sa ha h1) hca
      omega
  · intro a sa ha
    rw [N]
    by_cases h1 : a = surface_ref.sub 0
    · subst h1
      rw [(G0 sa ha).1]
      omega
    · have := hinv.surfaces_numbered _ sa (hback a sa ha h1)
      omega
  · intro sid hsid
    rw [N] at hsid
    rw [L]
    exact hinv.unused sid (by omega)

theorem inv_window_step (w w1 : window) (e : window_event) (hinv : callbacks_inv w)
    (h : window_step w e = some w1) : callbacks_inv w1 := by
  cases e with
  | widget_schedule_redraw r =>
    simp only [window_step, Option.some.injEq] at h
    subst h
    exact callbacks_inv_of_untouched _ _ hinv (untouched_widget_schedule_redraw w r)
  | window_schedule_redraw =>
    simp only [window_step, Option.some.injEq] at h
    subst h
    exact callbacks_inv_of_untouched _ _ hinv (untouched_window_schedule_redraw w)
  | window_schedule_resize width height =>
    simp only [window_step, Option.some.injEq] at h
    subst h
    exact callbacks_inv_of_untouched _ _ hinv (untouched_window_schedule_resize w width height)
  | idle_redraw => exact inv_idle_redraw w w1 hinv h
  | display_run_task => exact inv_display_run_task w w1 hinv h
  | frame_callback r cb t => exact inv_frame_callback w w1 r cb t hinv h
  | window_add_subsurface root sync =>
    simp only [window_step, Option.some.injEq] at h
    subst h
    exact inv_window_add_subsurface w root sync hinv

theorem inv_window_run (evs : List window_event) (w w1 : window) (hinv : callbacks_inv w)
    (h : window_run w evs = some w1) : callbacks_inv w1 := by
  induction evs generalizing w with
  | nil =>
    simp only [window_run, Option.some.injEq] at h
    subst h
    exact hinv
  | cons e es ih =>
    simp only [window_run] at h
    cases hs : window_step w e with
    | none => simp [hs] at h
    | some w2 =>
      simp only [hs] at h
      exact ih w2 (inv_window_step w w2 e hinv hs) h

/-- A freshly created window has its callback bookkeeping right. -/
theorem inv_window_create (type : window_type) (shell_surface : Option Nat) (root : widget)
    (frame : Bool) : callbacks_inv (window_create type shell_surface root frame) := by
  constructor
  · intro a b sa sb ha hb _
    cases a with
    | main =>
      cases b with
      | main => rfl
      | sub j => simp [window.get_surface, window_create] at hb
    | sub i => simp [window.get_surface, window_create] at ha
  · intro a sa ha
    cases a with
    | main =>
      simp only [window.get_surface, window_create, Option.some.injEq] at ha
      subst ha
      rfl
    | sub i => simp [window.get_surface, window_create] at ha
  · intro a b sa sb cb ha hb hca _
    cases a with
    | main =>
      simp only [window.get_surface, window_create, Option.some.injEq] at ha
      subst ha
      exact Option.noConfusion hca
    | sub i => simp [window.get_surface, window_create] at ha
  · intro a sa cb ha hca
    cases a with
    | main =>
      simp only [window.get_surface, window_create, Option.some.injEq] at ha
      subst ha
      exact Option.noConfusion hca
    | sub i => simp [window.get_surface, window_create] at ha
  · intro a sa ha
    cases a with
    | main =>
      simp only [window.get_surface, window_create, Option.some.injEq] at ha
      subst ha
      exact Nat.lt_succ_self 1
    | sub i => simp [window.get_surface, window_create] at ha
  · intro sid _
    rfl

/-- What `window_schedule_redraw_task` does to the deferred list and the
scheduled flag. -/
theorem schedule_redraw_task_queue (w : window) :
    (window_schedule_redraw_task w).configure_requests = w.configure_requests ∧
    (w.configure_requests ≠ 0 →
      (window_schedule_redraw_task w).display.deferred_list = w.display.deferred_list ∧
      (window_schedule_redraw_task w).redraw_task_scheduled = w.redraw_task_scheduled) ∧
    (w.configure_requests = 0 → w.redraw_task_scheduled = true →
      (window_schedule_redraw_task w).display.deferred_list = w.display.deferred_list ∧
      (window_schedule_redraw_task w).redraw_task_scheduled = true) ∧
    (w.configure_requests = 0 → w.redraw_task_scheduled = false →
      (window_schedule_redraw_task w).display.deferred_list =
        task.redraw_task :: w.display.deferred_list ∧
      (window_schedule_redraw_task w).redraw_task_scheduled = true) := by
  unfold window_schedule_redraw_task
  refine ⟨?_, ?_, ?_, ?_⟩
  · split_ifs <;> rfl
  · intro h
    simp [h]
  · intro h hs
    simp [h, hs]
  · intro h hs
    simp [h, hs, display_defer]

/-- Both scheduling entry points hand `window_schedule_redraw_task` a window
with the same queue, flag and configure count. -/
theorem schedule_redraw_request_queue (w : window) (c : redraw_request) :
    ∃ w1, schedule_redraws w [c] = window_schedule_redraw_task w1 ∧
      w1.display.deferred_list = w.display.deferred_list ∧
      w1.redraw_task_scheduled = w.redraw_task_scheduled ∧
      w1.configure_requests = w.configure_requests := by
  cases c with
  | widget r =>
    refine ⟨_, rfl, ?_⟩
    split
    · exact ⟨rfl, rfl, rfl⟩
    · cases r <;> exact ⟨rfl, rfl, rfl⟩
  | window => exact ⟨_, rfl, rfl, rfl, rfl⟩

theorem schedule_redraws_cons (w : window) (c : redraw_request) (rest : List redraw_request) :
    schedule_redraws w (c :: rest) = schedule_redraws (schedule_redraws w [c]) rest := by
  cases c <;> rfl

/-- Once the task is scheduled, further scheduling calls leave the queue alone. -/
theorem schedule_redraws_scheduled (calls : List redraw_request) (w : window)
    (hs : w.redraw_task_scheduled = true) (hcfg : w.configure_requests = 0) :
    (schedule_redraws w calls).display.deferred_list = w.display.deferred_list ∧
    (schedule_redraws w calls).redraw_task_scheduled = true := by
  induction calls generalizing w with
  | nil => exact ⟨rfl, hs⟩
  | cons c rest ih =>
    rw [schedule_redraws_cons]
    obtain ⟨w1, h1, hl, hf, hc⟩ := schedule_redraw_request_queue w c
    obtain ⟨hcfg1, _, h3, _⟩ := schedule_redraw_task_queue w1
    have h3 := h3 (by rw [hc, hcfg]) (by rw [hf, hs])
    rw [h1]
    obtain ⟨i1, i2⟩ := ih (window_schedule_redraw_task w1) h3.2 (by rw [hcfg1, hc, hcfg])
    exact ⟨by rw [i1, h3.1, hl], i2⟩

/-- While a configure acknowledgement is outstanding, scheduling calls leave
the queue alone. -/
theorem schedule_redraws_configuring (calls : List redraw_request) (w : window)
    (hcfg : w.configure_requests ≠ 0) :
    (schedule_redraws w calls).display.deferred_list = w.display.deferred_list ∧
    (schedule_redraws w calls).redraw_task_scheduled = w.redraw_task_scheduled := by
  induction calls generalizing w with
  | nil => exact ⟨rfl, rfl⟩
  | cons c rest ih =>
    rw [schedule_redraws_cons]
    obtain ⟨w1, h1, hl, hf, hc⟩ := schedule_redraw_request_queue w c
    obtain ⟨hcfg1, h2, _, _⟩ := schedule_redraw_task_queue w1
    have h2 := h2 (by rw [hc]; exact hcfg)
    rw [h1]
    obtain ⟨i1, i2⟩ := ih (window_schedule_redraw_task w1) (by rw [hcfg1, hc]; exact hcfg)
    exact ⟨by rw [i1, h2.1, hl], by rw [i2, h2.2, hf]⟩

/-- The fields `window_schedule_redraw` leaves alone. -/
theorem window_schedule_redraw_fields (w : window) :
    (window_schedule_redraw w).pending_allocation = w.pending_allocation ∧
    (window_schedule_redraw w).min_allocation = w.min_allocation ∧
    (window_schedule_redraw w).resize_needed = w.resize_needed ∧
    (window_schedule_redraw w).frame = w.frame := by
  unfold window_schedule_redraw window_schedule_redraw_task
  split_ifs <;> exact ⟨rfl, rfl, rfl, rfl⟩

/-- The assignments of `window_schedule_resize`, as one record update. -/
theorem window_schedule_resize_record_eq (w : window) (width height : Int) :
    window_schedule_resize_record w width height =
      { w with
        min_allocation :=
          (if w.min_allocation.width = 0 then
            { w.min_allocation with
              width := if width < 200 ∧ w.frame then 200 else width,
              height := if height < 200 ∧ w.frame then 200 else height }
          else w.min_allocation),
        pending_allocation :=
          { x := 0, y := 0,
            width := max width
              (if w.min_allocation.width = 0 then
                (if width < 200 ∧ w.frame then 200 else width) else w.min_allocation.width),
            height := max height
              (if w.min_allocation.width = 0 then
                (if height < 200 ∧ w.frame then 200 else height) else w.min_allocation.height) },
        resize_needed := true } := by
  unfold window_schedule_resize_record
  dsimp only
  by_cases hm : w.min_allocation.width = 0
  · rw [if_pos hm, if_pos hm, if_pos hm, if_pos hm]
    cases hf : w.frame
    · simp only [Bool.false_eq_true, and_false, if_false, lt_self_iff_false, max_self]
    · simp only [and_true]
      rcases lt_or_le width 200 with h1 | h1 <;> rcases lt_or_le height 200 with h2 | h2
      · simp [h1, h2, h1.le, h2.le]
      · simp [h1, not_lt.2 h2, h1.le]
      · simp [not_lt.2 h1, h2, h2.le]
      · simp [not_lt.2 h1, not_lt.2 h2]
  · rw [if_neg hm, if_neg hm, if_neg hm, if_neg hm]
    dsimp only
    rcases lt_or_le width w.min_allocation.width with h1 | h1 <;>
      rcases lt_or_le height w.min_allocation.height with h2 | h2
    · simp [h1, h2, h1.le, h2.le]
    · simp [h1, not_lt.2 h2, h1.le, h2]
    · simp [not_lt.2 h1, h2, h2.le, h1]
    · simp [not_lt.2 h1, not_lt.2 h2, h1, h2]

/-- The minimum allocation after `window_schedule_resize`. -/
theorem window_schedule_resize_min (w : window) (width height : Int) :
    (window_schedule_resize w width height).min_allocation =
      (if w.min_allocation.width = 0 then
        { w.min_allocation with
          width := if width < 200 ∧ w.frame then 200 else width,
          height := if height < 200 ∧ w.frame then 200 else height }
      else w.min_allocation) := by
  unfold window_schedule_resize
  rw [(window_schedule_redraw_fields (window_schedule_resize_record w width height)).2.1,
    window_schedule_resize_record_eq]

/-- The pending allocation after `window_schedule_resize`. -/
theorem window_schedule_resize_pending (w : window) (width height : Int) :
    (window_schedule_resize w width height).pending_allocation =
      { x := 0, y := 0,
        width := max width
          (if w.min_allocation.width = 0 then
            (if width < 200 ∧ w.frame then 200 else width) else w.min_allocation.width),
        height := max height
          (if w.min_allocation.width = 0 then
            (if height < 200 ∧ w.frame then 200 else height) else w.min_allocation.height) } := by
  unfold window_schedule_resize
  rw [(window_schedule_redraw_fields (window_schedule_resize_record w width height)).1,
    window_schedule_resize_record_eq]

/-- The flag `resize_needed` after `window_schedule_resize`. -/
theorem window_schedule_resize_needed (w : window) (width height : Int) :
    (window_schedule_resize w width height).resize_needed = true := by
  unfold window_schedule_resize
  rw [(window_schedule_redraw_fields (window_schedule_resize_record w width height)).2.2.1,
    window_schedule_resize_record_eq]

/-! ## Window scheduler: what leaves the widgets and the pending resize alone -/

theorem widgets_kept_refl (w : window) : widgets_kept w w :=
  ⟨fun _ => rfl, rfl, rfl, ⟨[], (List.append_nil _).symm⟩⟩

theorem widgets_kept_trans (w w1 w2 : window) (h1 : widgets_kept w w1)
    (h2 : widgets_kept w1 w2) : widgets_kept w w2 := by
  obtain ⟨e1, he1⟩ := h1.log_grows
  obtain ⟨e2, he2⟩ := h2.log_grows
  exact ⟨fun r => (h2.widgets r).trans (h1.widgets r), h2.resize_needed.trans h1.resize_needed,
    h2.pending.trans h1.pending, ⟨e1 ++ e2, by rw [he2, he1, List.append_assoc]⟩⟩

theorem widgets_kept_foldl (f : window → surface_ref → window)
    (hf : ∀ w r, widgets_kept w (f w r)) (rs : List surface_ref) (w : window) :
    widgets_kept w (rs.foldl f w) := by
  induction rs generalizing w with
  | nil => exact widgets_kept_refl w
  | cons r rs ih => exact widgets_kept_trans _ _ _ (hf w r) (ih (f w r))

theorem widgets_kept_foldlM (f : window → surface_ref → Option window)
    (hf : ∀ w r w1, f w r = some w1 → widgets_kept w w1) (rs : List surface_ref)
    (w w1 : window) (h : rs.foldlM f w = some w1) : widgets_kept w w1 := by
  induction rs generalizing w with
  | nil =>
    simp only [List.foldlM, pure, Option.some.injEq] at h
    subst h
    exact widgets_kept_refl w
  | cons r rs ih =>
    simp only [List.foldlM, bind, Option.bind_eq_some] at h
    obtain ⟨w2, h2, h3⟩ := h
    exact widgets_kept_trans _ _ _ (hf w r w2 h2) (ih w2 h3)

theorem kept_emit (w : window) (calls : List window_call) : widgets_kept w (w.emit calls) :=
  ⟨fun r => by cases r <;> rfl, rfl, rfl, ⟨calls, rfl⟩⟩

theorem kept_set_surface (w : window) (r : surface_ref) (s s1 : surface)
    (hget : w.get_surface r = some s) (hw : s1.widget = s.widget) :
    widgets_kept w (w.set_surface r s1) := by
  refine ⟨fun r1 => ?_, ?_, ?_, ⟨[], ?_⟩⟩
  · by_cases h : r1 = r
    · subst h
      rw [get_set_surface_same w r1 s s1 hget, hget]
      simp [hw]
    · rw [get_set_surface_ne w r r1 s1 h]
  · cases r <;> rfl
  · cases r <;> rfl
  · cases r <;> exact (List.append_nil _).symm

theorem kept_of_eq (w w1 : window) (h1 : w1.display.log = w.display.log)
    (h2 : w1.main_surface = w.main_surface) (h3 : w1.subsurfaces = w.subsurfaces)
    (h4 : w1.resize_needed = w.resize_needed)
    (h5 : w1.pending_allocation = w.pending_allocation) : widgets_kept w w1 := by
  refine ⟨fun r => ?_, h4, h5, ⟨[], by rw [h1, List.append_nil]⟩⟩
  cases r with
  | main => simp only [window.get_surface, h2]
  | sub i => simp only [window.get_surface, h3]

theorem kept_schedule_redraw_task (w : window) :
    widgets_kept w (window_schedule_redraw_task w) := by
  unfold window_schedule_redraw_task
  split
  · exact widgets_kept_refl w
  · split
    · exact kept_of_eq _ _ rfl rfl rfl rfl rfl
    · exact widgets_kept_refl w

theorem kept_window_schedule_redraw (w : window) :
    widgets_kept w (window_schedule_redraw w) := by
  unfold window_schedule_redraw
  refine widgets_kept_trans _ _ _ ?_ (kept_schedule_redraw_task _)
  refine ⟨fun r => ?_, rfl, rfl, ⟨[], (List.append_nil _).symm⟩⟩
  cases r with
  | main => rfl
  | sub i =>
    simp only [window.get_surface, List.getElem?_map, Option.map_map]
    rfl

theorem kept_set_synchronized (w : window) (r : surface_ref) :
    widgets_kept w (surface_set_synchronized w r) := by
  unfold surface_set_synchronized
  split
  · exact widgets_kept_refl w
  · rename_i s hs
    split
    · exact widgets_kept_refl w
    · split
      · exact widgets_kept_refl w
      · refine widgets_kept_trans _ _ _ ?_ (kept_emit _ _)
        exact kept_set_surface w r s _ hs rfl

theorem kept_set_synchronized_default (w : window) (r : surface_ref) :
    widgets_kept w (surface_set_synchronized_default w r) := by
  unfold surface_set_synchronized_default
  split
  · exact widgets_kept_refl w
  · rename_i s hs
    split
    · exact widgets_kept_refl w
    · split
      · exact widgets_kept_refl w
      · refine widgets_kept_trans _ _ _ ?_ (kept_emit _ _)
        exact kept_set_surface w r s _ hs rfl

theorem kept_surface_redraw (w : window) (r : surface_ref) :
    widgets_kept w (surface_redraw w r) := by
  unfold surface_redraw
  split
  · exact widgets_kept_refl w
  · rename_i s hs
    split
    · exact widgets_kept_refl w
    · split
      · exact widgets_kept_refl w
      · unfold surface_redraw_request
        dsimp only
        refine widgets_kept_trans _ _ _ ?_ (kept_emit _ _)
        refine widgets_kept_trans _
          ({ w with display := { w.display with next_id := w.display.next_id + 1 } } : window) _
          (kept_of_eq _ _ rfl rfl rfl rfl rfl) ?_
        refine kept_set_surface _ r s _ ?_ rfl
        rw [← hs]
        cases r <;> rfl

theorem kept_surface_flush (w w1 : window) (r : surface_ref)
    (h : surface_flush w r = some w1) : widgets_kept w w1 := by
  unfold surface_flush at h
  split at h
  · simp only [Option.some.injEq] at h
    subst h
    exact widgets_kept_refl w
  · rename_i s hs
    split at h
    · simp only [Option.some.injEq] at h
      subst h
      exact widgets_kept_refl w
    · split at h
      · exact Option.noConfusion h
      · split at h
        · exact Option.noConfusion h
        · simp only [Option.some.injEq] at h
          subst h
          refine widgets_kept_trans _ _ _ ?_ (kept_emit _ _)
          exact kept_set_surface w r s _ hs rfl

theorem kept_window_flush (w w1 : window) (h : window_flush w = some w1) :
    widgets_kept w w1 := by
  unfold window_flush at h
  simp only [Option.bind_eq_some] at h
  obtain ⟨w2, h2, h3⟩ := h
  have h0 : widgets_kept w
      (if w.type = window_type.TYPE_NONE then
        match w.shell_surface with
        | some sh => ({ w with type := window_type.TYPE_TOPLEVEL }).emit
            [window_call.wl_shell_surface_set_toplevel sh]
        | none => { w with type := window_type.TYPE_TOPLEVEL }
      else w) := by
    split
    · split
      · refine widgets_kept_trans _ _ _ ?_ (kept_emit _ _)
        exact kept_of_eq w _ rfl rfl rfl rfl rfl
      · exact kept_of_eq w _ rfl rfl rfl rfl rfl
    · exact widgets_kept_refl w
  exact widgets_kept_trans _ _ _ h0
    (widgets_kept_trans _ _ _
      (widgets_kept_foldlM _ (fun a b c => kept_surface_flush a c b) _ _ _ h2)
      (kept_surface_flush _ _ _ h3))

theorem kept_surface_resize_finish (w : window) (r : surface_ref) (s : surface)
    (region : Nat) : widgets_kept w (surface_resize_finish w r s region) := by
  unfold surface_resize_finish
  dsimp only
  have h2 : widgets_kept w { w with display := { w.display with next_id := region + 1 } } :=
    kept_of_eq _ _ rfl rfl rfl rfl rfl
  have h3 : widgets_kept w
      (if s.allocation.width ≠ s.widget.allocation.width ∨
          s.allocation.height ≠ s.widget.allocation.height then
        window_schedule_redraw { w with display := { w.display with next_id := region + 1 } }
      else { w with display := { w.display with next_id := region + 1 } }) := by
    split
    · exact widgets_kept_trans _ _ _ h2 (kept_window_schedule_redraw _)
    · exact h2
  revert h3
  generalize (if s.allocation.width ≠ s.widget.allocation.width ∨
          s.allocation.height ≠ s.widget.allocation.height then _ else _ : window) = w3
  intro h3
  split
  · exact h3
  · rename_i s1 hs1
    have h4 : widgets_kept w3 (w3.set_surface r { s1 with allocation := s.widget.allocation }) :=
      kept_set_surface w3 r s1 _ hs1 rfl
    split
    · exact widgets_kept_trans _ _ _ h3 (widgets_kept_trans _ _ _ h4 (kept_emit _ _))
    · exact widgets_kept_trans _ _ _ h3 h4

theorem kept_surface_resize (w : window) (r : surface_ref) :
    widgets_kept w (surface_resize w r) := by
  unfold surface_resize
  split
  · exact widgets_kept_refl w
  · rename_i s hs
    dsimp only
    have h1 : widgets_kept w
        ((w.set_surface r { s with input_region := none, opaque_region := some w.display.next_id }).emit
          (surface_resize_calls s w.display.next_id)) := by
      refine widgets_kept_trans _ _ _ ?_ (kept_emit _ _)
      exact kept_set_surface w r s _ hs rfl
    exact widgets_kept_trans _ _ _ h1 (kept_surface_resize_finish _ r s _)

/-- The log after `surface_resize`: the log before, then the calls up to the
resize handler and the repositioning, then what the rest adds. -/
theorem surface_resize_log (w : window) (r : surface_ref) (s : surface)
    (hs : w.get_surface r = some s) :
    ∃ extra, (surface_resize w r).display.log =
      w.display.log ++ surface_resize_calls s w.display.next_id ++ extra := by
  unfold surface_resize
  rw [hs]
  dsimp only
  obtain ⟨extra, he⟩ := (kept_surface_resize_finish
    ((w.set_surface r { s with input_region := none, opaque_region := some w.display.next_id }).emit
      (surface_resize_calls s w.display.next_id)) r s w.display.next_id).log_grows
  refine ⟨extra, ?_⟩
  rw [he]
  cases r <;> rfl

theorem kept_idle_redraw_paint (w w1 : window) (h : idle_redraw_paint w = some w1) :
    widgets_kept w w1 := by
  unfold idle_redraw_paint at h
  simp only [Option.map_eq_some'] at h
  obtain ⟨c, hc, hcb⟩ := h
  subst hcb
  have h1 : widgets_kept w (w.subsurface_list.foldl surface_redraw w) :=
    widgets_kept_foldl _ kept_surface_redraw _ _
  have h2 : widgets_kept (w.subsurface_list.foldl surface_redraw w)
      { (w.subsurface_list.foldl surface_redraw w) with redraw_needed := false } :=
    kept_of_eq _ _ rfl rfl rfl rfl rfl
  have h3 := kept_window_flush _ _ hc
  have h4 : widgets_kept c (c.subsurface_list.foldl surface_set_synchronized_default c) :=
    widgets_kept_foldl _ kept_set_synchronized_default _ _
  exact widgets_kept_trans _ _ _ h1
    (widgets_kept_trans _ _ _ h2 (widgets_kept_trans _ _ _ h3 h4))

theorem widget_set_allocation_fields (wd : widget) (x y width height : Int) :
    (widget_set_allocation wd x y width height).allocation =
      { x := x, y := y, width := width, height := height } ∧
    (widget_set_allocation wd x y width height).id = wd.id ∧
    (widget_set_allocation wd x y width height).resize_handler = wd.resize_handler ∧
    (widget_set_allocation wd x y width height).redraw_handler = wd.redraw_handler ∧
    (widget_set_allocation wd x y width height).child_list = wd.child_list := by
  cases wd
  exact ⟨rfl, rfl, rfl, rfl, rfl⟩

theorem main_widget_of_kept (w w1 : window) (h : widgets_kept w w1) :
    w1.main_surface.widget = w.main_surface.widget := by
  have := h.widgets surface_ref.main
  simpa [window.get_surface] using this

/-- The function `idle_resize` clears `resize_needed`, gives the root widget of
the main surface the pending allocation, and calls that widget's resize
handler, when it has one, with the pending size. -/
theorem idle_resize_applies_pending (w : window) :
    (idle_resize w).resize_needed = false ∧
    (idle_resize w).pending_allocation = w.pending_allocation ∧
    (idle_resize w).main_surface.widget =
      widget_set_allocation w.main_surface.widget w.pending_allocation.x
        w.pending_allocation.y w.pending_allocation.width w.pending_allocation.height ∧
    (w.main_surface.widget.resize_handler = true →
      window_call.resize_handler w.main_surface.widget.id w.pending_allocation.width
        w.pending_allocation.height ∈ (idle_resize w).display.log) := by
  -- the window on entry to `surface_resize(window->main_surface)`
  have key : ∀ w3 : window, widgets_kept w3
      (((surface_resize w3 surface_ref.main).subsurface_list.filter
          (fun r => r != surface_ref.main)).foldl
        (fun w r => surface_resize (surface_set_synchronized w r) r)
        (surface_resize w3 surface_ref.main)) := by
    intro w3
    refine widgets_kept_trans _ _ _ (kept_surface_resize w3 _) (widgets_kept_foldl _ ?_ _ _)
    intro a r
    exact widgets_kept_trans _ _ _ (kept_set_synchronized a r) (kept_surface_resize _ r)
  have hlog : ∀ w3 : window, ∃ extra,
      (((surface_resize w3 surface_ref.main).subsurface_list.filter
          (fun r => r != surface_ref.main)).foldl
        (fun w r => surface_resize (surface_set_synchronized w r) r)
        (surface_resize w3 surface_ref.main)).display.log =
      w3.display.log ++ surface_resize_calls w3.main_surface w3.display.next_id ++ extra := by
    intro w3
    obtain ⟨e1, h1⟩ := surface_resize_log w3 surface_ref.main w3.main_surface rfl
    have hk : widgets_kept (surface_resize w3 surface_ref.main)
        (((surface_resize w3 surface_ref.main).subsurface_list.filter
            (fun r => r != surface_ref.main)).foldl
          (fun w r => surface_resize (surface_set_synchronized w r) r)
          (surface_resize w3 surface_ref.main)) := by
      refine widgets_kept_foldl _ ?_ _ _
      intro a r
      exact widgets_kept_trans _ _ _ (kept_set_synchronized a r) (kept_surface_resize _ r)
    obtain ⟨e2, h2⟩ := hk.log_grows
    exact ⟨e1 ++ e2, by rw [h2, h1, List.append_assoc]⟩
  unfold idle_resize
  dsimp only
  generalize hw3 : ({ (hack_prevent_EGL_sub_surface_deadlock
      { w with resize_needed := false, redraw_needed := true }) with
    main_surface :=
      { (hack_prevent_EGL_sub_surface_deadlock
          { w with resize_needed := false, redraw_needed := true }).main_surface with
        widget := widget_set_allocation
          (hack_prevent_EGL_sub_surface_deadlock
            { w with resize_needed := false, redraw_needed := true }).main_surface.widget
          (hack_prevent_EGL_sub_surface_deadlock
            { w with resize_needed := false, redraw_needed := true }).pending_allocation.x
          (hack_prevent_EGL_sub_surface_deadlock
            { w with resize_needed := false, redraw_needed := true }).pending_allocation.y
          (hack_prevent_EGL_sub_surface_deadlock
            { w with resize_needed := false, redraw_needed := true }).pending_allocation.width
          (hack_prevent_EGL_sub_surface_deadlock
            { w with resize_needed := false,
                     redraw_needed := true }).pending_allocation.height } } : window) = w3
  have hhack : (hack_prevent_EGL_sub_surface_deadlock
      { w with resize_needed := false, redraw_needed := true }).main_surface = w.main_surface ∧
      (hack_prevent_EGL_sub_surface_deadlock
      { w with resize_needed := false, redraw_needed := true }).pending_allocation =
        w.pending_allocation ∧
      (hack_prevent_EGL_sub_surface_deadlock
      { w with resize_needed := false, redraw_needed := true }).resize_needed = false := by
    unfold hack_prevent_EGL_sub_surface_deadlock
    split <;> exact ⟨rfl, rfl, rfl⟩
  have h3 : w3.resize_needed = false ∧ w3.pending_allocation = w.pending_allocation ∧
      w3.main_surface.widget = widget_set_allocation w.main_surface.widget w.pending_allocation.x
        w.pending_allocation.y w.pending_allocation.width w.pending_allocation.height := by
    rw [← hw3]
    dsimp only
    rw [hhack.1, hhack.2.1]
    exact ⟨hhack.2.2, rfl, rfl⟩
  have hk := key w3
  refine ⟨hk.resize_needed.trans h3.1, hk.pending.trans h3.2.1,
    (main_widget_of_kept _ _ hk).trans h3.2.2, ?_⟩
  intro hh
  obtain ⟨extra, he⟩ := hlog w3
  rw [he]
  apply List.mem_append_left
  apply List.mem_append_right
  obtain ⟨fa, fi, fr, _, _⟩ := widget_set_allocation_fields w.main_surface.widget
    w.pending_allocation.x w.pending_allocation.y w.pending_allocation.width
    w.pending_allocation.height
  unfold surface_resize_calls
  rw [h3.2.2, fr, hh, fi, fa]
  simp

/-! ## Window scheduler: the redraw and resize claims -/

/-- The two ways `surface_redraw` treats a surface whose frame callback is
outstanding: without the whole-window flag it returns at once; with the flag it
destroys the callback, then requests a new one, then redraws. -/
theorem surface_redraw_outstanding (w : window) (r : surface_ref) (s : surface) (cb : Nat)
    (hget : w.get_surface r = some s) (hcb : s.frame_cb = some cb) :
    (w.redraw_needed = false → surface_redraw w r = w) ∧
    (w.redraw_needed = true →
      (surface_redraw w r).display.log =
        w.display.log ++
          [window_call.wl_callback_destroy cb,
           window_call.wl_surface_frame s.surface w.display.next_id] ++
          widget_redraw s.widget) := by
  constructor
  · intro hw
    unfold surface_redraw
    rw [hget]
    simp only [hw, hcb, Bool.not_false, Bool.true_and, Option.isSome_some, Bool.and_self,
      if_true]
    split <;> rfl
  · intro hw
    unfold surface_redraw
    rw [hget]
    simp only [hw, hcb, Bool.not_true, Bool.false_and, Bool.and_false, Bool.false_eq_true,
      if_false]
    rw [log_surface_redraw_request]
    unfold surface_redraw_calls
    rw [hcb]
    simp

/-- C6: start from a window whose callback bookkeeping is right (a freshly
created window is one) and let redraws be scheduled, resizes be requested,
sub-surfaces be added, redraw passes run and frame callbacks arrive, in any
order. Then on every surface the callbacks requested and not destroyed are
exactly the surface's `frame_cb`, so at most one; and `surface_redraw` on a
surface with an outstanding callback does nothing unless the whole-window flag
is set, in which case it destroys that callback before it requests the new one,
which is then the only one outstanding. -/
theorem at_most_one_outstanding_frame_callback (w0 w : window) (evs : List window_event)
    (hinv : callbacks_inv w0) (hrun : window_run w0 evs = some w) :
    (∀ r s, w.get_surface r = some s →
      outstanding_callbacks s.surface w.display.log = s.frame_cb.toList ∧
      (outstanding_callbacks s.surface w.display.log).length ≤ 1) ∧
    (∀ r s cb, w.get_surface r = some s → s.frame_cb = some cb →
      (w.redraw_needed = false → surface_redraw w r = w) ∧
      (w.redraw_needed = true →
        (surface_redraw w r).display.log =
          w.display.log ++
            [window_call.wl_callback_destroy cb,
             window_call.wl_surface_frame s.surface w.display.next_id] ++
            widget_redraw s.widget ∧
        outstanding_callbacks s.surface (surface_redraw w r).display.log =
          [w.display.next_id])) := by
  have hw := inv_window_run evs w0 w hinv hrun
  refine ⟨?_, ?_⟩
  · intro r s hget
    have ht := hw.tracked r s hget
    refine ⟨ht, ?_⟩
    rw [ht]
    cases s.frame_cb <;> simp [Option.toList]
  · intro r s cb hget hcb
    obtain ⟨h1, h2⟩ := surface_redraw_outstanding w r s cb hget hcb
    refine ⟨h1, fun hflag => ⟨h2 hflag, ?_⟩⟩
    have hreq : surface_redraw w r = surface_redraw_request w r s := by
      unfold surface_redraw
      rw [hget]
      simp [hflag, hcb]
    have hafter := inv_surface_redraw_request w r s hw hget
    have hg := get_surface_redraw_request w r r s hget
    simp only [if_true] at hg
    have := hafter.tracked r _ hg
    rw [hreq]
    exact this

/-- C6 at a concrete run: a window with a sub-surface, where a resize forces a
redraw of the sub-surface while its callback 4 is outstanding; the log shows
callback 4 destroyed before callback 8 is requested, and one callback alive on
each surface. -/
theorem at_most_one_outstanding_frame_callback_witness :
    (∀ r s, window_forced_redraw.get_surface r = some s →
      outstanding_callbacks s.surface window_forced_redraw.display.log = s.frame_cb.toList ∧
      (outstanding_callbacks s.surface window_forced_redraw.display.log).length ≤ 1) ∧
    window_forced_redraw.display.log.drop 13 =
      [window_call.wl_callback_destroy 4, window_call.wl_surface_frame 2 8,
       window_call.redraw_handler 20, window_call.wl_surface_frame 1 9,
       window_call.redraw_handler 10, window_call.redraw_handler 11,
       window_call.wl_subsurface_set_desync 3] :=
  ⟨(at_most_one_outstanding_frame_callback window_fresh window_forced_redraw
      events_forced_redraw (inv_window_create _ _ _ _)
      (option_eq_some_getD _ _ (by decide!))).1, by decide!⟩

/-- C7 (as stated, refuted): on a window that waits for a configure
acknowledgement (`configure_requests` = 1, task not scheduled), three
scheduling calls leave the redraw task on the deferred list zero times. -/
theorem schedule_redraw_suppressed_while_configuring :
    window_configuring.configure_requests = 1 ∧
    window_configuring.redraw_task_scheduled = false ∧
    (schedule_redraws window_configuring
      [redraw_request.window, redraw_request.widget surface_ref.main,
       redraw_request.window]).display.deferred_list.count task.redraw_task = 0 := by
  decide!

/-- C7 (amended): on a window with no configure acknowledgement outstanding
whose redraw task is not scheduled, any one or more calls of
`widget_schedule_redraw` and `window_schedule_redraw` put the redraw task on
the deferred list once, at its head, however many calls there are; with
nothing else queued, the next turn of the drain loop of `display_run` takes
the task off the list and runs `idle_redraw` on it, once. While
`configure_requests` is not zero the calls queue nothing. -/
theorem schedule_redraw_queues_task_once (w : window) (calls : List redraw_request)
    (hcalls : calls ≠ []) (hcfg : w.configure_requests = 0)
    (hs : w.redraw_task_scheduled = false)
    (hq : task.redraw_task ∉ w.display.deferred_list) :
    (schedule_redraws w calls).display.deferred_list =
      task.redraw_task :: w.display.deferred_list ∧
    (schedule_redraws w calls).display.deferred_list.count task.redraw_task = 1 ∧
    (schedule_redraws w calls).redraw_task_scheduled = true ∧
    (w.display.deferred_list = [] →
      display_run_task (schedule_redraws w calls) =
        idle_redraw
          { (schedule_redraws w calls) with
            display := { (schedule_redraws w calls).display with deferred_list := [] } }) ∧
    (∀ w2 : window, w2.configure_requests ≠ 0 →
      (schedule_redraws w2 calls).display.deferred_list = w2.display.deferred_list) := by
  cases calls with
  | nil => exact absurd rfl hcalls
  | cons c rest =>
    have hlist : (schedule_redraws w (c :: rest)).display.deferred_list =
        task.redraw_task :: w.display.deferred_list ∧
        (schedule_redraws w (c :: rest)).redraw_task_scheduled = true := by
      rw [schedule_redraws_cons]
      obtain ⟨w1, h1, hl, hf, hc⟩ := schedule_redraw_request_queue w c
      obtain ⟨hcfg1, _, _, h4⟩ := schedule_redraw_task_queue w1
      have h4 := h4 (by rw [hc, hcfg]) (by rw [hf, hs])
      rw [h1]
      obtain ⟨i1, i2⟩ := schedule_redraws_scheduled rest (window_schedule_redraw_task w1) h4.2
        (by rw [hcfg1, hc, hcfg])
      exact ⟨by rw [i1, h4.1, hl], i2⟩
    refine ⟨hlist.1, ?_, hlist.2, ?_, ?_⟩
    · rw [hlist.1, List.count_cons_self, List.count_eq_zero_of_not_mem hq]
    · intro hempty
      unfold display_run_task
      rw [hlist.1, hempty]
      rfl
    · intro w2 h2
      exact (schedule_redraws_configuring (c :: rest) w2 h2).1

/-- C7 (amended) at a concrete input: three calls on a fresh window. -/
theorem schedule_redraw_queues_task_once_witness :
    (schedule_redraws window_fresh
      [redraw_request.window, redraw_request.widget surface_ref.main,
       redraw_request.window]).display.deferred_list = [task.redraw_task] :=
  (schedule_redraw_queues_task_once window_fresh
    [redraw_request.window, redraw_request.widget surface_ref.main, redraw_request.window]
    (by decide) rfl rfl (by decide)).1

/-- C8: after `window_schedule_resize(window, width, height)` the pending
allocation is at least the window's minimum allocation in both dimensions: a
dimension requested below the minimum is the minimum, a dimension requested at
or above it is as requested; `resize_needed` is set. The minimum is the one
the window holds after the call: the call sets it when the window had none
(`min_allocation.width` = 0) and keeps it otherwise. -/
theorem window_schedule_resize_clamps (w : window) (width height : Int) :
    (window_schedule_resize w width height).min_allocation.width ≤
      (window_schedule_resize w width height).pending_allocation.width ∧
    (window_schedule_resize w width height).min_allocation.height ≤
      (window_schedule_resize w width height).pending_allocation.height ∧
    (width < (window_schedule_resize w width height).min_allocation.width →
      (window_schedule_resize w width height).pending_allocation.width =
        (window_schedule_resize w width height).min_allocation.width) ∧
    ((window_schedule_resize w width height).min_allocation.width ≤ width →
      (window_schedule_resize w width height).pending_allocation.width = width) ∧
    (height < (window_schedule_resize w width height).min_allocation.height →
      (window_schedule_resize w width height).pending_allocation.height =
        (window_schedule_resize w width height).min_allocation.height) ∧
    ((window_schedule_resize w width height).min_allocation.height ≤ height →
      (window_schedule_resize w width height).pending_allocation.height = height) ∧
    (window_schedule_resize w width height).resize_needed = true ∧
    (w.min_allocation.width ≠ 0 →
      (window_schedule_resize w width height).min_allocation = w.min_allocation) := by
  rw [window_schedule_resize_min, window_schedule_resize_pending, window_schedule_resize_needed]
  dsimp only
  refine ⟨?_, ?_, ?_, ?_, ?_, ?_, rfl, ?_⟩
  · split_ifs <;> exact le_max_right _ _
  · split_ifs <;> exact le_max_right _ _
  · intro h
    split_ifs at h ⊢ <;> exact max_eq_right (le_of_lt h)
  · intro h
    split_ifs at h ⊢ <;> exact max_eq_left h
  · intro h
    split_ifs at h ⊢ <;> exact max_eq_right (le_of_lt h)
  · intro h
    split_ifs at h ⊢ <;> exact max_eq_left h
  · intro h
    rw [if_neg h]

/-- C9 (as stated, refuted): on a decorated window first resized to 300 x 300,
a request for 250 x 250 is clamped to 300 x 300, not kept as a size above a
200 x 200 minimum. -/
theorem decorated_minimum_not_200 :
    window_fresh.frame = true ∧
    (window_schedule_resize (window_schedule_resize window_fresh 300 300) 250
      250).pending_allocation = { x := 0, y := 0, width := 300, height := 300 } ∧
    (window_schedule_resize (window_schedule_resize window_fresh 300 300) 250
      250).pending_allocation.width ≠ max 250 200 := by
  decide!

/-- The minimum allocation, once its width is not zero, is kept by every
later `window_schedule_resize`. -/
theorem min_allocation_latched (later : List (Int × Int)) (w : window)
    (h : w.min_allocation.width ≠ 0) :
    (later.foldl (fun a p => window_schedule_resize a p.1 p.2) w).min_allocation =
      w.min_allocation := by
  induction later generalizing w with
  | nil => rfl
  | cons p ps ih =>
    have hp : (window_schedule_resize w p.1 p.2).min_allocation = w.min_allocation := by
      rw [window_schedule_resize_min, if_neg h]
    simp only [List.foldl]
    rw [ih _ (by rw [hp]; exact h), hp]

/-- C9 (amended): on a decorated window that has no minimum yet
(`min_allocation.width` = 0, as after creation), the first
`window_schedule_resize` fixes the minimum, in each dimension, at 200 when the
requested size is below 200 and at the requested size otherwise; every later
call keeps that minimum and clamps the pending allocation to it. -/
theorem decorated_minimum_latched_by_first_resize (w : window) (width height : Int)
    (later : List (Int × Int)) (width2 height2 : Int)
    (hframe : w.frame = true) (hmin : w.min_allocation.width = 0) :
    (window_schedule_resize
      (later.foldl (fun a p => window_schedule_resize a p.1 p.2)
        (window_schedule_resize w width height)) width2 height2).min_allocation.width =
      max width 200 ∧
    (window_schedule_resize
      (later.foldl (fun a p => window_schedule_resize a p.1 p.2)
        (window_schedule_resize w width height)) width2 height2).min_allocation.height =
      max height 200 ∧
    (window_schedule_resize
      (later.foldl (fun a p => window_schedule_resize a p.1 p.2)
        (window_schedule_resize w width height)) width2 height2).pending_allocation =
      { x := 0, y := 0, width := max width2 (max width 200),
        height := max height2 (max height 200) } := by
  have first : (window_schedule_resize w width height).min_allocation.width = max width 200 ∧
      (window_schedule_resize w width height).min_allocation.height = max height 200 := by
    rw [window_schedule_resize_min, if_pos hmin, hframe]
    dsimp only
    constructor
    · rcases lt_or_le width 200 with h | h
      · simp [h, h.le]
      · simp [not_lt.2 h, h]
    · rcases lt_or_le height 200 with h | h
      · simp [h, h.le]
      · simp [not_lt.2 h, h]
  have hne : (window_schedule_resize w width height).min_allocation.width ≠ 0 := by
    rw [first.1]
    have : (200 : Int) ≤ max width 200 := le_max_right _ _
    omega
  have hl := min_allocation_latched later (window_schedule_resize w width height) hne
  generalize later.foldl (fun a p => window_schedule_resize a p.1 p.2)
    (window_schedule_resize w width height) = wl at hl
  have hne2 : wl.min_allocation.width ≠ 0 := by
    rw [hl]
    exact hne
  rw [window_schedule_resize_min, window_schedule_resize_pending, if_neg hne2, if_neg hne2,
    if_neg hne2, hl, first.1, first.2]
  exact ⟨rfl, rfl, rfl⟩

/-- C9 (amended) at a concrete input: a fresh decorated window resized to
300 x 100, then to 250 x 250. -/
theorem decorated_minimum_latched_by_first_resize_witness :
    (window_schedule_resize (window_schedule_resize window_fresh 300 100) 250
      250).pending_allocation = { x := 0, y := 0, width := 300, height := 250 } :=
  (decorated_minimum_latched_by_first_resize window_fresh 300 100 [] 250 250 rfl rfl).2.2

/-- C10: let `idle_redraw` run with `resize_needed` set. If a frame callback
is outstanding on the main surface, it only clears `redraw_task_scheduled`:
the widgets, `resize_needed`, every surface's `redraw_needed` and `frame_cb` and
the log of requests and handler calls are as before. If none is outstanding, it
goes through `idle_resize`, and when it returns `resize_needed` is clear, the
root widget of the main surface has the pending allocation, and that widget's
resize handler, when it has one, was called with the pending size. Requesting
the resize (`window_schedule_resize`) does not itself change the root widget. -/
theorem idle_redraw_throttles_resize (w : window) (hr : w.resize_needed = true) :
    (∀ cb, w.main_surface.frame_cb = some cb →
      idle_redraw w = some { w with redraw_task_scheduled := false }) ∧
    (w.main_surface.frame_cb = none →
      idle_redraw w =
        idle_redraw_paint (idle_resize { w with redraw_task_scheduled := false }) ∧
      ∀ w1, idle_redraw w = some w1 →
        w1.resize_needed = false ∧
        w1.main_surface.widget =
          widget_set_allocation w.main_surface.widget w.pending_allocation.x
            w.pending_allocation.y w.pending_allocation.width w.pending_allocation.height ∧
        w1.main_surface.widget.allocation = w.pending_allocation ∧
        (w.main_surface.widget.resize_handler = true →
          window_call.resize_handler w.main_surface.widget.id w.pending_allocation.width
            w.pending_allocation.height ∈ w1.display.log)) ∧
    (∀ width height,
      (window_schedule_resize w width height).main_surface.widget = w.main_surface.widget) := by
  refine ⟨?_, ?_, ?_⟩
  · intro cb hcb
    unfold idle_redraw
    simp [hr, hcb]
  · intro hnone
    have hstep : idle_redraw w =
        idle_redraw_paint (idle_resize { w with redraw_task_scheduled := false }) := by
      unfold idle_redraw
      simp [hr, hnone]
    refine ⟨hstep, ?_⟩
    intro w1 h1
    rw [hstep] at h1
    have hk := kept_idle_redraw_paint _ _ h1
    obtain ⟨a1, a2, a3, a4⟩ := idle_resize_applies_pending { w with redraw_task_scheduled := false }
    have hwid := (main_widget_of_kept _ _ hk).trans a3
    refine ⟨hk.resize_needed.trans a1, hwid, ?_, ?_⟩
    · rw [hwid, (widget_set_allocation_fields _ _ _ _ _).1]
    · intro hh
      obtain ⟨extra, he⟩ := hk.log_grows
      rw [he]
      exact List.mem_append_left _ (a4 hh)
  · intro width height
    unfold window_schedule_resize
    rw [main_widget_of_kept _ _ (kept_window_schedule_redraw _),
      window_schedule_resize_record_eq]

/-- C10 at concrete inputs: with a resize to 400 x 300 pending and callback 5
outstanding on the main surface, the redraw pass changes nothing but
`redraw_task_scheduled`; once the callback has arrived, the pass returns with
the root widget at 400 x 300. -/
theorem idle_redraw_throttles_resize_witness :
    idle_redraw window_resize_pending =
      some { window_resize_pending with redraw_task_scheduled := false } ∧
    (idle_redraw window_resize_ready).isSome = true ∧
    ((idle_redraw window_resize_ready).getD window_fresh).main_surface.widget.allocation =
      { x := 0, y := 0, width := 400, height := 300 } :=
  ⟨(idle_redraw_throttles_resize window_resize_pending (by decide!)).1 5 (by decide!),
    by decide!,
    (((idle_redraw_throttles_resize window_resize_ready (by decide!)).2.1 (by decide!)).2
      ((idle_redraw window_resize_ready).getD window_fresh)
      (option_eq_some_getD _ _ (by decide!))).2.2.1⟩


/-! ## Frame geometry: the cache and what marks it stale -/

theorem refresh_clears_dirty (t : theme) (f : frame) :
    (frame_refresh_geometry t f).geometry_dirty = false := by
  unfold frame_refresh_geometry
  cases h : f.geometry_dirty <;> simp [h]

theorem refresh_of_clean (t : theme) (f : frame) (h : f.geometry_dirty = false) :
    frame_refresh_geometry t f = f := by
  unfold frame_refresh_geometry
  simp [h]

theorem refresh_idempotent (t : theme) (f : frame) :
    frame_refresh_geometry t (frame_refresh_geometry t f) = frame_refresh_geometry t f :=
  refresh_of_clean t _ (refresh_clears_dirty t f)

theorem refresh_interior_of_dirty (t : theme) (f : frame) (h : f.geometry_dirty = true) :
    (frame_refresh_geometry t f).interior =
      described_interior t f.width f.height f.flags.maximized f.title.isSome := by
  unfold frame_refresh_geometry described_interior frame_titlebar_height
  cases hm : f.flags.maximized <;> cases ht : f.title.isSome <;>
    simp [h, hm, ht, rectangle.mk.injEq] <;> ring_nf <;> simp

/-- C14. A geometry query asked a second time, with no call in between, gives
the same rectangle and leaves the frame as the first call left it: this holds
for `frame_interior`, `frame_input_rect` and `frame_opaque_rect`, and the frame
left by any of them is the same. -/
theorem geometry_query_repeats (t : theme) (f : frame) :
    frame_interior t (frame_interior t f).1 = frame_interior t f ∧
    frame_input_rect t (frame_input_rect t f).1 = frame_input_rect t f ∧
    frame_opaque_rect t (frame_opaque_rect t f).1 = frame_opaque_rect t f ∧
    (frame_input_rect t f).1 = (frame_interior t f).1 ∧
    (frame_opaque_rect t f).1 = (frame_interior t f).1 := by
  have h := refresh_idempotent t f
  refine ⟨?_, ?_, ?_, rfl, rfl⟩
  · simp only [frame_interior, h]
  · simp only [frame_input_rect, h]
  · simp only [frame_opaque_rect, h]

/-- C15. After `frame_resize f w h`, after `frame_set_flag` with the maximized
bit on a frame that is not maximized, and after `frame_unset_flag` with the
maximized bit on a frame that is, `frame_interior` returns the rectangle the
description gives for the new size, the new maximized state and the presence
of a title. -/
theorem interior_follows_resize_and_maximize (t : theme) (f : frame) :
    (∀ w h, (frame_interior t (frame_resize f w h)).2 =
      described_interior t w h f.flags.maximized f.title.isSome) ∧
    (∀ flag : frame_flag, flag.maximized = true → f.flags.maximized = false →
      (frame_set_flag f flag).flags.maximized = true ∧
      (frame_interior t (frame_set_flag f flag)).2 =
        described_interior t f.width f.height true f.title.isSome) ∧
    (∀ flag : frame_flag, flag.maximized = true → f.flags.maximized = true →
      (frame_unset_flag f flag).flags.maximized = false ∧
      (frame_interior t (frame_unset_flag f flag)).2 =
        described_interior t f.width f.height false f.title.isSome) := by
  refine ⟨?_, ?_, ?_⟩
  · intro w h
    simp only [frame_interior]
    rw [refresh_interior_of_dirty t _ (by simp [frame_resize])]
    simp [frame_resize]
  · intro flag hflag hf
    have hd : (frame_set_flag f flag).geometry_dirty = true := by
      simp [frame_set_flag, hflag, hf]
    refine ⟨by simp [frame_set_flag, hflag, hf], ?_⟩
    simp only [frame_interior]
    rw [refresh_interior_of_dirty t _ hd]
    simp [frame_set_flag, hflag, hf]
  · intro flag hflag hf
    have hd : (frame_unset_flag f flag).geometry_dirty = true := by
      simp [frame_unset_flag, hflag, hf]
    refine ⟨by simp [frame_unset_flag, hflag, hf], ?_⟩
    simp only [frame_interior]
    rw [refresh_interior_of_dirty t _ hd]
    simp [frame_unset_flag, hflag, hf]

/-- C16. The function `frame_set_title` leaves `geometry_dirty` as it was, and
a frame whose geometry is cached keeps the cached interior through a title
change. On the 400 x 300 frame created without a title and queried once,
setting a title and querying again returns `y = 38, height = 224`, the values
for a frame with no title, where a titled frame of this theme has
`y = 59, height = 203`. -/
theorem set_title_leaves_geometry_stale :
    (∀ (f : frame) (title : Option String),
      (frame_set_title f title).geometry_dirty = f.geometry_dirty) ∧
    (∀ (t : theme) (f : frame) (title : Option String), f.geometry_dirty = false →
      (frame_interior t (frame_set_title f title)).2 = f.interior) ∧
    (frame_set_title (frame_interior theme0 frame_untitled).1 (some "terminal")).title =
      some "terminal" ∧
    (frame_interior theme0
      (frame_set_title (frame_interior theme0 frame_untitled).1 (some "terminal"))).2 =
      { x := 38, y := 38, width := 324, height := 224 } ∧
    described_interior theme0 400 300 false true =
      { x := 38, y := 59, width := 324, height := 203 } := by
  refine ⟨fun f title => rfl, ?_, by decide, by decide, by decide⟩
  intro t f title h
  simp only [frame_interior]
  rw [refresh_of_clean t _ (by simpa [frame_set_title] using h)]
  rfl

/-- C15 at concrete inputs: the titled 400 x 300 frame resized to 500 x 350,
maximized, and restored again. -/
theorem interior_follows_resize_and_maximize_witness :
    (frame_interior theme0 (frame_resize frame_titled 500 350)).2 =
      { x := 38, y := 59, width := 424, height := 253 } ∧
    (frame_interior theme0 (frame_set_flag frame_titled FRAME_FLAG_MAXIMIZED)).2 =
      { x := 6, y := 27, width := 388, height := 267 } ∧
    (frame_interior theme0
      (frame_unset_flag (frame_set_flag frame_titled FRAME_FLAG_MAXIMIZED)
        FRAME_FLAG_MAXIMIZED)).2 =
      { x := 38, y := 59, width := 324, height := 203 } :=
  ⟨(interior_follows_resize_and_maximize theme0 frame_titled).1 500 350,
    ((interior_follows_resize_and_maximize theme0 frame_titled).2.1 FRAME_FLAG_MAXIMIZED
      (by decide) (by decide)).2,
    ((interior_follows_resize_and_maximize theme0
      (frame_set_flag frame_titled FRAME_FLAG_MAXIMIZED)).2.2 FRAME_FLAG_MAXIMIZED
      (by decide) (by decide)).2⟩



/-! ## Frame buttons: what the four counter operations change -/


theorem set_getElem?_map {α : Type} (l : List α) (i j : Nat) (b : α) (g : α → α)
    (hb : l[i]? = some b) :
    (l.set i (g b))[j]? = (l[j]?).map (fun c => if j = i then g c else c) := by
  rw [List.getElem?_set]
  by_cases hij : i = j
  · subst hij
    have hlt : i < l.length := by
      rcases Nat.lt_or_ge i l.length with h | h
      · exact h
      · rw [List.getElem?_eq_none h] at hb; cases hb
    simp [hlt, hb]
  · have hji : ¬ j = i := fun h => hij h.symm
    simp [hij, hji]

theorem none_getElem?_map {α : Type} (l : List α) (i j : Nat) (g : α → α)
    (hb : l[i]? = none) :
    l[j]? = (l[j]?).map (fun c => if j = i then g c else c) := by
  by_cases hji : j = i
  · subst hji; simp [hb]
  · simp [hji]

theorem frame_button_enter_buttons (f : frame) (i j : Nat) :
    (frame_button_enter f i).buttons[j]? =
      (f.buttons[j]?).map
        (fun b => if j = i then { b with hover_count := b.hover_count + 1 } else b) := by
  unfold frame_button_enter
  cases hb : f.buttons[i]? with
  | none => exact none_getElem?_map _ _ _ _ hb
  | some b => exact set_getElem?_map _ _ _ _ (fun b => { b with hover_count := b.hover_count + 1 }) hb

theorem frame_button_leave_buttons (f : frame) (i j : Nat) (active : Bool) :
    (frame_button_leave f i active).buttons[j]? =
      (f.buttons[j]?).map
        (fun b => if j = i then
          { b with hover_count := b.hover_count - 1,
                   press_count := if active then b.press_count - 1 else b.press_count }
          else b) := by
  unfold frame_button_leave
  cases hb : f.buttons[i]? with
  | none => exact none_getElem?_map _ _ _ _ hb
  | some b =>
    exact set_getElem?_map _ _ _ _
      (fun b => { b with hover_count := b.hover_count - 1,
                         press_count := if active then b.press_count - 1 else b.press_count }) hb

theorem frame_button_press_buttons (f : frame) (i j : Nat) :
    (frame_button_press f i).buttons[j]? =
      (f.buttons[j]?).map
        (fun b => if j = i then { b with press_count := b.press_count + 1 } else b) := by
  unfold frame_button_press
  cases hb : f.buttons[i]? with
  | none => exact none_getElem?_map _ _ _ _ hb
  | some b => exact set_getElem?_map _ _ _ _ (fun b => { b with press_count := b.press_count + 1 }) hb

theorem frame_button_release_buttons (f : frame) (i j : Nat) :
    (frame_button_release f i).buttons[j]? =
      (f.buttons[j]?).map
        (fun b => if j = i then { b with press_count := b.press_count - 1 } else b) := by
  unfold frame_button_release
  cases hb : f.buttons[i]? with
  | none => exact none_getElem?_map _ _ _ _ hb
  | some b => exact set_getElem?_map _ _ _ _ (fun b => { b with press_count := b.press_count - 1 }) hb

theorem frame_button_enter_rest (f : frame) (i : Nat) :
    (frame_button_enter f i).pointers = f.pointers ∧
    (frame_button_enter f i).touches = f.touches ∧
    (frame_button_enter f i).width = f.width ∧
    (frame_button_enter f i).height = f.height ∧
    (frame_button_enter f i).flags = f.flags := by
  unfold frame_button_enter
  cases f.buttons[i]? <;> simp

theorem frame_button_leave_rest (f : frame) (i : Nat) (active : Bool) :
    (frame_button_leave f i active).pointers = f.pointers ∧
    (frame_button_leave f i active).touches = f.touches ∧
    (frame_button_leave f i active).width = f.width ∧
    (frame_button_leave f i active).height = f.height ∧
    (frame_button_leave f i active).flags = f.flags := by
  unfold frame_button_leave
  cases f.buttons[i]? <;> simp

theorem frame_button_press_rest (f : frame) (i : Nat) :
    (frame_button_press f i).pointers = f.pointers ∧
    (frame_button_press f i).touches = f.touches ∧
    (frame_button_press f i).width = f.width ∧
    (frame_button_press f i).height = f.height ∧
    (frame_button_press f i).flags = f.flags := by
  unfold frame_button_press
  cases f.buttons[i]? <;> simp

theorem frame_button_release_rest (f : frame) (i : Nat) :
    (frame_button_release f i).pointers = f.pointers ∧
    (frame_button_release f i).touches = f.touches ∧
    (frame_button_release f i).width = f.width ∧
    (frame_button_release f i).height = f.height ∧
    (frame_button_release f i).flags = f.flags := by
  unfold frame_button_release
  cases f.buttons[i]? <;> simp


theorem frame_pointer_get_of_found (f : frame) (data : Nat) (p : frame_pointer)
    (h : f.pointers.find? (fun q => q.data == data) = some p) :
    frame_pointer_get f data = (f, p) := by
  simp [frame_pointer_get, h]

theorem frame_touch_get_of_found (f : frame) (data : Nat) (c : frame_touch)
    (h : f.touches.find? (fun q => q.data == data) = some c) :
    frame_touch_get f data = (f, c) := by
  simp [frame_touch_get, h]

theorem frame_pointer_get_found (f : frame) (data : Nat) :
    (frame_pointer_get f data).1.pointers.find? (fun q => q.data == data) =
      some (frame_pointer_get f data).2 := by
  unfold frame_pointer_get
  cases h : f.pointers.find? (fun q => q.data == data) with
  | none => simp
  | some p => simpa using h

theorem frame_touch_get_found (f : frame) (data : Nat) :
    (frame_touch_get f data).1.touches.find? (fun q => q.data == data) =
      some (frame_touch_get f data).2 := by
  unfold frame_touch_get
  cases h : f.touches.find? (fun q => q.data == data) with
  | none => simp
  | some p => simpa using h

theorem frame_pointer_get_data (f : frame) (data : Nat) :
    (frame_pointer_get f data).2.data = data := by
  have h := List.find?_some (frame_pointer_get_found f data)
  simpa using h

theorem frame_touch_get_data (f : frame) (data : Nat) :
    (frame_touch_get f data).2.data = data := by
  have h := List.find?_some (frame_touch_get_found f data)
  simpa using h

theorem frame_pointer_get_rest (f : frame) (data : Nat) :
    (frame_pointer_get f data).1 =
      { f with pointers := (frame_pointer_get f data).1.pointers } := by
  unfold frame_pointer_get
  cases h : f.pointers.find? (fun q => q.data == data) <;> rfl

theorem frame_touch_get_rest (f : frame) (data : Nat) :
    (frame_touch_get f data).1 =
      { f with touches := (frame_touch_get f data).1.touches } := by
  unfold frame_touch_get
  cases h : f.touches.find? (fun q => q.data == data) <;> rfl

theorem find_replace_pointer (ps : List frame_pointer) (p old : frame_pointer) (data : Nat)
    (hd : p.data = data) (h : ps.find? (fun q => q.data == data) = some old) :
    (replace_pointer ps p).find? (fun q => q.data == data) = some p := by
  subst hd
  induction ps with
  | nil => simp at h
  | cons q qs ih =>
    by_cases hq : q.data = p.data
    · simp [replace_pointer, hq]
    · have h2 : qs.find? (fun q => q.data == p.data) = some old := by
        simpa [List.find?_cons, hq] using h
      simp [replace_pointer, hq, List.find?_cons, ih h2]

theorem countP_replace_pointer (q : frame_pointer → Bool) (ps : List frame_pointer)
    (p old : frame_pointer) (data : Nat) (hd : p.data = data)
    (h : ps.find? (fun r => r.data == data) = some old) :
    ((replace_pointer ps p).countP q : Int) =
      (ps.countP q : Int) - (if q old then 1 else 0) + (if q p then 1 else 0) := by
  subst hd
  induction ps with
  | nil => simp at h
  | cons r rs ih =>
    by_cases hr : r.data = p.data
    · have : r = old := by simpa [List.find?_cons, hr] using h
      subst this
      simp only [replace_pointer, hr, if_true, List.countP_cons]
      push_cast
      split_ifs <;> omega
    · have h2 : rs.find? (fun r => r.data == p.data) = some old := by
        simpa [List.find?_cons, hr] using h
      simp only [replace_pointer, hr, if_false, List.countP_cons]
      push_cast
      rw [ih h2]
      omega

theorem countP_remove_pointer (q : frame_pointer → Bool) (ps : List frame_pointer)
    (data : Nat) (old : frame_pointer) (h : ps.find? (fun r => r.data == data) = some old) :
    ((remove_pointer ps data).countP q : Int) =
      (ps.countP q : Int) - (if q old then 1 else 0) := by
  induction ps with
  | nil => simp at h
  | cons r rs ih =>
    by_cases hr : r.data = data
    · have : r = old := by simpa [List.find?_cons, hr] using h
      subst this
      simp only [remove_pointer, hr, if_true, List.countP_cons]
      push_cast
      split_ifs <;> omega
    · have h2 : rs.find? (fun r => r.data == data) = some old := by
        simpa [List.find?_cons, hr] using h
      simp only [remove_pointer, hr, if_false, List.countP_cons]
      push_cast
      rw [ih h2]
      omega

theorem countP_replace_touch (q : frame_touch → Bool) (ps : List frame_touch)
    (p old : frame_touch) (data : Nat) (hd : p.data = data)
    (h : ps.find? (fun r => r.data == data) = some old) :
    ((replace_touch ps p).countP q : Int) =
      (ps.countP q : Int) - (if q old then 1 else 0) + (if q p then 1 else 0) := by
  subst hd
  induction ps with
  | nil => simp at h
  | cons r rs ih =>
    by_cases hr : r.data = p.data
    · have : r = old := by simpa [List.find?_cons, hr] using h
      subst this
      simp only [replace_touch, hr, if_true, List.countP_cons]
      push_cast
      split_ifs <;> omega
    · have h2 : rs.find? (fun r => r.data == p.data) = some old := by
        simpa [List.find?_cons, hr] using h
      simp only [replace_touch, hr, if_false, List.countP_cons]
      push_cast
      rw [ih h2]
      omega

theorem countP_remove_touch (q : frame_touch → Bool) (ps : List frame_touch)
    (data : Nat) (old : frame_touch) (h : ps.find? (fun r => r.data == data) = some old) :
    ((remove_touch ps data).countP q : Int) =
      (ps.countP q : Int) - (if q old then 1 else 0) := by
  induction ps with
  | nil => simp at h
  | cons r rs ih =>
    by_cases hr : r.data = data
    · have : r = old := by simpa [List.find?_cons, hr] using h
      subst this
      simp only [remove_touch, hr, if_true, List.countP_cons]
      push_cast
      split_ifs <;> omega
    · have h2 : rs.find? (fun r => r.data == data) = some old := by
        simpa [List.find?_cons, hr] using h
      simp only [remove_touch, hr, if_false, List.countP_cons]
      push_cast
      rw [ih h2]
      omega

/-- Looking a pointer up changes no button and no count. -/
theorem frame_pointer_get_counts (f : frame) (data : Nat) :
    (frame_pointer_get f data).1.buttons = f.buttons ∧
    (frame_pointer_get f data).1.touches = f.touches ∧
    (frame_pointer_get f data).1.status = f.status ∧
    (∀ i, hovering (frame_pointer_get f data).1.pointers i = hovering f.pointers i) ∧
    (∀ ts i, pressing (frame_pointer_get f data).1.pointers ts i = pressing f.pointers ts i) := by
  unfold frame_pointer_get
  cases h : f.pointers.find? (fun q => q.data == data) with
  | some p => simp
  | none => simp [hovering, pressing]

/-- Looking a touch source up changes no button and no count. -/
theorem frame_touch_get_counts (f : frame) (data : Nat) :
    (frame_touch_get f data).1.buttons = f.buttons ∧
    (frame_touch_get f data).1.pointers = f.pointers ∧
    (frame_touch_get f data).1.status = f.status ∧
    (∀ ps i, pressing ps (frame_touch_get f data).1.touches i = pressing ps f.touches i) := by
  unfold frame_touch_get
  cases h : f.touches.find? (fun q => q.data == data) with
  | some p => simp
  | none => simp [pressing]


theorem frame_pointer_get_idem (f : frame) (data : Nat) :
    frame_pointer_get (frame_pointer_get f data).1 data = frame_pointer_get f data :=
  frame_pointer_get_of_found _ _ _ (frame_pointer_get_found f data)

theorem frame_pointer_motion_via_get (t : theme) (f : frame) (data : Nat) (x y : Int) :
    frame_pointer_motion t f data x y =
      frame_pointer_motion t (frame_pointer_get f data).1 data x y := by
  conv_rhs => unfold frame_pointer_motion
  rw [frame_pointer_get_idem]
  rfl

theorem frame_pointer_motion_fields (t : theme) (g : frame) (data : Nat) (x y : Int)
    (p : frame_pointer) (hp : g.pointers.find? (fun q => q.data == data) = some p) :
    (frame_pointer_motion t g data x y).1.pointers =
      replace_pointer g.pointers
        (if p.hover_button = frame_find_button g x y then { p with x := x, y := y }
         else { p with x := x, y := y, active := false,
                       hover_button := frame_find_button g x y }) ∧
    (frame_pointer_motion t g data x y).1.touches = g.touches ∧
    ∀ j : Nat, (frame_pointer_motion t g data x y).1.buttons[j]? =
      (g.buttons[j]?).map (fun b : frame_button =>
        if p.hover_button = frame_find_button g x y then b
        else
          { b with
            hover_count := b.hover_count - (if p.hover_button = some j then 1 else 0) +
              (if frame_find_button g x y = some j then 1 else 0),
            press_count := b.press_count -
              (if p.hover_button = some j ∧ p.active = true then 1 else 0) }) := by
  unfold frame_pointer_motion
  rw [frame_pointer_get_of_found g _ p hp]
  simp only []
  by_cases hsame : p.hover_button = frame_find_button g x y
  · simp only [if_pos hsame]
    simp
  · simp only [if_neg hsame]
    cases ho : p.hover_button <;> cases hn : frame_find_button g x y
    · exact absurd (ho.trans hn.symm) hsame
    · refine ⟨?_, ?_, fun j => ?_⟩
      · simp [(frame_button_enter_rest _ _).1]
      · simp [(frame_button_enter_rest _ _).2.1]
      · simp only [frame_button_enter_buttons]
        cases g.buttons[j]? with
        | none => rfl
        | some b =>
          rename_i c
          by_cases hj : j = c
          · subst hj; simp
          · have hj2 : ¬ c = j := fun h => hj h.symm
            simp [hj, hj2]
    · rename_i a
      refine ⟨?_, ?_, fun j => ?_⟩
      · simp [(frame_button_leave_rest _ _ _).1]
      · simp [(frame_button_leave_rest _ _ _).2.1]
      · simp only [frame_button_leave_buttons]
        cases g.buttons[j]? with
        | none => rfl
        | some b =>
          by_cases hj : j = a
          · subst hj; cases p.active <;> simp
          · have hj2 : ¬ a = j := fun h => hj h.symm
            simp [hj, hj2]
    · rename_i a c
      have hac : a ≠ c := by
        intro h
        apply hsame
        rw [ho, hn, h]
      refine ⟨?_, ?_, fun j => ?_⟩
      · simp [(frame_button_leave_rest _ _ _).1, (frame_button_enter_rest _ _).1]
      · simp [(frame_button_leave_rest _ _ _).2.1, (frame_button_enter_rest _ _).2.1]
      · simp only [frame_button_leave_buttons, frame_button_enter_buttons]
        cases g.buttons[j]? with
        | none => rfl
        | some b =>
          by_cases hj : j = a
          · subst hj
            have h1 : ¬ j = c := hac
            have h2 : ¬ c = j := fun h => hac h.symm
            cases p.active <;> simp [h1, h2]
          · have hj2 : ¬ a = j := fun h => hj h.symm
            by_cases hk : j = c
            · subst hk; simp [hj, hj2]
            · have hk2 : ¬ c = j := fun h => hk h.symm
              simp [hj, hj2, hk, hk2]



/-! ## Frame buttons: status effects and precedence over the location -/

theorem frame_button_press_status (f : frame) (i : Nat) (b : frame_button)
    (hb : f.buttons[i]? = some b) :
    (frame_button_press f i).status =
      if b.flags.click_down then
        (if b.press_count = 0 then f.status.union FRAME_STATUS_REPAINT
          else f.status).union b.status_effect
      else if b.press_count = 0 then f.status.union FRAME_STATUS_REPAINT else f.status := by
  simp [frame_button_press, hb]

theorem frame_button_release_status (f : frame) (i : Nat) (b : frame_button)
    (hb : f.buttons[i]? = some b) :
    (frame_button_release f i).status =
      if b.flags.click_down then
        (if b.press_count - 1 = 0 then f.status.union FRAME_STATUS_REPAINT else f.status)
      else (if b.press_count - 1 = 0 then f.status.union FRAME_STATUS_REPAINT
        else f.status).union b.status_effect := by
  unfold frame_button_release
  cases hc : b.flags.click_down <;> simp [hb, hc]

/-- C19. For a button `b` of the frame: `frame_button_press` adds the status
effect of `b` when `b` has the click-down flag and otherwise adds at most the
repaint bit; `frame_button_release` adds the status effect when `b` has not
the flag and otherwise adds at most the repaint bit. For a pointer that hovers
`b`, a left press is `frame_button_press` on `b`, and a left release is
`frame_button_release` on `b` when the press is still active and leaves the
status alone when it is not. -/
theorem status_effect_on_press_or_release (t : theme) (f : frame) (data i : Nat)
    (p : frame_pointer) (b : frame_button)
    (hp : f.pointers.find? (fun q => q.data == data) = some p)
    (hh : p.hover_button = some i) (hb : f.buttons[i]? = some b) :
    (b.flags.click_down = true →
      (frame_button_press f i).status =
        (if b.press_count = 0 then f.status.union FRAME_STATUS_REPAINT
          else f.status).union b.status_effect ∧
      (frame_button_release f i).status =
        (if b.press_count - 1 = 0 then f.status.union FRAME_STATUS_REPAINT else f.status)) ∧
    (b.flags.click_down = false →
      (frame_button_press f i).status =
        (if b.press_count = 0 then f.status.union FRAME_STATUS_REPAINT else f.status) ∧
      (frame_button_release f i).status =
        (if b.press_count - 1 = 0 then f.status.union FRAME_STATUS_REPAINT
          else f.status).union b.status_effect) ∧
    (frame_pointer_button t f data BTN_LEFT frame_button_state.FRAME_BUTTON_PRESSED).1.status =
      (frame_button_press f i).status ∧
    (frame_pointer_button t f data BTN_LEFT frame_button_state.FRAME_BUTTON_RELEASED).1.status =
      (if p.active then (frame_button_release f i).status else f.status) := by
  refine ⟨?_, ?_, ?_, ?_⟩
  · intro hc
    rw [frame_button_press_status f i b hb, frame_button_release_status f i b hb]
    simp [hc]
  · intro hc
    rw [frame_button_press_status f i b hb, frame_button_release_status f i b hb]
    simp [hc]
  · simp [frame_pointer_button, frame_pointer_get_of_found f data p hp, hh, BTN_LEFT, BTN_RIGHT]
  · cases ha : p.active <;>
      simp [frame_pointer_button, frame_pointer_get_of_found f data p hp, hh, ha, BTN_LEFT,
        BTN_RIGHT]


/-- C19 at concrete inputs: on the close button, which has no click-down
flag, a press by the hovering pointer adds the repaint bit only and the
release of that press adds the close bit. -/
theorem status_effect_on_press_or_release_witness :
    (frame_button_press frame_close_hovered 1).status = FRAME_STATUS_REPAINT ∧
    (frame_button_release (frame_button_press frame_close_hovered 1) 1).status.close = true ∧
    (frame_pointer_button theme0 frame_close_hovered 1 BTN_LEFT
      frame_button_state.FRAME_BUTTON_PRESSED).1.status =
      (frame_button_press frame_close_hovered 1).status :=
  ⟨((status_effect_on_press_or_release theme0 frame_close_hovered 1 1
      { data := 1, x := 345, y := 40, hover_button := some 1, active := false }
      close_button_hovered (by decide) (by decide) (by decide)).2.1 (by decide)).1.trans
      (by decide),
    by decide,
    (status_effect_on_press_or_release theme0 frame_close_hovered 1 1
      { data := 1, x := 345, y := 40, hover_button := some 1, active := false }
      close_button_hovered (by decide) (by decide) (by decide)).2.2.1⟩



/-! ## Frame buttons: the counters against the contacts -/

theorem hover_motion (t : theme) (f : frame) (data : Nat) (x y : Int) (h : hover_counts_ok f) :
    hover_counts_ok (frame_pointer_motion t f data x y).1 := by
  rw [frame_pointer_motion_via_get]
  obtain ⟨hbt, -, -, hhov, -⟩ := frame_pointer_get_counts f data
  have hfound := frame_pointer_get_found f data
  obtain ⟨hP, -, hB⟩ := frame_pointer_motion_fields t _ data x y _ hfound
  intro i b hb
  rw [hB, hbt] at hb
  cases hfi : f.buttons[i]? with
  | none => simp [hfi] at hb
  | some b0 =>
    rw [hfi] at hb
    simp only [Option.map_some', Option.some.injEq] at hb
    have h0 := h i b0 hfi
    have h1 := hhov i
    rw [hP]
    simp only [hovering] at h0 h1 ⊢
    rw [countP_replace_pointer _ _ _ _ data (by split_ifs <;> exact frame_pointer_get_data f data)
      hfound, h1, ← h0, ← hb]
    by_cases hsame : (frame_pointer_get f data).2.hover_button =
        frame_find_button (frame_pointer_get f data).1 x y
    · simp [hsame]
    · simp only [if_neg hsame]
      simp only [beq_iff_eq]

theorem press_motion (t : theme) (f : frame) (data : Nat) (x y : Int) (h : press_counts_ok f) :
    press_counts_ok (frame_pointer_motion t f data x y).1 := by
  rw [frame_pointer_motion_via_get]
  obtain ⟨hbt, htc, -, -, hpr⟩ := frame_pointer_get_counts f data
  have hfound := frame_pointer_get_found f data
  obtain ⟨hP, hT, hB⟩ := frame_pointer_motion_fields t _ data x y _ hfound
  intro i b hb
  rw [hB, hbt] at hb
  cases hfi : f.buttons[i]? with
  | none => simp [hfi] at hb
  | some b0 =>
    rw [hfi] at hb
    simp only [Option.map_some', Option.some.injEq] at hb
    have h0 := h i b0 hfi
    have h1 := hpr f.touches i
    rw [hP, hT, htc]
    simp only [pressing] at h0 h1 ⊢
    rw [countP_replace_pointer _ _ _ _ data (by split_ifs <;> exact frame_pointer_get_data f data)
      hfound]
    by_cases hsame : (frame_pointer_get f data).2.hover_button =
        frame_find_button (frame_pointer_get f data).1 x y
    · simp only [if_pos hsame] at hb ⊢
      subst hb
      simp only [hsame] at h0 h1 ⊢
      omega
    · simp only [if_neg hsame] at hb ⊢
      subst hb
      simp only [Bool.and_false, Bool.false_eq_true, if_false, Bool.and_eq_true, beq_iff_eq]
      omega


theorem frame_touch_get_idem (f : frame) (data : Nat) :
    frame_touch_get (frame_touch_get f data).1 data = frame_touch_get f data :=
  frame_touch_get_of_found _ _ _ (frame_touch_get_found f data)

theorem frame_pointer_leave_via_get (f : frame) (data : Nat) :
    frame_pointer_leave f data = frame_pointer_leave (frame_pointer_get f data).1 data := by
  conv_rhs => unfold frame_pointer_leave
  rw [frame_pointer_get_idem]
  rfl

theorem frame_pointer_button_via_get (t : theme) (f : frame) (data button : Nat)
    (state : frame_button_state) :
    frame_pointer_button t f data button state =
      frame_pointer_button t (frame_pointer_get f data).1 data button state := by
  conv_rhs => unfold frame_pointer_button
  rw [frame_pointer_get_idem]
  rfl

theorem frame_touch_down_via_get (t : theme) (f : frame) (data : Nat) (id x y : Int) :
    frame_touch_down t f data id x y =
      frame_touch_down t (frame_touch_get f data).1 data id x y := by
  conv_rhs => unfold frame_touch_down
  rw [frame_touch_get_idem]
  rfl

theorem frame_touch_up_via_get (f : frame) (data : Nat) (id : Int) :
    frame_touch_up f data id = frame_touch_up (frame_touch_get f data).1 data id := by
  conv_rhs => unfold frame_touch_up
  rw [frame_touch_get_idem]
  rfl

theorem replace_pointer_self (ps : List frame_pointer) (p : frame_pointer) (data : Nat)
    (h : ps.find? (fun q => q.data == data) = some p) : replace_pointer ps p = ps := by
  have hd : p.data = data := by simpa using List.find?_some h
  subst hd
  induction ps with
  | nil => rfl
  | cons q qs ih =>
    by_cases hq : q.data = p.data
    · have : q = p := by simpa [List.find?_cons, hq] using h
      simp [replace_pointer, this]
    · have h2 : qs.find? (fun q => q.data == p.data) = some p := by
        simpa [List.find?_cons, hq] using h
      simp [replace_pointer, hq, ih h2]

theorem replace_touch_self (ps : List frame_touch) (p : frame_touch) (data : Nat)
    (h : ps.find? (fun q => q.data == data) = some p) : replace_touch ps p = ps := by
  have hd : p.data = data := by simpa using List.find?_some h
  subst hd
  induction ps with
  | nil => rfl
  | cons q qs ih =>
    by_cases hq : q.data = p.data
    · have : q = p := by simpa [List.find?_cons, hq] using h
      simp [replace_touch, this]
    · have h2 : qs.find? (fun q => q.data == p.data) = some p := by
        simpa [List.find?_cons, hq] using h
      simp [replace_touch, hq, ih h2]

theorem frame_pointer_leave_fields (g : frame) (data : Nat)
    (p : frame_pointer) (hp : g.pointers.find? (fun q => q.data == data) = some p) :
    (frame_pointer_leave g data).pointers = remove_pointer g.pointers data ∧
    (frame_pointer_leave g data).touches = g.touches ∧
    ∀ j : Nat, (frame_pointer_leave g data).buttons[j]? =
      (g.buttons[j]?).map (fun b : frame_button =>
          { b with
            hover_count := b.hover_count - (if p.hover_button = some j then 1 else 0),
            press_count := b.press_count -
              (if p.hover_button = some j ∧ p.active = true then 1 else 0) }) := by
  unfold frame_pointer_leave
  rw [frame_pointer_get_of_found g _ p hp]
  simp only []
  cases ho : p.hover_button with
  | none => simp
  | some a =>
    refine ⟨?_, ?_, fun j => ?_⟩
    · simp [(frame_button_leave_rest _ _ _).1]
    · simp [(frame_button_leave_rest _ _ _).2.1]
    · simp only [frame_button_leave_buttons]
      cases g.buttons[j]? with
      | none => rfl
      | some b =>
        by_cases hj : j = a
        · subst hj; cases p.active <;> simp
        · have hj2 : ¬ a = j := fun h => hj h.symm
          simp [hj, hj2]

theorem frame_pointer_button_fields (t : theme) (g : frame) (data button : Nat)
    (state : frame_button_state)
    (p : frame_pointer) (hp : g.pointers.find? (fun q => q.data == data) = some p) :
    (frame_pointer_button t g data button state).1.pointers =
      replace_pointer g.pointers
        { p with active :=
            if button = BTN_LEFT ∧ state = frame_button_state.FRAME_BUTTON_PRESSED then
              (p.hover_button.isSome || p.active)
            else if button = BTN_LEFT ∧ state = frame_button_state.FRAME_BUTTON_RELEASED then
              false
            else p.active } ∧
    (frame_pointer_button t g data button state).1.touches = g.touches ∧
    ∀ j : Nat, (frame_pointer_button t g data button state).1.buttons[j]? =
      (g.buttons[j]?).map (fun b : frame_button =>
          { b with
            press_count := b.press_count +
              (if button = BTN_LEFT ∧ state = frame_button_state.FRAME_BUTTON_PRESSED ∧
                p.hover_button = some j then 1 else 0) -
              (if button = BTN_LEFT ∧ state = frame_button_state.FRAME_BUTTON_RELEASED ∧
                p.hover_button = some j ∧ p.active = true then 1 else 0) }) := by
  have hself := (replace_pointer_self _ _ _ hp).symm
  unfold frame_pointer_button
  rw [frame_pointer_get_of_found g _ p hp]
  obtain ⟨pd, px, py, ph, pa⟩ := p
  simp only []
  by_cases hr : button = BTN_RIGHT
  · have hl : ¬ button = BTN_LEFT := by rw [hr]; decide
    simp only [if_pos hr, hl, false_and, if_false]
    refine ⟨?_, ?_, fun j => ?_⟩
    · split_ifs <;> exact hself
    · split_ifs <;> rfl
    · split_ifs <;> simp
  · simp only [if_neg hr]
    by_cases hl : button = BTN_LEFT
    · cases state with
      | FRAME_BUTTON_PRESSED =>
        simp only [hl, true_and, if_true, reduceCtorEq, false_and, if_false, and_false]
        cases ph with
        | none =>
          refine ⟨?_, ?_, fun j => ?_⟩
          · simp only [frame_location_status]
            split_ifs <;> simpa using hself
          · simp only [frame_location_status]; split_ifs <;> rfl
          · have hc : (frame_location_status g
                (t.get_location px py g.width g.height g.flags.maximized)).buttons =
                g.buttons := by
              simp only [frame_location_status]; split_ifs <;> rfl
            rw [hc]
            simp
        | some a =>
          refine ⟨?_, ?_, fun j => ?_⟩
          · simp [(frame_button_press_rest _ _).1]
          · simp [(frame_button_press_rest _ _).2.1]
          · simp only [frame_button_press_buttons]
            cases g.buttons[j]? with
            | none => rfl
            | some b =>
              by_cases hj : j = a
              · subst hj; simp
              · have hj2 : ¬ a = j := fun h => hj h.symm
                simp [hj, hj2]
      | FRAME_BUTTON_RELEASED =>
        simp only [hl, true_and, if_true, reduceCtorEq, false_and, if_false, and_false]
        cases ph with
        | none => simp
        | some a =>
          cases pa
          · simp
          · refine ⟨?_, ?_, fun j => ?_⟩
            · simp [(frame_button_release_rest _ _).1]
            · simp [(frame_button_release_rest _ _).2.1]
            · simp only [if_true, frame_button_release_buttons]
              cases g.buttons[j]? with
              | none => rfl
              | some b =>
                by_cases hj : j = a
                · subst hj; simp
                · have hj2 : ¬ a = j := fun h => hj h.symm
                  simp [hj, hj2]
    · simp only [hl, false_and, if_false]
      refine ⟨hself, ?_, fun j => ?_⟩ <;> simp


theorem frame_location_status_rest (f : frame) (l : theme_location) :
    (frame_location_status f l).buttons = f.buttons ∧
    (frame_location_status f l).pointers = f.pointers ∧
    (frame_location_status f l).touches = f.touches := by
  simp only [frame_location_status]
  split_ifs <;> simp

theorem frame_touch_down_fields (t : theme) (g : frame) (data : Nat) (id x y : Int)
    (c : frame_touch) (hc : g.touches.find? (fun q => q.data == data) = some c) :
    (frame_touch_down t g data id x y).touches =
      replace_touch g.touches
        { c with button :=
            if id > 0 then c.button
            else if (frame_find_button g x y).isSome then frame_find_button g x y
            else c.button } ∧
    (frame_touch_down t g data id x y).pointers = g.pointers ∧
    ∀ j : Nat, (frame_touch_down t g data id x y).buttons[j]? =
      (g.buttons[j]?).map (fun b : frame_button =>
          { b with
            press_count := b.press_count +
              (if ¬ id > 0 ∧ frame_find_button g x y = some j then 1 else 0) }) := by
  have hself := (replace_touch_self _ _ _ hc).symm
  unfold frame_touch_down
  rw [frame_touch_get_of_found g _ c hc]
  simp only []
  by_cases hid : id > 0
  · simp only [if_pos hid]
    refine ⟨?_, ?_, fun j => ?_⟩
    · simpa using hself
    · simp
    · simp [hid]
  · simp only [if_neg hid]
    cases hn : frame_find_button g x y with
    | none =>
      obtain ⟨h1, h2, h3⟩ := frame_location_status_rest g
        (t.get_location x y g.width g.height g.flags.maximized)
      refine ⟨?_, ?_, fun j => ?_⟩
      · simpa [h3] using hself
      · simpa using h2
      · simp only [h1]; simp
    | some a =>
      refine ⟨?_, ?_, fun j => ?_⟩
      · simp [(frame_button_press_rest _ _).2.1]
      · simp [(frame_button_press_rest _ _).1]
      · simp only [frame_button_press_buttons]
        cases g.buttons[j]? with
        | none => rfl
        | some b =>
          by_cases hj : j = a
          · subst hj; simp [hid]
          · have hj2 : ¬ a = j := fun h => hj h.symm
            simp [hj, hj2]

theorem frame_touch_up_fields (g : frame) (data : Nat) (id : Int)
    (c : frame_touch) (hc : g.touches.find? (fun q => q.data == data) = some c) :
    (frame_touch_up g data id).touches =
      (if ¬ id > 0 ∧ c.button.isSome = true then remove_touch g.touches data else g.touches) ∧
    (frame_touch_up g data id).pointers = g.pointers ∧
    ∀ j : Nat, (frame_touch_up g data id).buttons[j]? =
      (g.buttons[j]?).map (fun b : frame_button =>
          { b with
            press_count := b.press_count -
              (if ¬ id > 0 ∧ c.button = some j then 1 else 0) }) := by
  unfold frame_touch_up
  rw [frame_touch_get_of_found g _ c hc]
  simp only []
  by_cases hid : id > 0
  · simp [hid]
  · simp only [if_neg hid]
    cases hn : c.button with
    | none => simp
    | some a =>
      refine ⟨?_, ?_, fun j => ?_⟩
      · simp [(frame_button_release_rest _ _).2.1, hid]
      · simp [(frame_button_release_rest _ _).1]
      · simp only [frame_button_release_buttons]
        cases g.buttons[j]? with
        | none => rfl
        | some b =>
          by_cases hj : j = a
          · subst hj; simp [hid]
          · have hj2 : ¬ a = j := fun h => hj h.symm
            simp [hj, hj2]


theorem hover_leave (f : frame) (data : Nat) (h : hover_counts_ok f) :
    hover_counts_ok (frame_pointer_leave f data) := by
  rw [frame_pointer_leave_via_get]
  obtain ⟨hbt, -, -, hhov, -⟩ := frame_pointer_get_counts f data
  have hfound := frame_pointer_get_found f data
  obtain ⟨hP, -, hB⟩ := frame_pointer_leave_fields _ data _ hfound
  intro i b hb
  rw [hB, hbt] at hb
  cases hfi : f.buttons[i]? with
  | none => simp [hfi] at hb
  | some b0 =>
    rw [hfi] at hb
    simp only [Option.map_some', Option.some.injEq] at hb
    have h0 := h i b0 hfi
    have h1 := hhov i
    rw [hP]
    simp only [hovering] at h0 h1 ⊢
    rw [countP_remove_pointer _ _ data _ hfound, h1, ← h0, ← hb]
    simp only [beq_iff_eq]

theorem press_leave (f : frame) (data : Nat) (h : press_counts_ok f) :
    press_counts_ok (frame_pointer_leave f data) := by
  rw [frame_pointer_leave_via_get]
  obtain ⟨hbt, htc, -, -, hpr⟩ := frame_pointer_get_counts f data
  have hfound := frame_pointer_get_found f data
  obtain ⟨hP, hT, hB⟩ := frame_pointer_leave_fields _ data _ hfound
  intro i b hb
  rw [hB, hbt] at hb
  cases hfi : f.buttons[i]? with
  | none => simp [hfi] at hb
  | some b0 =>
    rw [hfi] at hb
    simp only [Option.map_some', Option.some.injEq] at hb
    have h0 := h i b0 hfi
    have h1 := hpr f.touches i
    rw [hP, hT, htc]
    simp only [pressing] at h0 h1 ⊢
    rw [countP_remove_pointer _ _ data _ hfound]
    subst hb
    simp only [Bool.and_eq_true, beq_iff_eq]
    omega

theorem hover_button (t : theme) (f : frame) (data button : Nat) (state : frame_button_state)
    (h : hover_counts_ok f) : hover_counts_ok (frame_pointer_button t f data button state).1 := by
  rw [frame_pointer_button_via_get]
  obtain ⟨hbt, -, -, hhov, -⟩ := frame_pointer_get_counts f data
  have hfound := frame_pointer_get_found f data
  obtain ⟨hP, -, hB⟩ := frame_pointer_button_fields t _ data button state _ hfound
  intro i b hb
  rw [hB, hbt] at hb
  cases hfi : f.buttons[i]? with
  | none => simp [hfi] at hb
  | some b0 =>
    rw [hfi] at hb
    simp only [Option.map_some', Option.some.injEq] at hb
    have h0 := h i b0 hfi
    have h1 := hhov i
    rw [hP]
    simp only [hovering] at h0 h1 ⊢
    rw [countP_replace_pointer _ _ _ _ data (by exact frame_pointer_get_data f data) hfound, h1, ← h0, ← hb]
    simp

theorem in_order_button (f : frame) (data : Nat)
    (h : (frame_event.frame_pointer_button data BTN_LEFT
      frame_button_state.FRAME_BUTTON_PRESSED).in_order f = true) :
    (frame_pointer_get f data).2.active = false := by
  unfold frame_pointer_get
  simp only [frame_event.in_order, and_self, if_true] at h
  cases hf : f.pointers.find? (fun p => p.data == data) with
  | none => rfl
  | some p => simpa [hf] using h

theorem in_order_touch (f : frame) (data : Nat) (id x y : Int) (hid : ¬ id > 0)
    (h : (frame_event.frame_touch_down data id x y).in_order f = true) :
    (frame_touch_get f data).2.button = none := by
  unfold frame_touch_get
  simp only [frame_event.in_order, if_neg hid] at h
  cases hf : f.touches.find? (fun p => p.data == data) with
  | none => rfl
  | some p => simpa [hf] using h

theorem press_button (t : theme) (f : frame) (data button : Nat) (state : frame_button_state)
    (h : press_counts_ok f)
    (ho : (frame_event.frame_pointer_button data button state).in_order f = true) :
    press_counts_ok (frame_pointer_button t f data button state).1 := by
  have hact : button = BTN_LEFT ∧ state = frame_button_state.FRAME_BUTTON_PRESSED →
      (frame_pointer_get f data).2.active = false := by
    rintro ⟨rfl, rfl⟩
    exact in_order_button f data ho
  rw [frame_pointer_button_via_get]
  obtain ⟨hbt, htc, -, -, hpr⟩ := frame_pointer_get_counts f data
  have hfound := frame_pointer_get_found f data
  obtain ⟨hP, hT, hB⟩ := frame_pointer_button_fields t _ data button state _ hfound
  intro i b hb
  rw [hB, hbt] at hb
  cases hfi : f.buttons[i]? with
  | none => simp [hfi] at hb
  | some b0 =>
    rw [hfi] at hb
    simp only [Option.map_some', Option.some.injEq] at hb
    have h0 := h i b0 hfi
    have h1 := hpr f.touches i
    rw [hP, hT, htc]
    simp only [pressing] at h0 h1 ⊢
    rw [countP_replace_pointer _ _ _ _ data (by exact frame_pointer_get_data f data) hfound]
    subst hb
    by_cases hl : button = BTN_LEFT
    · cases state with
      | FRAME_BUTTON_PRESSED =>
        have ha := hact ⟨hl, rfl⟩
        cases hh : (frame_pointer_get f data).2.hover_button with
        | none => simp [hl, ha, hh]; omega
        | some a =>
          by_cases hai : a = i
          · subst hai; simp [hl, ha, hh]; omega
          · simp [hl, ha, hh, hai]; omega
      | FRAME_BUTTON_RELEASED =>
        simp only [hl, true_and, reduceCtorEq, false_and, if_false, and_false, if_true,
          Bool.and_false, Bool.false_eq_true, Bool.and_eq_true, beq_iff_eq]
        omega
    · simp only [hl, false_and, if_false]
      omega

theorem hover_touch_down (t : theme) (f : frame) (data : Nat) (id x y : Int)
    (h : hover_counts_ok f) : hover_counts_ok (frame_touch_down t f data id x y) := by
  rw [frame_touch_down_via_get]
  obtain ⟨hbt, hpt, -, -⟩ := frame_touch_get_counts f data
  have hfound := frame_touch_get_found f data
  obtain ⟨-, hP, hB⟩ := frame_touch_down_fields t _ data id x y _ hfound
  intro i b hb
  rw [hB, hbt] at hb
  cases hfi : f.buttons[i]? with
  | none => simp [hfi] at hb
  | some b0 =>
    rw [hfi] at hb
    simp only [Option.map_some', Option.some.injEq] at hb
    rw [hP, hpt, ← h i b0 hfi, ← hb]

theorem hover_touch_up (f : frame) (data : Nat) (id : Int)
    (h : hover_counts_ok f) : hover_counts_ok (frame_touch_up f data id) := by
  rw [frame_touch_up_via_get]
  obtain ⟨hbt, hpt, -, -⟩ := frame_touch_get_counts f data
  have hfound := frame_touch_get_found f data
  obtain ⟨-, hP, hB⟩ := frame_touch_up_fields _ data id _ hfound
  intro i b hb
  rw [hB, hbt] at hb
  cases hfi : f.buttons[i]? with
  | none => simp [hfi] at hb
  | some b0 =>
    rw [hfi] at hb
    simp only [Option.map_some', Option.some.injEq] at hb
    rw [hP, hpt, ← h i b0 hfi, ← hb]

theorem press_touch_down (t : theme) (f : frame) (data : Nat) (id x y : Int)
    (h : press_counts_ok f)
    (ho : (frame_event.frame_touch_down data id x y).in_order f = true) :
    press_counts_ok (frame_touch_down t f data id x y) := by
  rw [frame_touch_down_via_get]
  obtain ⟨hbt, hpt, -, hpr⟩ := frame_touch_get_counts f data
  have hfound := frame_touch_get_found f data
  obtain ⟨hT, hP, hB⟩ := frame_touch_down_fields t _ data id x y _ hfound
  intro i b hb
  rw [hB, hbt] at hb
  cases hfi : f.buttons[i]? with
  | none => simp [hfi] at hb
  | some b0 =>
    rw [hfi] at hb
    simp only [Option.map_some', Option.some.injEq] at hb
    have h0 := h i b0 hfi
    have h1 := hpr f.pointers i
    rw [hP, hT, hpt]
    simp only [pressing] at h0 h1 ⊢
    rw [countP_replace_touch _ _ _ _ data (by exact frame_touch_get_data f data) hfound]
    subst hb
    by_cases hid : id > 0
    · simp only [hid, not_true_eq_false, false_and, if_false, if_true]
      omega
    · have hn := in_order_touch f data id x y hid ho
      cases hf : frame_find_button (frame_touch_get f data).1 x y with
      | none => simp [hid, hn]; omega
      | some a =>
        by_cases hai : a = i
        · subst hai; simp [hid, hn]; omega
        · simp [hid, hn, hai]; omega

theorem press_touch_up (f : frame) (data : Nat) (id : Int)
    (h : press_counts_ok f) : press_counts_ok (frame_touch_up f data id) := by
  rw [frame_touch_up_via_get]
  obtain ⟨hbt, hpt, -, hpr⟩ := frame_touch_get_counts f data
  have hfound := frame_touch_get_found f data
  obtain ⟨hT, hP, hB⟩ := frame_touch_up_fields _ data id _ hfound
  intro i b hb
  rw [hB, hbt] at hb
  cases hfi : f.buttons[i]? with
  | none => simp [hfi] at hb
  | some b0 =>
    rw [hfi] at hb
    simp only [Option.map_some', Option.some.injEq] at hb
    have h0 := h i b0 hfi
    have h1 := hpr f.pointers i
    rw [hP, hT, hpt]
    simp only [pressing] at h0 h1 ⊢
    subst hb
    by_cases hid : id > 0
    · simp only [hid, not_true_eq_false, false_and, if_false]
      omega
    · cases hc : (frame_touch_get f data).2.button with
      | none => simp [hid, hc]; omega
      | some a =>
        simp only [hid, not_false_eq_true, true_and, hc, Option.isSome_some, if_true]
        rw [countP_remove_touch _ _ data _ hfound]
        by_cases hai : a = i
        · subst hai; simp [hc]; omega
        · simp [hc, hai]; omega


theorem hover_step (t : theme) (f : frame) (e : frame_event) (h : hover_counts_ok f) :
    hover_counts_ok (frame_step t f e) := by
  cases e with
  | frame_pointer_enter data x y => exact hover_motion t f data x y h
  | frame_pointer_motion data x y => exact hover_motion t f data x y h
  | frame_pointer_button data button state => exact hover_button t f data button state h
  | frame_pointer_leave data => exact hover_leave f data h
  | frame_touch_down data id x y => exact hover_touch_down t f data id x y h
  | frame_touch_up data id => exact hover_touch_up f data id h

theorem press_step (t : theme) (f : frame) (e : frame_event) (h : press_counts_ok f)
    (ho : e.in_order f = true) : press_counts_ok (frame_step t f e) := by
  cases e with
  | frame_pointer_enter data x y => exact press_motion t f data x y h
  | frame_pointer_motion data x y => exact press_motion t f data x y h
  | frame_pointer_button data button state => exact press_button t f data button state h ho
  | frame_pointer_leave data => exact press_leave f data h
  | frame_touch_down data id x y => exact press_touch_down t f data id x y h ho
  | frame_touch_up data id => exact press_touch_up f data id h

theorem hover_run (t : theme) (es : List frame_event) :
    ∀ f : frame, hover_counts_ok f → hover_counts_ok (frame_run t f es) := by
  induction es with
  | nil => intro f h; exact h
  | cons e es ih => intro f h; exact ih _ (hover_step t f e h)

theorem press_run (t : theme) (es : List frame_event) :
    ∀ f : frame, press_counts_ok f → frame_run_in_order t f es = true →
      press_counts_ok (frame_run t f es) := by
  induction es with
  | nil => intro f h _; exact h
  | cons e es ih =>
    intro f h ho
    simp only [frame_run_in_order, Bool.and_eq_true] at ho
    exact ih _ (press_step t f e h ho.1) ho.2

/-- A frame with no pointer and no touch record whose counters are all zero
has its counters right. -/
theorem counts_of_fresh (f : frame) (hp : f.pointers = []) (ht : f.touches = [])
    (hb : ∀ b ∈ f.buttons, b.hover_count = 0 ∧ b.press_count = 0) :
    hover_counts_ok f ∧ press_counts_ok f := by
  refine ⟨?_, ?_⟩
  · intro i b h
    rw [(hb b (List.getElem?_mem h)).1, hp]
    rfl
  · intro i b h
    rw [(hb b (List.getElem?_mem h)).2, hp, ht]
    rfl

theorem frame_create_counts (icons : frame_icons) (width height : Int)
    (buttons : frame_button_mask) (title : Option String) :
    hover_counts_ok (frame_create icons width height buttons title) ∧
      press_counts_ok (frame_create icons width height buttons title) := by
  apply counts_of_fresh
  · unfold frame_create frame_button_create
    cases title.isSome <;> cases buttons.close <;> cases buttons.maximize <;>
      cases buttons.minimize <;> rfl
  · unfold frame_create frame_button_create
    cases title.isSome <;> cases buttons.close <;> cases buttons.maximize <;>
      cases buttons.minimize <;> rfl
  · unfold frame_create frame_button_create
    cases title.isSome <;> cases buttons.close <;> cases buttons.maximize <;>
      cases buttons.minimize <;> simp

theorem frame_find_button_congr (f g : frame) (h : g.buttons = f.buttons) (x y : Int) :
    frame_find_button g x y = frame_find_button f x y := by
  unfold frame_find_button
  rw [h]

/-- C17, as stated, fails. On the titled frame, a pointer that reports its
left button pressed twice over the close button, released once, and then
leaves, is gone from the frame while the button keeps `press_count = 1`; so
does a touch source whose first point goes down twice on the button and up
once. -/
theorem press_count_left_over_after_double_press :
    (frame_run theme0 frame_titled events_pressed_twice).pointers = [] ∧
    (frame_run theme0 frame_titled events_pressed_twice).touches = [] ∧
    ((frame_run theme0 frame_titled events_pressed_twice).buttons[1]?).map
      (fun b => (b.hover_count, b.press_count)) = some (0, 1) ∧
    (frame_run theme0 frame_titled events_touched_twice).pointers = [] ∧
    (frame_run theme0 frame_titled events_touched_twice).touches = [] ∧
    ((frame_run theme0 frame_titled events_touched_twice).buttons[1]?).map
      (fun b => (b.hover_count, b.press_count)) = some (0, 1) := by
  decide

/-- C17, amended. From a frame whose counters are right, as that of
`frame_create` is, every sequence of pointer and touch events leaves every
button with `hover_count` equal to the number of pointers that hover it. When
every event is in order (a left press comes from a pointer with no press in
progress, a first touch point goes down on a source that holds no button),
`press_count` equals the number of active pointers on the button plus the
number of touches that hold it. So with no pointer left `hover_count` is 0, and
with no pointer and no touch left `press_count` is 0 too. -/
theorem button_counters_follow_contacts (t : theme) (f : frame) (es : List frame_event)
    (hh : hover_counts_ok f) (hp : press_counts_ok f) :
    hover_counts_ok (frame_run t f es) ∧
    (frame_run_in_order t f es = true → press_counts_ok (frame_run t f es)) ∧
    (∀ (i : Nat) (b : frame_button), (frame_run t f es).buttons[i]? = some b →
      ((frame_run t f es).pointers = [] → b.hover_count = 0) ∧
      (frame_run_in_order t f es = true → (frame_run t f es).pointers = [] →
        (frame_run t f es).touches = [] → b.press_count = 0)) := by
  have h1 := hover_run t es f hh
  have h2 := press_run t es f hp
  refine ⟨h1, h2, ?_⟩
  intro i b hb
  refine ⟨?_, ?_⟩
  · intro hnil
    rw [h1 i b hb, hnil]
    rfl
  · intro ho hnil htnil
    rw [h2 ho i b hb, hnil, htnil]
    rfl

/-- C17 at concrete inputs: a click dragged off the close button and a tap on
it, in order, leave both counters of the button at zero. -/
theorem button_counters_follow_contacts_witness :
    frame_run_in_order theme0 frame_titled events_click_and_tap = true ∧
    hover_counts_ok (frame_run theme0 frame_titled events_click_and_tap) ∧
    press_counts_ok (frame_run theme0 frame_titled events_click_and_tap) ∧
    ((frame_run theme0 frame_titled events_click_and_tap).buttons[1]?).map
      (fun b => (b.hover_count, b.press_count)) = some (0, 0) :=
  ⟨by decide,
    (button_counters_follow_contacts theme0 frame_titled events_click_and_tap
      (counts_of_fresh frame_titled (by decide) (by decide) (by decide)).1
      (counts_of_fresh frame_titled (by decide) (by decide) (by decide)).2).1,
    (button_counters_follow_contacts theme0 frame_titled events_click_and_tap
      (counts_of_fresh frame_titled (by decide) (by decide) (by decide)).1
      (counts_of_fresh frame_titled (by decide) (by decide) (by decide)).2).2.1 (by decide),
    by decide⟩



/-! ## Frame buttons: a hit on a button comes before the location -/


theorem union_keeps_move_resize (s e : frame_status) (hm : e.move = false)
    (hr : e.resize = false) :
    (s.union e).move = s.move ∧ (s.union e).resize = s.resize := by
  simp [frame_status.union, hm, hr]

theorem press_keeps_move_resize (f : frame) (i : Nat) (b : frame_button)
    (hb : f.buttons[i]? = some b)
    (heff : b.status_effect.move = false ∧ b.status_effect.resize = false) :
    (frame_button_press f i).status.move = f.status.move ∧
      (frame_button_press f i).status.resize = f.status.resize := by
  rw [frame_button_press_status f i b hb]
  have hrep := union_keeps_move_resize f.status FRAME_STATUS_REPAINT rfl rfl
  split_ifs
  · obtain ⟨a1, a2⟩ := union_keeps_move_resize (f.status.union FRAME_STATUS_REPAINT)
      b.status_effect heff.1 heff.2
    exact ⟨a1.trans hrep.1, a2.trans hrep.2⟩
  · exact union_keeps_move_resize f.status b.status_effect heff.1 heff.2
  · exact hrep
  · exact ⟨rfl, rfl⟩

/-- The buttons `frame_create` makes have the menu, close, maximize and
minimize effects: none asks for a move or a resize. -/
theorem frame_create_effects (icons : frame_icons) (width height : Int)
    (buttons : frame_button_mask) (title : Option String) :
    ∀ b ∈ (frame_create icons width height buttons title).buttons,
      b.status_effect.move = false ∧ b.status_effect.resize = false := by
  unfold frame_create frame_button_create
  cases title.isSome <;> cases buttons.close <;> cases buttons.maximize <;>
    cases buttons.minimize <;>
    simp [FRAME_STATUS_MENU, FRAME_STATUS_CLOSE, FRAME_STATUS_MAXIMIZE, FRAME_STATUS_MINIMIZE,
      FRAME_STATUS_NONE]

/-- The record of a pointer after a motion: it hovers what the point hits. -/
theorem motion_sets_hover (t : theme) (f : frame) (data : Nat) (x y : Int) :
    ∃ p, (frame_pointer_motion t f data x y).1.pointers.find? (fun q => q.data == data) =
        some p ∧
      p.hover_button = frame_find_button f x y ∧ p.x = x ∧ p.y = y := by
  rw [frame_pointer_motion_via_get]
  have hfound := frame_pointer_get_found f data
  obtain ⟨hbt, -, -, -, -⟩ := frame_pointer_get_counts f data
  obtain ⟨hP, -, -⟩ := frame_pointer_motion_fields t _ data x y _ hfound
  rw [hP, frame_find_button_congr f _ hbt]
  by_cases hsame : (frame_pointer_get f data).2.hover_button = frame_find_button f x y
  · rw [if_pos hsame]
    exact ⟨_, find_replace_pointer _ _ _ data (frame_pointer_get_data f data) hfound,
      hsame, rfl, rfl⟩
  · rw [if_neg hsame]
    exact ⟨_, find_replace_pointer _ _ _ data (frame_pointer_get_data f data) hfound,
      rfl, rfl, rfl⟩

/-- A motion keeps the flags and the status effect of every button. -/
theorem motion_keeps_effects (t : theme) (f : frame) (data : Nat) (x y : Int) (i : Nat)
    (b : frame_button) (hb : f.buttons[i]? = some b) :
    ∃ b1, (frame_pointer_motion t f data x y).1.buttons[i]? = some b1 ∧
      b1.status_effect = b.status_effect ∧ b1.flags = b.flags := by
  rw [frame_pointer_motion_via_get]
  have hfound := frame_pointer_get_found f data
  obtain ⟨hbt, -, -, -, -⟩ := frame_pointer_get_counts f data
  obtain ⟨-, -, hB⟩ := frame_pointer_motion_fields t _ data x y _ hfound
  rw [hB, hbt, hb]
  simp only [Option.map_some']
  split_ifs <;> exact ⟨_, rfl, rfl, rfl⟩

/-- C18. When the point `(x, y)` is inside the allocation of the button at
place `i`, whose status effect is neither move nor resize: a pointer moved to
`(x, y)` and then left-pressed raises the `press_count` of that button by one
and changes the frame status as `frame_button_press` does, leaving the move
and resize bits as they were; a first touch point put down at `(x, y)` does
the same. None of this depends on the location the theme gives the point. -/
theorem button_hit_precedes_location (t : theme) (f : frame) (data : Nat) (id x y : Int)
    (i : Nat) (b : frame_button)
    (hfind : frame_find_button f x y = some i) (hb : f.buttons[i]? = some b)
    (hid : ¬ id > 0)
    (heff : b.status_effect.move = false ∧ b.status_effect.resize = false) :
    ((frame_pointer_button t (frame_pointer_motion t f data x y).1 data BTN_LEFT
        frame_button_state.FRAME_BUTTON_PRESSED).1.buttons[i]?).map (fun c => c.press_count) =
      ((frame_pointer_motion t f data x y).1.buttons[i]?).map (fun c => c.press_count + 1) ∧
    (frame_pointer_button t (frame_pointer_motion t f data x y).1 data BTN_LEFT
        frame_button_state.FRAME_BUTTON_PRESSED).1.status =
      (frame_button_press (frame_pointer_motion t f data x y).1 i).status ∧
    (frame_pointer_button t (frame_pointer_motion t f data x y).1 data BTN_LEFT
        frame_button_state.FRAME_BUTTON_PRESSED).1.status.move =
      (frame_pointer_motion t f data x y).1.status.move ∧
    (frame_pointer_button t (frame_pointer_motion t f data x y).1 data BTN_LEFT
        frame_button_state.FRAME_BUTTON_PRESSED).1.status.resize =
      (frame_pointer_motion t f data x y).1.status.resize ∧
    (frame_touch_down t f data id x y).buttons[i]? =
      some { b with press_count := b.press_count + 1 } ∧
    (frame_touch_down t f data id x y).status = (frame_button_press f i).status ∧
    (frame_touch_down t f data id x y).status.move = f.status.move ∧
    (frame_touch_down t f data id x y).status.resize = f.status.resize := by
  obtain ⟨p, hp, hph, -, -⟩ := motion_sets_hover t f data x y
  rw [hfind] at hph
  obtain ⟨b1, hb1, he1, -⟩ := motion_keeps_effects t f data x y i b hb
  have hst : (frame_pointer_button t (frame_pointer_motion t f data x y).1 data BTN_LEFT
        frame_button_state.FRAME_BUTTON_PRESSED).1.status =
      (frame_button_press (frame_pointer_motion t f data x y).1 i).status := by
    simp [frame_pointer_button, frame_pointer_get_of_found _ data p hp, hph, BTN_LEFT, BTN_RIGHT]
  obtain ⟨m1, m2⟩ := press_keeps_move_resize _ i b1 hb1 (he1 ▸ heff)
  obtain ⟨-, -, hB⟩ := frame_pointer_button_fields t _ data BTN_LEFT
    frame_button_state.FRAME_BUTTON_PRESSED p hp
  have hfoundt := frame_touch_get_found f data
  obtain ⟨hbt, -, hstt, -⟩ := frame_touch_get_counts f data
  obtain ⟨-, -, hBt⟩ := frame_touch_down_fields t _ data id x y _ hfoundt
  have hfind2 : frame_find_button (frame_touch_get f data).1 x y = some i := by
    rw [frame_find_button_congr f _ hbt, hfind]
  have hstatus : (frame_touch_down t f data id x y).status = (frame_button_press f i).status := by
    rw [frame_touch_down_via_get]
    unfold frame_touch_down
    rw [frame_touch_get_idem]
    simp only [if_neg hid, hfind2]
    rw [frame_button_press_status _ i b (by simpa [hbt] using hb),
      frame_button_press_status f i b hb]
    simp [hstt]
  obtain ⟨n1, n2⟩ := press_keeps_move_resize f i b hb heff
  refine ⟨?_, hst, by rw [hst]; exact m1, by rw [hst]; exact m2, ?_, hstatus,
    by rw [hstatus]; exact n1, by rw [hstatus]; exact n2⟩
  · rw [hB, hb1]
    simp [hph]
  · rw [frame_touch_down_via_get, hBt, hbt, hb]
    simp [hid, hfind2]

/-- C18 at concrete inputs: the point (345, 40) of the titled frame lies on
the close button and in the band the theme calls the title bar; a left press
there and a touch there press the button and ask for no move. -/
theorem button_hit_precedes_location_witness :
    theme0.get_location 345 40 400 300 false = theme_location.TITLEBAR ∧
    frame_find_button frame_titled 345 40 = some 1 ∧
    (frame_pointer_button theme0 (frame_pointer_motion theme0 frame_titled 1 345 40).1 1 BTN_LEFT
        frame_button_state.FRAME_BUTTON_PRESSED).1.status.move = false ∧
    (frame_touch_down theme0 frame_titled 2 0 345 40).status.move = false ∧
    ((frame_touch_down theme0 frame_titled 2 0 345 40).buttons[1]?).map
      (fun c => c.press_count) = some 1 :=
  ⟨by decide, by decide,
    (button_hit_precedes_location theme0 frame_titled 1 0 345 40 1
      { close_button_hovered with hover_count := 0 } (by decide) (by decide) (by decide)
      (by decide)).2.2.1.trans (by decide),
    (button_hit_precedes_location theme0 frame_titled 2 0 345 40 1
      { close_button_hovered with hover_count := 0 } (by decide) (by decide) (by decide)
      (by decide)).2.2.2.2.2.2.1.trans (by decide),
    by decide⟩



/-! ## The main loop: order of the deferred tasks -/


theorem display_run_deferred_empties (env : loop_env) :
    ∀ (fuel : Nat) (s s1 : loop_state), display_run_deferred env fuel s = some s1 →
      s1.display.deferred_list = [] := by
  intro fuel
  induction fuel with
  | zero =>
    intro s s1 h
    unfold display_run_deferred at h
    cases hl : s.display.deferred_list.getLast? with
    | none =>
      simp only [hl, Option.some.injEq] at h
      subst h
      simpa using hl
    | some t => simp [hl] at h
  | succ n ih =>
    intro s s1 h
    unfold display_run_deferred at h
    cases hl : s.display.deferred_list.getLast? with
    | none =>
      simp only [hl, Option.some.injEq] at h
      subst h
      simpa using hl
    | some t =>
      simp only [hl] at h
      exact ih _ _ h

theorem display_run_deferred_turns_nil (env : loop_env) (k : Nat) (s : loop_state)
    (h : s.display.deferred_list = []) : display_run_deferred_turns env k s = s := by
  cases k with
  | zero => rfl
  | succ k =>
    unfold display_run_deferred_turns
    simp [h]

theorem display_run_deferred_turns_add (env : loop_env) :
    ∀ (j k : Nat) (s : loop_state),
      display_run_deferred_turns env (j + k) s =
        display_run_deferred_turns env k (display_run_deferred_turns env j s) := by
  intro j
  induction j with
  | zero =>
    intro k s
    rw [Nat.zero_add]
    rfl
  | succ j ih =>
    intro k s
    rw [Nat.add_right_comm]
    cases hl : s.display.deferred_list.getLast? with
    | none =>
      have hnil : s.display.deferred_list = [] := by simpa using hl
      rw [display_run_deferred_turns_nil env _ s hnil, display_run_deferred_turns_nil env _ s hnil,
        display_run_deferred_turns_nil env _ s hnil]
    | some t =>
      rw [display_run_deferred_turns, display_run_deferred_turns]
      simp only [hl]
      exact ih k _

/-- The inner loop cut after `fuel` turns returns exactly when the deferred
list is empty by then, and returns the state of that moment. -/
theorem display_run_deferred_eq_turns (env : loop_env) :
    ∀ (fuel : Nat) (s : loop_state),
      display_run_deferred env fuel s =
        if (display_run_deferred_turns env fuel s).display.deferred_list = [] then
          some (display_run_deferred_turns env fuel s)
        else none := by
  intro fuel
  induction fuel with
  | zero =>
    intro s
    unfold display_run_deferred display_run_deferred_turns
    cases hl : s.display.deferred_list.getLast? with
    | none =>
      have hnil : s.display.deferred_list = [] := by simpa using hl
      simp [hnil]
    | some t =>
      have hne : s.display.deferred_list ≠ [] := by
        intro h
        simp [h] at hl
      simp [hne]
  | succ n ih =>
    intro s
    unfold display_run_deferred display_run_deferred_turns
    cases hl : s.display.deferred_list.getLast? with
    | none =>
      have hnil : s.display.deferred_list = [] := by simpa using hl
      simp [hnil]
    | some t =>
      simp only []
      exact ih _

theorem display_run_deferred_turns_calls (env : loop_env) :
    ∀ (k : Nat) (s : loop_state),
      ∃ later : List task,
        (display_run_deferred_turns env k s).calls =
          s.calls ++ later.map (fun t => loop_call.task_run t 0) := by
  intro k
  induction k with
  | zero =>
    intro s
    exact ⟨[], by simp [display_run_deferred_turns]⟩
  | succ k ih =>
    intro s
    unfold display_run_deferred_turns
    cases hl : s.display.deferred_list.getLast? with
    | none => exact ⟨[], by simp⟩
    | some t =>
      simp only []
      obtain ⟨later, h⟩ := ih
        (loop_run_task env
          { s with display :=
              { s.display with deferred_list := s.display.deferred_list.dropLast } } t 0)
      exact ⟨t :: later, by rw [h]; simp [loop_run_task]⟩

/-- With tasks that change the deferred list only by deferring tasks, the
first turns of the inner loop run the tasks that are on the list, from the
tail on, and what the tasks defer meanwhile is put in front of the rest. -/
theorem display_run_deferred_turns_order (env : loop_env)
    (hdefer : ∀ t e st, ∃ new, (env.run t e st).1.deferred_list = new ++ st.1.deferred_list) :
    ∀ (l pre : List task) (s : loop_state), s.display.deferred_list = pre ++ l →
      (display_run_deferred_turns env l.length s).calls =
        s.calls ++ l.reverse.map (fun t => loop_call.task_run t 0) ∧
      ∃ new, (display_run_deferred_turns env l.length s).display.deferred_list = new ++ pre := by
  intro l
  induction l using List.reverseRecOn with
  | nil =>
    intro pre s hl
    exact ⟨by simp [display_run_deferred_turns], [], by simpa [display_run_deferred_turns] using hl⟩
  | append_singleton l t ih =>
    intro pre s hl
    have hlast : s.display.deferred_list.getLast? = some t := by
      rw [hl, ← List.append_assoc]
      simp
    have hdrop : s.display.deferred_list.dropLast = pre ++ l := by
      rw [hl, ← List.append_assoc, List.dropLast_concat]
    rw [List.length_append, List.length_singleton]
    unfold display_run_deferred_turns
    simp only [hlast, hdrop]
    obtain ⟨new, hnew⟩ := hdefer t 0
      (({ s.display with deferred_list := pre ++ l } : display), s.running)
    obtain ⟨h1, new2, h2⟩ := ih (new ++ pre)
      (loop_run_task env { s with display := { s.display with deferred_list := pre ++ l } } t 0)
      (by simp only [loop_run_task]; rw [hnew, List.append_assoc])
    refine ⟨?_, new2 ++ new, ?_⟩
    · rw [h1]
      simp [loop_run_task]
    · rw [h2, List.append_assoc]

theorem display_run_deferred_turns_quiet (env : loop_env)
    (hquiet : ∀ t e st, (env.run t e st).1.deferred_list = st.1.deferred_list) :
    ∀ (l pre : List task) (s : loop_state), s.display.deferred_list = pre ++ l →
      (display_run_deferred_turns env l.length s).display.deferred_list = pre := by
  intro l
  induction l using List.reverseRecOn with
  | nil =>
    intro pre s hl
    simpa [display_run_deferred_turns] using hl
  | append_singleton l t ih =>
    intro pre s hl
    have hlast : s.display.deferred_list.getLast? = some t := by
      rw [hl, ← List.append_assoc]
      simp
    have hdrop : s.display.deferred_list.dropLast = pre ++ l := by
      rw [hl, ← List.append_assoc, List.dropLast_concat]
    rw [List.length_append, List.length_singleton]
    unfold display_run_deferred_turns
    simp only [hlast, hdrop]
    exact ih pre _ (by simp only [loop_run_task]; rw [hquiet])

theorem display_run_after_deferred_calls (env : loop_env) (s : loop_state) :
    ∃ rest, (display_run_after_deferred env s).1.calls =
      s.calls ++ loop_call.wl_display_dispatch_pending :: rest := by
  have hfold : ∀ (ready : List (task × Nat)) (s0 : loop_state),
      ∃ rest, (ready.foldl (fun s te => loop_run_task env s te.1 te.2) s0).calls =
        s0.calls ++ rest := by
    intro ready
    induction ready with
    | nil => intro s0; exact ⟨[], by simp⟩
    | cons te tes ih =>
      intro s0
      obtain ⟨rest, hr⟩ := ih (loop_run_task env s0 te.1 te.2)
      exact ⟨loop_call.task_run te.1 te.2 :: rest, by rw [List.foldl_cons, hr]; simp [loop_run_task]⟩
  unfold display_run_after_deferred
  simp only []
  split_ifs with hrun
  · exact ⟨[], rfl⟩
  · cases hf : env.flush with
    | failed => exact ⟨[loop_call.wl_display_flush], by simp⟩
    | done =>
      simp only [reduceCtorEq, if_false]
      obtain ⟨rest, hr⟩ := hfold env.ready _
      exact ⟨_, by rw [hr]; simp; rfl⟩
    | again =>
      simp only [if_true]
      obtain ⟨rest, hr⟩ := hfold env.ready _
      exact ⟨_, by rw [hr]; simp; rfl⟩


/-- C20, as stated, fails. With task 1 deferred and then task 2, and neither
run in between, `display_run` runs task 1 first and task 2 second. -/
theorem display_run_is_not_lifo :
    loop_two_deferred.display.deferred_list = [task.other 2, task.other 1] ∧
    (display_run 2 [env_exit] loop_two_deferred).map (fun s => s.calls) =
      some [loop_call.task_run (task.other 1) 0, loop_call.task_run (task.other 2) 0,
            loop_call.wl_display_dispatch_pending] := by
  decide

/-- C20, amended. Deferred tasks run in insertion order: `display_defer` puts
a task at the head of the list and each turn of the inner loop of
`display_run` takes the task at the tail. When `a` and then `b` are deferred,
and the tasks that run change the list only by deferring tasks, the tasks that
were on the list before run first, then `a`, then `b`, within as many turns,
whatever these tasks defer; what they defer runs after `b`. When the inner
loop returns, the deferred list is empty and the pass goes on with
`wl_display_dispatch_pending`, and only after it come the flush, `epoll_wait`
and the ready tasks. The inner loop returns as soon as the list is empty (the
cut after `fuel` turns gives no result only when the list is not empty after
that many turns), which it is after a turn for each task when the tasks defer
nothing. A task that a running task unlinks from the list is not run: with
task 1, the redraw task and task 2 deferred in this order, and task 1
unlinking the redraw task, the loop runs task 1 and task 2. -/
theorem deferred_tasks_run_in_insertion_order (env : loop_env) (s : loop_state) (a b : task)
    (hdefer : ∀ t e st, ∃ new, (env.run t e st).1.deferred_list = new ++ st.1.deferred_list) :
    (display_run_deferred_turns env (s.display.deferred_list.length + 2)
        { s with display := display_defer (display_defer s.display a) b }).calls =
      s.calls ++ s.display.deferred_list.reverse.map (fun t => loop_call.task_run t 0)
        ++ [loop_call.task_run a 0, loop_call.task_run b 0] ∧
    (∀ (fuel : Nat) (s1 : loop_state),
      display_run_deferred env fuel
        { s with display := display_defer (display_defer s.display a) b } = some s1 →
      s1.display.deferred_list = [] ∧
      (∃ later : List task,
        s1.calls =
          s.calls ++ s.display.deferred_list.reverse.map (fun t => loop_call.task_run t 0)
            ++ [loop_call.task_run a 0, loop_call.task_run b 0]
            ++ later.map (fun t => loop_call.task_run t 0)) ∧
      ∃ rest,
        (display_run_pass env fuel
          { s with display := display_defer (display_defer s.display a) b }).map
            (fun r => r.1.calls) =
          some (s1.calls ++ loop_call.wl_display_dispatch_pending :: rest)) ∧
    (∀ k fuel : Nat, k ≤ fuel →
      (display_run_deferred_turns env k
        { s with display := display_defer (display_defer s.display a) b }).display.deferred_list
          = [] →
      display_run_deferred env fuel
          { s with display := display_defer (display_defer s.display a) b } =
        some (display_run_deferred_turns env k
          { s with display := display_defer (display_defer s.display a) b })) ∧
    (∀ fuel : Nat,
      display_run_deferred env fuel
          { s with display := display_defer (display_defer s.display a) b } = none →
      (display_run_deferred_turns env fuel
        { s with display := display_defer (display_defer s.display a) b }).display.deferred_list
          ≠ []) ∧
    ((∀ t e st, (env.run t e st).1.deferred_list = st.1.deferred_list) →
      ∃ s1,
        display_run_deferred env (s.display.deferred_list.length + 2)
          { s with display := display_defer (display_defer s.display a) b } = some s1) ∧
    (display_run_deferred env_unlink 3 loop_three_deferred).map
        (fun s1 => (s1.calls, s1.display.deferred_list)) =
      some ([loop_call.task_run (task.other 1) 0, loop_call.task_run (task.other 2) 0], []) := by
  have hlist : ({ s with display := display_defer (display_defer s.display a) b } :
      loop_state).display.deferred_list = [] ++ (b :: a :: s.display.deferred_list) := rfl
  have hlen : (b :: a :: s.display.deferred_list).length = s.display.deferred_list.length + 2 :=
    rfl
  obtain ⟨hcalls, -⟩ := display_run_deferred_turns_order env hdefer
    (b :: a :: s.display.deferred_list) []
    { s with display := display_defer (display_defer s.display a) b } hlist
  rw [hlen] at hcalls
  have hcalls2 : (display_run_deferred_turns env (s.display.deferred_list.length + 2)
        { s with display := display_defer (display_defer s.display a) b }).calls =
      s.calls ++ s.display.deferred_list.reverse.map (fun t => loop_call.task_run t 0)
        ++ [loop_call.task_run a 0, loop_call.task_run b 0] := by
    rw [hcalls]
    simp
  have hstay : ∀ k fuel : Nat, k ≤ fuel → ∀ s0 : loop_state,
      (display_run_deferred_turns env k s0).display.deferred_list = [] →
      display_run_deferred_turns env fuel s0 = display_run_deferred_turns env k s0 := by
    intro k fuel hk s0 hnil
    obtain ⟨d, rfl⟩ := Nat.exists_eq_add_of_le hk
    rw [display_run_deferred_turns_add, display_run_deferred_turns_nil env d _ hnil]
  refine ⟨hcalls2, ?_, ?_, ?_, ?_, by decide⟩
  · intro fuel s1 h
    have hnil := display_run_deferred_empties env fuel _ s1 h
    rw [display_run_deferred_eq_turns] at h
    split_ifs at h with hempty
    have hs1 : display_run_deferred_turns env fuel
        { s with display := display_defer (display_defer s.display a) b } = s1 :=
      Option.some.inj h
    refine ⟨hnil, ?_, ?_⟩
    · rcases Nat.le_total (s.display.deferred_list.length + 2) fuel with hle | hle
      · obtain ⟨d, hd⟩ := Nat.exists_eq_add_of_le hle
        obtain ⟨later, hlater⟩ := display_run_deferred_turns_calls env d
          (display_run_deferred_turns env (s.display.deferred_list.length + 2)
            { s with display := display_defer (display_defer s.display a) b })
        refine ⟨later, ?_⟩
        rw [← hs1, hd, display_run_deferred_turns_add, hlater, hcalls2]
      · refine ⟨[], ?_⟩
        rw [← hcalls2, hstay fuel _ hle _ hempty, hs1]
        simp
    · obtain ⟨rest, hr⟩ := display_run_after_deferred_calls env s1
      refine ⟨rest, ?_⟩
      have h2 : display_run_deferred env fuel
          { s with display := display_defer (display_defer s.display a) b } = some s1 := by
        rw [display_run_deferred_eq_turns, if_pos hempty, hs1]
      simp only [display_run_pass, h2, Option.map_some', hr]
  · intro k fuel hk hnil
    rw [display_run_deferred_eq_turns, hstay k fuel hk _ hnil, if_pos hnil]
  · intro fuel h
    rw [display_run_deferred_eq_turns] at h
    split_ifs at h with hempty
    exact hempty
  · intro hquiet
    have hq := display_run_deferred_turns_quiet env hquiet
      (b :: a :: s.display.deferred_list) []
      { s with display := display_defer (display_defer s.display a) b } hlist
    rw [hlen] at hq
    exact ⟨_, by rw [display_run_deferred_eq_turns, if_pos hq]⟩

/-- C20 at concrete inputs: task 1 and then the redraw task are deferred on an
empty display, and task 1 defers task 0 when it runs. Task 1 runs first, the
redraw task second, and task 0, deferred last, third; then the list is
empty. -/
theorem deferred_tasks_run_in_insertion_order_witness :
    (display_run_deferred_turns env_chain 2
        { display := display_defer (display_defer display_empty (task.other 1)) task.redraw_task,
          running := false, calls := [] }).calls =
      [loop_call.task_run (task.other 1) 0, loop_call.task_run task.redraw_task 0] ∧
    (display_run_deferred env_chain 3
        { display := display_defer (display_defer display_empty (task.other 1)) task.redraw_task,
          running := false, calls := [] }).map (fun s => (s.calls, s.display.deferred_list)) =
      some ([loop_call.task_run (task.other 1) 0, loop_call.task_run task.redraw_task 0,
             loop_call.task_run (task.other 0) 0], []) :=
  ⟨(deferred_tasks_run_in_insertion_order env_chain
      { display := display_empty, running := false, calls := [] } (task.other 1)
      task.redraw_task
      (fun t _ st => by
        cases t with
        | redraw_task => exact ⟨[], rfl⟩
        | other n =>
          cases n with
          | zero => exact ⟨[], rfl⟩
          | succ n => exact ⟨[task.other n], rfl⟩)).1,
    by decide⟩


/-! ## Pointer input: focus, grab and dispatch -/


theorem input_set_focus_widget_calls (hs : Nat → widget_handlers) (i : input)
    (focus : Option Nat) (x y : Int) (h : focus ≠ i.focus_widget) :
    input_set_focus_widget hs i focus x y =
      { i with
        focus_widget := focus,
        calls := i.calls ++
          (match i.focus_widget with
            | some old =>
              if (hs (i.grab.getD old)).leave_handler then
                [input_call.leave_handler (i.grab.getD old) old]
              else []
            | none => []) ++
          (match focus with
            | some new =>
              if (hs (i.grab.getD new)).enter_handler then
                [input_call.enter_handler (i.grab.getD new) new x y,
                  input_call.input_set_pointer_image cursor_value.returned]
              else
                [input_call.input_set_pointer_image
                  (cursor_value.default_cursor (hs (i.grab.getD new)).default_cursor)]
            | none => []) } := by
  unfold input_set_focus_widget
  rw [if_neg h]
  obtain ⟨pf, fw, g, gb, sx, sy, ds, cs⟩ := i
  cases fw <;> cases focus <;> cases g <;> simp [input.emit] <;> split_ifs <;> simp


/-- What `input_set_focus_widget` leaves alone, and what it may add to the
calls: no motion or button event, and under a grab only calls of the
handlers of the grab. -/
theorem input_set_focus_widget_frame (hs : Nat → widget_handlers) (i : input)
    (focus : Option Nat) (x y : Int) :
    (input_set_focus_widget hs i focus x y).focus_widget = focus ∧
    (input_set_focus_widget hs i focus x y).grab = i.grab ∧
    (input_set_focus_widget hs i focus x y).grab_button = i.grab_button ∧
    (input_set_focus_widget hs i focus x y).pointer_focus = i.pointer_focus ∧
    (input_set_focus_widget hs i focus x y).sx = i.sx ∧
    (input_set_focus_widget hs i focus x y).sy = i.sy ∧
    ∃ extra, (input_set_focus_widget hs i focus x y).calls = i.calls ++ extra ∧
      (∀ c ∈ extra, c.is_event = false) ∧
      (∀ g, i.grab = some g → ∀ c ∈ extra, c.owner = none ∨ c.owner = some g) := by
  by_cases h : focus = i.focus_widget
  · have hr : input_set_focus_widget hs i focus x y = i := by
      unfold input_set_focus_widget
      rw [if_pos h]
    rw [hr]
    exact ⟨h.symm, rfl, rfl, rfl, rfl, rfl, [], by simp, by simp, by simp⟩
  · rw [input_set_focus_widget_calls hs i focus x y h]
    refine ⟨rfl, rfl, rfl, rfl, rfl, rfl, _, by simp only [List.append_assoc]; rfl, ?_, ?_⟩
    · intro c hc
      simp only [List.mem_append] at hc
      rcases hc with hc | hc
      · cases hf : i.focus_widget with
        | none => simp [hf] at hc
        | some old =>
          simp only [hf] at hc
          split_ifs at hc <;> simp at hc
          subst hc; rfl
      · cases focus with
        | none => simp at hc
        | some new =>
          simp only at hc
          split_ifs at hc <;> simp at hc
          · rcases hc with rfl | rfl <;> rfl
          · subst hc; rfl
    · intro g hg c hc
      simp only [List.mem_append, hg, Option.getD_some] at hc
      rcases hc with hc | hc
      · cases hf : i.focus_widget with
        | none => simp [hf] at hc
        | some old =>
          simp only [hf] at hc
          split_ifs at hc <;> simp at hc
          subst hc; exact Or.inr rfl
      · cases focus with
        | none => simp at hc
        | some new =>
          simp only at hc
          split_ifs at hc <;> simp at hc
          · rcases hc with rfl | rfl
            · exact Or.inr rfl
            · exact Or.inl rfl
          · subst hc; exact Or.inl rfl

/-- C13. When `focus` is the current focus widget, `input_set_focus_widget`
changes nothing. Otherwise the focus widget becomes `focus`, the grab stays,
and the calls added are `leave` followed by `enter`: `leave` is, for an old
focus widget `old`, the call of the leave handler with `old`, and `enter` is,
for a new focus widget `new`, the call of the enter handler with `new` followed
by `input_set_pointer_image`. The handler called is that of `i.grab.getD old`,
respectively `i.grab.getD new`: of the grab when there is one, of `old`,
respectively `new`, when there is none. A handler that is not bound is not
called; the cursor is then the `default_cursor` of the same widget. -/
theorem focus_change_fires_leave_then_enter (hs : Nat → widget_handlers) (i : input)
    (focus : Option Nat) (x y : Int) :
    (focus = i.focus_widget → input_set_focus_widget hs i focus x y = i) ∧
    (focus ≠ i.focus_widget →
      (input_set_focus_widget hs i focus x y).focus_widget = focus ∧
      (input_set_focus_widget hs i focus x y).grab = i.grab ∧
      ∃ leave enter,
        (input_set_focus_widget hs i focus x y).calls = i.calls ++ leave ++ enter ∧
        (i.focus_widget = none → leave = []) ∧
        (∀ old, i.focus_widget = some old →
          leave =
            if (hs (i.grab.getD old)).leave_handler then
              [input_call.leave_handler (i.grab.getD old) old]
            else []) ∧
        (focus = none → enter = []) ∧
        (∀ new, focus = some new →
          enter =
            if (hs (i.grab.getD new)).enter_handler then
              [input_call.enter_handler (i.grab.getD new) new x y,
                input_call.input_set_pointer_image cursor_value.returned]
            else
              [input_call.input_set_pointer_image
                (cursor_value.default_cursor (hs (i.grab.getD new)).default_cursor)])) := by
  refine ⟨?_, ?_⟩
  · intro h
    unfold input_set_focus_widget
    rw [if_pos h]
  · intro h
    rw [input_set_focus_widget_calls hs i focus x y h]
    refine ⟨rfl, rfl, _, _, rfl, ?_, ?_, ?_, ?_⟩
    · intro h0
      simp [h0]
    · intro old h0
      simp [h0]
    · intro h0
      subst h0
      rfl
    · intro new h0
      subst h0
      rfl

/-- C13 at concrete inputs: with widget 11 in focus and no grab, a call with
widget 11 changes nothing, and a call with widget 10 makes 10 the focus
widget. -/
theorem focus_change_fires_leave_then_enter_witness :
    input_set_focus_widget handlers0 input_over_child (some 11) 0 0 = input_over_child ∧
    (input_set_focus_widget handlers0 input_over_child (some 10) 0 0).focus_widget = some 10 :=
  ⟨(focus_change_fires_leave_then_enter handlers0 input_over_child (some 11) 0 0).1 (by decide),
    ((focus_change_fires_leave_then_enter handlers0 input_over_child (some 10) 0 0).2
      (by decide)).1⟩


theorem input_ungrab_frame (hs : Nat → widget_handlers) (w : window) (i : input) :
    (input_ungrab hs w i).grab = none ∧
    (input_ungrab hs w i).grab_button = i.grab_button ∧
    (i.pointer_focus = true →
      (input_ungrab hs w i).focus_widget =
        (window_find_widget w (float_to_int i.sx) (float_to_int i.sy)).map widget.id) ∧
    ∃ extra, (input_ungrab hs w i).calls = i.calls ++ extra ∧
      (∀ c ∈ extra, c.is_event = false) := by
  unfold input_ungrab
  by_cases hp : i.pointer_focus = true
  · rw [if_pos (show ({ i with grab := none } : input).pointer_focus = true from hp)]
    obtain ⟨h1, h2, h3, -, -, -, extra, h7, h8, -⟩ :=
      input_set_focus_widget_frame hs { i with grab := none }
        ((window_find_widget w (float_to_int i.sx) (float_to_int i.sy)).map widget.id) i.sx i.sy
    exact ⟨h2, h3, fun _ => h1, extra, h7, h8⟩
  · rw [if_neg (show ¬ ({ i with grab := none } : input).pointer_focus = true from hp)]
    exact ⟨rfl, rfl, fun h => absurd h hp, [], by simp, by simp⟩

/-- A button event under a grab on `W`: the event goes to the button handler
of `W`, when it is bound, and the grab is ended afterwards when the handler
has left a grab whose button is the one released. -/
theorem pointer_handle_button_grabbed (hs : Nat → widget_handlers)
    (bh : Nat → Nat → Nat → wl_pointer_button_state → input → input) (w : window) (i : input)
    (W : Nat) (hgrab : i.grab = some W) (serial time button : Nat)
    (state : wl_pointer_button_state) :
    pointer_button_grab { i with display_serial := serial } button state =
      { i with display_serial := serial } ∧
    pointer_button_deliver hs bh { i with display_serial := serial } time button state =
      (if (hs W).button_handler then
        bh W time button state
          (({ i with display_serial := serial } : input).emit
            [input_call.button_handler W time button state])
      else { i with display_serial := serial }) ∧
    pointer_handle_button hs bh w i serial time button state =
      (if (pointer_button_deliver hs bh { i with display_serial := serial } time button
            state).grab.isSome ∧
          (pointer_button_deliver hs bh { i with display_serial := serial } time button
            state).grab_button = button ∧
          state = wl_pointer_button_state.WL_POINTER_BUTTON_STATE_RELEASED then
        input_ungrab hs w
          (pointer_button_deliver hs bh { i with display_serial := serial } time button state)
      else pointer_button_deliver hs bh { i with display_serial := serial } time button state) := by
  have hg : pointer_button_grab { i with display_serial := serial } button state =
      { i with display_serial := serial } := by
    unfold pointer_button_grab
    cases hf : i.focus_widget <;> simp [hf, hgrab]
  refine ⟨hg, ?_, ?_⟩
  · unfold pointer_button_deliver
    simp only [hgrab]
  · unfold pointer_handle_button
    simp only [hg]

/-- A button handler that leaves the grab alone, under a grab on `W` with
button `A`: the grab is as it was when the handler returns. -/
theorem pointer_button_deliver_keeps (hs : Nat → widget_handlers)
    (bh : Nat → Nat → Nat → wl_pointer_button_state → input → input) (j : input) (W A : Nat)
    (hkeep : ∀ (time button : Nat) (state : wl_pointer_button_state) (k : input),
      (bh W time button state k).grab = k.grab ∧
      (bh W time button state k).grab_button = k.grab_button)
    (hj : j.grab = some W) (hjb : j.grab_button = A) (time button : Nat)
    (state : wl_pointer_button_state) :
    (pointer_button_deliver hs bh j time button state).grab = some W ∧
    (pointer_button_deliver hs bh j time button state).grab_button = A := by
  unfold pointer_button_deliver
  simp only [hj]
  split_ifs
  · exact ⟨(hkeep _ _ _ _).1.trans hj, (hkeep _ _ _ _).2.trans hjb⟩
  · exact ⟨hj, hjb⟩

theorem pointer_motion_retarget_frame (hs : Nat → widget_handlers) (w : window) (i : input)
    (sx sy : Int) :
    (pointer_motion_retarget hs w i sx sy).grab = i.grab ∧
    (pointer_motion_retarget hs w i sx sy).grab_button = i.grab_button ∧
    (pointer_motion_retarget hs w i sx sy).pointer_focus = i.pointer_focus ∧
    ((i.grab.isSome && i.grab_button != 0) = false →
      (pointer_motion_retarget hs w i sx sy).focus_widget =
        (window_find_widget w (float_to_int sx) (float_to_int sy)).map widget.id) ∧
    ∃ pre,
      (pointer_motion_retarget hs w i sx sy).calls = i.calls ++ pre ∧
      (∀ c ∈ pre, c.is_event = false) ∧
      (∀ g, i.grab = some g → ∀ c ∈ pre, c.owner = none ∨ c.owner = some g) ∧
      ((i.grab.isSome && i.grab_button != 0) = true →
        pre = [] ∧ (pointer_motion_retarget hs w i sx sy).focus_widget = i.focus_widget) := by
  unfold pointer_motion_retarget
  cases hg : (i.grab.isSome && i.grab_button != 0) with
  | true =>
    simp only [Bool.not_true, Bool.false_eq_true, if_false]
    exact ⟨trivial, trivial, trivial, fun h => by simp at h, [], by simp, by simp, by simp,
      fun _ => ⟨rfl, trivial⟩⟩
  | false =>
    simp only [Bool.not_false, if_true]
    obtain ⟨f1, f2, f3, f4, -, -, extra, f7, f8, f9⟩ :=
      input_set_focus_widget_frame hs i
        ((window_find_widget w (float_to_int sx) (float_to_int sy)).map widget.id) sx sy
    exact ⟨f2, f3, f4, fun _ => f1, extra, f7, f8, f9, fun h => by simp at h⟩

theorem pointer_motion_deliver_frame (hs : Nat → widget_handlers) (i : input) (time : Nat)
    (sx sy : Int) :
    (pointer_motion_deliver hs i time sx sy).grab = i.grab ∧
    (pointer_motion_deliver hs i time sx sy).grab_button = i.grab_button ∧
    (pointer_motion_deliver hs i time sx sy).pointer_focus = i.pointer_focus ∧
    (pointer_motion_deliver hs i time sx sy).focus_widget = i.focus_widget ∧
    (∀ g, i.grab = some g →
      (pointer_motion_deliver hs i time sx sy).calls = i.calls ++
        (if (hs g).motion_handler then
          [input_call.motion_handler g i.focus_widget time sx sy,
            input_call.input_set_pointer_image cursor_value.returned]
        else
          [input_call.input_set_pointer_image
            (cursor_value.default_cursor (hs g).default_cursor)])) ∧
    (i.grab = none → ∀ t, i.focus_widget = some t →
      (pointer_motion_deliver hs i time sx sy).calls = i.calls ++
        (if (hs t).motion_handler then
          [input_call.motion_handler t (some t) time sx sy,
            input_call.input_set_pointer_image cursor_value.returned]
        else
          [input_call.input_set_pointer_image
            (cursor_value.default_cursor (hs t).default_cursor)])) ∧
    (i.grab = none → i.focus_widget = none →
      (pointer_motion_deliver hs i time sx sy).calls = i.calls ++
        [input_call.input_set_pointer_image cursor_value.CURSOR_LEFT_PTR]) := by
  unfold pointer_motion_deliver
  obtain ⟨pf, fw, g, gb, x0, y0, ds, cs⟩ := i
  cases g with
  | some g =>
    cases hm : (hs g).motion_handler <;> simp [input.emit, hm]
  | none =>
    cases fw with
    | none => simp [input.emit]
    | some t => cases hm : (hs t).motion_handler <;> simp [input.emit, hm]

theorem pointer_handle_motion_in_bounds (hs : Nat → widget_handlers) (w : window) (i : input)
    (time : Nat) (sx sy : Int) (hp : i.pointer_focus = true)
    (hx : sx ≤ 256 * w.main_surface.allocation.width)
    (hy : sy ≤ 256 * w.main_surface.allocation.height) :
    pointer_handle_motion hs w i time sx sy =
      pointer_motion_deliver hs
        (pointer_motion_retarget hs w { i with sx := sx, sy := sy } sx sy) time sx sy := by
  have hguard : ¬ (sx > 256 * w.main_surface.allocation.width ∨
      sy > 256 * w.main_surface.allocation.height) := by
    rintro (h | h) <;> omega
  unfold pointer_handle_motion
  simp [hp, hguard]

theorem pointer_handle_motion_dropped (hs : Nat → widget_handlers) (w : window) (i : input)
    (time : Nat) (sx sy : Int)
    (h : i.pointer_focus = false ∨ sx > 256 * w.main_surface.allocation.width ∨
      sy > 256 * w.main_surface.allocation.height) :
    pointer_handle_motion hs w i time sx sy = { i with sx := sx, sy := sy } := by
  unfold pointer_handle_motion
  rcases h with h | h
  · simp [h]
  · simp [h]


/-- Dispatch under a grab on widget `W`, for every window and input. A button
event runs the button handler of `W`, when it is bound, and no other; if the
handler leaves the grab as it is, the grab stays unless the event is the
release of the grab button. A motion event that arrives while the input has a
pointer focus, with coordinates not beyond the width and height of the main
surface of that window, keeps the grab and calls the motion handler of `W`,
when it is bound, with the focus widget, whatever widget the point hits, and
before that only enter and leave handlers of `W`, and none at all when the
grab button is not 0; a motion event with no pointer focus or beyond that
size only stores the position. The grab is set by `input_grab` and by a press
while `W` is the focus widget and there is no grab, and `input_ungrab` clears
it. -/
theorem grab_redirects_within_window (hs : Nat → widget_handlers)
    (bh : Nat → Nat → Nat → wl_pointer_button_state → input → input) (w : window) (i : input)
    (W : Nat) (hgrab : i.grab = some W) :
    (∀ (serial time button : Nat) (state : wl_pointer_button_state),
      pointer_button_deliver hs bh
          (pointer_button_grab { i with display_serial := serial } button state) time button
          state =
        (if (hs W).button_handler then
          bh W time button state
            (({ i with display_serial := serial } : input).emit
              [input_call.button_handler W time button state])
        else { i with display_serial := serial }) ∧
      ((∀ k : input, (bh W time button state k).grab = k.grab ∧
          (bh W time button state k).grab_button = k.grab_button) →
        ¬ (button = i.grab_button ∧
            state = wl_pointer_button_state.WL_POINTER_BUTTON_STATE_RELEASED) →
        (pointer_handle_button hs bh w i serial time button state).grab = some W ∧
        (pointer_handle_button hs bh w i serial time button state).grab_button =
          i.grab_button)) ∧
    (∀ (time : Nat) (sx sy : Int), i.pointer_focus = true →
      sx ≤ 256 * w.main_surface.allocation.width →
      sy ≤ 256 * w.main_surface.allocation.height →
      (pointer_handle_motion hs w i time sx sy).grab = some W ∧
      (pointer_handle_motion hs w i time sx sy).grab_button = i.grab_button ∧
      ∃ pre,
        (pointer_handle_motion hs w i time sx sy).calls =
          i.calls ++ pre ++
            (if (hs W).motion_handler then
              [input_call.motion_handler W
                  (pointer_handle_motion hs w i time sx sy).focus_widget time sx sy,
                input_call.input_set_pointer_image cursor_value.returned]
            else
              [input_call.input_set_pointer_image
                (cursor_value.default_cursor (hs W).default_cursor)]) ∧
        (∀ c ∈ pre, c.is_event = false ∧ (c.owner = none ∨ c.owner = some W)) ∧
        (i.grab_button ≠ 0 →
          pre = [] ∧
          (pointer_handle_motion hs w i time sx sy).focus_widget = i.focus_widget)) ∧
    (∀ (time : Nat) (sx sy : Int),
      (i.pointer_focus = false ∨ sx > 256 * w.main_surface.allocation.width ∨
        sy > 256 * w.main_surface.allocation.height) →
      pointer_handle_motion hs w i time sx sy = { i with sx := sx, sy := sy }) ∧
    (∀ (j : input) (button : Nat),
      (input_grab j W button).grab = some W ∧ (input_grab j W button).grab_button = button) ∧
    (∀ (j : input) (serial button : Nat), j.focus_widget = some W → j.grab = none →
      (pointer_button_grab { j with display_serial := serial } button
        wl_pointer_button_state.WL_POINTER_BUTTON_STATE_PRESSED).grab = some W ∧
      (pointer_button_grab { j with display_serial := serial } button
        wl_pointer_button_state.WL_POINTER_BUTTON_STATE_PRESSED).grab_button = button) ∧
    (input_ungrab hs w i).grab = none := by
  refine ⟨?_, ?_, ?_, ?_, ?_, (input_ungrab_frame hs w i).1⟩
  · intro serial time button state
    obtain ⟨h1, h2, h3⟩ := pointer_handle_button_grabbed hs bh w i W hgrab serial time button state
    refine ⟨by rw [h1, h2], ?_⟩
    intro hkeep hn
    have hg : (pointer_button_deliver hs bh { i with display_serial := serial } time button
        state).grab = some W ∧
        (pointer_button_deliver hs bh { i with display_serial := serial } time button
          state).grab_button = i.grab_button := by
      rw [h2]
      split_ifs
      · exact ⟨(hkeep _).1.trans hgrab, (hkeep _).2⟩
      · exact ⟨hgrab, rfl⟩
    have hcond : ¬ ((pointer_button_deliver hs bh { i with display_serial := serial } time button
          state).grab.isSome ∧
        (pointer_button_deliver hs bh { i with display_serial := serial } time button
          state).grab_button = button ∧
        state = wl_pointer_button_state.WL_POINTER_BUTTON_STATE_RELEASED) := by
      rintro ⟨-, hb, hst⟩
      exact hn ⟨hb.symm.trans hg.2, hst⟩
    rw [h3, if_neg hcond]
    exact hg
  · intro time sx sy hp hx hy
    rw [pointer_handle_motion_in_bounds hs w i time sx sy hp hx hy]
    obtain ⟨r1, r2, -, -, pre, r5, r6, r7, r8⟩ :=
      pointer_motion_retarget_frame hs w { i with sx := sx, sy := sy } sx sy
    obtain ⟨d1, d2, -, d4, d5, -, -⟩ :=
      pointer_motion_deliver_frame hs
        (pointer_motion_retarget hs w { i with sx := sx, sy := sy } sx sy) time sx sy
    have hg1 : (pointer_motion_retarget hs w { i with sx := sx, sy := sy } sx sy).grab =
        some W := r1.trans hgrab
    refine ⟨d1.trans hg1, d2.trans r2, pre, ?_, ?_, ?_⟩
    · rw [d5 W hg1, d4, r5]
    · intro c hc
      exact ⟨r6 c hc, r7 W hgrab c hc⟩
    · intro hb
      have hcond : ((({ i with sx := sx, sy := sy } : input).grab.isSome &&
          ({ i with sx := sx, sy := sy } : input).grab_button != 0)) = true := by
        simp [hgrab, hb]
      exact ⟨(r8 hcond).1, d4.trans (r8 hcond).2⟩
  · intro time sx sy h
    exact pointer_handle_motion_dropped hs w i time sx sy h
  · intro j button
    exact ⟨rfl, rfl⟩
  · intro j serial button hf hg
    unfold pointer_button_grab
    obtain ⟨pf, fw, g, gb, x0, y0, ds, cs⟩ := j
    simp only at hf hg
    subst hf hg
    simp [input_grab]

/-- Within the window, at concrete inputs: under the grab of widget 11 set by
the press, a motion event at (10, 10), which hits widget 10, calls the motion
handler of widget 11. -/
theorem grab_redirects_within_window_at_origin :
    (window_find_widget window_pointed 10 10).map widget.id = some 10 ∧
    (pointer_handle_motion handlers0 window_pointed input_grabbed 5 (10 * 256) (10 * 256)).grab =
      some 11 ∧
    (pointer_handle_motion handlers0 window_pointed input_grabbed 5 (10 * 256) (10 * 256)).calls =
      [input_call.motion_handler 11 (some 11) 5 (10 * 256) (10 * 256),
        input_call.input_set_pointer_image cursor_value.returned] :=
  ⟨by decide,
    ((grab_redirects_within_window handlers0 button_bodies_idle window_pointed input_grabbed 11
      (by decide)).2.1 5 (10 * 256) (10 * 256) (by decide) (by decide) (by decide)).1,
    by decide⟩

/-- C11. The input has a grab on widget 11, set by a press of button 272 over
it, and widget 11 has a motion handler; the pointer focus window is 400 wide
and 300 high. With the button still down the pointer is dragged past the right
edge: the motion event at x = 500 stores the position and calls no handler,
so the grabbed widget does not get it, and so for a motion event below the
bottom edge, at y = 350. A motion event inside the window, at (10, 10), where
the hit test gives widget 10, is delivered to the motion handler of widget
11. -/
theorem grabbed_motion_beyond_window_is_dropped :
    input_grabbed.grab = some 11 ∧ input_grabbed.grab_button = 272 ∧
    (handlers0 11).motion_handler = true ∧
    input_grabbed.pointer_focus = true ∧
    window_pointed.main_surface.allocation.width = 400 ∧
    window_pointed.main_surface.allocation.height = 300 ∧
    pointer_handle_motion handlers0 window_pointed input_grabbed 5 (500 * 256) (10 * 256) =
      { input_grabbed with sx := 500 * 256, sy := 10 * 256 } ∧
    (pointer_handle_motion handlers0 window_pointed input_grabbed 5 (500 * 256) (10 * 256)).calls =
      input_grabbed.calls ∧
    (pointer_handle_motion handlers0 window_pointed input_grabbed 5 (10 * 256) (350 * 256)).calls =
      input_grabbed.calls ∧
    (pointer_handle_motion handlers0 window_pointed input_grabbed 5 (10 * 256) (10 * 256)).calls =
      input_grabbed.calls ++
        [input_call.motion_handler 11 (some 11) 5 (10 * 256) (10 * 256),
          input_call.input_set_pointer_image cursor_value.returned] := by
  decide


/-- C12, as stated, fails. The pointer is on the title bar of a decorated
window whose frame widget is widget 10. A press of the middle button grabs
widget 10 with that button. A press of the left button, another button, then
runs `frame_button_handler`, which starts a move and calls `input_ungrab`:
the grab is gone. A press of the right button instead shows the window menu,
and the grab is on the widget of the menu, widget 20, with button 0. -/
theorem other_button_ends_grab_on_frame :
    input_frame_grabbed.grab = some 10 ∧ input_frame_grabbed.grab_button = BTN_MIDDLE ∧
    (pointer_handle_button handlers0 button_bodies_frame window_pointed input_frame_grabbed 2 1
      BTN_LEFT wl_pointer_button_state.WL_POINTER_BUTTON_STATE_PRESSED).grab = none ∧
    ((pointer_handle_button handlers0 button_bodies_frame window_pointed input_frame_grabbed 2 1
      BTN_RIGHT wl_pointer_button_state.WL_POINTER_BUTTON_STATE_PRESSED).grab,
     (pointer_handle_button handlers0 button_bodies_frame window_pointed input_frame_grabbed 2 1
      BTN_RIGHT wl_pointer_button_state.WL_POINTER_BUTTON_STATE_PRESSED).grab_button) =
      (some 20, 0) := by
  decide

/-- C12, amended. Let the button handler of `W` leave the grab and the grab
button as they are, whatever event it is called with. When button `A` is
pressed while `W` is the focus widget and there is no grab, the grab is on `W`
with grab button `A`. From any state with that grab, a press or release of a
button other than `A` leaves the grab and the grab button as they are, and a
release of `A` clears the grab and, when the input has a pointer focus, makes
the widget under the stored pointer position the focus widget. From any state
without a grab, a motion event (with pointer focus, not beyond the main
surface) makes the widget under the point the focus widget and calls the
motion handler of that widget, with that widget, and no other motion or
button handler. -/
theorem grab_release_retargets_focus (hs : Nat → widget_handlers)
    (bh : Nat → Nat → Nat → wl_pointer_button_state → input → input) (w : window) (i : input)
    (W A serial time : Nat) (hfocus : i.focus_widget = some W) (hgrab : i.grab = none)
    (hkeep : ∀ (time button : Nat) (state : wl_pointer_button_state) (k : input),
      (bh W time button state k).grab = k.grab ∧
      (bh W time button state k).grab_button = k.grab_button) :
    ((pointer_handle_button hs bh w i serial time A
        wl_pointer_button_state.WL_POINTER_BUTTON_STATE_PRESSED).grab = some W ∧
      (pointer_handle_button hs bh w i serial time A
        wl_pointer_button_state.WL_POINTER_BUTTON_STATE_PRESSED).grab_button = A) ∧
    (∀ j : input, j.grab = some W → j.grab_button = A →
      (∀ (serial2 time2 B : Nat) (state : wl_pointer_button_state), B ≠ A →
        (pointer_handle_button hs bh w j serial2 time2 B state).grab = some W ∧
        (pointer_handle_button hs bh w j serial2 time2 B state).grab_button = A) ∧
      (∀ (serial2 time2 : Nat),
        (pointer_handle_button hs bh w j serial2 time2 A
          wl_pointer_button_state.WL_POINTER_BUTTON_STATE_RELEASED).grab = none ∧
        ((pointer_button_deliver hs bh { j with display_serial := serial2 } time2 A
            wl_pointer_button_state.WL_POINTER_BUTTON_STATE_RELEASED).pointer_focus = true →
          (pointer_handle_button hs bh w j serial2 time2 A
            wl_pointer_button_state.WL_POINTER_BUTTON_STATE_RELEASED).focus_widget =
            (window_find_widget w
              (float_to_int (pointer_button_deliver hs bh { j with display_serial := serial2 }
                time2 A wl_pointer_button_state.WL_POINTER_BUTTON_STATE_RELEASED).sx)
              (float_to_int (pointer_button_deliver hs bh { j with display_serial := serial2 }
                time2 A wl_pointer_button_state.WL_POINTER_BUTTON_STATE_RELEASED).sy)).map
              widget.id))) ∧
    (∀ k : input, k.grab = none → k.pointer_focus = true →
      ∀ (time2 : Nat) (sx sy : Int), sx ≤ 256 * w.main_surface.allocation.width →
        sy ≤ 256 * w.main_surface.allocation.height →
        (pointer_handle_motion hs w k time2 sx sy).grab = none ∧
        (pointer_handle_motion hs w k time2 sx sy).focus_widget =
          (window_find_widget w (float_to_int sx) (float_to_int sy)).map widget.id ∧
        ∃ pre,
          (∀ c ∈ pre, c.is_event = false) ∧
          (∀ T, (window_find_widget w (float_to_int sx) (float_to_int sy)).map widget.id =
              some T →
            (pointer_handle_motion hs w k time2 sx sy).calls =
              k.calls ++ pre ++
                (if (hs T).motion_handler then
                  [input_call.motion_handler T (some T) time2 sx sy,
                    input_call.input_set_pointer_image cursor_value.returned]
                else
                  [input_call.input_set_pointer_image
                    (cursor_value.default_cursor (hs T).default_cursor)])) ∧
          ((window_find_widget w (float_to_int sx) (float_to_int sy)).map widget.id = none →
            (pointer_handle_motion hs w k time2 sx sy).calls =
              k.calls ++ pre ++
                [input_call.input_set_pointer_image cursor_value.CURSOR_LEFT_PTR])) := by
  refine ⟨?_, ?_, ?_⟩
  · have hg : (pointer_button_grab { i with display_serial := serial } A
        wl_pointer_button_state.WL_POINTER_BUTTON_STATE_PRESSED).grab = some W ∧
        (pointer_button_grab { i with display_serial := serial } A
          wl_pointer_button_state.WL_POINTER_BUTTON_STATE_PRESSED).grab_button = A := by
      unfold pointer_button_grab
      simp [hfocus, hgrab, input_grab]
    obtain ⟨k1, k2⟩ := pointer_button_deliver_keeps hs bh _ W A hkeep hg.1 hg.2 time A
      wl_pointer_button_state.WL_POINTER_BUTTON_STATE_PRESSED
    unfold pointer_handle_button
    simp only [reduceCtorEq, and_false, if_false]
    exact ⟨k1, k2⟩
  · intro j hj hjb
    refine ⟨?_, ?_⟩
    · intro serial2 time2 B state hB
      obtain ⟨-, -, h3⟩ := pointer_handle_button_grabbed hs bh w j W hj serial2 time2 B state
      obtain ⟨k1, k2⟩ := pointer_button_deliver_keeps hs bh { j with display_serial := serial2 }
        W A hkeep hj hjb time2 B state
      have hcond : ¬ ((pointer_button_deliver hs bh { j with display_serial := serial2 } time2 B
            state).grab.isSome ∧
          (pointer_button_deliver hs bh { j with display_serial := serial2 } time2 B
            state).grab_button = B ∧
          state = wl_pointer_button_state.WL_POINTER_BUTTON_STATE_RELEASED) := by
        rintro ⟨-, hb, -⟩
        exact hB (hb.symm.trans k2)
      rw [h3, if_neg hcond]
      exact ⟨k1, k2⟩
    · intro serial2 time2
      obtain ⟨-, -, h3⟩ := pointer_handle_button_grabbed hs bh w j W hj serial2 time2 A
        wl_pointer_button_state.WL_POINTER_BUTTON_STATE_RELEASED
      obtain ⟨k1, k2⟩ := pointer_button_deliver_keeps hs bh { j with display_serial := serial2 }
        W A hkeep hj hjb time2 A wl_pointer_button_state.WL_POINTER_BUTTON_STATE_RELEASED
      have hcond : (pointer_button_deliver hs bh { j with display_serial := serial2 } time2 A
            wl_pointer_button_state.WL_POINTER_BUTTON_STATE_RELEASED).grab.isSome ∧
          (pointer_button_deliver hs bh { j with display_serial := serial2 } time2 A
            wl_pointer_button_state.WL_POINTER_BUTTON_STATE_RELEASED).grab_button = A ∧
          wl_pointer_button_state.WL_POINTER_BUTTON_STATE_RELEASED =
            wl_pointer_button_state.WL_POINTER_BUTTON_STATE_RELEASED :=
        ⟨by rw [k1]; rfl, k2, rfl⟩
      rw [h3, if_pos hcond]
      obtain ⟨u1, -, u3, -⟩ := input_ungrab_frame hs w
        (pointer_button_deliver hs bh { j with display_serial := serial2 } time2 A
          wl_pointer_button_state.WL_POINTER_BUTTON_STATE_RELEASED)
      exact ⟨u1, u3⟩
  · intro k hk hp time2 sx sy hx hy
    rw [pointer_handle_motion_in_bounds hs w k time2 sx sy hp hx hy]
    obtain ⟨r1, -, -, r4, pre, r5, r6, -, -⟩ :=
      pointer_motion_retarget_frame hs w { k with sx := sx, sy := sy } sx sy
    obtain ⟨d1, -, -, d4, -, d6, d7⟩ :=
      pointer_motion_deliver_frame hs
        (pointer_motion_retarget hs w { k with sx := sx, sy := sy } sx sy) time2 sx sy
    have hg1 : (pointer_motion_retarget hs w { k with sx := sx, sy := sy } sx sy).grab =
        none := r1.trans hk
    have hfw := r4 (by simp [hk])
    refine ⟨d1.trans hg1, d4.trans hfw, pre, r6, ?_, ?_⟩
    · intro T hT
      rw [d6 hg1 T (hfw.trans hT), r5]
    · intro hT
      rw [d7 hg1 (hfw.trans hT), r5]

/-- C12 at concrete inputs, on the decorated window, where the button handler
of the child widget 11 leaves the grab alone: button 272 is pressed over
widget 11; a press of button 273 leaves the grab on 11; after a motion to
(10, 10) the release of 272 clears the grab and makes widget 10, under the
pointer, the focus widget. -/
theorem grab_release_retargets_focus_witness :
    (pointer_handle_button handlers0 button_bodies_frame window_pointed input_over_child 1 0 272
      wl_pointer_button_state.WL_POINTER_BUTTON_STATE_PRESSED).grab = some 11 ∧
    (pointer_handle_button handlers0 button_bodies_frame window_pointed input_over_child 1 0 272
      wl_pointer_button_state.WL_POINTER_BUTTON_STATE_PRESSED).grab_button = 272 ∧
    (pointer_handle_button handlers0 button_bodies_frame window_pointed input_grabbed 2 1 273
      wl_pointer_button_state.WL_POINTER_BUTTON_STATE_PRESSED).grab = some 11 ∧
    (pointer_handle_button handlers0 button_bodies_frame window_pointed
      (pointer_handle_motion handlers0 window_pointed input_grabbed 5 (10 * 256) (10 * 256))
      3 6 272 wl_pointer_button_state.WL_POINTER_BUTTON_STATE_RELEASED).focus_widget =
      some 10 :=
  ⟨(grab_release_retargets_focus handlers0 button_bodies_frame window_pointed input_over_child
      11 272 1 0 (by decide) (by decide) (fun _ _ _ _ => ⟨rfl, rfl⟩)).1.1,
    (grab_release_retargets_focus handlers0 button_bodies_frame window_pointed input_over_child
      11 272 1 0 (by decide) (by decide) (fun _ _ _ _ => ⟨rfl, rfl⟩)).1.2,
    (((grab_release_retargets_focus handlers0 button_bodies_frame window_pointed input_over_child
      11 272 1 0 (by decide) (by decide) (fun _ _ _ _ => ⟨rfl, rfl⟩)).2.1 input_grabbed
      (by decide) (by decide)).1 2 1 273
      wl_pointer_button_state.WL_POINTER_BUTTON_STATE_PRESSED (by decide)).1,
    by decide⟩


/-! ## Frame: the size asked for the inside is the size of the interior -/

/-- C27. For every frame, maximized or not and titled or not, and every
`(w, h)`: after `frame_resize_inside f w h` the interior `frame_interior`
returns has width `w` and height `h`. -/
theorem resize_inside_gives_interior (t : theme) (f : frame) (w h : Int) :
    (frame_interior t (frame_resize_inside t f w h)).2.width = w ∧
    (frame_interior t (frame_resize_inside t f w h)).2.height = h := by
  have hd : (frame_resize_inside t f w h).geometry_dirty = true := by
    simp [frame_resize_inside, frame_resize]
  simp only [frame_interior]
  rw [refresh_interior_of_dirty t _ hd]
  unfold described_interior frame_resize_inside frame_resize frame_titlebar_height
  refine ⟨?_, ?_⟩ <;> cases hm : f.flags.maximized <;> cases ht : f.title.isSome <;>
    simp <;> omega

/-! ## Hit testing -/


theorem widget_find_widget_children_cons (c : widget) (cs : List widget) (x y : Int) :
    widget_find_widget_children (c :: cs) x y =
      match widget_find_widget c x y with
      | some target => some target
      | none => widget_find_widget_children cs x y := by
  rw [widget_find_widget_children]

theorem widget_subtree_children_cons (c : widget) (cs : List widget) :
    widget_subtree_children (c :: cs) = widget_subtree c ++ widget_subtree_children cs := by
  rw [widget_subtree_children]

mutual
/-- What `widget_find_widget` returns lies in the subtree, holds the point and
has no widget below it that holds the point; when it returns nothing, no
widget of the subtree holds the point. -/
theorem widget_find_widget_spec : (wd : widget) → (x y : Int) →
    (∀ r, widget_find_widget wd x y = some r →
      r ∈ widget_subtree wd ∧ r.contains x y ∧
        widget_find_widget_children r.child_list x y = none) ∧
    (widget_find_widget wd x y = none → ∀ d ∈ widget_subtree wd, ¬ d.contains x y)
  | .mk id a rs rd o cs, x, y => by
    have ih := widget_find_widget_children_spec cs x y
    unfold widget_find_widget widget_subtree
    cases hc : widget_find_widget_children cs x y with
    | some target =>
      refine ⟨?_, ?_⟩
      · intro r hr
        simp only [Option.some.injEq] at hr
        subst hr
        obtain ⟨h1, h2, h3⟩ := ih.1 target hc
        exact ⟨List.mem_cons_of_mem _ h1, h2, h3⟩
      · intro h
        simp at h
    | none =>
      simp only []
      by_cases hin : a.x ≤ x ∧ x < a.x + a.width ∧ a.y ≤ y ∧ y < a.y + a.height
      · rw [if_pos hin]
        refine ⟨?_, ?_⟩
        · intro r hr
          simp only [Option.some.injEq] at hr
          subst hr
          exact ⟨List.mem_cons_self _ _, hin, hc⟩
        · intro h
          simp at h
      · rw [if_neg hin]
        refine ⟨?_, ?_⟩
        · intro r hr
          simp at hr
        · intro _ d hd
          rcases List.mem_cons.1 hd with rfl | hd
          · exact hin
          · exact ih.2 hc d hd
/-- The same for the loop over a list of children. -/
theorem widget_find_widget_children_spec : (cs : List widget) → (x y : Int) →
    (∀ r, widget_find_widget_children cs x y = some r →
      r ∈ widget_subtree_children cs ∧ r.contains x y ∧
        widget_find_widget_children r.child_list x y = none) ∧
    (widget_find_widget_children cs x y = none →
      ∀ d ∈ widget_subtree_children cs, ¬ d.contains x y)
  | [], x, y => by
    unfold widget_find_widget_children widget_subtree_children
    simp
  | c :: cs, x, y => by
    have ih1 := widget_find_widget_spec c x y
    have ih2 := widget_find_widget_children_spec cs x y
    rw [widget_find_widget_children_cons, widget_subtree_children_cons]
    cases hc : widget_find_widget c x y with
    | some target =>
      refine ⟨?_, ?_⟩
      · intro r hr
        simp only [Option.some.injEq] at hr
        subst hr
        obtain ⟨h1, h2, h3⟩ := ih1.1 target hc
        exact ⟨List.mem_append_left _ h1, h2, h3⟩
      · intro h
        simp at h
    | none =>
      simp only []
      refine ⟨?_, ?_⟩
      · intro r hr
        obtain ⟨h1, h2, h3⟩ := ih2.1 r hr
        exact ⟨List.mem_append_right _ h1, h2, h3⟩
      · intro h d hd
        rcases List.mem_append.1 hd with hd | hd
        · exact ih1.2 hc d hd
        · exact ih2.2 h d hd
end

theorem widget_find_widget_some_of_contains (wd : widget) (x y : Int)
    (h : ∃ d ∈ widget_subtree wd, d.contains x y) :
    ∃ r, widget_find_widget wd x y = some r := by
  cases hf : widget_find_widget wd x y with
  | some r => exact ⟨r, rfl⟩
  | none =>
    obtain ⟨d, hd, hcon⟩ := h
    exact absurd hcon ((widget_find_widget_spec wd x y).2 hf d hd)

theorem widget_find_widget_children_append (pre post : List widget) (c : widget) (x y : Int)
    (hpre : ∀ d ∈ widget_subtree_children pre, ¬ d.contains x y)
    (hc : ∃ d ∈ widget_subtree c, d.contains x y) :
    widget_find_widget_children (pre ++ c :: post) x y = widget_find_widget c x y := by
  induction pre with
  | nil =>
    obtain ⟨r, hr⟩ := widget_find_widget_some_of_contains c x y hc
    simp only [List.nil_append]
    rw [widget_find_widget_children_cons, hr]
  | cons p ps ih =>
    have hp : widget_find_widget p x y = none := by
      cases hf : widget_find_widget p x y with
      | none => rfl
      | some r =>
        obtain ⟨h1, h2, -⟩ := (widget_find_widget_spec p x y).1 r hf
        exact absurd h2 (hpre r (by
          rw [widget_subtree_children_cons]
          exact List.mem_append_left _ h1))
    simp only [List.cons_append]
    rw [widget_find_widget_children_cons, hp]
    exact ih (fun d hd => hpre d (by
      rw [widget_subtree_children_cons]
      exact List.mem_append_right _ hd))


/-- C28. For every widget tree and point: what `widget_find_widget` returns
is a widget of the subtree whose allocation holds the point, and no widget
below the one returned holds the point; it returns nothing exactly when no
widget of the subtree holds the point. When a widget below the root holds the
point the result is the one of the loop over the children, and that loop gives
the result of the first child, in list order, whose subtree has a widget
holding the point. The list order is the order in which `widget_add_widget`
added the children. -/
theorem widget_find_widget_innermost_earliest (root : widget) (x y : Int) :
    (∀ r, widget_find_widget root x y = some r →
      r ∈ widget_subtree root ∧ r.contains x y ∧
        ∀ d ∈ widget_subtree_children r.child_list, ¬ d.contains x y) ∧
    (widget_find_widget root x y = none ↔ ∀ d ∈ widget_subtree root, ¬ d.contains x y) ∧
    ((∃ d ∈ widget_subtree_children root.child_list, d.contains x y) →
      widget_find_widget root x y = widget_find_widget_children root.child_list x y) ∧
    (∀ (pre post : List widget) (c : widget), root.child_list = pre ++ c :: post →
      (∀ d ∈ widget_subtree_children pre, ¬ d.contains x y) →
      (∃ d ∈ widget_subtree c, d.contains x y) →
      widget_find_widget root x y = widget_find_widget c x y) ∧
    (∀ (id : Nat) (a : rectangle),
      (widget_add_widget root id a).child_list =
        root.child_list ++ [.mk id a false false false []]) := by
  have hchildren : (∃ d ∈ widget_subtree_children root.child_list, d.contains x y) →
      widget_find_widget root x y = widget_find_widget_children root.child_list x y := by
    intro h
    obtain ⟨id, a, rs, rd, o, cs⟩ := root
    simp only [widget.child_list] at h ⊢
    cases hc : widget_find_widget_children cs x y with
    | some target =>
      unfold widget_find_widget
      rw [hc]
    | none =>
      obtain ⟨d, hd, hcon⟩ := h
      exact absurd hcon ((widget_find_widget_children_spec cs x y).2 hc d hd)
  refine ⟨?_, ?_, hchildren, ?_, ?_⟩
  · intro r hr
    obtain ⟨h1, h2, h3⟩ := (widget_find_widget_spec root x y).1 r hr
    exact ⟨h1, h2, (widget_find_widget_children_spec r.child_list x y).2 h3⟩
  · refine ⟨(widget_find_widget_spec root x y).2, ?_⟩
    intro h
    cases hf : widget_find_widget root x y with
    | none => rfl
    | some r =>
      obtain ⟨h1, h2, -⟩ := (widget_find_widget_spec root x y).1 r hf
      exact absurd h2 (h r h1)
  · intro pre post c hl hpre hc
    have hsub : ∃ d ∈ widget_subtree_children root.child_list, d.contains x y := by
      obtain ⟨d, hd, hcon⟩ := hc
      refine ⟨d, ?_, hcon⟩
      rw [hl]
      clear hl hpre hchildren
      induction pre with
      | nil =>
        simp only [List.nil_append]
        rw [widget_subtree_children_cons]
        exact List.mem_append_left _ hd
      | cons p ps ih =>
        simp only [List.cons_append]
        rw [widget_subtree_children_cons]
        exact List.mem_append_right _ ih
    rw [hchildren hsub, hl]
    exact widget_find_widget_children_append pre post c x y hpre hc
  · intro id a
    obtain ⟨pid, pa, rs, rd, o, cs⟩ := root
    rfl



/-! ## Window: frame callbacks, maximizing, and the queue while configuring -/


theorem get_surface_schedule_redraw_task (w : window) (r : surface_ref) :
    (window_schedule_redraw_task w).get_surface r = w.get_surface r := by
  unfold window_schedule_redraw_task
  split_ifs <;> cases r <;> rfl

theorem log_schedule_redraw_task (w : window) :
    (window_schedule_redraw_task w).display.log = w.display.log := by
  unfold window_schedule_redraw_task
  split_ifs <;> rfl

/-- The handler `frame_callback` up to its closing test. -/
theorem frame_callback_eq (w : window) (r : surface_ref) (s : surface) (cb time : Nat)
    (hs : w.get_surface r = some s) (hcb : s.frame_cb = some cb) :
    frame_callback w r cb time =
      some (if (s.redraw_needed || w.redraw_needed) = true then
        window_schedule_redraw_task
          ((w.set_surface r { s with frame_cb := none, last_time := time }).emit
            [window_call.wl_callback_destroy cb])
      else
        (w.set_surface r { s with frame_cb := none, last_time := time }).emit
          [window_call.wl_callback_destroy cb]) := by
  unfold frame_callback
  have hw : ((w.set_surface r { s with frame_cb := none, last_time := time }).emit
      [window_call.wl_callback_destroy cb]).redraw_needed = w.redraw_needed := by
    cases r <;> rfl
  simp only [hs, hcb, ne_eq, not_true_eq_false, if_false, hw]
  split_ifs <;> rfl

/-- C23, as stated, fails. The window was drawn once, a widget then asked for
a redraw and the window was maximized, so that a configure acknowledgement is
awaited when the frame callback of the main surface arrives: the surface wants
a redraw, the callback is cleared, and the redraw task is not scheduled. -/
theorem frame_callback_while_configuring_schedules_nothing :
    window_redraw_wanted_configuring.main_surface.frame_cb = some 2 ∧
    window_redraw_wanted_configuring.main_surface.redraw_needed = true ∧
    window_redraw_wanted_configuring.configure_requests = 1 ∧
    (frame_callback window_redraw_wanted_configuring surface_ref.main 2 0).map
      (fun w => (w.main_surface.frame_cb, w.redraw_task_scheduled, w.display.deferred_list)) =
      some (none, false, []) := by
  decide!

/-- C23, amended. When the frame callback `cb` of a surface arrives,
`frame_callback` destroys the callback, clears `frame_cb` and records the
time. If the surface's or the window's redraw flag is set and no configure
acknowledgement is awaited, the redraw task counts as scheduled afterwards: it
is put on the deferred list when it was not scheduled, and the list is left
alone when it was. If neither flag is set, or a configure acknowledgement is
awaited, the deferred list and the scheduled flag stay as they were. -/
theorem frame_callback_clears_and_reschedules (w : window) (r : surface_ref) (s : surface)
    (cb time : Nat) (hs : w.get_surface r = some s) (hcb : s.frame_cb = some cb) :
    ∃ w1, frame_callback w r cb time = some w1 ∧
      w1.get_surface r = some { s with frame_cb := none, last_time := time } ∧
      w1.display.log = w.display.log ++ [window_call.wl_callback_destroy cb] ∧
      ((s.redraw_needed || w.redraw_needed) = true → w.configure_requests = 0 →
        w1.redraw_task_scheduled = true ∧
        (w.redraw_task_scheduled = false →
          w1.display.deferred_list = task.redraw_task :: w.display.deferred_list) ∧
        (w.redraw_task_scheduled = true →
          w1.display.deferred_list = w.display.deferred_list)) ∧
      ((s.redraw_needed || w.redraw_needed) = false ∨ w.configure_requests ≠ 0 →
        w1.display.deferred_list = w.display.deferred_list ∧
        w1.redraw_task_scheduled = w.redraw_task_scheduled) := by
  have hget : ((w.set_surface r { s with frame_cb := none, last_time := time }).emit
      [window_call.wl_callback_destroy cb]).get_surface r =
      some { s with frame_cb := none, last_time := time } := by
    rw [get_surface_emit, get_set_surface_same w r s _ hs]
  have hq : ((w.set_surface r { s with frame_cb := none, last_time := time }).emit
      [window_call.wl_callback_destroy cb]).queue = w.queue := by
    cases r <;> rfl
  have hlog : ((w.set_surface r { s with frame_cb := none, last_time := time }).emit
      [window_call.wl_callback_destroy cb]).display.log =
      w.display.log ++ [window_call.wl_callback_destroy cb] := by
    cases r <;> rfl
  simp only [window.queue, Prod.mk.injEq] at hq
  obtain ⟨q1, q2, q3⟩ := hq
  obtain ⟨-, t2, t3, t4⟩ := schedule_redraw_task_queue
    ((w.set_surface r { s with frame_cb := none, last_time := time }).emit
      [window_call.wl_callback_destroy cb])
  rw [q3] at t2 t3 t4
  rw [q2] at t3 t4
  rw [frame_callback_eq w r s cb time hs hcb]
  refine ⟨_, rfl, ?_, ?_, ?_, ?_⟩
  · split_ifs
    · rw [get_surface_schedule_redraw_task, hget]
    · exact hget
  · split_ifs
    · rw [log_schedule_redraw_task, hlog]
    · exact hlog
  · intro hflag hcfg
    rw [if_pos hflag]
    cases hsch : w.redraw_task_scheduled with
    | false =>
      obtain ⟨a1, a2⟩ := t4 hcfg hsch
      exact ⟨a2, fun _ => by rw [a1, q1], fun h => Bool.noConfusion h⟩
    | true =>
      obtain ⟨a1, a2⟩ := t3 hcfg hsch
      exact ⟨a2, fun h => Bool.noConfusion h, fun _ => by rw [a1, q1]⟩
  · intro h
    split_ifs with hflag
    · rcases h with h | h
      · rw [h] at hflag
        exact Bool.noConfusion hflag
      · obtain ⟨a1, a2⟩ := t2 h
        exact ⟨a1.trans q1, a2.trans q2⟩
    · exact ⟨q1, q2⟩

/-- C23 at concrete inputs: the drawn window after a widget asked for a
redraw; the callback of the main surface arrives and the task, already
scheduled, stays scheduled. -/
theorem frame_callback_clears_and_reschedules_witness :
    ∃ w1, frame_callback (widget_schedule_redraw window_drawn surface_ref.main)
        surface_ref.main 2 7 = some w1 ∧
      (w1.get_surface surface_ref.main).map (fun s => (s.frame_cb, s.last_time)) =
        some (none, 7) := by
  obtain ⟨w1, h1, h2, -⟩ :=
    frame_callback_clears_and_reschedules (widget_schedule_redraw window_drawn surface_ref.main)
      surface_ref.main (widget_schedule_redraw window_drawn surface_ref.main).main_surface 2 7
      rfl (by decide!)
  exact ⟨w1, h1, by rw [h2]; rfl⟩


theorem type_defer_redraw_until_configure (w : window) :
    (window_defer_redraw_until_configure w).type = w.type := by
  unfold window_defer_redraw_until_configure
  split_ifs <;> rfl

theorem type_window_schedule_resize (w : window) (width height : Int) :
    (window_schedule_resize w width height).type = w.type := by
  unfold window_schedule_resize window_schedule_redraw window_schedule_redraw_task
  rw [window_schedule_resize_record_eq]
  split_ifs <;> rfl

/-- C29. A window just made by `window_create` has type `TYPE_NONE`; on a
display with a shell, `window_set_maximized(window, 1)` makes it a toplevel
window and `window_is_maximized` stays false. For a toplevel or fullscreen
window the call leaves `window_is_maximized` true, `window_set_maximized
(window, 0)` leaves it false for every type, and a call that asks for the
state the window is in returns the window as it was. -/
theorem window_set_maximized_on_new_window :
    window_fresh.type = window_type.TYPE_NONE ∧ window_fresh.shell_surface = some 7 ∧
    (window_set_maximized true window_fresh 1).map (fun w => (w.type, window_is_maximized w)) =
      some (window_type.TYPE_TOPLEVEL, false) ∧
    (∀ (w : window) (sh : Nat), w.shell_surface = some sh →
      w.type = window_type.TYPE_TOPLEVEL ∨ w.type = window_type.TYPE_FULLSCREEN →
      ∃ w1, window_set_maximized true w 1 = some w1 ∧ window_is_maximized w1 = true) ∧
    (∀ (w : window) (sh : Nat), w.shell_surface = some sh →
      ∃ w1, window_set_maximized true w 0 = some w1 ∧ window_is_maximized w1 = false) ∧
    (∀ w : window, window_is_maximized w = true → window_set_maximized true w 1 = some w) ∧
    (∀ w : window, window_is_maximized w = false → window_set_maximized true w 0 = some w) := by
  refine ⟨by decide, by decide, by decide!, ?_, ?_, ?_, ?_⟩
  · intro w sh hsh ht
    unfold window_set_maximized
    rcases ht with ht | ht
    · refine ⟨_, by simp [hsh, ht]; rfl, ?_⟩
      simp [window_is_maximized, type_defer_redraw_until_configure]
    · refine ⟨_, by simp [hsh, ht]; rfl, ?_⟩
      simp [window_is_maximized, type_defer_redraw_until_configure]
  · intro w sh hsh
    unfold window_set_maximized
    by_cases hm : w.type = window_type.TYPE_MAXIMIZED
    · refine ⟨_, by simp [hsh, hm]; rfl, ?_⟩
      simp [window_is_maximized, type_window_schedule_resize]
    · exact ⟨w, by simp [hm], by simp [window_is_maximized, hm]⟩
  · intro w hw
    have hm : w.type = window_type.TYPE_MAXIMIZED := by simpa [window_is_maximized] using hw
    simp [window_set_maximized, hm]
  · intro w hw
    have hm : ¬ w.type = window_type.TYPE_MAXIMIZED := by simpa [window_is_maximized] using hw
    simp [window_set_maximized, hm]


theorem queue_ok_congr (w w1 : window) (h : w1.queue = w.queue) (hok : redraw_queue_ok w) :
    redraw_queue_ok w1 := by
  simp only [window.queue, Prod.mk.injEq] at h
  obtain ⟨h1, h2, h3⟩ := h
  exact ⟨by rw [h1, h2]; exact hok.scheduled_iff, by rw [h1]; exact hok.once,
    by rw [h2, h3]; exact hok.suppressed⟩

theorem queue_emit (w : window) (calls : List window_call) : (w.emit calls).queue = w.queue :=
  rfl

theorem queue_set_surface (w : window) (r : surface_ref) (s : surface) :
    (w.set_surface r s).queue = w.queue := by
  cases r <;> rfl

theorem queue_ok_schedule_redraw_task (w : window) (hok : redraw_queue_ok w) :
    redraw_queue_ok (window_schedule_redraw_task w) := by
  unfold window_schedule_redraw_task
  by_cases hc : w.configure_requests ≠ 0
  · rw [if_pos hc]
    exact hok
  · rw [if_neg hc]
    cases hs : w.redraw_task_scheduled with
    | true =>
      simp only [Bool.not_true, Bool.false_eq_true, if_false]
      exact hok
    | false =>
      simp only [Bool.not_false, if_true]
      have hnot : task.redraw_task ∉ w.display.deferred_list := by
        intro hin
        have := hok.scheduled_iff.2 hin
        rw [hs] at this
        exact Bool.noConfusion this
      refine ⟨by simp [display_defer], ?_, ?_⟩
      · simp only [display_defer, List.count_cons_self]
        rw [List.count_eq_zero_of_not_mem hnot]
      · intro hpos
        have : w.configure_requests = 0 := by
          by_contra h
          exact hc h
        simp only at hpos
        omega

theorem queue_ok_window_schedule_redraw (w : window) (hok : redraw_queue_ok w) :
    redraw_queue_ok (window_schedule_redraw w) := by
  unfold window_schedule_redraw
  exact queue_ok_schedule_redraw_task _ (queue_ok_congr w _ rfl hok)

theorem queue_ok_widget_schedule_redraw (w : window) (r : surface_ref)
    (hok : redraw_queue_ok w) : redraw_queue_ok (widget_schedule_redraw w r) := by
  unfold widget_schedule_redraw
  refine queue_ok_schedule_redraw_task _ (queue_ok_congr w _ ?_ hok)
  split
  · rfl
  · exact queue_set_surface _ _ _

theorem queue_ok_window_schedule_resize (w : window) (width height : Int)
    (hok : redraw_queue_ok w) : redraw_queue_ok (window_schedule_resize w width height) := by
  unfold window_schedule_resize
  refine queue_ok_window_schedule_redraw _ (queue_ok_congr w _ ?_ hok)
  rw [window_schedule_resize_record_eq]
  rfl

theorem queue_set_synchronized (w : window) (r : surface_ref) :
    (surface_set_synchronized w r).queue = w.queue := by
  unfold surface_set_synchronized
  split
  · rfl
  · split
    · rfl
    · split
      · rfl
      · rw [queue_emit, queue_set_surface]

theorem queue_set_synchronized_default (w : window) (r : surface_ref) :
    (surface_set_synchronized_default w r).queue = w.queue := by
  unfold surface_set_synchronized_default
  split
  · rfl
  · split
    · rfl
    · split
      · rfl
      · rw [queue_emit, queue_set_surface]

theorem queue_surface_redraw (w : window) (r : surface_ref) :
    (surface_redraw w r).queue = w.queue := by
  unfold surface_redraw
  split
  · rfl
  · split
    · rfl
    · split
      · rfl
      · unfold surface_redraw_request
        dsimp only
        rw [queue_emit, queue_set_surface]
        rfl

theorem queue_foldl (f : window → surface_ref → window)
    (hf : ∀ w r, (f w r).queue = w.queue) (rs : List surface_ref) (w : window) :
    (rs.foldl f w).queue = w.queue := by
  induction rs generalizing w with
  | nil => rfl
  | cons r rs ih => exact (ih (f w r)).trans (hf w r)

theorem queue_ok_foldl (f : window → surface_ref → window)
    (hf : ∀ w r, redraw_queue_ok w → redraw_queue_ok (f w r)) (rs : List surface_ref)
    (w : window) (hok : redraw_queue_ok w) : redraw_queue_ok (rs.foldl f w) := by
  induction rs generalizing w with
  | nil => exact hok
  | cons r rs ih => exact ih (f w r) (hf w r hok)

theorem queue_surface_flush (w w1 : window) (r : surface_ref)
    (h : surface_flush w r = some w1) : w1.queue = w.queue := by
  unfold surface_flush at h
  split at h
  · simp only [Option.some.injEq] at h
    subst h
    rfl
  · split at h
    · simp only [Option.some.injEq] at h
      subst h
      rfl
    · split at h
      · exact Option.noConfusion h
      · split at h
        · exact Option.noConfusion h
        · simp only [Option.some.injEq] at h
          subst h
          rw [queue_emit, queue_set_surface]

theorem queue_foldlM (f : window → surface_ref → Option window)
    (hf : ∀ w r w1, f w r = some w1 → w1.queue = w.queue) (rs : List surface_ref)
    (w w1 : window) (h : rs.foldlM f w = some w1) : w1.queue = w.queue := by
  induction rs generalizing w with
  | nil =>
    simp only [List.foldlM, pure, Option.some.injEq] at h
    subst h
    rfl
  | cons r rs ih =>
    simp only [List.foldlM, bind, Option.bind_eq_some] at h
    obtain ⟨w2, h2, h3⟩ := h
    exact (ih w2 h3).trans (hf w r w2 h2)

theorem queue_window_flush (w w1 : window) (h : window_flush w = some w1) :
    w1.queue = w.queue := by
  unfold window_flush at h
  simp only [Option.bind_eq_some] at h
  obtain ⟨w2, h2, h3⟩ := h
  have q2 := queue_foldlM surface_flush (fun w r w1 => queue_surface_flush w w1 r) _ _ _ h2
  have q3 := queue_surface_flush _ _ _ h3
  rw [q3, q2]
  split_ifs
  · split <;> rfl
  · rfl

theorem queue_idle_redraw_paint (w w1 : window) (h : idle_redraw_paint w = some w1) :
    w1.queue = w.queue := by
  unfold idle_redraw_paint at h
  simp only [Option.map_eq_some'] at h
  obtain ⟨w2, h2, h3⟩ := h
  subst h3
  rw [queue_foldl _ queue_set_synchronized_default, queue_window_flush _ _ h2]
  exact queue_foldl _ queue_surface_redraw _ _


theorem queue_ok_surface_resize_finish (w : window) (r : surface_ref) (s : surface)
    (region : Nat) (hok : redraw_queue_ok w) :
    redraw_queue_ok (surface_resize_finish w r s region) := by
  unfold surface_resize_finish
  dsimp only
  have h0 : redraw_queue_ok
      ({ w with display := { w.display with next_id := region + 1 } } : window) :=
    queue_ok_congr w _ rfl hok
  have h1 : redraw_queue_ok
      (if s.allocation.width ≠ s.widget.allocation.width ∨
          s.allocation.height ≠ s.widget.allocation.height then
        window_schedule_redraw { w with display := { w.display with next_id := region + 1 } }
      else { w with display := { w.display with next_id := region + 1 } }) := by
    split
    · exact queue_ok_window_schedule_redraw _ h0
    · exact h0
  revert h1
  generalize (if s.allocation.width ≠ s.widget.allocation.width ∨
          s.allocation.height ≠ s.widget.allocation.height then _ else _ : window) = w3
  intro h1
  split
  · exact h1
  · split
    · exact queue_ok_congr _ _ (by rw [queue_emit, queue_set_surface]) h1
    · exact queue_ok_congr _ _ (queue_set_surface _ _ _) h1

theorem queue_ok_surface_resize (w : window) (r : surface_ref) (hok : redraw_queue_ok w) :
    redraw_queue_ok (surface_resize w r) := by
  unfold surface_resize
  split
  · exact hok
  · exact queue_ok_surface_resize_finish _ _ _ _
      (queue_ok_congr w _ (by rw [queue_emit, queue_set_surface]) hok)

theorem queue_hack (w : window) : (hack_prevent_EGL_sub_surface_deadlock w).queue = w.queue := by
  unfold hack_prevent_EGL_sub_surface_deadlock
  split_ifs <;> rfl

theorem queue_ok_idle_resize (w : window) (hok : redraw_queue_ok w) :
    redraw_queue_ok (idle_resize w) := by
  unfold idle_resize
  dsimp only
  refine queue_ok_foldl _ (fun w r h => queue_ok_surface_resize _ r
    (queue_ok_congr w _ (queue_set_synchronized w r) h)) _ _ ?_
  refine queue_ok_surface_resize _ _ (queue_ok_congr w _ ?_ hok)
  exact queue_hack { w with resize_needed := false, redraw_needed := true }

/-- The task body `idle_redraw`, run once the task is off the list. -/
theorem queue_ok_idle_redraw (w w1 : window)
    (hnot : task.redraw_task ∉ w.display.deferred_list)
    (h : idle_redraw w = some w1) : redraw_queue_ok w1 := by
  have h0 : redraw_queue_ok ({ w with redraw_task_scheduled := false } : window) :=
    ⟨⟨fun h => Bool.noConfusion h, fun h => absurd h hnot⟩,
      by rw [List.count_eq_zero_of_not_mem hnot]; exact Nat.zero_le _, fun _ => rfl⟩
  unfold idle_redraw at h
  dsimp only at h
  split at h
  · split at h
    · simp only [Option.some.injEq] at h
      subst h
      exact h0
    · exact queue_ok_congr _ _ (queue_idle_redraw_paint _ _ h) (queue_ok_idle_resize _ h0)
  · exact queue_ok_congr _ _ (queue_idle_redraw_paint _ _ h) h0

theorem count_le_one_dropLast (l : List task) (t : task) (hlast : l.getLast? = some t)
    (hc : l.count task.redraw_task ≤ 1) :
    l.dropLast.count task.redraw_task ≤ 1 ∧
    (t = task.redraw_task → task.redraw_task ∉ l.dropLast) ∧
    (t ≠ task.redraw_task → (task.redraw_task ∈ l.dropLast ↔ task.redraw_task ∈ l)) := by
  obtain ⟨l0, rfl⟩ : ∃ l0, l = l0 ++ [t] := by
    rcases List.eq_nil_or_concat l with h | ⟨l0, a, h⟩
    · subst h
      simp at hlast
    · subst h
      have ha : a = t := by simpa using hlast
      subst ha
      exact ⟨l0, by simp⟩
  simp only [List.dropLast_concat, List.count_append] at hc ⊢
  refine ⟨by omega, ?_, ?_⟩
  · intro ht
    subst ht
    simp only [List.count_singleton_self] at hc
    exact List.count_eq_zero.1 (by omega)
  · intro ht
    simp [ht.symm]

theorem queue_ok_display_run_task (w w1 : window) (hok : redraw_queue_ok w)
    (h : display_run_task w = some w1) : redraw_queue_ok w1 := by
  unfold display_run_task at h
  split at h
  · simp only [Option.some.injEq] at h
    subst h
    exact hok
  · rename_i t hlast
    obtain ⟨c1, c2, c3⟩ := count_le_one_dropLast _ t hlast hok.once
    dsimp only at h
    cases t with
    | redraw_task => exact queue_ok_idle_redraw _ _ (c2 rfl) h
    | other id =>
      simp only [Option.some.injEq] at h
      subst h
      have hne : task.other id ≠ task.redraw_task := fun e => task.noConfusion e
      exact ⟨hok.scheduled_iff.trans (c3 hne).symm, c1, hok.suppressed⟩

theorem queue_ok_frame_callback (w w1 : window) (r : surface_ref) (cb time : Nat)
    (hok : redraw_queue_ok w) (h : frame_callback w r cb time = some w1) :
    redraw_queue_ok w1 := by
  unfold frame_callback at h
  split at h
  · exact Option.noConfusion h
  · rename_i s hget
    split at h
    · exact Option.noConfusion h
    · dsimp only at h
      split at h
      · simp only [Option.some.injEq] at h
        subst h
        exact queue_ok_schedule_redraw_task _
          (queue_ok_congr w _ (by rw [queue_emit, queue_set_surface]) hok)
      · simp only [Option.some.injEq] at h
        subst h
        exact queue_ok_congr w _ (by rw [queue_emit, queue_set_surface]) hok

theorem queue_defer_redraw_until_configure (w : window) :
    (window_defer_redraw_until_configure w).queue =
      (if w.redraw_task_scheduled then w.display.deferred_list.erase task.redraw_task
        else w.display.deferred_list,
       if w.redraw_task_scheduled then false else w.redraw_task_scheduled,
       w.configure_requests + 1) := by
  unfold window_defer_redraw_until_configure
  cases hs : w.redraw_task_scheduled <;> simp [window.queue, window.emit, hs]

theorem queue_ok_defer_redraw_until_configure (w : window) (hok : redraw_queue_ok w) :
    redraw_queue_ok (window_defer_redraw_until_configure w) ∧
    (window_defer_redraw_until_configure w).redraw_task_scheduled = false ∧
    task.redraw_task ∉ (window_defer_redraw_until_configure w).display.deferred_list ∧
    (window_defer_redraw_until_configure w).configure_requests = w.configure_requests + 1 := by
  have hq := queue_defer_redraw_until_configure w
  simp only [window.queue, Prod.mk.injEq] at hq
  obtain ⟨q1, q2, q3⟩ := hq
  have hsched : (window_defer_redraw_until_configure w).redraw_task_scheduled = false := by
    rw [q2]
    cases hs : w.redraw_task_scheduled <;> simp
  have hnot : task.redraw_task ∉ (window_defer_redraw_until_configure w).display.deferred_list := by
    rw [q1]
    cases hs : w.redraw_task_scheduled with
    | false =>
      simp only [Bool.false_eq_true, if_false]
      intro hin
      have := hok.scheduled_iff.2 hin
      rw [hs] at this
      exact Bool.noConfusion this
    | true =>
      simp only [if_true]
      apply List.count_eq_zero.1
      rw [List.count_erase_self]
      have := hok.once
      omega
  refine ⟨⟨?_, ?_, ?_⟩, hsched, hnot, q3⟩
  · rw [hsched]
    exact ⟨fun h => Bool.noConfusion h, fun h => absurd h hnot⟩
  · rw [List.count_eq_zero_of_not_mem hnot]
    exact Nat.zero_le _
  · intro _
    exact hsched

theorem queue_ok_configure_request_completed (w : window) (cb : Nat)
    (hok : redraw_queue_ok w) : redraw_queue_ok (configure_request_completed w cb) := by
  unfold configure_request_completed
  dsimp only
  have h0 : redraw_queue_ok
      ({ (w.emit [window_call.wl_callback_destroy cb]) with
          configure_requests :=
            (w.emit [window_call.wl_callback_destroy cb]).configure_requests - 1 } : window) := by
    refine ⟨hok.scheduled_iff, hok.once, ?_⟩
    intro hpos
    have hp : (0 : Int) < w.configure_requests - 1 := hpos
    exact hok.suppressed (by omega)
  split
  · exact queue_ok_window_schedule_redraw _ h0
  · exact h0

theorem window_set_maximized_cases (w w1 : window) (maximized : Int)
    (h : window_set_maximized true w maximized = some w1) :
    w1 = w ∨
    (∃ sh, w1 = window_defer_redraw_until_configure
      { (w.emit [window_call.wl_shell_surface_set_maximized sh]) with
        saved_allocation := w.main_surface.allocation,
        type := window_type.TYPE_MAXIMIZED }) ∨
    (∃ sh, w1 = window_defer_redraw_until_configure
      { (w.emit [window_call.wl_shell_surface_set_maximized sh]) with
        type := window_type.TYPE_MAXIMIZED }) ∨
    (∃ sh, w1 = window_schedule_resize
      { (w.emit [window_call.wl_shell_surface_set_toplevel sh]) with
        type := window_type.TYPE_TOPLEVEL }
      w.saved_allocation.width w.saved_allocation.height) := by
  unfold window_set_maximized at h
  rw [if_neg (by simp)] at h
  by_cases hm : (if w.type = window_type.TYPE_MAXIMIZED then (1 : Int) else 0) = maximized
  · rw [if_pos hm] at h
    exact Or.inl (Option.some.inj h).symm
  · rw [if_neg hm] at h
    cases hsh : w.shell_surface with
    | none =>
      rw [hsh] at h
      exact Option.noConfusion h
    | some sh =>
      rw [hsh] at h
      dsimp only at h
      by_cases h1 : w.type = window_type.TYPE_TOPLEVEL
      · rw [if_pos h1] at h
        exact Or.inr (Or.inl ⟨sh, (Option.some.inj h).symm⟩)
      · rw [if_neg h1] at h
        by_cases h2 : w.type = window_type.TYPE_FULLSCREEN
        · rw [if_pos h2] at h
          exact Or.inr (Or.inr (Or.inl ⟨sh, (Option.some.inj h).symm⟩))
        · rw [if_neg h2] at h
          exact Or.inr (Or.inr (Or.inr ⟨sh, (Option.some.inj h).symm⟩))

theorem queue_ok_window_set_maximized (w w1 : window) (maximized : Int)
    (hok : redraw_queue_ok w) (h : window_set_maximized true w maximized = some w1) :
    redraw_queue_ok w1 := by
  rcases window_set_maximized_cases w w1 maximized h with h | ⟨sh, h⟩ | ⟨sh, h⟩ | ⟨sh, h⟩
  · rw [h]
    exact hok
  · rw [h]
    refine (queue_ok_defer_redraw_until_configure _ ?_).1
    exact queue_ok_congr w _ rfl hok
  · rw [h]
    refine (queue_ok_defer_redraw_until_configure _ ?_).1
    exact queue_ok_congr w _ rfl hok
  · rw [h]
    refine queue_ok_window_schedule_resize _ _ _ ?_
    exact queue_ok_congr w _ rfl hok

theorem queue_ok_toolkit_step (w w1 : window) (e : toolkit_event) (hok : redraw_queue_ok w)
    (h : toolkit_step w e = some w1) : redraw_queue_ok w1 := by
  cases e with
  | widget_schedule_redraw r =>
    simp only [toolkit_step, Option.some.injEq] at h
    subst h
    exact queue_ok_widget_schedule_redraw w r hok
  | window_schedule_redraw =>
    simp only [toolkit_step, Option.some.injEq] at h
    subst h
    exact queue_ok_window_schedule_redraw w hok
  | window_schedule_resize width height =>
    simp only [toolkit_step, Option.some.injEq] at h
    subst h
    exact queue_ok_window_schedule_resize w width height hok
  | display_run_task => exact queue_ok_display_run_task w w1 hok h
  | frame_callback r cb t => exact queue_ok_frame_callback w w1 r cb t hok h
  | window_add_subsurface root sync =>
    simp only [toolkit_step, Option.some.injEq] at h
    subst h
    exact queue_ok_congr w _ rfl hok
  | window_defer_redraw_until_configure =>
    simp only [toolkit_step, Option.some.injEq] at h
    subst h
    exact (queue_ok_defer_redraw_until_configure w hok).1
  | configure_request_completed cb =>
    simp only [toolkit_step, Option.some.injEq] at h
    subst h
    exact queue_ok_configure_request_completed w cb hok
  | window_set_maximized maximized => exact queue_ok_window_set_maximized w w1 maximized hok h

theorem queue_ok_toolkit_run (es : List toolkit_event) :
    ∀ (w w1 : window), redraw_queue_ok w → toolkit_run w es = some w1 → redraw_queue_ok w1 := by
  induction es with
  | nil =>
    intro w w1 hok h
    simp only [toolkit_run, Option.some.injEq] at h
    subst h
    exact hok
  | cons e es ih =>
    intro w w1 hok h
    simp only [toolkit_run] at h
    split at h
    · exact Option.noConfusion h
    · rename_i w2 h2
      exact ih w2 w1 (queue_ok_toolkit_step w w2 e hok h2) h

theorem queue_ok_window_create (type : window_type) (shell_surface : Option Nat)
    (root : widget) (frame : Bool) :
    redraw_queue_ok (window_create type shell_surface root frame) :=
  ⟨⟨fun h => Bool.noConfusion h, fun h => by simp [window_create] at h⟩,
    by simp [window_create], fun _ => rfl⟩


/-- C26. In every state a window reaches from `window_create` by scheduling
calls, resize requests, runs of the deferred task, frame callbacks, new
sub-surfaces, `window_defer_redraw_until_configure`,
`configure_request_completed` and `window_set_maximized`: while
`configure_requests` is above zero the redraw task is not on the deferred
list. In such a state `window_defer_redraw_until_configure` leaves the task
off the list and adds one to the count, `window_schedule_redraw_task` changes
nothing while the count is not zero, and `configure_request_completed`, when
the count is one, brings it to zero and puts the task on the list. -/
theorem redraw_task_off_queue_while_configuring (type : window_type)
    (shell_surface : Option Nat) (root : widget) (frame : Bool) (es : List toolkit_event)
    (w : window) (hrun : toolkit_run (window_create type shell_surface root frame) es = some w) :
    (0 < w.configure_requests → task.redraw_task ∉ w.display.deferred_list) ∧
    (task.redraw_task ∉ (window_defer_redraw_until_configure w).display.deferred_list ∧
      (window_defer_redraw_until_configure w).configure_requests = w.configure_requests + 1) ∧
    (w.configure_requests ≠ 0 → window_schedule_redraw_task w = w) ∧
    (w.configure_requests = 1 → ∀ cb : Nat,
      (configure_request_completed w cb).configure_requests = 0 ∧
      (configure_request_completed w cb).redraw_task_scheduled = true ∧
      (configure_request_completed w cb).display.deferred_list =
        task.redraw_task :: w.display.deferred_list) := by
  have hok := queue_ok_toolkit_run es _ w (queue_ok_window_create type shell_surface root frame)
    hrun
  refine ⟨?_, ?_, ?_, ?_⟩
  · intro hpos hin
    have h1 := hok.suppressed hpos
    have h2 := hok.scheduled_iff.2 hin
    rw [h1] at h2
    exact Bool.noConfusion h2
  · obtain ⟨-, -, h3, h4⟩ := queue_ok_defer_redraw_until_configure w hok
    exact ⟨h3, h4⟩
  · intro hc
    unfold window_schedule_redraw_task
    rw [if_pos hc]
  · intro hone cb
    have hs : w.redraw_task_scheduled = false := hok.suppressed (by omega)
    unfold configure_request_completed
    dsimp only
    have hz : (({ (w.emit [window_call.wl_callback_destroy cb]) with
        configure_requests :=
          (w.emit [window_call.wl_callback_destroy cb]).configure_requests - 1 } : window)
        ).configure_requests = 0 := by
      show w.configure_requests - 1 = 0
      omega
    rw [if_pos hz]
    unfold window_schedule_redraw
    obtain ⟨t1, -, -, t4⟩ := schedule_redraw_task_queue
      ({ ({ (w.emit [window_call.wl_callback_destroy cb]) with
            configure_requests :=
              (w.emit [window_call.wl_callback_destroy cb]).configure_requests - 1 } : window) with
          main_surface :=
            { ({ (w.emit [window_call.wl_callback_destroy cb]) with
                configure_requests :=
                  (w.emit [window_call.wl_callback_destroy cb]).configure_requests - 1 }
                : window).main_surface with redraw_needed := true },
          subsurfaces :=
            ({ (w.emit [window_call.wl_callback_destroy cb]) with
                configure_requests :=
                  (w.emit [window_call.wl_callback_destroy cb]).configure_requests - 1 }
                : window).subsurfaces.map (fun s => { s with redraw_needed := true }) } : window)
    obtain ⟨a1, a2⟩ := t4 hz hs
    exact ⟨t1.trans hz, a2, a1⟩

/-- C26 at concrete inputs: a window is drawn, a widget asks for a redraw,
which puts the task on the list, and the window is maximized: one configure
acknowledgement is awaited and the list is empty. -/
theorem redraw_task_off_queue_while_configuring_witness :
    ((toolkit_run window_fresh events_maximize_after_redraw_request).getD
      window_fresh).configure_requests = 1 ∧
    task.redraw_task ∉
      ((toolkit_run window_fresh events_maximize_after_redraw_request).getD
        window_fresh).display.deferred_list :=
  ⟨by decide!,
    (redraw_task_off_queue_while_configuring window_type.TYPE_NONE (some 7) root_widget true
      events_maximize_after_redraw_request
      ((toolkit_run window_fresh events_maximize_after_redraw_request).getD window_fresh)
      (option_eq_some_getD _ _ (by decide!))).1 (by decide!)⟩



/-! ## Destroying a window: what the inputs keep -/

theorem window_destroy_input_spec (widget_window : Nat → Nat) (window : Nat)
    (input : input_links) :
    (window_destroy_input widget_window window input).touch_focus ≠ some window ∧
    (window_destroy_input widget_window window input).pointer_focus ≠ some window ∧
    (window_destroy_input widget_window window input).keyboard_focus ≠ some window ∧
    (∀ wd, (window_destroy_input widget_window window input).focus_widget = some wd →
      widget_window wd ≠ window) ∧
    (window_destroy_input widget_window window input).grab = input.grab := by
  obtain ⟨tf, pf, kf, fw, g⟩ := input
  unfold window_destroy_input
  cases fw with
  | none =>
    by_cases h1 : tf = some window <;> by_cases h2 : pf = some window <;>
      by_cases h3 : kf = some window <;> simp [h1, h2, h3]
  | some wd =>
    by_cases h1 : tf = some window <;> by_cases h2 : pf = some window <;>
      by_cases h3 : kf = some window <;> by_cases h4 : widget_window wd = window <;>
      simp [h1, h2, h3, h4]

/-- What `window_destroy` does for every display: afterwards no input has the
window as touch, pointer or keyboard focus and no input's focus widget is a
widget of the window; the window, linked once in the window list, is no
longer in it; and the grab of every input is what it was before the call. -/
theorem window_destroy_detaches_focus (d : display_links) (window : Nat) :
    (∀ input ∈ (window_destroy d window).input_list,
      input.touch_focus ≠ some window ∧ input.pointer_focus ≠ some window ∧
      input.keyboard_focus ≠ some window ∧
      ∀ wd, input.focus_widget = some wd → d.widget_window wd ≠ window) ∧
    (d.window_list.Nodup → window ∉ (window_destroy d window).window_list) ∧
    (window_destroy d window).input_list.map (fun input => input.grab) =
      d.input_list.map (fun input => input.grab) := by
  refine ⟨?_, ?_, ?_⟩
  · intro input hin
    simp only [window_destroy, List.mem_map] at hin
    obtain ⟨i0, -, rfl⟩ := hin
    obtain ⟨h1, h2, h3, h4, -⟩ := window_destroy_input_spec d.widget_window window i0
    exact ⟨h1, h2, h3, h4⟩
  · intro hnd hin
    simp only [window_destroy] at hin
    exact (List.Nodup.mem_erase_iff hnd).1 hin |>.1 rfl
  · simp only [window_destroy, List.map_map]
    apply List.map_congr_left
    intro i0 _
    exact (window_destroy_input_spec d.widget_window window i0).2.2.2.2

/-- C21. The input has the pointer and the keyboard on window 1, with widget
10 of window 1 in focus and grabbed, as after a button press over the widget.
`window_destroy` of window 1 clears the pointer focus, the keyboard focus and
the focus widget and takes the window off the window list, and the grab of the
input is still widget 10, a widget of the destroyed window. -/
theorem window_destroy_leaves_grab :
    display_grabbed.widget_window 10 = 1 ∧
    (window_destroy display_grabbed 1).input_list =
      [{ touch_focus := none, pointer_focus := none, keyboard_focus := none,
         focus_widget := none, grab := some 10 }] ∧
    (window_destroy display_grabbed 1).window_list = [2] := by
  decide

/-! ## Touch points -/

/-- C22. Touch point 0 goes down on widget 11, which has a touch motion
handler; after the frame event that follows, the list of touch points is empty
and a motion event for point 0 calls no handler. Touch motion events, and up
events for ids that are not tracked, leave the list of touch points as it is,
and a second point that goes down on a widget is tracked together with the
first. -/
theorem touch_frame_drops_touch_points :
    touch_down_on_child.touch_point_list = [{ id := 0, widget := 11 }] ∧
    (touch_handle_frame touch_handlers0 touch_down_on_child).touch_point_list = [] ∧
    (touch_handle_motion touch_handlers0
      (touch_handle_frame touch_handlers0 touch_down_on_child) 5 0 (121 * 256) (120 * 256)).calls =
      (touch_handle_frame touch_handlers0 touch_down_on_child).calls ∧
    (∀ (ths : Nat → touch_handlers) (i : touch_input) (time : Nat) (id x y : Int),
      (touch_handle_motion ths i time id x y).touch_point_list = i.touch_point_list) ∧
    (∀ (ths : Nat → touch_handlers) (i : touch_input) (serial time : Nat) (id : Int),
      find_touch_point id i.touch_point_list = none →
      touch_handle_up ths i serial time id = i) ∧
    (touch_handle_down touch_handlers0 touch_down_on_child (some window_pointed) 2 1 1
      (10 * 256) (10 * 256)).touch_point_list =
      [{ id := 1, widget := 10 }, { id := 0, widget := 11 }] := by
  refine ⟨by decide, by decide, by decide, ?_, ?_, by decide⟩
  · intro ths i time id x y
    unfold touch_handle_motion
    split_ifs
    · rfl
    · split
      · rfl
      · split_ifs <;> rfl
  · intro ths i serial time id h
    unfold touch_handle_up
    split_ifs
    · rfl
    · rw [h]

/-! ## Reading offered data -/

/-- C30. When `read` fails and returns -1, `offer_io_func` hands the consumer
callback the length 4294967295, far above the 4096 bytes of its buffer, and
leaves the pipe open. For a read of 0 to 4096 bytes the length handed over is
the number of bytes read; the pipe is closed and the reference dropped exactly
when the read returned 0. -/
theorem offer_io_func_failed_read_length :
    (offer_io_func offer_reading (-1)).2 = 4294967295 ∧
    (offer_io_func offer_reading (-1)).1 = offer_reading ∧
    (∀ (offer : data_offer) (result : Int), 0 ≤ result → result ≤ 4096 →
      ((offer_io_func offer result).2 : Int) = result ∧ (offer_io_func offer result).2 ≤ 4096) ∧
    (∀ (offer : data_offer) (result : Int), -1 ≤ result → result ≤ 4096 →
      (result = 0 →
        offer_io_func offer result = (data_offer_destroy { offer with fd_open := false }, 0)) ∧
      (result ≠ 0 → (offer_io_func offer result).1 = offer)) ∧
    (data_offer_destroy { offer_reading with fd_open := false }) =
      { refcount := 1, fd_open := false, destroyed := false } := by
  refine ⟨by decide, by decide, ?_, ?_, by decide⟩
  · intro offer result h0 h1
    have hmod : result % 2 ^ 32 = result := Int.emod_eq_of_lt h0 (by omega)
    have hlen : ((result % 2 ^ 32).toNat : Int) = result := by
      rw [hmod]
      exact Int.toNat_of_nonneg h0
    have hval : ((offer_io_func offer result).2 : Int) = result := by
      unfold offer_io_func
      dsimp only
      split_ifs <;> exact hlen
    exact ⟨hval, by omega⟩
  · intro offer result h0 h1
    refine ⟨?_, ?_⟩
    · intro hz
      subst hz
      rfl
    · intro hnz
      have hne : (result % 2 ^ 32).toNat ≠ 0 := by
        rcases Int.lt_or_lt_of_ne hnz with hneg | hpos
        · have hr : result = -1 := by omega
          subst hr
          decide
        · have hmod : result % 2 ^ 32 = result := Int.emod_eq_of_lt (by omega) (by omega)
          rw [hmod]
          omega
      unfold offer_io_func
      dsimp only
      rw [if_neg hne]



/-! ## The flower message: bytes and back -/

theorem bytes_to_int_to_bytes (v : Int) (rest : List Nat) (h1 : -2 ^ 31 ≤ v) (h2 : v < 2 ^ 31) :
    bytes_to_int (int_to_bytes v ++ rest) = v := by
  unfold bytes_to_int int_to_bytes
  have hnn : 0 ≤ v % 2 ^ 32 := Int.emod_nonneg _ (by norm_num)
  have hu : ((v % 2 ^ 32).toNat : Int) = v % 2 ^ 32 := Int.toNat_of_nonneg hnn
  generalize (v % 2 ^ 32).toNat = u at hu
  simp only [List.cons_append, List.nil_append, List.getD_cons_zero, List.getD_cons_succ]
  norm_num at h1 h2 hu ⊢
  split_ifs with hge <;> omega

theorem length_int_to_bytes (v : Int) : (int_to_bytes v).length = 4 := rfl

theorem drop_int_to_bytes (v : Int) (rest : List Nat) :
    (int_to_bytes v ++ rest).drop 4 = rest := by
  rw [List.drop_append_of_le_length (by rw [length_int_to_bytes])]
  simp [int_to_bytes]


theorem add_item_slots_length (it : item) (slots : List (Option item)) :
    (add_item_slots it slots).length = slots.length := by
  induction slots with
  | nil => rfl
  | cons s rest ih =>
    cases s with
    | none => rfl
    | some other => simp [add_item_slots, ih]

/-- C25, as stated, fails. For seed 0 the message carries 0 and the receiver
makes an item whose seed is the microsecond field of the clock, here 123. -/
theorem flower_seed_zero_is_replaced :
    data_source_send flower_mime_type 0 10 20 = [0, 0, 0, 0, 10, 0, 0, 0, 20, 0, 0, 0] ∧
    (dnd_receive_func dnd0 (data_source_send flower_mime_type 0 10 20)
      sizeof_dnd_flower_message 200 300 123).items.getD 1 none =
      some { seed := 123, x := 158, y := 221 } := by
  decide

/-- C25, amended. For every seed, x_offset and y_offset of type `int`, the
message `data_source_send` writes for the flower type has
`sizeof(struct dnd_flower_message)` bytes, and `dnd_receive_func` handed a
buffer that starts with those bytes and that length reads the same three
values back: it puts in the first free slot an item placed at the drop point
minus the offsets and minus the origin of the widget, whose seed is the seed
sent when that is not 0 and the microsecond field of the clock when it is, and
asks for a redraw. With any other length it leaves the demo as it is. -/
theorem flower_message_round_trip (d : dnd) (seed x_offset y_offset x y tv_usec : Int)
    (rest : List Nat)
    (hs : -2 ^ 31 ≤ seed ∧ seed < 2 ^ 31) (hx : -2 ^ 31 ≤ x_offset ∧ x_offset < 2 ^ 31)
    (hy : -2 ^ 31 ≤ y_offset ∧ y_offset < 2 ^ 31) :
    (data_source_send flower_mime_type seed x_offset y_offset).length =
      sizeof_dnd_flower_message ∧
    bytes_to_int (data_source_send flower_mime_type seed x_offset y_offset ++ rest) = seed ∧
    bytes_to_int ((data_source_send flower_mime_type seed x_offset y_offset ++ rest).drop 4) =
      x_offset ∧
    bytes_to_int ((data_source_send flower_mime_type seed x_offset y_offset ++ rest).drop 8) =
      y_offset ∧
    dnd_receive_func d (data_source_send flower_mime_type seed x_offset y_offset ++ rest)
        sizeof_dnd_flower_message x y tv_usec =
      { (dnd_add_item d
          { seed := if seed ≠ 0 then seed else tv_usec,
            x := x - x_offset - d.allocation.x,
            y := y - y_offset - d.allocation.y }) with redraw_scheduled := true } ∧
    (∀ (data : List Nat) (len : Nat), len ≠ sizeof_dnd_flower_message →
      dnd_receive_func d data len x y tv_usec = d) := by
  have hsend : data_source_send flower_mime_type seed x_offset y_offset ++ rest =
      int_to_bytes seed ++ (int_to_bytes x_offset ++ (int_to_bytes y_offset ++ rest)) := by
    unfold data_source_send
    rw [if_pos rfl]
    simp only [List.append_assoc]
  have h0 := bytes_to_int_to_bytes seed (int_to_bytes x_offset ++ (int_to_bytes y_offset ++ rest))
    hs.1 hs.2
  have h4 : bytes_to_int ((data_source_send flower_mime_type seed x_offset y_offset ++ rest).drop 4)
      = x_offset := by
    rw [hsend, drop_int_to_bytes]
    exact bytes_to_int_to_bytes x_offset _ hx.1 hx.2
  have h8 : bytes_to_int ((data_source_send flower_mime_type seed x_offset y_offset ++ rest).drop 8)
      = y_offset := by
    have hd : (int_to_bytes seed ++ (int_to_bytes x_offset ++ (int_to_bytes y_offset ++ rest))).drop 8
        = int_to_bytes y_offset ++ rest := by
      have : (8 : Nat) = 4 + 4 := rfl
      rw [this, ← List.drop_drop, drop_int_to_bytes, drop_int_to_bytes]
    rw [hsend, hd]
    exact bytes_to_int_to_bytes y_offset _ hy.1 hy.2
  refine ⟨?_, by rw [hsend]; exact h0, h4, h8, ?_, ?_⟩
  · unfold data_source_send
    rw [if_pos rfl]
    rfl
  · unfold dnd_receive_func
    rw [if_neg (by decide), if_neg (by simp)]
    simp only [h4, h8]
    rw [hsend, h0]
    rfl
  · intro data len hlen
    unfold dnd_receive_func
    by_cases hz : len = 0
    · rw [if_pos hz]
    · rw [if_neg hz, if_pos hlen]

/-- C25 at concrete inputs: seed -5 dragged at offsets (10, 20) and dropped at
(200, 300) on the demo whose widget starts at (32, 59). -/
theorem flower_message_round_trip_witness :
    (dnd_receive_func dnd0 (data_source_send flower_mime_type (-5) 10 20 ++ [])
      sizeof_dnd_flower_message 200 300 123).items.getD 1 none =
      some { seed := -5, x := 158, y := 221 } :=
  (congrArg (fun r : dnd => r.items.getD 1 none)
    (flower_message_round_trip dnd0 (-5) 10 20 200 300 123 [] (by decide) (by decide)
      (by decide)).2.2.2.2.1).trans (by decide)


/-! ## The launcher: which files are handed out -/

/-- C24, as stated, fails. The path opens as descriptor 5 and `fstat` reports
a file that is not a character device, with device major 13, the input major:
the reply is success with descriptor 5 attached. -/
theorem handle_open_passes_non_character_device :
    (handle_open 13 8 launch0 20 (some 5) (some { char_device := false, rdev_major := 13 })
      true).reply = { ret := 0, fd := some 5 } := by
  decide

/-- C24, amended. The reply of `handle_open` is success (0) with the opened
descriptor attached when the request is at least as long as the open-message
header, the path opens, `fstat` succeeds and the major of the file's device
number is the input major or the DRM major, whatever the type of the file; in
every other case the reply is failure (-1) with no descriptor attached, and a
descriptor that was opened is closed again. -/
theorem handle_open_reply (INPUT_MAJOR header_size : Nat) (wl : weston_launch) (len : Nat)
    (opened : Option Nat) (st : Option file_stat) (sent : Bool) :
    (∀ (fd : Nat) (s : file_stat), header_size ≤ len → opened = some fd → st = some s →
      s.rdev_major = INPUT_MAJOR ∨ s.rdev_major = DRM_MAJOR →
      (handle_open INPUT_MAJOR header_size wl len opened st sent).reply =
        { ret := 0, fd := some fd } ∧
      (handle_open INPUT_MAJOR header_size wl len opened st sent).closed = []) ∧
    ((len < header_size ∨ opened = none ∨ st = none ∨
        ∃ s, st = some s ∧ s.rdev_major ≠ INPUT_MAJOR ∧ s.rdev_major ≠ DRM_MAJOR) →
      (handle_open INPUT_MAJOR header_size wl len opened st sent).reply =
        { ret := -1, fd := none } ∧
      (handle_open INPUT_MAJOR header_size wl len opened st sent).closed =
        if len < header_size then [] else opened.toList) := by
  have hreply : (handle_open INPUT_MAJOR header_size wl len opened st sent).reply =
      { ret := if (handle_open_checks INPUT_MAJOR header_size len opened st).1.isSome then 0
               else -1,
        fd := (handle_open_checks INPUT_MAJOR header_size len opened st).1 } := by
    unfold handle_open
    cases sent <;> rfl
  have hclosed : (handle_open INPUT_MAJOR header_size wl len opened st sent).closed =
      (handle_open_checks INPUT_MAJOR header_size len opened st).2 := by
    unfold handle_open
    cases sent <;> rfl
  rw [hreply, hclosed]
  refine ⟨?_, ?_⟩
  · intro fd s hlen ho hs hmajor
    subst ho hs
    have hnot : ¬ (s.rdev_major ≠ INPUT_MAJOR ∧ s.rdev_major ≠ DRM_MAJOR) := by
      rintro ⟨a, b⟩
      rcases hmajor with h | h
      · exact a h
      · exact b h
    simp [handle_open_checks, Nat.not_lt.2 hlen, hnot]
  · intro h
    by_cases hlen : len < header_size
    · simp [handle_open_checks, hlen]
    · cases opened with
      | none => simp [handle_open_checks, hlen]
      | some fd =>
        cases st with
        | none => simp [handle_open_checks, hlen]
        | some s =>
          rcases h with h | h | h | ⟨s1, hs1, hm⟩
          · exact absurd h hlen
          · exact Option.noConfusion h
          · exact Option.noConfusion h
          · have hs : s = s1 := Option.some.inj hs1
            subst hs
            simp [handle_open_checks, hlen, hm.1, hm.2]


end Weston
